import Mathlib

/-!
Verification of the CueSheetsParser document-generation and
configuration-persistence engine.

The TypeScript sources are shallowly embedded:
* `src/lib/timeUtils.ts` (src/unnamed/part_002): `parseTimeToSeconds`,
  `hasGap`, `parseMMSSInput`, `formatMMSS`, `globMatch`;
* `src/lib/parseConfig.ts` (src/unnamed/part_001): `parseConfigSheet`;
* the spreadsheet builder (src/unnamed/part_004): `resolveStyle`, the
  gap-segmentation loop of `buildWorkbook`, the sheet-name sanitizer and
  `writeConfigSheet`;
* the PDF builder (src/unnamed/part_004, second module): `cellStyle`;
* `src/types.ts` (src/unnamed/part_000): the configuration records.

JavaScript numbers are modelled as exact rationals (`ℚ`), extended with
signed infinities where `parseFloat` can produce them (`JNum`).  String
operations (`trim`, `toLowerCase`, `split`, `join`, `padStart`) are modelled
character-wise over ASCII, matching the behaviour of the JS operations on
the ASCII strings the application manipulates.
-/

/-- Characters treated as whitespace by JS `trim` / `parseFloat`
(ASCII subset: space, tab, LF, VT, FF, CR). -/
def jsWsChar (c : Char) : Bool :=
  c = ' ' ∨ c = '\t' ∨ c = '\n' ∨ c = '\x0b' ∨ c = '\x0c' ∨ c = '\r'

/-- JS `String.prototype.trim` (ASCII whitespace). -/
def jsTrim (s : String) : String :=
  ⟨(s.data.dropWhile jsWsChar).reverse.dropWhile jsWsChar |>.reverse⟩

/-- ASCII lower-casing of one character, as done by JS `toLowerCase` and by
the `i` regex flag on ASCII input. -/
def jsLowerChar (c : Char) : Char :=
  if 'A' ≤ c ∧ c ≤ 'Z' then Char.ofNat (c.toNat + 32) else c

/-- JS `String.prototype.toLowerCase` (ASCII). -/
def jsLower (s : String) : String :=
  ⟨s.data.map jsLowerChar⟩

/-- Numeric value of a decimal digit string (`parseInt` on a `\d+` capture). -/
def natOfDigits (cs : List Char) : ℕ :=
  cs.foldl (fun a c => a * 10 + (c.toNat - 48)) 0

/-- Fuelled decimal-digit expansion (structural, so the kernel can
evaluate it). -/
def natDigitsF : ℕ → ℕ → List Char
  | 0, _ => []
  | fuel + 1, n =>
    if n < 10 then [Char.ofNat (n + 48)]
    else natDigitsF fuel (n / 10) ++ [Char.ofNat (n % 10 + 48)]

/-- Decimal digit characters of a natural number, most significant first. -/
def natDigits (n : ℕ) : List Char := natDigitsF (n + 1) n

/-- Decimal rendering of a natural number (JS `String(n)` for integers). -/
def ntoa (n : ℕ) : String := ⟨natDigits n⟩

/-- JS `String.prototype.padStart(2, "0")`. -/
def padStart2 (s : String) : String :=
  if s.data.length ≥ 2 then s else ⟨List.replicate (2 - s.data.length) '0' ++ s.data⟩

/-- JS `value.split(",")` on character lists. -/
def splitCommaChars : List Char → List (List Char)
  | [] => [[]]
  | c :: rest =>
    let r := splitCommaChars rest
    if c = ',' then [] :: r
    else match r with
      | [] => [[c]]
      | x :: xs => (c :: x) :: xs

/-- JS `value.split(",")`. -/
def splitComma (s : String) : List String :=
  (splitCommaChars s.data).map (fun cs => ⟨cs⟩)

/-- JS `list.join(", ")`. -/
def joinCS : List String → String
  | [] => ""
  | [s] => s
  | s :: rest => s ++ ", " ++ joinCS rest

/-- `value.split(",").map(s => s.trim()).filter(Boolean)` — the multi-value
field decoder of `parseConfigSheet`. -/
def splitTrim (s : String) : List String :=
  ((splitComma s).map jsTrim).filter (fun x => x ≠ "")

/-- A JS number that the time utilities can produce: an exact rational or a
signed infinity (`parseFloat("Infinity")`).  `NaN` is represented by
`Option.none` at the use sites. -/
inductive JNum where
  | num (q : ℚ)
  | posInf
  | negInf
deriving DecidableEq, Repr

/-- JS `Math.round` (round half toward positive infinity). -/
def jsRound (q : ℚ) : ℤ := ⌊q + 1 / 2⌋

/-- A spreadsheet cell value as seen by the engine: absent/`null`/`undefined`,
a (finite) number, a string, or a boolean. -/
inductive CellValue where
  | null
  | num (q : ℚ)
  | str (s : String)
  | boolv (b : Bool)
deriving DecidableEq, Repr

/-- The numeric branch of `parseTimeToSeconds` (`typeof value === "number"`):
day fractions in (0,1) scale to seconds and round; values ≥ 1 pass through
unchanged; 0 and negative values give `null`. -/
def parseTimeNum : JNum → Option JNum
  | .num q =>
    if 0 < q ∧ q < 1 then some (.num (jsRound (q * 86400)))
    else if 1 ≤ q then some (.num q)
    else none
  | .posInf => some .posInf
  | .negInf => none

/-- Regex `^(\d+):(\d{1,2}):(\d{1,2})$` of `parseTimeToSeconds`. -/
def matchHMS (cs : List Char) : Option (ℕ × ℕ × ℕ) :=
  let hs := cs.takeWhile Char.isDigit
  if hs = [] then none else
  match cs.dropWhile Char.isDigit with
  | ':' :: rest1 =>
    let ms := rest1.takeWhile Char.isDigit
    if ms = [] ∨ ms.length > 2 then none else
    match rest1.dropWhile Char.isDigit with
    | ':' :: rest2 =>
      let ss := rest2.takeWhile Char.isDigit
      if ss = [] ∨ ss.length > 2 then none else
      match rest2.dropWhile Char.isDigit with
      | [] => some (natOfDigits hs, natOfDigits ms, natOfDigits ss)
      | _ => none
    | _ => none
  | _ => none

/-- Regex `^(\d{1,2}):(\d{2})$` of `parseTimeToSeconds`. -/
def matchMS (cs : List Char) : Option (ℕ × ℕ) :=
  let ms := cs.takeWhile Char.isDigit
  if ms = [] ∨ ms.length > 2 then none else
  match cs.dropWhile Char.isDigit with
  | ':' :: rest =>
    let ss := rest.takeWhile Char.isDigit
    if ss.length = 2 ∧ rest.dropWhile Char.isDigit = [] then
      some (natOfDigits ms, natOfDigits ss)
    else none
  | _ => none

/-- Exponent part of a JS `StrDecimalLiteral`: `[eE][+-]?\d+`, not consumed
when the digits are missing. -/
def pfloatExp (cs : List Char) : ℤ :=
  match cs with
  | 'e' :: rest | 'E' :: rest =>
    match rest with
    | '+' :: r => if r.takeWhile Char.isDigit = [] then 0 else (natOfDigits (r.takeWhile Char.isDigit) : ℤ)
    | '-' :: r => if r.takeWhile Char.isDigit = [] then 0 else -(natOfDigits (r.takeWhile Char.isDigit) : ℤ)
    | r => if r.takeWhile Char.isDigit = [] then 0 else (natOfDigits (r.takeWhile Char.isDigit) : ℤ)
  | _ => 0

/-- Unsigned body of JS `parseFloat`: `Infinity`, or decimal digits with an
optional fraction and exponent; `none` when no valid prefix exists (NaN). -/
def pfloatBody (cs : List Char) (neg : Bool) : Option JNum :=
  if cs.take 8 = "Infinity".data then some (if neg then .negInf else .posInf)
  else
    let intDs := cs.takeWhile Char.isDigit
    let rest := cs.dropWhile Char.isDigit
    let fracDs := match rest with
      | '.' :: r => r.takeWhile Char.isDigit
      | _ => []
    let rest2 := match rest with
      | '.' :: r => r.dropWhile Char.isDigit
      | _ => rest
    if intDs = [] ∧ fracDs = [] then none
    else
      let mantissa : ℚ :=
        (natOfDigits intDs : ℚ) + (natOfDigits fracDs : ℚ) / (10 : ℚ) ^ fracDs.length
      let e := pfloatExp rest2
      some (.num ((if neg then -1 else 1) * mantissa * (10 : ℚ) ^ e))

/-- JS `parseFloat`: leading whitespace, optional sign, then the longest
valid decimal-literal prefix; `none` models NaN.  Values are kept as exact
rationals (no IEEE rounding). -/
def jsParseFloat (s : String) : Option JNum :=
  match s.data.dropWhile jsWsChar with
  | '+' :: rest => pfloatBody rest false
  | '-' :: rest => pfloatBody rest true
  | cs => pfloatBody cs false

/-- `parseTimeToSeconds` from `src/lib/timeUtils.ts`: day fractions,
`H:MM:SS` / `MM:SS` strings and plain numbers to seconds; `none` for
empty or unparseable values. -/
def parseTimeToSeconds : CellValue → Option JNum
  | .null => none
  | .num q => parseTimeNum (.num q)
  | .boolv _ => none
  | .str s =>
    if s = "" then none
    else
      let t := (jsTrim s).data
      match matchHMS t with
      | some (h, m, sec) => some (.num ((h * 3600 + m * 60 + sec : ℕ) : ℚ))
      | none =>
        match matchMS t with
        | some (m, sec) => some (.num ((m * 60 + sec : ℕ) : ℚ))
        | none =>
          match jsParseFloat ⟨t⟩ with
          | some n => parseTimeNum n
          | none => none

/-- `b - a > threshold` on JS numbers (`hasGap`'s comparison), extended to
the infinities `parseTimeToSeconds` can produce; comparisons involving NaN
are false. -/
def jGapGt (a b : JNum) (threshold : ℚ) : Bool :=
  match a, b with
  | .num x, .num y => y - x > threshold
  | .num _, .posInf => true
  | .num _, .negInf => false
  | .posInf, _ => false
  | .negInf, .num _ => true
  | .negInf, .posInf => true
  | .negInf, .negInf => false

/-- `hasGap` from `src/lib/timeUtils.ts`. -/
def hasGap (a b : JNum) (thresholdSeconds : ℚ) : Bool :=
  if thresholdSeconds ≤ 0 then false
  else jGapGt a b thresholdSeconds

/-- `parseMMSSInput` from `src/lib/timeUtils.ts`: regex `^(\d+):(\d{2})$` on
the trimmed input, 0 on failure. -/
def parseMMSSInput (value : String) : ℕ :=
  let cs := (jsTrim value).data
  let ms := cs.takeWhile Char.isDigit
  if ms = [] then 0 else
  match cs.dropWhile Char.isDigit with
  | ':' :: rest =>
    let ss := rest.takeWhile Char.isDigit
    if ss.length = 2 ∧ rest.dropWhile Char.isDigit = [] then
      natOfDigits ms * 60 + natOfDigits ss
    else 0
  | _ => 0

/-- `formatMMSS` from `src/lib/timeUtils.ts` (on the whole-second values the
application stores). -/
def formatMMSS (seconds : ℕ) : String :=
  ntoa (seconds / 60) ++ ":" ++ padStart2 (ntoa (seconds % 60))

/-!
`globMatch` builds the regex `^escaped$` with the `i` flag, where `escaped`
escapes `. + ^ $ ( ) [ ] \x7b \x7d | \` and turns `*` into `.*`.  After that
escaping the only characters still special to the regex engine are `*`
(`.*`: any run of characters other than the JS line terminators, since `.`
without the `s` flag does not match `\n`, `\r`, U+2028 or U+2029) and the
UNESCAPED `?` (optional quantifier); every other pattern character is a
literal atom.  A `?` with no quantifiable atom before it makes the
`RegExp` constructor throw, which `globMatch` does not catch — modelled by
`Option.none`.
-/

/-- One token of the compiled `globMatch` regex: a literal character
(possibly made optional by a following `?`), or `.*` from a `*`. -/
inductive GTok where
  | lit (c : Char) (opt : Bool)
  | star
deriving DecidableEq, Repr

/-- Compilation state: what the previous regex term can still absorb. -/
inductive QState where
  | noAtom
  | atomFresh
  | quantified
  | quantLazy
deriving DecidableEq, Repr

/-- Mark the most recent literal token optional (`?` after an atom). -/
def markOpt : List GTok → List GTok
  | .lit c _ :: rest => .lit c true :: rest
  | ts => ts

/-- Compile the (lower-cased) glob pattern into regex tokens, tracking the
quantifier state; `none` models a `SyntaxError` from the `RegExp`
constructor (a `?` with nothing to repeat).  `acc` is reversed. -/
def compileGlob : List Char → QState → List GTok → Option (List GTok)
  | [], _, acc => some acc.reverse
  | c :: rest, st, acc =>
    if c = '*' then compileGlob rest .quantified (.star :: acc)
    else if c = '?' then
      match st with
      | .noAtom => none
      | .atomFresh => compileGlob rest .quantified (markOpt acc)
      | .quantified => compileGlob rest .quantLazy acc
      | .quantLazy => none
    else compileGlob rest .atomFresh (.lit c false :: acc)

/-- Can the regex `.` (no `s` flag) match this character?  JS `.` matches
everything except the line terminators LF, CR, U+2028 and U+2029. -/
def jsDot (c : Char) : Bool :=
  !(c = '\n' || c = '\r' || c = '\u2028' || c = '\u2029')

/-- Match `.*` followed by the continuation `f`: try the continuation at
every suffix reachable by consuming `.`-matchable characters. -/
def gstar (f : List Char → Bool) : List Char → Bool
  | [] => f []
  | v :: rest => f (v :: rest) || (jsDot v && gstar f rest)

/-- Anchored matching of the compiled tokens against a character list. -/
def gmatch : List GTok → List Char → Bool
  | [], vs => vs.isEmpty
  | .star :: ts, vs => gstar (gmatch ts) vs
  | .lit c true :: ts, vs =>
    gmatch ts vs ||
      (match vs with
       | v :: vs' => c = v && gmatch ts vs'
       | [] => false)
  | .lit c false :: ts, vs =>
    match vs with
    | v :: vs' => c = v && gmatch ts vs'
    | [] => false

/-- `globMatch` from `src/lib/timeUtils.ts`: case-insensitive glob matching;
`some b` is the boolean result, `none` the uncaught `SyntaxError` raised
when the pattern passes `?` to the regex engine in a non-quantifiable
position. -/
def globMatch (pattern value : String) : Option Bool :=
  if pattern = "" then some false
  else
    match compileGlob (jsLower pattern).data .noAtom [] with
    | none => none
    | some ts => some (gmatch ts (jsLower value).data)

/-!  Configuration data model (`src/types.ts`).  The `id` fields are
nondeterministic (timestamps and `Math.random`) and are identity-irrelevant
for persistence, so they are not modelled.  `fontColor` is written by the
decoder (`parseConfigSheet`) though absent from the `src/types.ts`
interfaces; it is carried here so the decoder can be embedded verbatim. -/

structure TitleBlock where
  enabled : Bool
  showName : String
  companyName : String
  lightingDesigner : String
  version : String
  note1 : String
  note2 : String
  imageDataUrl : String
deriving DecidableEq, Repr

structure RowFormatRule where
  rowType : String
  bgColor : String
  bold : Bool
  italic : Bool
  underline : Bool
  fontSize : ℕ
  fontName : String
  fontColor : String := ""
deriving DecidableEq, Repr

structure CellConditionRule where
  column : String
  contains : String
  bgColor : String
  bold : Bool
  italic : Bool
  underline : Bool
  fontSize : ℕ
  fontName : String
  fontColor : String := ""
deriving DecidableEq, Repr

structure TabDefinition where
  name : String
  rowTypes : List String
  columns : List String
deriving DecidableEq, Repr

/-- `AppConfig`.  `gapThresholdSeconds` is a whole number of seconds: every
write path (`parseMMSSInput`, the default `2`) produces a non-negative
integer. -/
structure AppConfig where
  typeColumn : String
  timeColumn : String
  gapThresholdSeconds : ℕ
  titleBlock : TitleBlock
  tabs : List TabDefinition
  includeMasterSheet : Bool
  rowFormats : List RowFormatRule
  cellConditions : List CellConditionRule
deriving DecidableEq, Repr

def DEFAULT_FONT : String := "Times New Roman"

def DEFAULT_FONT_SIZE : ℕ := 11

/-- `defaultConfig` from `src/types.ts`. -/
def defaultConfig : AppConfig where
  typeColumn := ""
  timeColumn := ""
  gapThresholdSeconds := 2
  titleBlock :=
    { enabled := false, showName := "", companyName := "", lightingDesigner := ""
      version := "", note1 := "", note2 := "", imageDataUrl := "" }
  tabs := []
  includeMasterSheet := true
  rowFormats := []
  cellConditions := []

/-- `makeRowFormatRule` from `src/types.ts` (sans the random id). -/
def makeRowFormatRule (rowType : String) : RowFormatRule where
  rowType := rowType
  bgColor := ""
  bold := false
  italic := false
  underline := false
  fontSize := DEFAULT_FONT_SIZE
  fontName := DEFAULT_FONT

/-- `makeCellConditionRule` from `src/types.ts` (sans the random id). -/
def makeCellConditionRule : CellConditionRule where
  column := ""
  contains := ""
  bgColor := ""
  bold := false
  italic := false
  underline := false
  fontSize := DEFAULT_FONT_SIZE
  fontName := DEFAULT_FONT

/-!  Cell stringification and rows.  A data row is an association list from
trimmed column names to cell values; absent keys read as `undefined`
(`CellValue.null` here), and `String(v ?? "")` renders them as `""`. -/

/-- Digits of the fractional part of `n / d`, up to 20 places (enough to be
exact for every terminating decimal the application manipulates; JS
shortest-round-trip printing of other reals is not modelled). -/
def fracDigitsAux : ℕ → ℕ → ℕ → List Char
  | _, _, 0 => []
  | 0, _, _ => []
  | n, d, fuel + 1 =>
    let n10 := n * 10
    Char.ofNat (n10 / d + 48) :: fracDigitsAux (n10 % d) d fuel

/-- JS `String(q)` for a rational. -/
def qToString (q : ℚ) : String :=
  let sgn : String := if q < 0 then "-" else ""
  let n := q.num.natAbs
  let d := q.den
  let fr := fracDigitsAux (n % d) d 20
  if fr = [] then sgn ++ ntoa (n / d)
  else sgn ++ ntoa (n / d) ++ "." ++ ⟨fr⟩

/-- JS `String(v ?? "")` on a cell value. -/
def cellStr : CellValue → String
  | .null => ""
  | .num q => qToString q
  | .str s => s
  | .boolv b => if b then "true" else "false"

/-- A parsed data row: column name to cell value, in insertion order. -/
abbrev DataRow : Type := List (String × CellValue)

/-- JS property access `row[k]`; a missing key reads as `undefined`. -/
def rowGet (row : DataRow) (k : String) : CellValue :=
  match row.find? (fun p => p.1 = k) with
  | some p => p.2
  | none => .null

/-!  `resolveStyle` (spreadsheet builder, src/unnamed/part_004 lines
166-213).  The returned object also carries constant `alignment`, `border`,
`numFmt` and `protection` fields that no claim mentions; they are omitted
from the embedding.  `underline` is rendered as `"single" : undefined` in
the source and kept boolean here. -/

/-- The fill of a resolved cell style. -/
inductive ExFill where
  | nofill
  | solid (argb : String)
deriving DecidableEq, Repr

structure ExStyle where
  fontName : String
  fontSize : ℕ
  bold : Bool
  italic : Bool
  underline : Bool
  fill : ExFill
deriving DecidableEq, Repr

/-- ASCII upper-casing of one character. -/
def jsUpperChar (c : Char) : Char :=
  if 'a' ≤ c ∧ c ≤ 'z' then Char.ofNat (c.toNat - 32) else c

/-- Remove the first `#`, as `hex.replace("#", "")` does. -/
def removeFirstHash : List Char → List Char
  | [] => []
  | c :: rest => if c = '#' then rest else c :: removeFirstHash rest

/-- `toArgb` from the spreadsheet builder. -/
def toArgb (hex : String) : String :=
  "FF" ++ ⟨(removeFirstHash hex.data).map jsUpperChar⟩

/-- Evaluate one `CellConditionRule` against a whole row, as the spreadsheet
builder's `find` callback does; `none` models the uncaught `SyntaxError`
that `globMatch` can raise. -/
def condMatches (c : CellConditionRule) (row : DataRow) : Option Bool :=
  if c.contains = "" then some false
  else if c.column ≠ "" then globMatch c.contains (cellStr (rowGet row c.column))
  else
    let rec anyVal : List CellValue → Option Bool
      | [] => some false
      | v :: vs =>
        match globMatch c.contains (cellStr v) with
        | none => none
        | some true => some true
        | some false => anyVal vs
    anyVal (row.map (fun p => p.2))

/-- `cellConditions.find(...)` of the spreadsheet builder's `resolveStyle`:
the first rule whose condition matches, with exception propagation. -/
def findCond : List CellConditionRule → DataRow → Option (Option CellConditionRule)
  | [], _ => some none
  | c :: cs, row =>
    match condMatches c row with
    | none => none
    | some true => some (some c)
    | some false => findCond cs row

/-- `resolveStyle` from the spreadsheet builder (src/unnamed/part_004):
row-format base, overridden field-by-field by the first matching
override rule; `none` models the uncaught pattern `SyntaxError`. -/
def resolveStyle (rowTypeVal : String) (row : DataRow)
    (rowFormats : List RowFormatRule) (cellConditions : List CellConditionRule) :
    Option ExStyle :=
  let rRule := rowFormats.find? (fun r => r.rowType = rowTypeVal)
  let bgColor := match rRule with | some r => r.bgColor | none => ""
  let bold := match rRule with | some r => r.bold | none => false
  let italic := match rRule with | some r => r.italic | none => false
  let underline := match rRule with | some r => r.underline | none => false
  let fontSize := match rRule with | some r => r.fontSize | none => DEFAULT_FONT_SIZE
  let fontName := match rRule with | some r => r.fontName | none => DEFAULT_FONT
  match findCond cellConditions row with
  | none => none
  | some co =>
    let bgColor := match co with | some c => if c.bgColor ≠ "" then c.bgColor else bgColor | none => bgColor
    let bold := match co with | some c => if c.bold then c.bold else bold | none => bold
    let italic := match co with | some c => if c.italic then c.italic else italic | none => italic
    let underline := match co with | some c => if c.underline then c.underline else underline | none => underline
    let fontSize := match co with | some c => if c.fontSize ≠ 0 then c.fontSize else fontSize | none => fontSize
    let fontName := match co with | some c => if c.fontName ≠ "" then c.fontName else fontName | none => fontName
    some
      { fontName := fontName, fontSize := fontSize, bold := bold, italic := italic
        underline := underline
        fill := if bgColor ≠ "" then .solid (toArgb bgColor) else .nofill }

/-!  `cellStyle` from the PDF builder (src/unnamed/part_004, second module,
lines 886-917), extracted from its closure: it receives the row's type
value, the column header and the stringified cell value. -/

/-- Hexadecimal digit value. -/
def hexVal (c : Char) : Option ℕ :=
  if '0' ≤ c ∧ c ≤ '9' then some (c.toNat - 48)
  else if 'a' ≤ c ∧ c ≤ 'f' then some (c.toNat - 87)
  else if 'A' ≤ c ∧ c ≤ 'F' then some (c.toNat - 55)
  else none

/-- JS `parseInt(s, 16)`: value of the leading hex-digit run, `none` (NaN)
when there is none. -/
def parseIntHex (cs : List Char) : Option ℕ :=
  let ds := cs.takeWhile (fun c => (hexVal c).isSome)
  if ds = [] then none
  else some (ds.foldl (fun a c => a * 16 + ((hexVal c).getD 0)) 0)

/-- `hexToRgb` from the PDF builder: strip `#`, left-pad to six characters,
parse the three two-character slices (each `none` if NaN). -/
def hexToRgb (hex : String) : Option ℕ × Option ℕ × Option ℕ :=
  let h0 := removeFirstHash hex.data
  let h := if h0.length ≥ 6 then h0 else List.replicate (6 - h0.length) '0' ++ h0
  (parseIntHex (h.take 2), parseIntHex ((h.drop 2).take 2), parseIntHex ((h.drop 4).take 2))

/-- JS `String.prototype.includes`. -/
def containsSub (hay needle : List Char) : Bool :=
  needle.isPrefixOf hay ||
    match hay with
    | [] => false
    | _ :: t => containsSub t needle

structure PdfCellStyle where
  fillColor : Option (Option ℕ × Option ℕ × Option ℕ)
  fontStyle : Option String
deriving DecidableEq, Repr

/-- `cellStyle` from the PDF builder: row-format base colour/bold/italic,
overridden by the first rule whose column is empty-or-equal and whose
pattern is a case-insensitive substring of this cell's text. -/
def pdfCellStyle (rowTypeVal colHeader cellVal : String)
    (rowFormats : List RowFormatRule) (cellConditions : List CellConditionRule) :
    PdfCellStyle :=
  let rRule := rowFormats.find? (fun r => r.rowType = rowTypeVal)
  let bg0 : Option String := match rRule with
    | some r => if r.bgColor ≠ "" then some r.bgColor else none
    | none => none
  let bold := match rRule with | some r => r.bold | none => false
  let italic := match rRule with | some r => r.italic | none => false
  let lowVal := jsLower cellVal
  let cRule := cellConditions.find? (fun c =>
    (c.column = "" || c.column = colHeader) &&
      (c.contains ≠ "" && containsSub lowVal.data (jsLower c.contains).data))
  let bg := match cRule with
    | some c => if c.bgColor ≠ "" then some c.bgColor else bg0
    | none => bg0
  let bold := match cRule with | some c => if c.bold then c.bold else bold | none => bold
  let italic := match cRule with | some c => if c.italic then c.italic else italic | none => italic
  { fillColor := match bg with | some h => some (hexToRgb h) | none => none
    fontStyle :=
      if bold && italic then some "bolditalic"
      else if bold then some "bold"
      else if italic then some "italic"
      else none }

/-!  Gap segmentation (step 2 of the per-tab loop in `buildWorkbook`,
src/unnamed/part_004 lines 305-317). -/

/-- An element of the builder's `outputRows`: a data row or the `"__sep__"`
separator marker. -/
inductive SheetItem where
  | data (r : DataRow)
  | sep
deriving DecidableEq

/-- Property lookup on an `outputRows` element: on the separator marker (a
plain string in JS) an ordinary column name reads as `undefined`. -/
def itemGet : SheetItem → String → CellValue
  | .data r, k => rowGet r k
  | .sep, _ => .null

/-- The builder's segmentation loop, generalised to run on item sequences
(exactly what the JS loop body does when handed its own output).  `prev` is
the `prevSecs` variable. -/
def segmentItemsLoop (tc : String) (th : ℚ) (prev : Option JNum) :
    List SheetItem → List SheetItem
  | [] => []
  | it :: rest =>
    if tc ≠ "" ∧ th > 0 then
      let secs := parseTimeToSeconds (itemGet it tc)
      let sepNeeded := match secs, prev with
        | some s, some p => hasGap p s th
        | _, _ => false
      let prev' := match secs with | some s => some s | none => prev
      (if sepNeeded then [SheetItem.sep] else []) ++ it :: segmentItemsLoop tc th prev' rest
    else it :: segmentItemsLoop tc th prev rest

/-- Segmentation pass of `buildWorkbook` on the filtered rows. -/
def segmentRows (tc : String) (th : ℚ) (rows : List DataRow) : List SheetItem :=
  segmentItemsLoop tc th none (rows.map .data)

/-- Re-running the segmentation loop on an already-segmented sequence. -/
def segmentItems (tc : String) (th : ℚ) (items : List SheetItem) : List SheetItem :=
  segmentItemsLoop tc th none items

/-!  Sheet naming (step 3 of the per-tab loop):
`name.replace(/[/\\?*[\]:]/g, "-").substring(0, 31) || "Tab" + (index+1)`,
then ExcelJS `addWorksheet`, which raises on a (case-insensitive) duplicate
sheet name. -/

/-- The characters `/ \ ? * [ ] :` replaced in sheet names. -/
def forbiddenSheetChars : List Char := ['/', '\\', '?', '*', '[', ']', ':']

/-- The sanitized sheet name for the tab at position `idx` of the full tab
list. -/
def safeName (name : String) (idx : ℕ) : String :=
  let s : String :=
    ⟨(name.data.map (fun c => if c ∈ forbiddenSheetChars then '-' else c)).take 31⟩
  if s = "" then "Tab" ++ ntoa (idx + 1) else s

/-- The sheet names created by the per-tab loop, with ExcelJS's
duplicate-name check (`addWorksheet` throws, modelled as `Except.error`);
tabs without output columns are skipped. -/
def tabSheetNamesAux : List TabDefinition → ℕ → List String → List String →
    Except String (List String)
  | [], _, _, out => .ok out.reverse
  | t :: rest, i, used, out =>
    if t.columns = [] then tabSheetNamesAux rest (i + 1) used out
    else
      let n := safeName t.name i
      if used.any (fun m => jsLower m = jsLower n) then .error n
      else tabSheetNamesAux rest (i + 1) (n :: used) (n :: out)

/-- Sheet names for a tab list, given the names already in the workbook. -/
def tabSheetNames (tabs : List TabDefinition) (existing : List String) :
    Except String (List String) :=
  tabSheetNamesAux tabs 0 existing []

/-!  Configuration-sheet decoder, `parseConfigSheet` from
`src/lib/parseConfig.ts` (src/unnamed/part_001).  The sheet read by
`parseFile` is two columns wide, so an input row is a `(key, value)` pair
of strings here (`String(row[0] ?? "")` / `String(row[1] ?? "")` in the
source).  The random `id` fields are not modelled. -/

/-- JS `Number(value)` restricted to the values this codec round-trips:
a whole non-negative decimal (with surrounding whitespace); `none` for
anything else (NaN, negative, fractional, hex and infinite inputs are never
produced by the encoder and are not modelled). -/
def jsNumberNat (s : String) : Option ℕ :=
  let t := (jsTrim s).data
  if t ≠ [] ∧ t.all Char.isDigit then some (natOfDigits t) else none

/-- Decoder state: the partially-built configuration plus the three
in-progress group records. -/
structure DecSt where
  typeColumn : Option String := none
  timeColumn : Option String := none
  gapThresholdSeconds : Option ℕ := none
  includeMasterSheet : Option Bool := none
  tbEnabled : Option Bool := none
  tbShowName : Option String := none
  tbCompanyName : Option String := none
  tbLightingDesigner : Option String := none
  tbVersion : Option String := none
  tbNote1 : Option String := none
  tbNote2 : Option String := none
  tbImage : Option String := none
  tabs : List TabDefinition := []
  rowFormats : List RowFormatRule := []
  cellConditions : List CellConditionRule := []
  currentTab : Option TabDefinition := none
  currentRowFmt : Option RowFormatRule := none
  currentCond : Option CellConditionRule := none
deriving Repr

/-- The section-header keys skipped by both codec directions (lower case). -/
def SECTION_HEADERS : List String :=
  ["output tabs", "column mapping", "title block", "gap threshold",
   "row formats", "override rules"]

/-- `value.toLowerCase().split(",").map(s => s.trim())` membership test used
by the `Row Style` / `Override Style` decoder cases. -/
def styleListHas (value token : String) : Bool :=
  (((splitComma (jsLower value)).map jsTrim)).contains token

/-- One iteration of the decoder's `switch` on a `(key, value)` row. -/
def decodeStep (st : DecSt) (kv : String × String) : DecSt :=
  let key := jsTrim kv.1
  let value := jsTrim kv.2
  if key = "" then st
  else if SECTION_HEADERS.contains (jsLower key) then st
  else
    let kl := jsLower key
    if kl = "type column" then { st with typeColumn := some value }
    else if kl = "time column" then { st with timeColumn := some value }
    else if kl = "gap threshold (mm:ss)" ∨ kl = "gap time" then
      { st with gapThresholdSeconds := some (parseMMSSInput value) }
    else if kl = "title block enabled" ∨ kl = "include title block" then
      { st with tbEnabled := some (jsLower value = "yes") }
    else if kl = "show name" then { st with tbShowName := some value }
    else if kl = "company name" then { st with tbCompanyName := some value }
    else if kl = "lighting designer" then { st with tbLightingDesigner := some value }
    else if kl = "version" then { st with tbVersion := some value }
    else if kl = "note 1" then { st with tbNote1 := some value }
    else if kl = "note 2" then { st with tbNote2 := some value }
    else if kl = "image" then { st with tbImage := some value }
    else if kl = "include master sheet" then
      { st with includeMasterSheet := some (jsLower value = "yes") }
    else if kl = "tab name" then
      { st with
        tabs := st.tabs ++ (match st.currentTab with | some t => [t] | none => [])
        currentTab := some { name := value, rowTypes := [], columns := [] } }
    else if kl = "row types" ∨ kl = "tab row types" then
      match st.currentTab with
      | some t => { st with currentTab := some { t with rowTypes := if value ≠ "" then splitTrim value else [] } }
      | none => st
    else if kl = "columns" ∨ kl = "tab columns" then
      match st.currentTab with
      | some t => { st with currentTab := some { t with columns := if value ≠ "" then splitTrim value else [] } }
      | none => st
    else if kl = "row name" then
      { st with
        rowFormats := st.rowFormats ++ (match st.currentRowFmt with | some f => [f] | none => [])
        currentRowFmt := some (makeRowFormatRule value) }
    else if kl = "row colour" ∨ kl = "row bg color" then
      match st.currentRowFmt with
      | some f => { st with currentRowFmt := some { f with bgColor := value } }
      | none => st
    else if kl = "row font color" then
      match st.currentRowFmt with
      | some f => { st with currentRowFmt := some { f with fontColor := value } }
      | none => st
    else if kl = "row style" then
      match st.currentRowFmt with
      | some f =>
        let f' := { f with bold := styleListHas value "bold"
                           italic := styleListHas value "italic"
                           underline := styleListHas value "underline" }
        { st with currentRowFmt := some f' }
      | none => st
    else if kl = "row bold" then
      match st.currentRowFmt with
      | some f => { st with currentRowFmt := some { f with bold := jsLower value = "true" } }
      | none => st
    else if kl = "row italic" then
      match st.currentRowFmt with
      | some f => { st with currentRowFmt := some { f with italic := jsLower value = "true" } }
      | none => st
    else if kl = "row font size" then
      match st.currentRowFmt with
      | some f =>
        match jsNumberNat value with
        | some n => if n > 0 then { st with currentRowFmt := some { f with fontSize := n } } else st
        | none => st
      | none => st
    else if kl = "row font" ∨ kl = "row font name" then
      match st.currentRowFmt with
      | some f => if value ≠ "" then { st with currentRowFmt := some { f with fontName := value } } else st
      | none => st
    else if kl = "override column" then
      { st with
        cellConditions := st.cellConditions ++ (match st.currentCond with | some c => [c] | none => [])
        currentCond := some { makeCellConditionRule with column := value } }
    else if kl = "override value" then
      match st.currentCond with
      | some c => { st with currentCond := some { c with contains := value } }
      | none => st
    else if kl = "override colour" ∨ kl = "override bg color" then
      match st.currentCond with
      | some c => { st with currentCond := some { c with bgColor := value } }
      | none => st
    else if kl = "override font color" then
      match st.currentCond with
      | some c => { st with currentCond := some { c with fontColor := value } }
      | none => st
    else if kl = "override style" then
      match st.currentCond with
      | some c =>
        let c' := { c with bold := styleListHas value "bold"
                           italic := styleListHas value "italic"
                           underline := styleListHas value "underline" }
        { st with currentCond := some c' }
      | none => st
    else if kl = "override bold" then
      match st.currentCond with
      | some c => { st with currentCond := some { c with bold := jsLower value = "true" } }
      | none => st
    else if kl = "override italic" then
      match st.currentCond with
      | some c => { st with currentCond := some { c with italic := jsLower value = "true" } }
      | none => st
    else if kl = "override font size" then
      match st.currentCond with
      | some c =>
        match jsNumberNat value with
        | some n => if n > 0 then { st with currentCond := some { c with fontSize := n } } else st
        | none => st
      | none => st
    else if kl = "override font" ∨ kl = "override font name" then
      match st.currentCond with
      | some c => if value ≠ "" then { st with currentCond := some { c with fontName := value } } else st
      | none => st
    else st

/-- The decoded partial configuration (`Partial<AppConfig>`): `none` fields
were never assigned by the sheet. -/
structure DecodedConfig where
  typeColumn : Option String
  timeColumn : Option String
  gapThresholdSeconds : Option ℕ
  includeMasterSheet : Option Bool
  titleBlock : Option TitleBlock
  tabs : Option (List TabDefinition)
  rowFormats : Option (List RowFormatRule)
  cellConditions : Option (List CellConditionRule)
deriving DecidableEq, Repr

/-- Was any title-block key assigned? (`Object.keys(titleBlock).length > 0`.) -/
def DecSt.tbTouched (st : DecSt) : Bool :=
  st.tbEnabled.isSome || st.tbShowName.isSome || st.tbCompanyName.isSome ||
    st.tbLightingDesigner.isSome || st.tbVersion.isSome || st.tbNote1.isSome ||
    st.tbNote2.isSome || st.tbImage.isSome

/-- `parseConfigSheet` from `src/lib/parseConfig.ts`: fold the rows through
the key `switch`, flush the in-progress records, merge the title block over
its defaults, and return `none` when nothing was recognized. -/
def parseConfigSheet (rows : List (String × String)) : Option DecodedConfig :=
  if rows = [] then none
  else
    let st := rows.foldl decodeStep {}
    let tabs := st.tabs ++ (match st.currentTab with | some t => [t] | none => [])
    let rowFormats := st.rowFormats ++ (match st.currentRowFmt with | some f => [f] | none => [])
    let cellConditions := st.cellConditions ++ (match st.currentCond with | some c => [c] | none => [])
    let d := defaultConfig.titleBlock
    let result : DecodedConfig :=
      { typeColumn := st.typeColumn
        timeColumn := st.timeColumn
        gapThresholdSeconds := st.gapThresholdSeconds
        includeMasterSheet := st.includeMasterSheet
        titleBlock :=
          if st.tbTouched then
            some
              { enabled := st.tbEnabled.getD d.enabled
                showName := st.tbShowName.getD d.showName
                companyName := st.tbCompanyName.getD d.companyName
                lightingDesigner := st.tbLightingDesigner.getD d.lightingDesigner
                version := st.tbVersion.getD d.version
                note1 := st.tbNote1.getD d.note1
                note2 := st.tbNote2.getD d.note2
                imageDataUrl := st.tbImage.getD d.imageDataUrl }
          else none
        tabs := if tabs ≠ [] then some tabs else none
        rowFormats := if rowFormats ≠ [] then some rowFormats else none
        cellConditions := if cellConditions ≠ [] then some cellConditions else none }
    if result.typeColumn.isSome || result.timeColumn.isSome ||
        result.gapThresholdSeconds.isSome || result.includeMasterSheet.isSome ||
        result.titleBlock.isSome || result.tabs.isSome ||
        result.rowFormats.isSome || result.cellConditions.isSome then
      some result
    else none

/-!  Configuration-sheet encoder, `writeConfigSheet` from the spreadsheet
builder (src/unnamed/part_004 lines 393-657).  The worksheet plumbing around
it reads the existing sheet into an ordered `(key, value)` snapshot and
writes the final snapshot back; the pure core below maps the old snapshot
and the configuration to the new snapshot. -/

/-- A `(key, value)` snapshot row; the blank separator row is `("", "")`
(written back as an empty worksheet row). -/
abbrev KV : Type := String × String

/-- `key.trim().toLowerCase()` as used throughout the encoder. -/
def keyLower (k : String) : String := jsLower (jsTrim k)

/-- Membership in the encoder's `SECTION_HEADERS` set. -/
def isSectionKey (kl : String) : Bool := SECTION_HEADERS.contains kl

/-- The ten singleton keys the encoder indexes (lower case). -/
def SINGLETON_KEYS : List String :=
  ["type column", "time column", "gap threshold (mm:ss)",
   "company name", "show name", "lighting designer", "version",
   "note 1", "note 2", "title block enabled"]

/-- Insertion-ordered map (JS `Map`): first-match lookup. -/
def mget (m : List (String × ℕ)) (k : String) : Option ℕ :=
  (m.find? (fun p => p.1 = k)).map (fun p => p.2)

/-- JS `Map.set`: replace an existing binding in place, else append. -/
def mset (m : List (String × ℕ)) (k : String) (v : ℕ) : List (String × ℕ) :=
  if m.any (fun p => p.1 = k) then m.map (fun p => if p.1 = k then (k, v) else p)
  else m ++ [(k, v)]

/-- JS `Set.add` (insertion order, no duplicates). -/
def sadd (s : List String) (k : String) : List String :=
  if s.contains k then s else s ++ [k]

/-- The indexes the encoder builds over the old snapshot. -/
structure EncIdx where
  singletonIdx : List (String × ℕ) := []
  tabIdx : List (String × ℕ) := []
  fmtIdx : List (String × ℕ) := []
  condIdx : List (String × ℕ) := []
  sections : List String := []
deriving Repr

/-- Length of a group's sub-row span: rows consumed until the next anchor of
the same kind or a section header (the `while` skip loops of the index
pass, and equally the stop condition of the in-place update loops). -/
def spanLen (stopAnchor : String) : List KV → ℕ
  | [] => 0
  | (k, _) :: rest =>
    let kl := keyLower k
    if kl = stopAnchor ∨ isSectionKey kl then 0 else 1 + spanLen stopAnchor rest

/-- Fuelled index pass (structural, so the kernel can evaluate it); the
fuel only needs to exceed the number of remaining rows. -/
def buildIdxF : ℕ → List KV → ℕ → EncIdx → EncIdx
  | 0, _, _, st => st
  | fuel + 1, rows, pos, st =>
    match rows with
    | [] => st
    | (k, v) :: rest =>
      let kl := keyLower k
      if isSectionKey kl then
        buildIdxF fuel rest (pos + 1) { st with sections := sadd st.sections kl }
      else if SINGLETON_KEYS.contains kl then
        buildIdxF fuel rest (pos + 1) { st with singletonIdx := mset st.singletonIdx kl pos }
      else if kl = "tab name" then
        let n := spanLen "tab name" rest
        buildIdxF fuel (rest.drop n) (pos + 1 + n) { st with tabIdx := mset st.tabIdx v pos }
      else if kl = "row name" then
        let n := spanLen "row name" rest
        buildIdxF fuel (rest.drop n) (pos + 1 + n) { st with fmtIdx := mset st.fmtIdx v pos }
      else if kl = "override column" then
        let containsVal := match rest.head? with
          | some (k2, v2) => if keyLower k2 = "override value" then v2 else ""
          | none => ""
        let n := spanLen "override column" rest
        buildIdxF fuel (rest.drop n) (pos + 1 + n)
          { st with condIdx := mset st.condIdx (v ++ "|||" ++ containsVal) pos }
      else buildIdxF fuel rest (pos + 1) st

/-- The encoder's index pass over the old snapshot (`while (i <
snapshot.length)` in the source); `pos` is the absolute snapshot index of
the head of `rows`. -/
def buildIdx (rows : List KV) (pos : ℕ) (st : EncIdx) : EncIdx :=
  buildIdxF (rows.length + 1) rows pos st

/-- Overwrite the value of row `i`, keeping its key
(`snapshot[i][1] = value`). -/
def setVal : List KV → ℕ → String → List KV
  | [], _, _ => []
  | kv :: rest, 0, v => (kv.1, v) :: rest
  | kv :: rest, n + 1, v => kv :: setVal rest n v

/-- Mutable encoder state: the snapshot plus the (evolving) indexes. -/
structure WSt where
  snap : List KV
  idx : EncIdx

/-- Append the section header (preceded by a blank row when the snapshot is
non-empty) unless the section has appeared before. -/
def ensureSection (st : WSt) (header : String) : WSt :=
  if st.idx.sections.contains (jsLower header) then st
  else
    let snap := if st.snap ≠ [] then st.snap ++ [(("" : String), ("" : String))] else st.snap
    { snap := snap ++ [(header, "")]
      idx := { st.idx with sections := sadd st.idx.sections (jsLower header) } }

/-- `upsertSingleton` from `writeConfigSheet`. -/
def upsertSingleton (st : WSt) (sectionHeader key value : String) : WSt :=
  let kl := jsLower key
  match mget st.idx.singletonIdx kl with
  | some i => { st with snap := setVal st.snap i value }
  | none =>
    let st := ensureSection st sectionHeader
    let i := st.snap.length
    { snap := st.snap ++ [(key, value)]
      idx := { st.idx with singletonIdx := mset st.idx.singletonIdx kl i } }

/-- In-place update of a tab group's known sub-keys (the `while (j < ...)`
loop), applied to the rows after the anchor. -/
def patchTab (tab : TabDefinition) : List KV → List KV
  | [] => []
  | (k, v) :: rest =>
    let kl := keyLower k
    if kl = "tab name" ∨ isSectionKey kl then (k, v) :: rest
    else
      let v' := if kl = "tab row types" then joinCS tab.rowTypes
                else if kl = "tab columns" then joinCS tab.columns
                else v
      (k, v') :: patchTab tab rest

/-- Tab upsert of `writeConfigSheet`. -/
def upsertTab (st : WSt) (tab : TabDefinition) : WSt :=
  match mget st.idx.tabIdx tab.name with
  | some base =>
    { st with snap := st.snap.take (base + 1) ++ patchTab tab (st.snap.drop (base + 1)) }
  | none =>
    let st := ensureSection st "Output Tabs"
    let base := st.snap.length
    { snap := st.snap ++
        [("Tab Name", tab.name),
         ("Tab Row Types", joinCS tab.rowTypes),
         ("Tab Columns", joinCS tab.columns)]
      idx := { st.idx with tabIdx := mset st.idx.tabIdx tab.name base } }

/-- In-place update of a row-format group's known sub-keys. -/
def patchFmt (fmt : RowFormatRule) : List KV → List KV
  | [] => []
  | (k, v) :: rest =>
    let kl := keyLower k
    if kl = "row name" ∨ isSectionKey kl then (k, v) :: rest
    else
      let v' := if kl = "row bold" then (if fmt.bold then "true" else "false")
                else if kl = "row italic" then (if fmt.italic then "true" else "false")
                else if kl = "row bg color" then fmt.bgColor
                else if kl = "row font size" then ntoa fmt.fontSize
                else if kl = "row font name" then fmt.fontName
                else v
      (k, v') :: patchFmt fmt rest

/-- Row-format upsert of `writeConfigSheet`. -/
def upsertFmt (st : WSt) (fmt : RowFormatRule) : WSt :=
  match mget st.idx.fmtIdx fmt.rowType with
  | some base =>
    { st with snap := st.snap.take (base + 1) ++ patchFmt fmt (st.snap.drop (base + 1)) }
  | none =>
    let st := ensureSection st "Row Formats"
    let base := st.snap.length
    { snap := st.snap ++
        [("Row Name", fmt.rowType),
         ("Row Bold", if fmt.bold then "true" else "false"),
         ("Row Italic", if fmt.italic then "true" else "false"),
         ("Row BG Color", fmt.bgColor),
         ("Row Font Size", ntoa fmt.fontSize),
         ("Row Font Name", fmt.fontName)]
      idx := { st.idx with fmtIdx := mset st.idx.fmtIdx fmt.rowType base } }

/-- In-place update of an override group's known sub-keys. -/
def patchCond (cond : CellConditionRule) : List KV → List KV
  | [] => []
  | (k, v) :: rest =>
    let kl := keyLower k
    if kl = "override column" ∨ isSectionKey kl then (k, v) :: rest
    else
      let v' := if kl = "override bold" then (if cond.bold then "true" else "false")
                else if kl = "override italic" then (if cond.italic then "true" else "false")
                else if kl = "override bg color" then cond.bgColor
                else if kl = "override font size" then ntoa cond.fontSize
                else if kl = "override font name" then cond.fontName
                else v
      (k, v') :: patchCond cond rest

/-- The natural identity of an override rule, `column + "|||" + contains`. -/
def condIdentity (cond : CellConditionRule) : String :=
  cond.column ++ "|||" ++ cond.contains

/-- Override-rule upsert of `writeConfigSheet`. -/
def upsertCond (st : WSt) (cond : CellConditionRule) : WSt :=
  match mget st.idx.condIdx (condIdentity cond) with
  | some base =>
    { st with snap := st.snap.take (base + 1) ++ patchCond cond (st.snap.drop (base + 1)) }
  | none =>
    let st := ensureSection st "Override Rules"
    let base := st.snap.length
    { snap := st.snap ++
        [("Override Column", cond.column),
         ("Override Value", cond.contains),
         ("Override Bold", if cond.bold then "true" else "false"),
         ("Override Italic", if cond.italic then "true" else "false"),
         ("Override BG Color", cond.bgColor),
         ("Override Font Size", ntoa cond.fontSize),
         ("Override Font Name", cond.fontName)]
      idx := { st.idx with condIdx := mset st.idx.condIdx (condIdentity cond) base } }

/-- The pure core of `writeConfigSheet`: old snapshot plus configuration to
new snapshot (index pass, singleton upserts, then the three group phases,
in source order). -/
def writeSnapshot (config : AppConfig) (old : List KV) : List KV :=
  let st : WSt := { snap := old, idx := buildIdx old 0 {} }
  let st := upsertSingleton st "Column Mapping" "Type Column" config.typeColumn
  let st := upsertSingleton st "Gap Threshold" "Gap Threshold (MM:SS)"
    (if config.gapThresholdSeconds > 0 then formatMMSS config.gapThresholdSeconds else "")
  let st := upsertSingleton st "Gap Threshold" "Time Column" config.timeColumn
  let tb := config.titleBlock
  let st := upsertSingleton st "Title Block" "Title Block Enabled" (if tb.enabled then "yes" else "no")
  let st := upsertSingleton st "Title Block" "Company Name" tb.companyName
  let st := upsertSingleton st "Title Block" "Show Name" tb.showName
  let st := upsertSingleton st "Title Block" "Lighting Designer" tb.lightingDesigner
  let st := upsertSingleton st "Title Block" "Version" tb.version
  let st := upsertSingleton st "Title Block" "Note 1" tb.note1
  let st := upsertSingleton st "Title Block" "Note 2" tb.note2
  let st := config.tabs.foldl upsertTab st
  let st := config.rowFormats.foldl upsertFmt st
  let st := config.cellConditions.foldl upsertCond st
  st.snap

/-- The snapshot read back from a written configuration sheet: ExcelJS
`eachRow` (without `includeEmpty`) skips the empty rows that the blank
`("", "")` separators were written as. -/
def dropBlankRows (rows : List KV) : List KV :=
  rows.filter (fun kv => ¬(kv.1 = "" ∧ kv.2 = ""))

/-- `writeConfigSheet` at the workbook level: read the existing sheet (if
any) into a snapshot, rebuild, and return the rows of the new sheet. -/
def writeConfigSheetRows (existing : Option (List KV)) (config : AppConfig) : List KV :=
  writeSnapshot config (match existing with | none => [] | some rows => dropBlankRows rows)

/-!  Supporting lemmas: decimal digits, trimming, splitting and joining. -/

theorem charOfNat_toNat (n : ℕ) (h : n < 55296) : (Char.ofNat n).toNat = n := by
  have hv : n.isValidChar := Or.inl h
  simp [Char.ofNat, hv, Char.ofNatAux, Char.toNat, UInt32.toNat]

theorem isDigit_iff_toNat (c : Char) : c.isDigit = true ↔ 48 ≤ c.toNat ∧ c.toNat ≤ 57 := by
  simp [Char.isDigit, Char.toNat, UInt32.le_def, BitVec.le_def, UInt32.toNat]

theorem natDigitsF_fuel (f1 : ℕ) : ∀ f2 n, n < f1 → n < f2 → natDigitsF f1 n = natDigitsF f2 n := by
  induction f1 with
  | zero => omega
  | succ g ih =>
    intro f2 n h1 h2
    cases f2 with
    | zero => omega
    | succ h =>
      simp only [natDigitsF]
      split
      · rfl
      · rename_i hn
        rw [ih h (n / 10) (by omega) (by omega)]

theorem natDigits_unfold (n : ℕ) :
    natDigits n = if n < 10 then [Char.ofNat (n + 48)]
      else natDigits (n / 10) ++ [Char.ofNat (n % 10 + 48)] := by
  show natDigitsF (n + 1) n = _
  simp only [natDigitsF]
  split
  · rfl
  · rename_i hn
    rw [natDigitsF_fuel n (n / 10 + 1) (n / 10) (by omega) (by omega)]
    rfl

theorem natDigits_digits (n : ℕ) : ∀ c ∈ natDigits n, c.isDigit = true := by
  induction n using Nat.strong_induction_on with
  | _ n ih =>
    rw [natDigits_unfold]
    split
    · rename_i h
      intro c hc
      simp only [List.mem_singleton] at hc
      subst hc
      rw [isDigit_iff_toNat, charOfNat_toNat (n + 48) (by omega)]
      omega
    · rename_i h
      intro c hc
      rw [List.mem_append] at hc
      rcases hc with hc | hc
      · exact ih (n / 10) (Nat.div_lt_self (by omega) (by omega)) c hc
      · simp only [List.mem_singleton] at hc
        subst hc
        rw [isDigit_iff_toNat, charOfNat_toNat (n % 10 + 48) (by omega)]
        omega

theorem natDigits_ne_nil (n : ℕ) : natDigits n ≠ [] := by
  rw [natDigits_unfold]
  split <;> simp

theorem natOfDigits_append (l1 l2 : List Char) :
    natOfDigits (l1 ++ l2) = natOfDigits l2 + natOfDigits l1 * 10 ^ l2.length := by
  induction l2 using List.reverseRecOn with
  | nil => simp [natOfDigits]
  | append_singleton l2 c ih =>
    simp only [natOfDigits, ← List.append_assoc, List.foldl_append, List.foldl_cons,
      List.foldl_nil] at *
    rw [ih]
    simp [List.length_append, pow_succ]
    ring

theorem natOfDigits_natDigits (n : ℕ) : natOfDigits (natDigits n) = n := by
  induction n using Nat.strong_induction_on with
  | _ n ih =>
    rw [natDigits_unfold]
    split
    · rename_i h
      simp only [natOfDigits, List.foldl_cons, List.foldl_nil]
      rw [charOfNat_toNat (n + 48) (by omega)]
      omega
    · rename_i h
      rw [natOfDigits_append, ih (n / 10) (Nat.div_lt_self (by omega) (by omega))]
      simp only [natOfDigits, List.foldl_cons, List.foldl_nil, List.length_singleton]
      rw [charOfNat_toNat (n % 10 + 48) (by omega)]
      omega

theorem natDigits_length_le_two (n : ℕ) (h : n < 100) : (natDigits n).length ≤ 2 := by
  rw [natDigits_unfold]
  split
  · simp
  · rename_i h10
    rw [natDigits_unfold]
    have hd : n / 10 < 10 := by omega
    simp [hd]

theorem dropWhile_eq_self_of_all {p : Char → Bool} {l : List Char}
    (h : ∀ c ∈ l, p c = false) : l.dropWhile p = l := by
  cases l with
  | nil => rfl
  | cons c rest => simp [List.dropWhile_cons, h c (by simp)]

theorem isDigit_not_ws {c : Char} (h : c.isDigit = true) : jsWsChar c = false := by
  rw [isDigit_iff_toNat] at h
  simp only [jsWsChar, decide_eq_false_iff_not]
  rintro (rfl | rfl | rfl | rfl | rfl | rfl) <;> revert h <;> decide

theorem jsTrim_eq_self_of_all {cs : List Char} (h : ∀ c ∈ cs, jsWsChar c = false) :
    jsTrim ⟨cs⟩ = ⟨cs⟩ := by
  simp only [jsTrim]
  rw [dropWhile_eq_self_of_all h, dropWhile_eq_self_of_all (by simpa using h)]
  simp

theorem takeWhile_append_cons {p : Char → Bool} {l1 l2 : List Char} {c : Char}
    (h1 : ∀ x ∈ l1, p x = true) (hc : p c = false) :
    (l1 ++ c :: l2).takeWhile p = l1 := by
  induction l1 with
  | nil => simp [List.takeWhile_cons, hc]
  | cons a rest ih =>
    simp only [List.cons_append, List.takeWhile_cons, h1 a (by simp)]
    simp only [if_true]
    rw [ih (fun x hx => h1 x (by simp [hx]))]

theorem dropWhile_append_cons {p : Char → Bool} {l1 l2 : List Char} {c : Char}
    (h1 : ∀ x ∈ l1, p x = true) (hc : p c = false) :
    (l1 ++ c :: l2).dropWhile p = c :: l2 := by
  induction l1 with
  | nil => simp [List.dropWhile_cons, hc]
  | cons a rest ih =>
    simp only [List.cons_append, List.dropWhile_cons, h1 a (by simp)]
    simp only [if_true]
    exact ih (fun x hx => h1 x (by simp [hx]))

theorem takeWhile_eq_self_of_all {p : Char → Bool} {l : List Char}
    (h : ∀ c ∈ l, p c = true) : l.takeWhile p = l := by
  induction l with
  | nil => rfl
  | cons c rest ih => simp [List.takeWhile_cons, h c (by simp), ih (fun x hx => h x (by simp [hx]))]

theorem dropWhile_eq_nil_of_all {p : Char → Bool} {l : List Char}
    (h : ∀ c ∈ l, p c = true) : l.dropWhile p = [] := by
  induction l with
  | nil => rfl
  | cons c rest ih => simp [List.dropWhile_cons, h c (by simp), ih (fun x hx => h x (by simp [hx]))]

theorem natOfDigits_replicate_zero (k : ℕ) (l : List Char) :
    natOfDigits (List.replicate k '0' ++ l) = natOfDigits l := by
  induction k with
  | zero => simp
  | succ k ih =>
    have : List.replicate (k + 1) '0' ++ l = '0' :: (List.replicate k '0' ++ l) := by
      simp [List.replicate_succ]
    rw [this]
    simp only [natOfDigits, List.foldl_cons] at *
    have hz : (0 : ℕ) * 10 + ('0'.toNat - 48) = 0 := by decide
    rw [hz]
    exact ih

/-- The padded seconds field of `formatMMSS`: exactly two digit characters
with the value `g % 60`. -/
theorem padded_secs (g : ℕ) :
    ∃ P : List Char, (padStart2 (ntoa (g % 60))).data = P ∧ P.length = 2 ∧
      (∀ c ∈ P, c.isDigit = true) ∧ natOfDigits P = g % 60 := by
  have hlt : g % 60 < 100 := by omega
  have hle := natDigits_length_le_two (g % 60) hlt
  simp only [padStart2, ntoa]
  split
  · rename_i h
    exact ⟨natDigits (g % 60), rfl, by omega, natDigits_digits _, natOfDigits_natDigits _⟩
  · rename_i h
    refine ⟨_, rfl, ?_, ?_, ?_⟩
    · simp
      omega
    · intro c hc
      rw [List.mem_append] at hc
      rcases hc with hc | hc
      · rw [List.eq_of_mem_replicate hc]
        decide
      · exact natDigits_digits _ c hc
    · show natOfDigits (List.replicate (2 - (natDigits (g % 60)).length) '0' ++ natDigits (g % 60)) = g % 60
      rw [natOfDigits_replicate_zero, natOfDigits_natDigits]

theorem parseMMSSInput_formatMMSS (g : ℕ) : parseMMSSInput (formatMMSS g) = g := by
  obtain ⟨P, hP, hPlen, hPdig, hPval⟩ := padded_secs g
  have hdata : (formatMMSS g).data = natDigits (g / 60) ++ ':' :: P := by
    simp only [formatMMSS, ntoa]
    rw [← hP]
    simp [String.data_append]
    rfl
  have hmins := natDigits_digits (g / 60)
  have hall : ∀ c ∈ (formatMMSS g).data, jsWsChar c = false := by
    rw [hdata]
    intro c hc
    rw [List.mem_append] at hc
    rcases hc with hc | hc
    · exact isDigit_not_ws (hmins c hc)
    · rcases List.mem_cons.mp hc with rfl | hc
      · decide
      · exact isDigit_not_ws (hPdig c hc)
  have hcolon : (':' : Char).isDigit = false := by decide
  simp only [parseMMSSInput]
  have htrim : jsTrim (formatMMSS g) = formatMMSS g := by
    have := jsTrim_eq_self_of_all hall
    simpa using this
  rw [htrim, hdata]
  rw [takeWhile_append_cons hmins hcolon, dropWhile_append_cons hmins hcolon]
  simp only [natDigits_ne_nil, if_false]
  rw [takeWhile_eq_self_of_all hPdig, dropWhile_eq_nil_of_all hPdig]
  simp [hPlen, hPval, natOfDigits_natDigits]
  omega

theorem jsNumberNat_ntoa (n : ℕ) : jsNumberNat (ntoa n) = some n := by
  have hdig := natDigits_digits n
  have htrim : jsTrim (ntoa n) = ntoa n := by
    have : ∀ c ∈ (ntoa n).data, jsWsChar c = false := fun c hc => isDigit_not_ws (hdig c hc)
    have h2 := jsTrim_eq_self_of_all this
    simpa using h2
  simp only [jsNumberNat, htrim]
  have hne : (ntoa n).data ≠ [] := natDigits_ne_nil n
  have hall : (ntoa n).data.all Char.isDigit = true := List.all_eq_true.mpr hdig
  simp only [ntoa] at *
  simp [hne, hall, natOfDigits_natDigits]

theorem splitCommaChars_ne_nil (cs : List Char) : splitCommaChars cs ≠ [] := by
  induction cs with
  | nil => simp [splitCommaChars]
  | cons c rest ih =>
    simp only [splitCommaChars]
    split
    · simp
    · rcases h : splitCommaChars rest with _ | ⟨x, xs⟩
      · simp
      · simp

theorem splitCommaChars_no_comma (xs : List Char) (h : ∀ c ∈ xs, c ≠ ',') :
    splitCommaChars xs = [xs] := by
  induction xs with
  | nil => rfl
  | cons c rest ih =>
    simp only [splitCommaChars]
    rw [ih (fun x hx => h x (by simp [hx]))]
    rw [if_neg (by exact (h c (by simp)))]

theorem splitCommaChars_append_comma (xs ys : List Char) (h : ∀ c ∈ xs, c ≠ ',') :
    splitCommaChars (xs ++ ',' :: ys) = xs :: splitCommaChars ys := by
  induction xs with
  | nil => simp [splitCommaChars]
  | cons c rest ih =>
    have hrec := ih (fun x hx => h x (by simp [hx]))
    simp only [List.cons_append, splitCommaChars, List.append_eq]
    rw [hrec, if_neg (by exact h c (by simp))]

theorem jsTrim_space_cons (cs : List Char) : jsTrim ⟨' ' :: cs⟩ = jsTrim ⟨cs⟩ := by
  have hws : jsWsChar ' ' = true := by decide
  simp [jsTrim, List.dropWhile_cons, hws]

/-- The side conditions under which comma-joined lists decode back to
themselves: a trimmed, non-empty, comma-free entry. -/
def cleanEntry (s : String) : Prop :=
  jsTrim s = s ∧ s ≠ "" ∧ ∀ c ∈ s.data, c ≠ ','

instance (s : String) : Decidable (cleanEntry s) := by
  unfold cleanEntry
  infer_instance

theorem splitTrim_space_cons (cs : List Char) :
    splitTrim ⟨' ' :: cs⟩ = splitTrim ⟨cs⟩ := by
  simp only [splitTrim, splitComma]
  show ((splitCommaChars (' ' :: cs)).map _ |>.map jsTrim).filter _ = _
  simp only [splitCommaChars]
  rw [if_neg (by decide)]
  rcases h : splitCommaChars cs with _ | ⟨x, xs⟩
  · exact absurd h (splitCommaChars_ne_nil cs)
  · simp only [List.map_cons, List.filter_cons]
    rw [jsTrim_space_cons]

theorem splitTrim_joinCS (l : List String) (h : ∀ s ∈ l, cleanEntry s) :
    splitTrim (joinCS l) = l := by
  induction l with
  | nil => rfl
  | cons a rest ih =>
    obtain ⟨ha1, ha2, ha3⟩ := h a (by simp)
    cases rest with
    | nil =>
      simp only [joinCS, splitTrim, splitComma]
      rw [splitCommaChars_no_comma a.data ha3]
      simp only [List.map_cons, List.map_nil]
      show List.filter _ [jsTrim ⟨a.data⟩] = [a]
      have hmk : (⟨a.data⟩ : String) = a := rfl
      rw [hmk, ha1]
      simp [List.filter, ha2]
    | cons b r =>
      have hdata : (joinCS (a :: b :: r)).data = a.data ++ ',' :: ' ' :: (joinCS (b :: r)).data := by
        show (a ++ ", " ++ joinCS (b :: r)).data = _
        simp [String.data_append]
      have hrest := ih (fun s hs => h s (by simp [hs]))
      have htail : splitTrim ⟨' ' :: (joinCS (b :: r)).data⟩ = b :: r := by
        rw [splitTrim_space_cons]
        have hmk : (⟨(joinCS (b :: r)).data⟩ : String) = joinCS (b :: r) := rfl
        rw [hmk]
        exact hrest
      have hsplit : splitComma (joinCS (a :: b :: r)) =
          a :: splitComma ⟨' ' :: (joinCS (b :: r)).data⟩ := by
        simp only [splitComma, hdata]
        rw [splitCommaChars_append_comma _ _ ha3]
        rfl
      simp only [splitTrim] at *
      rw [hsplit]
      simp only [List.map_cons, List.filter_cons, ha1]
      simp only [ha2, ne_eq, not_false_iff, decide_true_eq_true]
      rw [htail]
      simp

/-!  Claim C6 — time parsing. -/

/-- Non-negativity of a JS number (`NaN` excluded at the `Option` level). -/
def jnNonneg : JNum → Prop
  | .num q => 0 ≤ q
  | .posInf => True
  | .negInf => False

theorem parseTimeNum_nonneg (j : JNum) :
    parseTimeNum j = none ∨ ∃ n, parseTimeNum j = some n ∧ jnNonneg n := by
  cases j with
  | num q =>
    by_cases h1 : 0 < q ∧ q < 1
    · right
      refine ⟨.num (jsRound (q * 86400)), by simp [parseTimeNum, h1], ?_⟩
      show (0 : ℚ) ≤ (jsRound (q * 86400) : ℤ)
      have hfl : (0 : ℤ) ≤ jsRound (q * 86400) := by
        rw [jsRound, Int.le_floor]
        push_cast
        nlinarith [h1.1]
      exact_mod_cast hfl
    · by_cases h2 : 1 ≤ q
      · right
        exact ⟨.num q, by simp [parseTimeNum, h1, h2], by show (0:ℚ) ≤ q; linarith⟩
      · left
        simp [parseTimeNum, h1, h2]
  | posInf => right; exact ⟨.posInf, rfl, trivial⟩
  | negInf => left; rfl

theorem parseTimeToSeconds_nonneg (v : CellValue) :
    parseTimeToSeconds v = none ∨ ∃ n, parseTimeToSeconds v = some n ∧ jnNonneg n := by
  cases v with
  | null => left; rfl
  | boolv b => left; rfl
  | num q => exact parseTimeNum_nonneg (.num q)
  | str s =>
    by_cases hs : s = ""
    · left; simp [parseTimeToSeconds, hs]
    · simp only [parseTimeToSeconds, hs, if_false]
      rcases hH : matchHMS (jsTrim s).data with _ | ⟨h, m, sec⟩
      · rcases hM : matchMS (jsTrim s).data with _ | ⟨m, sec⟩
        · rcases hF : jsParseFloat ⟨(jsTrim s).data⟩ with _ | j
          · left; simp [hH, hM, hF]
          · rcases parseTimeNum_nonneg j with hn | ⟨n, hn, hnn⟩
            · left; simp [hH, hM, hF, hn]
            · right; exact ⟨n, by simp [hH, hM, hF, hn], hnn⟩
        · right
          refine ⟨.num ((m * 60 + sec : ℕ) : ℚ), by simp [hH, hM], ?_⟩
          show (0 : ℚ) ≤ ((m * 60 + sec : ℕ) : ℚ)
          positivity
      · right
        refine ⟨.num ((h * 3600 + m * 60 + sec : ℕ) : ℚ), by simp [hH], ?_⟩
        show (0 : ℚ) ≤ ((h * 3600 + m * 60 + sec : ℕ) : ℚ)
        positivity

/-- C6 (corrected): `parseTimeToSeconds` always yields `none` or a
non-negative value, maps `0.5` to `43200`, `"1:30"` to `90`, `"2:15:30"` to
`8130` and `"abc"` to `none`, passes every numeric input `≥ 1` through
unchanged (hence — the correction — not always an integer), and rejects
numeric `0` and negatives. -/
theorem C6_time_parser_amended :
    (∀ v, parseTimeToSeconds v = none ∨ ∃ n, parseTimeToSeconds v = some n ∧ jnNonneg n) ∧
    parseTimeToSeconds (.num (1 / 2)) = some (.num 43200) ∧
    parseTimeToSeconds (.str "1:30") = some (.num 90) ∧
    parseTimeToSeconds (.str "2:15:30") = some (.num 8130) ∧
    parseTimeToSeconds (.str "abc") = none ∧
    (∀ q : ℚ, 1 ≤ q → parseTimeToSeconds (.num q) = some (.num q)) ∧
    (∀ q : ℚ, q ≤ 0 → parseTimeToSeconds (.num q) = none) := by
  refine ⟨parseTimeToSeconds_nonneg, ?_, by decide, by decide, by decide, ?_, ?_⟩
  · have h1 : (0 : ℚ) < 1 / 2 ∧ (1 : ℚ) / 2 < 1 := by norm_num
    simp only [parseTimeToSeconds, parseTimeNum, h1, and_self, if_true]
    have : jsRound (1 / 2 * 86400) = 43200 := by
      rw [jsRound]
      rw [show (1 : ℚ) / 2 * 86400 + 1 / 2 = 43200 + 1 / 2 by norm_num]
      rw [Int.floor_eq_iff]
      constructor <;> norm_num
    rw [this]
    norm_num
  · intro q hq
    have h1 : ¬(0 < q ∧ q < 1) := by rintro ⟨_, h⟩; linarith
    simp [parseTimeToSeconds, parseTimeNum, h1, hq]
  · intro q hq
    have h1 : ¬(0 < q ∧ q < 1) := by rintro ⟨h, _⟩; linarith
    have h2 : ¬(1 ≤ q) := by linarith
    simp [parseTimeToSeconds, parseTimeNum, h1, h2]

/-- C6 counterexample: the numeric input `1.5` (exactly representable as a
JS float) is returned unchanged, so the result is not an integer as the
claim states. -/
theorem C6_time_parser_cex :
    parseTimeToSeconds (.num (3 / 2)) = some (.num (3 / 2)) ∧
    ¬∃ z : ℤ, ((3 : ℚ) / 2) = (z : ℚ) := by
  constructor
  · have h1 : ¬((0:ℚ) < 3 / 2 ∧ (3:ℚ) / 2 < 1) := by rintro ⟨_, h⟩; norm_num at h
    have h2 : (1:ℚ) ≤ 3 / 2 := by norm_num
    simp [parseTimeToSeconds, parseTimeNum, h1, h2]
  · rintro ⟨z, hz⟩
    have h3 : (2 * z : ℤ) = 3 := by
      have : (2 * z : ℚ) = 3 := by rw [← hz]; ring
      exact_mod_cast this
    omega

/-- Witness for the hypotheses of `C6_time_parser_amended`. -/
theorem C6_time_parser_amended_witness :
    ((1 : ℚ) ≤ 5 ∧ parseTimeToSeconds (.num 5) = some (.num 5)) ∧
    ((-3 : ℚ) ≤ 0 ∧ parseTimeToSeconds (.num (-3)) = none) :=
  ⟨⟨by norm_num, C6_time_parser_amended.2.2.2.2.2.1 5 (by norm_num)⟩,
   ⟨by norm_num, C6_time_parser_amended.2.2.2.2.2.2 (-3) (by norm_num)⟩⟩

/-!  Claim C7 — glob matching. -/

theorem charLe_iff_toNat (c d : Char) : c ≤ d ↔ c.toNat ≤ d.toNat := by
  simp [Char.le_def, UInt32.le_def, BitVec.le_def, Char.toNat, UInt32.toNat]

theorem jsLowerChar_idem (c : Char) : jsLowerChar (jsLowerChar c) = jsLowerChar c := by
  have hA : 'A'.toNat = 65 := rfl
  have hZ : 'Z'.toNat = 90 := rfl
  unfold jsLowerChar
  split
  · rename_i h
    rw [charLe_iff_toNat, charLe_iff_toNat, hA, hZ] at h
    have hof : (Char.ofNat (c.toNat + 32)).toNat = c.toNat + 32 :=
      charOfNat_toNat _ (by omega)
    rw [if_neg]
    rintro ⟨ha, hb⟩
    rw [charLe_iff_toNat, hA, hof] at ha
    rw [charLe_iff_toNat, hZ, hof] at hb
    omega
  · rfl

theorem jsLower_idem (s : String) : jsLower (jsLower s) = jsLower s := by
  simp [jsLower, List.map_map, Function.comp_def, jsLowerChar_idem]

theorem jsLower_eq_empty_iff (s : String) : jsLower s = "" ↔ s = "" := by
  constructor
  · intro h
    have hd : (jsLower s).data = [] := congrArg String.data h
    simp only [jsLower] at hd
    cases s with
    | mk d =>
      cases d with
      | nil => rfl
      | cons c rest => simp at hd
  · rintro rfl
    rfl

theorem compileGlob_lits (cs : List Char) (h : ∀ c ∈ cs, c ≠ '*' ∧ c ≠ '?') :
    ∀ st acc, compileGlob cs st acc = some (acc.reverse ++ cs.map (fun c => .lit c false)) := by
  induction cs with
  | nil => intro st acc; simp [compileGlob]
  | cons c rest ih =>
    intro st acc
    obtain ⟨hc1, hc2⟩ := h c (by simp)
    simp only [compileGlob, if_neg hc1, if_neg hc2]
    rw [ih (fun x hx => h x (by simp [hx])) .atomFresh (.lit c false :: acc)]
    simp

theorem gmatch_lits (cs vs : List Char) :
    gmatch (cs.map (fun c => .lit c false)) vs = decide (cs = vs) := by
  induction cs generalizing vs with
  | nil =>
    cases vs with
    | nil => simp [gmatch]
    | cons v vs' => simp [gmatch]
  | cons c rest ih =>
    cases vs with
    | nil => simp [gmatch]
    | cons v vs' =>
      simp only [List.map_cons, gmatch, ih vs']
      by_cases h1 : c = v <;> by_cases h2 : rest = vs' <;> simp [h1, h2]

theorem gstar_iff (f : List Char → Bool) (vs : List Char) :
    gstar f vs = true ↔
      ∃ k, (∀ c ∈ vs.take k, jsDot c = true) ∧ f (vs.drop k) = true := by
  induction vs with
  | nil =>
    simp only [gstar, List.take_nil, List.drop_nil]
    exact ⟨fun h => ⟨0, by simp, h⟩, fun ⟨_, _, h⟩ => h⟩
  | cons v rest ih =>
    simp only [gstar, Bool.or_eq_true, Bool.and_eq_true, ih]
    constructor
    · rintro (h | ⟨hd, k, hk1, hk2⟩)
      · exact ⟨0, by simp, h⟩
      · refine ⟨k + 1, ?_, hk2⟩
        intro c hc
        simp only [List.take_succ_cons, List.mem_cons] at hc
        rcases hc with rfl | hc
        · exact hd
        · exact hk1 c hc
    · rintro ⟨k, hk1, hk2⟩
      cases k with
      | zero => exact Or.inl hk2
      | succ k =>
        refine Or.inr ⟨hk1 v (by simp), k, ?_, hk2⟩
        intro c hc
        exact hk1 c (by simp [hc])

theorem gmatch_star_iff (ts : List GTok) (vs : List Char) :
    gmatch (.star :: ts) vs = true ↔
      ∃ k, (∀ c ∈ vs.take k, jsDot c = true) ∧ gmatch ts (vs.drop k) = true :=
  gstar_iff (gmatch ts) vs

theorem jsLowerChar_ne_star {c : Char} (h : c ≠ '*') : jsLowerChar c ≠ '*' := by
  have hA : 'A'.toNat = 65 := rfl
  have hZ : 'Z'.toNat = 90 := rfl
  have hS : '*'.toNat = 42 := rfl
  unfold jsLowerChar
  split
  · rename_i hu
    rw [charLe_iff_toNat, charLe_iff_toNat, hA, hZ] at hu
    intro he
    have hof := charOfNat_toNat (c.toNat + 32) (by omega)
    rw [he, hS] at hof
    omega
  · exact h

theorem jsLowerChar_ne_quest {c : Char} (h : c ≠ '?') : jsLowerChar c ≠ '?' := by
  have hA : 'A'.toNat = 65 := rfl
  have hZ : 'Z'.toNat = 90 := rfl
  have hQ : '?'.toNat = 63 := rfl
  unfold jsLowerChar
  split
  · rename_i hu
    rw [charLe_iff_toNat, charLe_iff_toNat, hA, hZ] at hu
    intro he
    have hof := charOfNat_toNat (c.toNat + 32) (by omega)
    rw [he, hQ] at hof
    omega
  · exact h

theorem globMatch_no_wildcard (p v : String) (hp : p ≠ "")
    (h : ∀ c ∈ p.data, c ≠ '*' ∧ c ≠ '?') :
    globMatch p v = some (decide (jsLower p = jsLower v)) := by
  have hlow : ∀ c ∈ (jsLower p).data, c ≠ '*' ∧ c ≠ '?' := by
    intro c hc
    simp only [jsLower] at hc
    rw [List.mem_map] at hc
    obtain ⟨c0, hc0, rfl⟩ := hc
    exact ⟨jsLowerChar_ne_star (h c0 hc0).1, jsLowerChar_ne_quest (h c0 hc0).2⟩
  simp only [globMatch, hp, if_false]
  rw [compileGlob_lits _ hlow .noAtom []]
  simp only [List.reverse_nil, List.nil_append]
  rw [gmatch_lits]
  congr 1
  rw [decide_eq_decide]
  constructor
  · intro hd
    rcases hjp : jsLower p with ⟨dp⟩
    rcases hjv : jsLower v with ⟨dv⟩
    rw [hjp, hjv] at hd
    simp only at hd
    rw [hd]
  · intro he; rw [he]

/-- C7 (corrected): the four listed examples hold, the empty pattern never
matches, matching is case-insensitive, `*` matches any run of characters
other than the JS line terminators (so `"a*"` does not match across a
newline), and a pattern free of both `*` and `?` matches exactly the
case-insensitively equal string.  (The correction: `?` is NOT matched
literally — the escape in `globMatch` leaves it a regex quantifier.) -/
theorem C7_glob_amended :
    globMatch "P*" "PLAY" = some true ∧
    globMatch "P*" "STOP" = some false ∧
    globMatch "*P" "STOP" = some true ∧
    globMatch "PLAY" "play" = some true ∧
    (∀ v, globMatch "" v = some false) ∧
    (∀ p v, globMatch p v = globMatch (jsLower p) (jsLower v)) ∧
    (∀ ts vs, gmatch (.star :: ts) vs = true ↔
      ∃ k, (∀ c ∈ vs.take k, jsDot c = true) ∧ gmatch ts (vs.drop k) = true) ∧
    globMatch "a*" "a\nb" = some false ∧
    globMatch "a*b" "axb" = some true ∧
    (∀ p v, p ≠ "" → (∀ c ∈ p.data, c ≠ '*' ∧ c ≠ '?') →
      globMatch p v = some (decide (jsLower p = jsLower v))) := by
  refine ⟨by decide, by decide, by decide, by decide, fun v => rfl, ?_, gmatch_star_iff,
    by decide, by decide, globMatch_no_wildcard⟩
  intro p v
  simp only [globMatch, jsLower_eq_empty_iff, jsLower_idem]

/-- C7 counterexample: the unescaped `?` reaches the regex engine, so
`"P?"` matches `"P"` but not its own literal text, and a pattern starting
with `?` makes `globMatch` throw (modelled `none`). -/
theorem C7_glob_cex :
    globMatch "P?" "P" = some true ∧
    globMatch "P?" "P?" = some false ∧
    globMatch "?A" "?A" = none := by
  decide

/-- Witness for the hypotheses of `C7_glob_amended`. -/
theorem C7_glob_amended_witness :
    ("AB" : String) ≠ "" ∧ (∀ c ∈ ("AB" : String).data, c ≠ '*' ∧ c ≠ '?') ∧
    globMatch "AB" "ab" = some (decide (jsLower "AB" = jsLower "ab")) :=
  ⟨by decide, by decide, C7_glob_amended.2.2.2.2.2.2.2.2.2 "AB" "ab" (by decide) (by decide)⟩
/-!  Claim C4 — gap segmentation. -/

/-- The time of the last row in `pre` whose time cell parses (`none` when no
row parsed): the claim's "previous row that parsed successfully". -/
def lastParsedTime (tc : String) (pre : List DataRow) : Option JNum :=
  (pre.filterMap (fun r => parseTimeToSeconds (rowGet r tc))).getLast?

/-- The claim's characterization of the segmented output: a separator goes
immediately before exactly those rows whose parsed time exceeds the last
successfully parsed time among the rows before them by more than the
threshold; rows recompute that reference from the whole prefix `pre`. -/
def segSpecAux (tc : String) (th : ℚ) (pre : List DataRow) : List DataRow → List SheetItem
  | [] => []
  | r :: rest =>
    (if (match parseTimeToSeconds (rowGet r tc), lastParsedTime tc pre with
         | some s, some p => hasGap p s th
         | _, _ => false) = true then [SheetItem.sep] else []) ++
    SheetItem.data r :: segSpecAux tc th (pre ++ [r]) rest

/-- `segSpecAux` from an empty prefix. -/
def segSpec (tc : String) (th : ℚ) (rows : List DataRow) : List SheetItem :=
  segSpecAux tc th [] rows

theorem lastParsedTime_append (tc : String) (pre : List DataRow) (r : DataRow) :
    lastParsedTime tc (pre ++ [r]) =
      match parseTimeToSeconds (rowGet r tc) with
      | some s => some s
      | none => lastParsedTime tc pre := by
  simp only [lastParsedTime, List.filterMap_append]
  cases hp : parseTimeToSeconds (rowGet r tc) with
  | none => simp [List.filterMap, hp]
  | some s => simp [List.filterMap, hp]

theorem segLoop_disabled (tc : String) (th : ℚ) (h : ¬(tc ≠ "" ∧ th > 0)) :
    ∀ (rows : List DataRow) prev,
      segmentItemsLoop tc th prev (rows.map .data) = rows.map .data := by
  intro rows
  induction rows with
  | nil => intro prev; rfl
  | cons r rest ih =>
    intro prev
    simp only [List.map_cons, segmentItemsLoop, if_neg h]
    rw [ih prev]

theorem segLoop_spec (tc : String) (th : ℚ) (h1 : tc ≠ "") (h2 : 0 < th) :
    ∀ (rows : List DataRow) pre,
      segmentItemsLoop tc th (lastParsedTime tc pre) (rows.map .data) =
        segSpecAux tc th pre rows := by
  intro rows
  induction rows with
  | nil => intro pre; rfl
  | cons r rest ih =>
    intro pre
    simp only [List.map_cons, segmentItemsLoop, if_pos (And.intro h1 h2), segSpecAux, itemGet]
    have hprev : (match parseTimeToSeconds (rowGet r tc) with
        | some s => some s
        | none => lastParsedTime tc pre) = lastParsedTime tc (pre ++ [r]) :=
      (lastParsedTime_append tc pre r).symm
    rw [hprev, ih (pre ++ [r])]

/-- C4 (confirmed): with no time column or a threshold `≤ 0` the
segmentation pass returns the input rows with no separators; otherwise it
inserts a separator immediately before exactly those rows whose parsed time
exceeds the last successfully parsed time of the preceding rows by strictly
more than the threshold — unparseable rows neither trigger separators nor
move that reference. -/
theorem C4_gap_segmentation :
    (∀ (tc : String) (th : ℚ) (rows : List DataRow), tc = "" ∨ th ≤ 0 →
      segmentRows tc th rows = rows.map .data) ∧
    (∀ (tc : String) (th : ℚ) (rows : List DataRow), tc ≠ "" → 0 < th →
      segmentRows tc th rows = segSpec tc th rows) := by
  constructor
  · intro tc th rows h
    apply segLoop_disabled
    rintro ⟨htc, hth⟩
    rcases h with h | h
    · exact htc h
    · linarith
  · intro tc th rows h1 h2
    have h0 : lastParsedTime tc [] = none := rfl
    have := segLoop_spec tc th h1 h2 rows []
    rw [h0] at this
    exact this

/-- Witness for the hypotheses of `C4_gap_segmentation`. -/
theorem C4_gap_segmentation_witness :
    (("" : String) = "" ∨ (5 : ℚ) ≤ 0) ∧
    segmentRows "" 5 [[("T", CellValue.str "1:00")]] =
      [.data [("T", CellValue.str "1:00")]] ∧
    ("T" : String) ≠ "" ∧ (0 : ℚ) < 2 ∧
    segmentRows "T" 2 [[("T", CellValue.str "1:00")], [("T", CellValue.str "2:00")]] =
      segSpec "T" 2 [[("T", CellValue.str "1:00")], [("T", CellValue.str "2:00")]] :=
  ⟨Or.inl rfl,
   C4_gap_segmentation.1 "" 5 [[("T", CellValue.str "1:00")]] (Or.inl rfl),
   by decide, by norm_num,
   C4_gap_segmentation.2 "T" 2 _ (by decide) (by norm_num)⟩

/-!  Claim C10 — separator invariant and re-segmentation. -/

/-- No separator-placement violations: the sequence neither starts nor ends
with a separator and has no two adjacent separators. -/
def noSepViolations (l : List SheetItem) : Prop :=
  l.head? ≠ some .sep ∧ l.getLast? ≠ some .sep ∧
    l.Chain' (fun a b => ¬(a = .sep ∧ b = .sep))

theorem seg_last_aux (pre : List SheetItem) (r : DataRow) (l : List SheetItem)
    (h : l.getLast? ≠ some .sep) : (pre ++ SheetItem.data r :: l).getLast? ≠ some .sep := by
  rw [List.getLast?_append]
  rcases hl : l with _ | ⟨x, xs⟩
  · simp
  · rw [List.getLast?_cons_cons]
    rw [hl] at h
    have hs : (x :: xs).getLast?.isSome := by
      rw [List.getLast?_isSome]
      simp
    rcases hx : (x :: xs).getLast? with _ | y
    · rw [hx] at hs; simp at hs
    · rw [hx] at h
      simpa [Option.or] using h

theorem segLoop_chain (tc : String) (th : ℚ) :
    ∀ (rows : List DataRow) prev,
      (segmentItemsLoop tc th prev (rows.map .data)).Chain'
          (fun a b => ¬(a = .sep ∧ b = .sep)) ∧
        (segmentItemsLoop tc th prev (rows.map .data)).getLast? ≠ some .sep := by
  intro rows
  induction rows with
  | nil => intro prev; exact ⟨List.chain'_nil, by simp [segmentItemsLoop]⟩
  | cons r rest ih =>
    intro prev
    simp only [List.map_cons, segmentItemsLoop]
    split
    · rename_i hcond
      set secs := parseTimeToSeconds (itemGet (.data r) tc) with hsecs
      set prev' := (match secs with | some s => some s | none => prev) with hprev'
      obtain ⟨ihc, ihl⟩ := ih prev'
      constructor
      · split
        · apply List.Chain'.cons
          · simp
          · apply List.Chain'.cons'
            · exact ihc
            · intro y hy
              rintro ⟨hh, -⟩
              exact SheetItem.noConfusion hh
        · apply List.Chain'.cons'
          · exact ihc
          · intro y hy
            rintro ⟨hh, -⟩
            exact SheetItem.noConfusion hh
      · split
        · exact seg_last_aux [SheetItem.sep] r _ ihl
        · exact seg_last_aux [] r _ ihl
    · obtain ⟨ihc, ihl⟩ := ih prev
      constructor
      · apply List.Chain'.cons'
        · exact ihc
        · intro y hy
          rintro ⟨hh, -⟩
          exact SheetItem.noConfusion hh
      · exact seg_last_aux [] r _ ihl

theorem segmentRows_head (tc : String) (th : ℚ) (rows : List DataRow) :
    (segmentRows tc th rows).head? ≠ some .sep := by
  cases rows with
  | nil => simp [segmentRows, segmentItemsLoop]
  | cons r rest =>
    simp only [segmentRows, List.map_cons, segmentItemsLoop]
    split
    · cases hsecs : parseTimeToSeconds (itemGet (.data r) tc) with
      | none => simp [hsecs]
      | some s => simp [hsecs]
    · simp

/-- C10 (corrected, invariant part): the segmented sequence built inside
`buildWorkbook` never begins or ends with a separator marker and never
contains two consecutive separators. -/
theorem C10_separator_invariant_amended (tc : String) (th : ℚ) (rows : List DataRow) :
    noSepViolations (segmentRows tc th rows) :=
  ⟨segmentRows_head tc th rows, (segLoop_chain tc th rows none).2,
    (segLoop_chain tc th rows none).1⟩

/-- C10 counterexample (re-segmentation part): running the same loop on its
own output inserts an additional separator next to the existing one — the
separator has no time value, so the gap between the surrounding data rows
still triggers. -/
theorem C10_resegment_cex :
    segmentRows "T" 2 [[("T", CellValue.str "0:00")], [("T", CellValue.str "1:40")]] =
      [.data [("T", CellValue.str "0:00")], .sep, .data [("T", CellValue.str "1:40")]] ∧
    segmentItems "T" 2
        [.data [("T", CellValue.str "0:00")], .sep, .data [("T", CellValue.str "1:40")]] =
      [.data [("T", CellValue.str "0:00")], .sep, .sep,
        .data [("T", CellValue.str "1:40")]] := by
  have h0 : parseTimeToSeconds (CellValue.str "0:00") = some (.num 0) := by decide
  have h1 : parseTimeToSeconds (CellValue.str "1:40") = some (.num 100) := by decide
  have hg : hasGap (.num 0) (.num 100) 2 = true := by
    simp only [hasGap, jGapGt]
    norm_num
  have hcond : (("T" : String) ≠ "" ∧ (2 : ℚ) > 0) := ⟨by decide, by norm_num⟩
  have hnull : parseTimeToSeconds CellValue.null = none := rfl
  constructor
  · simp [segmentRows, segmentItemsLoop, itemGet, rowGet, List.find?, h0, h1, hg, hcond, hnull]
  · simp [segmentItems, segmentItemsLoop, itemGet, rowGet, List.find?, h0, h1, hg, hcond, hnull]

/-!  Claim C9 — tab naming. -/

/-- The sheet names the per-tab loop intends to create (skipping tabs with
no output columns), indexing from position `i` of the full tab list. -/
def intendedFrom : ℕ → List TabDefinition → List String
  | _, [] => []
  | i, t :: rest =>
    if t.columns = [] then intendedFrom (i + 1) rest
    else safeName t.name i :: intendedFrom (i + 1) rest

theorem tabNamesAux_ok : ∀ (tabs : List TabDefinition) (i : ℕ) (used out : List String),
    ((used ++ intendedFrom i tabs).map jsLower).Nodup →
    tabSheetNamesAux tabs i used out = .ok (out.reverse ++ intendedFrom i tabs) := by
  intro tabs
  induction tabs with
  | nil => intro i used out h; simp [tabSheetNamesAux, intendedFrom]
  | cons t rest ih =>
    intro i used out h
    by_cases hcols : t.columns = []
    · have hint : intendedFrom i (t :: rest) = intendedFrom (i + 1) rest := by
        simp [intendedFrom, hcols]
      rw [hint] at h ⊢
      simp only [tabSheetNamesAux]
      rw [if_pos hcols]
      exact ih (i + 1) used out h
    · have hint : intendedFrom i (t :: rest) =
          safeName t.name i :: intendedFrom (i + 1) rest := by
        simp [intendedFrom, hcols]
      rw [hint] at h ⊢
      have hnotin : jsLower (safeName t.name i) ∉ used.map jsLower := by
        rw [List.map_append, List.nodup_append] at h
        intro hmem
        exact h.2.2 hmem (by simp)
      have hany : ¬((used.any fun m => jsLower m = jsLower (safeName t.name i)) = true) := by
        rw [List.any_eq_true]
        rintro ⟨m, hm, heq⟩
        rw [decide_eq_true_eq] at heq
        exact hnotin (by rw [← heq]; exact List.mem_map_of_mem _ hm)
      have hnodup2 : (((safeName t.name i :: used) ++
          intendedFrom (i + 1) rest).map jsLower).Nodup := by
        have hp : List.Perm ((safeName t.name i :: used) ++ intendedFrom (i + 1) rest)
            (used ++ safeName t.name i :: intendedFrom (i + 1) rest) :=
          List.perm_middle.symm
        exact ((hp.map jsLower).nodup_iff).mpr h
      simp only [tabSheetNamesAux]
      rw [if_neg hcols, if_neg hany]
      rw [ih (i + 1) (safeName t.name i :: used) (safeName t.name i :: out) hnodup2]
      simp

/-- C9 (corrected): sheet names are the tab name with `/ \ ? * [ ] :`
replaced by `-` and truncated to 31 characters; an EMPTY tab name falls back
to the ordinal name `Tab(i+1)`; and when the resulting names are pairwise
distinct (case-insensitively) every tab gets its sheet.  (The correction:
duplicates are NOT disambiguated — see the counterexample.) -/
theorem C9_tab_naming_amended :
    (∀ (name : String) (i : ℕ), name ≠ "" →
      (safeName name i).data.length ≤ 31 ∧
        ∀ c ∈ (safeName name i).data, c ∉ forbiddenSheetChars) ∧
    (∀ i : ℕ, safeName "" i = "Tab" ++ ntoa (i + 1)) ∧
    (∀ tabs : List TabDefinition, ((intendedFrom 0 tabs).map jsLower).Nodup →
      tabSheetNames tabs [] = .ok (intendedFrom 0 tabs)) := by
  refine ⟨?_, ?_, ?_⟩
  · intro name i hname
    have hdata : name.data ≠ [] := by
      intro hd
      apply hname
      cases name
      exact congrArg String.mk hd
    have hne : ((name.data.map
        (fun c => if c ∈ forbiddenSheetChars then '-' else c)).take 31) ≠ [] := by
      rcases hd : name.data with _ | ⟨c, rest⟩
      · exact absurd hd hdata
      · simp [hd]
    have hsf : safeName name i =
        ⟨(name.data.map (fun c => if c ∈ forbiddenSheetChars then '-' else c)).take 31⟩ := by
      simp only [safeName]
      rw [if_neg]
      intro hcon
      exact hne (congrArg String.data hcon)
    rw [hsf]
    constructor
    · exact le_trans (by simp) (by simp : ((name.data.map (fun c => if c ∈ forbiddenSheetChars then '-' else c)).take 31).length ≤ 31)
    · intro c hc
      have hc' := List.mem_of_mem_take hc
      rw [List.mem_map] at hc'
      obtain ⟨c0, _, rfl⟩ := hc'
      by_cases hf : c0 ∈ forbiddenSheetChars
      · rw [if_pos hf]
        decide
      · rw [if_neg hf]
        exact hf
  · intro i
    simp [safeName]
  · intro tabs h
    have := tabNamesAux_ok tabs 0 [] [] (by simpa using h)
    simpa [tabSheetNames] using this

/-- C9 counterexample: two tabs with the same (non-empty) name produce the
same sheet name and the export fails at ExcelJS `addWorksheet` instead of
being disambiguated with an ordinal suffix. -/
theorem C9_tab_naming_cex :
    tabSheetNames [⟨"A", [], ["X"]⟩, ⟨"A", [], ["Y"]⟩] [] = .error "A" := rfl

/-- Witness for the hypotheses of `C9_tab_naming_amended`. -/
theorem C9_tab_naming_amended_witness :
    (("B/C:D" : String) ≠ "" ∧
      (safeName "B/C:D" 0).data.length ≤ 31 ∧
        ∀ c ∈ (safeName "B/C:D" 0).data, c ∉ forbiddenSheetChars) ∧
    (((intendedFrom 0 [⟨"A", [], ["X"]⟩, ⟨"B", [], ["Y"]⟩]).map jsLower).Nodup ∧
      tabSheetNames [⟨"A", [], ["X"]⟩, ⟨"B", [], ["Y"]⟩] [] =
        .ok (intendedFrom 0 [⟨"A", [], ["X"]⟩, ⟨"B", [], ["Y"]⟩])) :=
  ⟨⟨by decide, (C9_tab_naming_amended.1 "B/C:D" 0 (by decide)).1,
     (C9_tab_naming_amended.1 "B/C:D" 0 (by decide)).2⟩,
   ⟨by decide, C9_tab_naming_amended.2.2 [⟨"A", [], ["X"]⟩, ⟨"B", [], ["Y"]⟩] (by decide)⟩⟩

/-!  Claim C5 — style merge precedence. -/

/-- C5 (confirmed): when a `RowFormatRule` matches the row's type value and
an override rule is the first whose condition matches the row, every style
field of the result is the override's value when that value is
truthy/non-empty and the row rule's value otherwise — a field-level merge.
In particular a bold row rule plus an override that only sets `bgColor`
yields `bold = true` with the override's fill. -/
theorem C5_style_merge (tv : String) (row : DataRow)
    (rowFormats : List RowFormatRule) (cellConditions : List CellConditionRule)
    (rr : RowFormatRule) (c : CellConditionRule)
    (hfind : rowFormats.find? (fun r => r.rowType = tv) = some rr)
    (hcond : findCond cellConditions row = some (some c)) :
    resolveStyle tv row rowFormats cellConditions = some
      { fontName := if c.fontName ≠ "" then c.fontName else rr.fontName
        fontSize := if c.fontSize ≠ 0 then c.fontSize else rr.fontSize
        bold := if c.bold then c.bold else rr.bold
        italic := if c.italic then c.italic else rr.italic
        underline := if c.underline then c.underline else rr.underline
        fill := if (if c.bgColor ≠ "" then c.bgColor else rr.bgColor) ≠ ""
                then .solid (toArgb (if c.bgColor ≠ "" then c.bgColor else rr.bgColor))
                else .nofill } ∧
    (rr.bold = true → c.bgColor ≠ "" →
      ∃ st, resolveStyle tv row rowFormats cellConditions = some st ∧
        st.bold = true ∧ st.fill = .solid (toArgb c.bgColor)) := by
  have hmain : resolveStyle tv row rowFormats cellConditions = some
      { fontName := if c.fontName ≠ "" then c.fontName else rr.fontName
        fontSize := if c.fontSize ≠ 0 then c.fontSize else rr.fontSize
        bold := if c.bold then c.bold else rr.bold
        italic := if c.italic then c.italic else rr.italic
        underline := if c.underline then c.underline else rr.underline
        fill := if (if c.bgColor ≠ "" then c.bgColor else rr.bgColor) ≠ ""
                then .solid (toArgb (if c.bgColor ≠ "" then c.bgColor else rr.bgColor))
                else .nofill } := by
    simp only [resolveStyle, hfind, hcond]
  refine ⟨hmain, fun hb hbg => ⟨_, hmain, ?_, ?_⟩⟩
  · show (if c.bold then c.bold else rr.bold) = true
    cases hcb : c.bold <;> simp [hb]
  · show (if (if c.bgColor ≠ "" then c.bgColor else rr.bgColor) ≠ "" then
        ExFill.solid (toArgb (if c.bgColor ≠ "" then c.bgColor else rr.bgColor))
      else ExFill.nofill) = ExFill.solid (toArgb c.bgColor)
    rw [if_pos hbg, if_pos hbg]

/-- Bold row rule for the `C5_style_merge` witness. -/
def c5Fmt : RowFormatRule where
  rowType := "CUE"
  bgColor := ""
  bold := true
  italic := false
  underline := false
  fontSize := 11
  fontName := "Times New Roman"

/-- Fill-only override rule for the `C5_style_merge` witness. -/
def c5Cond : CellConditionRule where
  column := ""
  contains := "C*"
  bgColor := "#00FF00"
  bold := false
  italic := false
  underline := false
  fontSize := 11
  fontName := "Times New Roman"

/-- Witness for the hypotheses of `C5_style_merge`. -/
theorem C5_style_merge_witness :
    ([c5Fmt].find? (fun r => r.rowType = "CUE") = some c5Fmt) ∧
    (findCond [c5Cond] [("TYPE", CellValue.str "CUE")] = some (some c5Cond)) ∧
    resolveStyle "CUE" [("TYPE", CellValue.str "CUE")] [c5Fmt] [c5Cond] =
      some { fontName := "Times New Roman", fontSize := 11, bold := true, italic := false,
             underline := false, fill := .solid "FF00FF00" } := by
  refine ⟨by decide, by decide, ?_⟩
  have h := (C5_style_merge "CUE" [("TYPE", CellValue.str "CUE")] [c5Fmt] [c5Cond]
    c5Fmt c5Cond (by decide) (by decide)).1
  rw [h]
  decide

/-!  Claim C8 — spreadsheet vs PDF style resolution. -/

/-- Does a jspdf `fontStyle` carry bold? -/
def pdfBold (p : PdfCellStyle) : Bool :=
  p.fontStyle = some "bold" || p.fontStyle = some "bolditalic"

/-- Does a jspdf `fontStyle` carry italic? -/
def pdfItalic (p : PdfCellStyle) : Bool :=
  p.fontStyle = some "italic" || p.fontStyle = some "bolditalic"

/-- C8 (amended, proved part): when the override-rule list is empty the
two builders resolve the same decision — same bold, same italic, and fills
derived from the same row-rule hex colour (or both absent).  The scope is
exactly `cellConditions = []`: with any override rule present the two
builders do not even agree on whether a rule matches (see the
counterexample), so no wider agreement holds. -/
theorem C8_builder_equiv_amended (tv : String) (row : DataRow) (col cellVal : String)
    (rowFormats : List RowFormatRule) :
    ∃ st, resolveStyle tv row rowFormats [] = some st ∧
      pdfBold (pdfCellStyle tv col cellVal rowFormats []) = st.bold ∧
      pdfItalic (pdfCellStyle tv col cellVal rowFormats []) = st.italic ∧
      ((st.fill = .nofill ∧ (pdfCellStyle tv col cellVal rowFormats []).fillColor = none) ∨
        (∃ hex, hex ≠ "" ∧ st.fill = .solid (toArgb hex) ∧
          (pdfCellStyle tv col cellVal rowFormats []).fillColor = some (hexToRgb hex))) := by
  rcases hrr : rowFormats.find? (fun r => r.rowType = tv) with _ | r
  · refine ⟨{ fontName := DEFAULT_FONT, fontSize := DEFAULT_FONT_SIZE, bold := false,
              italic := false, underline := false, fill := .nofill },
      ?_, ?_, ?_, Or.inl ⟨rfl, ?_⟩⟩
    · simp [resolveStyle, hrr, findCond]
    · simp [pdfCellStyle, pdfBold, hrr]
    · simp [pdfCellStyle, pdfItalic, hrr]
    · simp [pdfCellStyle, hrr]
  · refine ⟨{ fontName := r.fontName, fontSize := r.fontSize, bold := r.bold,
              italic := r.italic, underline := r.underline,
              fill := if r.bgColor ≠ "" then .solid (toArgb r.bgColor) else .nofill },
      ?_, ?_, ?_, ?_⟩
    · simp only [resolveStyle, hrr, findCond]
    · show pdfBold (pdfCellStyle tv col cellVal rowFormats []) = r.bold
      cases hb : r.bold <;> cases hi : r.italic <;>
        simp [pdfCellStyle, pdfBold, hrr, hb, hi]
    · show pdfItalic (pdfCellStyle tv col cellVal rowFormats []) = r.italic
      cases hb : r.bold <;> cases hi : r.italic <;>
        simp [pdfCellStyle, pdfItalic, hrr, hb, hi]
    · by_cases hbg : r.bgColor = ""
      · refine Or.inl ⟨by simp [hbg], ?_⟩
        simp [pdfCellStyle, hrr, hbg]
      · refine Or.inr ⟨r.bgColor, hbg, by simp [hbg], ?_⟩
        simp [pdfCellStyle, hrr, hbg]

/-- Glob-vs-substring override rule of the C8 counterexample (spreadsheet
matches, PDF does not). -/
def c8Cond : CellConditionRule where
  column := ""
  contains := "P*"
  bgColor := "#00FF00"
  bold := false
  italic := false
  underline := false
  fontSize := 11
  fontName := "Times New Roman"

/-- Override rule for the converse divergence of the C8 counterexample
(PDF matches, spreadsheet does not): `"LAY"` is a substring of `"PLAY"`
but the glob `"LAY"` does not match the whole value. -/
def c8Cond2 : CellConditionRule where
  column := ""
  contains := "LAY"
  bgColor := "#00FF00"
  bold := false
  italic := false
  underline := false
  fontSize := 11
  fontName := "Times New Roman"

/-- C8 counterexample: with an override rule present the two builders
disagree in both directions.  The spreadsheet resolver glob-matches `P*`
against the row and applies the fill while the PDF resolver
substring-searches the literal `p*` in the cell text and applies nothing;
conversely, for the rule `contains = "LAY"` on the cell `"PLAY"` the PDF
substring matcher applies the fill while the spreadsheet glob matcher
matches no rule at all — so even "which rules match" differs, and the two
builders agree only when the override list itself is empty. -/
theorem C8_builder_equiv_cex :
    (resolveStyle "CUE" [("TYPE", CellValue.str "PLAY")] [] [c8Cond] =
      some { fontName := "Times New Roman", fontSize := 11, bold := false, italic := false,
             underline := false, fill := .solid "FF00FF00" } ∧
      (pdfCellStyle "CUE" "TYPE" "PLAY" [] [c8Cond]).fillColor = none) ∧
    (resolveStyle "CUE" [("TYPE", CellValue.str "PLAY")] [] [c8Cond2] =
      some { fontName := DEFAULT_FONT, fontSize := DEFAULT_FONT_SIZE, bold := false,
             italic := false, underline := false, fill := .nofill } ∧
      (pdfCellStyle "CUE" "TYPE" "PLAY" [] [c8Cond2]).fillColor =
        some (some 0, some 255, some 0)) := by
  decide

/-- Row rule for the `C8_builder_equiv_amended` witness. -/
def c8Fmt : RowFormatRule where
  rowType := "CUE"
  bgColor := "#FF0000"
  bold := true
  italic := false
  underline := false
  fontSize := 14
  fontName := "Arial"

/-- Witness for `C8_builder_equiv_amended` (its fill disjunct carries
embedded hypotheses). -/
theorem C8_builder_equiv_amended_witness :
    ∃ st, resolveStyle "CUE" [("TYPE", CellValue.str "CUE")] [c8Fmt] [] = some st ∧
      pdfBold (pdfCellStyle "CUE" "TYPE" "CUE" [c8Fmt] []) = st.bold ∧
      pdfItalic (pdfCellStyle "CUE" "TYPE" "CUE" [c8Fmt] []) = st.italic ∧
      ((st.fill = .nofill ∧ (pdfCellStyle "CUE" "TYPE" "CUE" [c8Fmt] []).fillColor = none) ∨
        (∃ hex, hex ≠ "" ∧ st.fill = .solid (toArgb hex) ∧
          (pdfCellStyle "CUE" "TYPE" "CUE" [c8Fmt] []).fillColor = some (hexToRgb hex))) :=
  C8_builder_equiv_amended "CUE" [("TYPE", CellValue.str "CUE")] "TYPE" "CUE" [c8Fmt]

/-!  Claims C1/C2/C3 — codec infrastructure lemmas. -/

theorem dropWhile_eq_self_of_trim {s : String} (h : jsTrim s = s) :
    s.data.dropWhile jsWsChar = s.data ∧
      s.data.reverse.dropWhile jsWsChar = s.data.reverse := by
  have hdata : ((s.data.dropWhile jsWsChar).reverse.dropWhile jsWsChar).reverse = s.data := by
    have := congrArg String.data h
    simpa [jsTrim] using this
  have l1 : (s.data.dropWhile jsWsChar).length ≤ s.data.length :=
    (List.dropWhile_sublist jsWsChar).length_le
  have l2 : ((s.data.dropWhile jsWsChar).reverse.dropWhile jsWsChar).length ≤
      (s.data.dropWhile jsWsChar).length := by
    have h9 : ((s.data.dropWhile jsWsChar).reverse.dropWhile jsWsChar).length ≤
        (s.data.dropWhile jsWsChar).reverse.length :=
      (List.dropWhile_sublist jsWsChar).length_le
    simpa using h9
  have hlen : ((s.data.dropWhile jsWsChar).reverse.dropWhile jsWsChar).length = s.data.length := by
    have := congrArg List.length hdata
    simpa using this
  have h1 : s.data.dropWhile jsWsChar = s.data :=
    (List.dropWhile_sublist jsWsChar).eq_of_length_le (by omega)
  refine ⟨h1, ?_⟩
  rw [h1] at hdata hlen
  exact (List.dropWhile_sublist jsWsChar).eq_of_length_le (by rw [hlen]; simp)

theorem trim_head_not_ws {s : String} (h : jsTrim s = s) {c : Char} {rest : List Char}
    (hd : s.data = c :: rest) : jsWsChar c = false := by
  have h1 := (dropWhile_eq_self_of_trim h).1
  rw [hd] at h1
  by_contra hc
  rw [Bool.not_eq_false] at hc
  rw [List.dropWhile_cons, if_pos hc] at h1
  have := congrArg List.length h1
  have hle : (rest.dropWhile jsWsChar).length ≤ rest.length :=
    (List.dropWhile_sublist jsWsChar).length_le
  simp at this
  omega

theorem trim_last_not_ws {s : String} (h : jsTrim s = s) {c : Char} {rest : List Char}
    (hd : s.data.reverse = c :: rest) : jsWsChar c = false := by
  have h1 := (dropWhile_eq_self_of_trim h).2
  rw [hd] at h1
  by_contra hc
  rw [Bool.not_eq_false] at hc
  rw [List.dropWhile_cons, if_pos hc] at h1
  have := congrArg List.length h1
  have hle : (rest.dropWhile jsWsChar).length ≤ rest.length :=
    (List.dropWhile_sublist jsWsChar).length_le
  simp at this
  omega

theorem jsTrim_eq_self_of_ends {cs : List Char}
    (h1 : ∀ c rest, cs = c :: rest → jsWsChar c = false)
    (h2 : ∀ c rest, cs.reverse = c :: rest → jsWsChar c = false) :
    jsTrim ⟨cs⟩ = ⟨cs⟩ := by
  rcases hcs : cs with _ | ⟨c, rest⟩
  · rfl
  · simp only [jsTrim]
    have hh : jsWsChar c = false := h1 c rest hcs
    have hfirst : (c :: rest).dropWhile jsWsChar = c :: rest := by
      rw [List.dropWhile_cons, if_neg (by simp [hh])]
    show (⟨((c :: rest).dropWhile jsWsChar).reverse.dropWhile jsWsChar |>.reverse⟩ : String) = _
    rw [hfirst]
    rcases hrev : (c :: rest).reverse with _ | ⟨d, ds⟩
    · simp at hrev
    · have hlast : jsWsChar d = false := h2 d ds (by rw [hcs]; exact hrev)
      rw [List.dropWhile_cons, if_neg (by simp [hlast])]
      have hback : (d :: ds).reverse = c :: rest := by
        have h3 := congrArg List.reverse hrev
        simpa using h3.symm
      rw [hback]

theorem jsTrim_ntoa (n : ℕ) : jsTrim (ntoa n) = ntoa n := by
  exact jsTrim_eq_self_of_all (fun c hc => isDigit_not_ws (natDigits_digits n c hc))

theorem formatMMSS_no_ws (g : ℕ) : ∀ c ∈ (formatMMSS g).data, jsWsChar c = false := by
  obtain ⟨P, hP, hPlen, hPdig, hPval⟩ := padded_secs g
  have hdata : (formatMMSS g).data = natDigits (g / 60) ++ ':' :: P := by
    simp only [formatMMSS, ntoa]
    rw [← hP]
    simp [String.data_append]
    rfl
  rw [hdata]
  intro c hc
  rw [List.mem_append] at hc
  rcases hc with hc | hc
  · exact isDigit_not_ws (natDigits_digits _ c hc)
  · rcases List.mem_cons.mp hc with rfl | hc
    · decide
    · exact isDigit_not_ws (hPdig c hc)

theorem jsTrim_formatMMSS (g : ℕ) : jsTrim (formatMMSS g) = formatMMSS g := by
  exact jsTrim_eq_self_of_all (formatMMSS_no_ws g)

/-- The gap-threshold value round-trips through the sheet. -/
theorem gap_value_roundtrip (g : ℕ) :
    parseMMSSInput (jsTrim (if 0 < g then formatMMSS g else "")) = g := by
  by_cases hg : 0 < g
  · rw [if_pos hg, jsTrim_formatMMSS, parseMMSSInput_formatMMSS]
  · rw [if_neg hg]
    simp only [Nat.not_lt, Nat.le_zero] at hg
    rw [hg]
    rfl

theorem bool_tf_roundtrip (b : Bool) :
    decide (jsLower (jsTrim (if b then "true" else "false")) = "true") = b := by
  cases b <;> decide

theorem bool_yn_roundtrip (b : Bool) :
    decide (jsLower (jsTrim (if b then "yes" else "no")) = "yes") = b := by
  cases b <;> decide

theorem joinCS_head_last (l : List String) (h : ∀ s ∈ l, cleanEntry s) (hl : l ≠ []) :
    (∀ c rest, (joinCS l).data = c :: rest → jsWsChar c = false) ∧
    (∀ c rest, (joinCS l).data.reverse = c :: rest → jsWsChar c = false) := by
  induction l with
  | nil => exact absurd rfl hl
  | cons a tail ih =>
    obtain ⟨ha1, ha2, -⟩ := h a (by simp)
    cases tail with
    | nil =>
      constructor
      · intro c rest hd
        exact trim_head_not_ws ha1 hd
      · intro c rest hd
        exact trim_last_not_ws ha1 hd
    | cons b r =>
      obtain ⟨ihh, ihl⟩ := ih (fun s hs => h s (by simp [hs])) (by simp)
      have hdata : (joinCS (a :: b :: r)).data =
          a.data ++ ',' :: ' ' :: (joinCS (b :: r)).data := by
        show (a ++ ", " ++ joinCS (b :: r)).data = _
        simp [String.data_append]
      constructor
      · intro c rest hd
        rw [hdata] at hd
        rcases hda : a.data with _ | ⟨c0, rest0⟩
        · exact absurd (String.ext hda) ha2
        · rw [hda] at hd
          simp only [List.cons_append] at hd
          have hcc : c0 = c := (List.cons.inj hd).1
          rw [← hcc]
          exact trim_head_not_ws ha1 hda
      · intro c rest hd
        rw [hdata] at hd
        have hne : (joinCS (b :: r)).data.reverse ≠ [] := by
          intro hno
          have : (joinCS (b :: r)).data = [] := by simpa using congrArg List.reverse hno
          obtain ⟨hb1, hb2, -⟩ := h b (by simp)
          have hdb : (joinCS (b :: r)) = b ∨ True := Or.inr trivial
          rcases r with _ | ⟨x, xs⟩
          · apply hb2
            cases b with
            | mk d =>
              have hd0 : d = [] := by simpa [joinCS] using this
              exact congrArg String.mk hd0
          · have : (b ++ ", " ++ joinCS (x :: xs)).data = [] := by
              simp only [joinCS] at this
              exact this
            simp [String.data_append] at this
        rcases hrev : (joinCS (b :: r)).data.reverse with _ | ⟨d, ds⟩
        · exact absurd hrev hne
        · rw [List.reverse_append] at hd
          simp only [List.reverse_cons] at hd
          rw [hrev] at hd
          simp only [List.cons_append, List.append_assoc] at hd
          have hcc : d = c := (List.cons.inj hd).1
          rw [← hcc]
          exact ihl d ds hrev

theorem joinCS_trim (l : List String) (h : ∀ s ∈ l, cleanEntry s) :
    jsTrim (joinCS l) = joinCS l := by
  cases l with
  | nil => rfl
  | cons a tail =>
    obtain ⟨hh, hl⟩ := joinCS_head_last (a :: tail) h (by simp)
    have := jsTrim_eq_self_of_ends hh hl
    simpa using this

/-- The multi-value fields round-trip: encode joins with `", "`, decode
splits, trims and filters. -/
theorem splitResolve (l : List String) (h : ∀ s ∈ l, cleanEntry s) :
    (if jsTrim (joinCS l) ≠ "" then splitTrim (jsTrim (joinCS l)) else []) = l := by
  rw [joinCS_trim l h]
  cases l with
  | nil => simp [joinCS]
  | cons a tail =>
    obtain ⟨ha1, ha2, -⟩ := h a (by simp)
    have hne : joinCS (a :: tail) ≠ "" := by
      intro hc
      apply ha2
      cases tail with
      | nil => exact hc
      | cons b r =>
        have : (a ++ ", " ++ joinCS (b :: r)).data = [] := by
          rw [show (a ++ ", " ++ joinCS (b :: r)) = joinCS (a :: b :: r) from rfl, hc]
        simp [String.data_append] at this
    rw [if_pos hne]
    exact splitTrim_joinCS _ h
/-!  Claim C1 — the snapshot written for a one-tab, one-format,
one-override configuration into an empty workbook, row by row.  The
proof steps through the fourteen state updates of `writeSnapshot`. -/

set_option maxHeartbeats 1600000 in
theorem writeSnapshot_single (tc tmc : String) (g : ℕ) (tb : TitleBlock) (ims : Bool)
    (t : TabDefinition) (f : RowFormatRule) (cond : CellConditionRule) :
    writeSnapshot
      { typeColumn := tc, timeColumn := tmc, gapThresholdSeconds := g,
        titleBlock := tb, tabs := [t], includeMasterSheet := ims,
        rowFormats := [f], cellConditions := [cond] } [] =
      [("Column Mapping", ""), ("Type Column", tc),
       ("", ""), ("Gap Threshold", ""),
       ("Gap Threshold (MM:SS)", if 0 < g then formatMMSS g else ""),
       ("Time Column", tmc),
       ("", ""), ("Title Block", ""),
       ("Title Block Enabled", if tb.enabled then "yes" else "no"),
       ("Company Name", tb.companyName), ("Show Name", tb.showName),
       ("Lighting Designer", tb.lightingDesigner), ("Version", tb.version),
       ("Note 1", tb.note1), ("Note 2", tb.note2),
       ("", ""), ("Output Tabs", ""),
       ("Tab Name", t.name), ("Tab Row Types", joinCS t.rowTypes),
       ("Tab Columns", joinCS t.columns),
       ("", ""), ("Row Formats", ""),
       ("Row Name", f.rowType),
       ("Row Bold", if f.bold then "true" else "false"),
       ("Row Italic", if f.italic then "true" else "false"),
       ("Row BG Color", f.bgColor),
       ("Row Font Size", ntoa f.fontSize), ("Row Font Name", f.fontName),
       ("", ""), ("Override Rules", ""),
       ("Override Column", cond.column), ("Override Value", cond.contains),
       ("Override Bold", if cond.bold then "true" else "false"),
       ("Override Italic", if cond.italic then "true" else "false"),
       ("Override BG Color", cond.bgColor),
       ("Override Font Size", ntoa cond.fontSize),
       ("Override Font Name", cond.fontName)] := by
  have h0 : buildIdx ([] : List KV) 0 {} = {} := rfl
  have h1 :
      upsertSingleton
        { snap := [], idx := {} }
        "Column Mapping" "Type Column" tc =
      { snap := [("Column Mapping", ""), ("Type Column", tc)]
        idx := { singletonIdx := [("type column", 1)]
                 sections := ["column mapping"] } } := rfl
  have h2 :
      upsertSingleton
        { snap := [("Column Mapping", ""), ("Type Column", tc)]
          idx := { singletonIdx := [("type column", 1)]
                   sections := ["column mapping"] } }
        "Gap Threshold" "Gap Threshold (MM:SS)" (if g > 0 then formatMMSS g else "") =
      { snap := [("Column Mapping", ""), ("Type Column", tc), ("", ""), ("Gap Threshold", ""), ("Gap Threshold (MM:SS)", if g > 0 then formatMMSS g else "")]
        idx := { singletonIdx := [("type column", 1), ("gap threshold (mm:ss)", 4)]
                 sections := ["column mapping", "gap threshold"] } } := rfl
  have h3 :
      upsertSingleton
        { snap := [("Column Mapping", ""), ("Type Column", tc), ("", ""), ("Gap Threshold", ""), ("Gap Threshold (MM:SS)", if g > 0 then formatMMSS g else "")]
          idx := { singletonIdx := [("type column", 1), ("gap threshold (mm:ss)", 4)]
                   sections := ["column mapping", "gap threshold"] } }
        "Gap Threshold" "Time Column" tmc =
      { snap := [("Column Mapping", ""), ("Type Column", tc), ("", ""), ("Gap Threshold", ""), ("Gap Threshold (MM:SS)", if g > 0 then formatMMSS g else ""), ("Time Column", tmc)]
        idx := { singletonIdx := [("type column", 1), ("gap threshold (mm:ss)", 4), ("time column", 5)]
                 sections := ["column mapping", "gap threshold"] } } := rfl
  have h4 :
      upsertSingleton
        { snap := [("Column Mapping", ""), ("Type Column", tc), ("", ""), ("Gap Threshold", ""), ("Gap Threshold (MM:SS)", if g > 0 then formatMMSS g else ""), ("Time Column", tmc)]
          idx := { singletonIdx := [("type column", 1), ("gap threshold (mm:ss)", 4), ("time column", 5)]
                   sections := ["column mapping", "gap threshold"] } }
        "Title Block" "Title Block Enabled" (if tb.enabled then "yes" else "no") =
      { snap := [("Column Mapping", ""), ("Type Column", tc), ("", ""), ("Gap Threshold", ""), ("Gap Threshold (MM:SS)", if g > 0 then formatMMSS g else ""), ("Time Column", tmc), ("", ""), ("Title Block", ""), ("Title Block Enabled", if tb.enabled then "yes" else "no")]
        idx := { singletonIdx := [("type column", 1), ("gap threshold (mm:ss)", 4), ("time column", 5), ("title block enabled", 8)]
                 sections := ["column mapping", "gap threshold", "title block"] } } := rfl
  have h5 :
      upsertSingleton
        { snap := [("Column Mapping", ""), ("Type Column", tc), ("", ""), ("Gap Threshold", ""), ("Gap Threshold (MM:SS)", if g > 0 then formatMMSS g else ""), ("Time Column", tmc), ("", ""), ("Title Block", ""), ("Title Block Enabled", if tb.enabled then "yes" else "no")]
          idx := { singletonIdx := [("type column", 1), ("gap threshold (mm:ss)", 4), ("time column", 5), ("title block enabled", 8)]
                   sections := ["column mapping", "gap threshold", "title block"] } }
        "Title Block" "Company Name" tb.companyName =
      { snap := [("Column Mapping", ""), ("Type Column", tc), ("", ""), ("Gap Threshold", ""), ("Gap Threshold (MM:SS)", if g > 0 then formatMMSS g else ""), ("Time Column", tmc), ("", ""), ("Title Block", ""), ("Title Block Enabled", if tb.enabled then "yes" else "no"), ("Company Name", tb.companyName)]
        idx := { singletonIdx := [("type column", 1), ("gap threshold (mm:ss)", 4), ("time column", 5), ("title block enabled", 8), ("company name", 9)]
                 sections := ["column mapping", "gap threshold", "title block"] } } := rfl
  have h6 :
      upsertSingleton
        { snap := [("Column Mapping", ""), ("Type Column", tc), ("", ""), ("Gap Threshold", ""), ("Gap Threshold (MM:SS)", if g > 0 then formatMMSS g else ""), ("Time Column", tmc), ("", ""), ("Title Block", ""), ("Title Block Enabled", if tb.enabled then "yes" else "no"), ("Company Name", tb.companyName)]
          idx := { singletonIdx := [("type column", 1), ("gap threshold (mm:ss)", 4), ("time column", 5), ("title block enabled", 8), ("company name", 9)]
                   sections := ["column mapping", "gap threshold", "title block"] } }
        "Title Block" "Show Name" tb.showName =
      { snap := [("Column Mapping", ""), ("Type Column", tc), ("", ""), ("Gap Threshold", ""), ("Gap Threshold (MM:SS)", if g > 0 then formatMMSS g else ""), ("Time Column", tmc), ("", ""), ("Title Block", ""), ("Title Block Enabled", if tb.enabled then "yes" else "no"), ("Company Name", tb.companyName), ("Show Name", tb.showName)]
        idx := { singletonIdx := [("type column", 1), ("gap threshold (mm:ss)", 4), ("time column", 5), ("title block enabled", 8), ("company name", 9), ("show name", 10)]
                 sections := ["column mapping", "gap threshold", "title block"] } } := rfl
  have h7 :
      upsertSingleton
        { snap := [("Column Mapping", ""), ("Type Column", tc), ("", ""), ("Gap Threshold", ""), ("Gap Threshold (MM:SS)", if g > 0 then formatMMSS g else ""), ("Time Column", tmc), ("", ""), ("Title Block", ""), ("Title Block Enabled", if tb.enabled then "yes" else "no"), ("Company Name", tb.companyName), ("Show Name", tb.showName)]
          idx := { singletonIdx := [("type column", 1), ("gap threshold (mm:ss)", 4), ("time column", 5), ("title block enabled", 8), ("company name", 9), ("show name", 10)]
                   sections := ["column mapping", "gap threshold", "title block"] } }
        "Title Block" "Lighting Designer" tb.lightingDesigner =
      { snap := [("Column Mapping", ""), ("Type Column", tc), ("", ""), ("Gap Threshold", ""), ("Gap Threshold (MM:SS)", if g > 0 then formatMMSS g else ""), ("Time Column", tmc), ("", ""), ("Title Block", ""), ("Title Block Enabled", if tb.enabled then "yes" else "no"), ("Company Name", tb.companyName), ("Show Name", tb.showName), ("Lighting Designer", tb.lightingDesigner)]
        idx := { singletonIdx := [("type column", 1), ("gap threshold (mm:ss)", 4), ("time column", 5), ("title block enabled", 8), ("company name", 9), ("show name", 10), ("lighting designer", 11)]
                 sections := ["column mapping", "gap threshold", "title block"] } } := rfl
  have h8 :
      upsertSingleton
        { snap := [("Column Mapping", ""), ("Type Column", tc), ("", ""), ("Gap Threshold", ""), ("Gap Threshold (MM:SS)", if g > 0 then formatMMSS g else ""), ("Time Column", tmc), ("", ""), ("Title Block", ""), ("Title Block Enabled", if tb.enabled then "yes" else "no"), ("Company Name", tb.companyName), ("Show Name", tb.showName), ("Lighting Designer", tb.lightingDesigner)]
          idx := { singletonIdx := [("type column", 1), ("gap threshold (mm:ss)", 4), ("time column", 5), ("title block enabled", 8), ("company name", 9), ("show name", 10), ("lighting designer", 11)]
                   sections := ["column mapping", "gap threshold", "title block"] } }
        "Title Block" "Version" tb.version =
      { snap := [("Column Mapping", ""), ("Type Column", tc), ("", ""), ("Gap Threshold", ""), ("Gap Threshold (MM:SS)", if g > 0 then formatMMSS g else ""), ("Time Column", tmc), ("", ""), ("Title Block", ""), ("Title Block Enabled", if tb.enabled then "yes" else "no"), ("Company Name", tb.companyName), ("Show Name", tb.showName), ("Lighting Designer", tb.lightingDesigner), ("Version", tb.version)]
        idx := { singletonIdx := [("type column", 1), ("gap threshold (mm:ss)", 4), ("time column", 5), ("title block enabled", 8), ("company name", 9), ("show name", 10), ("lighting designer", 11), ("version", 12)]
                 sections := ["column mapping", "gap threshold", "title block"] } } := rfl
  have h9 :
      upsertSingleton
        { snap := [("Column Mapping", ""), ("Type Column", tc), ("", ""), ("Gap Threshold", ""), ("Gap Threshold (MM:SS)", if g > 0 then formatMMSS g else ""), ("Time Column", tmc), ("", ""), ("Title Block", ""), ("Title Block Enabled", if tb.enabled then "yes" else "no"), ("Company Name", tb.companyName), ("Show Name", tb.showName), ("Lighting Designer", tb.lightingDesigner), ("Version", tb.version)]
          idx := { singletonIdx := [("type column", 1), ("gap threshold (mm:ss)", 4), ("time column", 5), ("title block enabled", 8), ("company name", 9), ("show name", 10), ("lighting designer", 11), ("version", 12)]
                   sections := ["column mapping", "gap threshold", "title block"] } }
        "Title Block" "Note 1" tb.note1 =
      { snap := [("Column Mapping", ""), ("Type Column", tc), ("", ""), ("Gap Threshold", ""), ("Gap Threshold (MM:SS)", if g > 0 then formatMMSS g else ""), ("Time Column", tmc), ("", ""), ("Title Block", ""), ("Title Block Enabled", if tb.enabled then "yes" else "no"), ("Company Name", tb.companyName), ("Show Name", tb.showName), ("Lighting Designer", tb.lightingDesigner), ("Version", tb.version), ("Note 1", tb.note1)]
        idx := { singletonIdx := [("type column", 1), ("gap threshold (mm:ss)", 4), ("time column", 5), ("title block enabled", 8), ("company name", 9), ("show name", 10), ("lighting designer", 11), ("version", 12), ("note 1", 13)]
                 sections := ["column mapping", "gap threshold", "title block"] } } := rfl
  have h10 :
      upsertSingleton
        { snap := [("Column Mapping", ""), ("Type Column", tc), ("", ""), ("Gap Threshold", ""), ("Gap Threshold (MM:SS)", if g > 0 then formatMMSS g else ""), ("Time Column", tmc), ("", ""), ("Title Block", ""), ("Title Block Enabled", if tb.enabled then "yes" else "no"), ("Company Name", tb.companyName), ("Show Name", tb.showName), ("Lighting Designer", tb.lightingDesigner), ("Version", tb.version), ("Note 1", tb.note1)]
          idx := { singletonIdx := [("type column", 1), ("gap threshold (mm:ss)", 4), ("time column", 5), ("title block enabled", 8), ("company name", 9), ("show name", 10), ("lighting designer", 11), ("version", 12), ("note 1", 13)]
                   sections := ["column mapping", "gap threshold", "title block"] } }
        "Title Block" "Note 2" tb.note2 =
      { snap := [("Column Mapping", ""), ("Type Column", tc), ("", ""), ("Gap Threshold", ""), ("Gap Threshold (MM:SS)", if g > 0 then formatMMSS g else ""), ("Time Column", tmc), ("", ""), ("Title Block", ""), ("Title Block Enabled", if tb.enabled then "yes" else "no"), ("Company Name", tb.companyName), ("Show Name", tb.showName), ("Lighting Designer", tb.lightingDesigner), ("Version", tb.version), ("Note 1", tb.note1), ("Note 2", tb.note2)]
        idx := { singletonIdx := [("type column", 1), ("gap threshold (mm:ss)", 4), ("time column", 5), ("title block enabled", 8), ("company name", 9), ("show name", 10), ("lighting designer", 11), ("version", 12), ("note 1", 13), ("note 2", 14)]
                 sections := ["column mapping", "gap threshold", "title block"] } } := rfl
  have h11 :
      upsertTab
        { snap := [("Column Mapping", ""), ("Type Column", tc), ("", ""), ("Gap Threshold", ""), ("Gap Threshold (MM:SS)", if g > 0 then formatMMSS g else ""), ("Time Column", tmc), ("", ""), ("Title Block", ""), ("Title Block Enabled", if tb.enabled then "yes" else "no"), ("Company Name", tb.companyName), ("Show Name", tb.showName), ("Lighting Designer", tb.lightingDesigner), ("Version", tb.version), ("Note 1", tb.note1), ("Note 2", tb.note2)]
          idx := { singletonIdx := [("type column", 1), ("gap threshold (mm:ss)", 4), ("time column", 5), ("title block enabled", 8), ("company name", 9), ("show name", 10), ("lighting designer", 11), ("version", 12), ("note 1", 13), ("note 2", 14)]
                   sections := ["column mapping", "gap threshold", "title block"] } }
        t =
      { snap := [("Column Mapping", ""), ("Type Column", tc), ("", ""), ("Gap Threshold", ""), ("Gap Threshold (MM:SS)", if g > 0 then formatMMSS g else ""), ("Time Column", tmc), ("", ""), ("Title Block", ""), ("Title Block Enabled", if tb.enabled then "yes" else "no"), ("Company Name", tb.companyName), ("Show Name", tb.showName), ("Lighting Designer", tb.lightingDesigner), ("Version", tb.version), ("Note 1", tb.note1), ("Note 2", tb.note2), ("", ""), ("Output Tabs", ""), ("Tab Name", t.name), ("Tab Row Types", joinCS t.rowTypes), ("Tab Columns", joinCS t.columns)]
        idx := { singletonIdx := [("type column", 1), ("gap threshold (mm:ss)", 4), ("time column", 5), ("title block enabled", 8), ("company name", 9), ("show name", 10), ("lighting designer", 11), ("version", 12), ("note 1", 13), ("note 2", 14)]
                 tabIdx := [(t.name, 17)]
                 sections := ["column mapping", "gap threshold", "title block", "output tabs"] } } := rfl
  have h12 :
      upsertFmt
        { snap := [("Column Mapping", ""), ("Type Column", tc), ("", ""), ("Gap Threshold", ""), ("Gap Threshold (MM:SS)", if g > 0 then formatMMSS g else ""), ("Time Column", tmc), ("", ""), ("Title Block", ""), ("Title Block Enabled", if tb.enabled then "yes" else "no"), ("Company Name", tb.companyName), ("Show Name", tb.showName), ("Lighting Designer", tb.lightingDesigner), ("Version", tb.version), ("Note 1", tb.note1), ("Note 2", tb.note2), ("", ""), ("Output Tabs", ""), ("Tab Name", t.name), ("Tab Row Types", joinCS t.rowTypes), ("Tab Columns", joinCS t.columns)]
          idx := { singletonIdx := [("type column", 1), ("gap threshold (mm:ss)", 4), ("time column", 5), ("title block enabled", 8), ("company name", 9), ("show name", 10), ("lighting designer", 11), ("version", 12), ("note 1", 13), ("note 2", 14)]
                   tabIdx := [(t.name, 17)]
                   sections := ["column mapping", "gap threshold", "title block", "output tabs"] } }
        f =
      { snap := [("Column Mapping", ""), ("Type Column", tc), ("", ""), ("Gap Threshold", ""), ("Gap Threshold (MM:SS)", if g > 0 then formatMMSS g else ""), ("Time Column", tmc), ("", ""), ("Title Block", ""), ("Title Block Enabled", if tb.enabled then "yes" else "no"), ("Company Name", tb.companyName), ("Show Name", tb.showName), ("Lighting Designer", tb.lightingDesigner), ("Version", tb.version), ("Note 1", tb.note1), ("Note 2", tb.note2), ("", ""), ("Output Tabs", ""), ("Tab Name", t.name), ("Tab Row Types", joinCS t.rowTypes), ("Tab Columns", joinCS t.columns), ("", ""), ("Row Formats", ""), ("Row Name", f.rowType), ("Row Bold", if f.bold then "true" else "false"), ("Row Italic", if f.italic then "true" else "false"), ("Row BG Color", f.bgColor), ("Row Font Size", ntoa f.fontSize), ("Row Font Name", f.fontName)]
        idx := { singletonIdx := [("type column", 1), ("gap threshold (mm:ss)", 4), ("time column", 5), ("title block enabled", 8), ("company name", 9), ("show name", 10), ("lighting designer", 11), ("version", 12), ("note 1", 13), ("note 2", 14)]
                 tabIdx := [(t.name, 17)]
                 fmtIdx := [(f.rowType, 22)]
                 sections := ["column mapping", "gap threshold", "title block", "output tabs", "row formats"] } } := rfl
  have h13 :
      upsertCond
        { snap := [("Column Mapping", ""), ("Type Column", tc), ("", ""), ("Gap Threshold", ""), ("Gap Threshold (MM:SS)", if g > 0 then formatMMSS g else ""), ("Time Column", tmc), ("", ""), ("Title Block", ""), ("Title Block Enabled", if tb.enabled then "yes" else "no"), ("Company Name", tb.companyName), ("Show Name", tb.showName), ("Lighting Designer", tb.lightingDesigner), ("Version", tb.version), ("Note 1", tb.note1), ("Note 2", tb.note2), ("", ""), ("Output Tabs", ""), ("Tab Name", t.name), ("Tab Row Types", joinCS t.rowTypes), ("Tab Columns", joinCS t.columns), ("", ""), ("Row Formats", ""), ("Row Name", f.rowType), ("Row Bold", if f.bold then "true" else "false"), ("Row Italic", if f.italic then "true" else "false"), ("Row BG Color", f.bgColor), ("Row Font Size", ntoa f.fontSize), ("Row Font Name", f.fontName)]
          idx := { singletonIdx := [("type column", 1), ("gap threshold (mm:ss)", 4), ("time column", 5), ("title block enabled", 8), ("company name", 9), ("show name", 10), ("lighting designer", 11), ("version", 12), ("note 1", 13), ("note 2", 14)]
                   tabIdx := [(t.name, 17)]
                   fmtIdx := [(f.rowType, 22)]
                   sections := ["column mapping", "gap threshold", "title block", "output tabs", "row formats"] } }
        cond =
      { snap := [("Column Mapping", ""), ("Type Column", tc), ("", ""), ("Gap Threshold", ""), ("Gap Threshold (MM:SS)", if g > 0 then formatMMSS g else ""), ("Time Column", tmc), ("", ""), ("Title Block", ""), ("Title Block Enabled", if tb.enabled then "yes" else "no"), ("Company Name", tb.companyName), ("Show Name", tb.showName), ("Lighting Designer", tb.lightingDesigner), ("Version", tb.version), ("Note 1", tb.note1), ("Note 2", tb.note2), ("", ""), ("Output Tabs", ""), ("Tab Name", t.name), ("Tab Row Types", joinCS t.rowTypes), ("Tab Columns", joinCS t.columns), ("", ""), ("Row Formats", ""), ("Row Name", f.rowType), ("Row Bold", if f.bold then "true" else "false"), ("Row Italic", if f.italic then "true" else "false"), ("Row BG Color", f.bgColor), ("Row Font Size", ntoa f.fontSize), ("Row Font Name", f.fontName), ("", ""), ("Override Rules", ""), ("Override Column", cond.column), ("Override Value", cond.contains), ("Override Bold", if cond.bold then "true" else "false"), ("Override Italic", if cond.italic then "true" else "false"), ("Override BG Color", cond.bgColor), ("Override Font Size", ntoa cond.fontSize), ("Override Font Name", cond.fontName)]
        idx := { singletonIdx := [("type column", 1), ("gap threshold (mm:ss)", 4), ("time column", 5), ("title block enabled", 8), ("company name", 9), ("show name", 10), ("lighting designer", 11), ("version", 12), ("note 1", 13), ("note 2", 14)]
                 tabIdx := [(t.name, 17)]
                 fmtIdx := [(f.rowType, 22)]
                 condIdx := [(condIdentity cond, 30)]
                 sections := ["column mapping", "gap threshold", "title block", "output tabs", "row formats", "override rules"] } } := rfl
  simp only [writeSnapshot, List.foldl_cons, List.foldl_nil]
  rw [h0, h1, h2, h3, h4, h5, h6, h7, h8, h9, h10, h11, h12, h13]
/-!  Per-key reductions of `decodeStep` for the keys the encoder writes. -/

theorem dstep_blank (st : DecSt) : decodeStep st ("", "") = st := rfl

theorem dstep_secColMap (st : DecSt) : decodeStep st ("Column Mapping", "") = st := rfl

theorem dstep_secGap (st : DecSt) : decodeStep st ("Gap Threshold", "") = st := rfl

theorem dstep_secTitle (st : DecSt) : decodeStep st ("Title Block", "") = st := rfl

theorem dstep_secTabs (st : DecSt) : decodeStep st ("Output Tabs", "") = st := rfl

theorem dstep_secFmts (st : DecSt) : decodeStep st ("Row Formats", "") = st := rfl

theorem dstep_secOv (st : DecSt) : decodeStep st ("Override Rules", "") = st := rfl

theorem dstep_typeCol (st : DecSt) (v : String) :
    decodeStep st ("Type Column", v) = { st with typeColumn := some (jsTrim v) } := rfl

theorem dstep_timeCol (st : DecSt) (v : String) :
    decodeStep st ("Time Column", v) = { st with timeColumn := some (jsTrim v) } := rfl

theorem dstep_gap (st : DecSt) (v : String) :
    decodeStep st ("Gap Threshold (MM:SS)", v) =
      { st with gapThresholdSeconds := some (parseMMSSInput (jsTrim v)) } := rfl

theorem dstep_tbEnabled (st : DecSt) (v : String) :
    decodeStep st ("Title Block Enabled", v) =
      { st with tbEnabled := some (jsLower (jsTrim v) = "yes") } := rfl

theorem dstep_showName (st : DecSt) (v : String) :
    decodeStep st ("Show Name", v) = { st with tbShowName := some (jsTrim v) } := rfl

theorem dstep_companyName (st : DecSt) (v : String) :
    decodeStep st ("Company Name", v) = { st with tbCompanyName := some (jsTrim v) } := rfl

theorem dstep_ld (st : DecSt) (v : String) :
    decodeStep st ("Lighting Designer", v) =
      { st with tbLightingDesigner := some (jsTrim v) } := rfl

theorem dstep_version (st : DecSt) (v : String) :
    decodeStep st ("Version", v) = { st with tbVersion := some (jsTrim v) } := rfl

theorem dstep_note1 (st : DecSt) (v : String) :
    decodeStep st ("Note 1", v) = { st with tbNote1 := some (jsTrim v) } := rfl

theorem dstep_note2 (st : DecSt) (v : String) :
    decodeStep st ("Note 2", v) = { st with tbNote2 := some (jsTrim v) } := rfl

theorem dstep_tabName (st : DecSt) (v : String) :
    decodeStep st ("Tab Name", v) =
      { st with
        tabs := st.tabs ++ (match st.currentTab with | some t => [t] | none => [])
        currentTab := some { name := jsTrim v, rowTypes := [], columns := [] } } := rfl

theorem dstep_tabRowTypes (st : DecSt) (v : String) :
    decodeStep st ("Tab Row Types", v) =
      match st.currentTab with
      | some t => { st with currentTab := some { t with
          rowTypes := if jsTrim v ≠ "" then splitTrim (jsTrim v) else [] } }
      | none => st := rfl

theorem dstep_tabColumns (st : DecSt) (v : String) :
    decodeStep st ("Tab Columns", v) =
      match st.currentTab with
      | some t => { st with currentTab := some { t with
          columns := if jsTrim v ≠ "" then splitTrim (jsTrim v) else [] } }
      | none => st := rfl

theorem dstep_rowName (st : DecSt) (v : String) :
    decodeStep st ("Row Name", v) =
      { st with
        rowFormats := st.rowFormats ++
          (match st.currentRowFmt with | some f => [f] | none => [])
        currentRowFmt := some (makeRowFormatRule (jsTrim v)) } := rfl

theorem dstep_rowBold (st : DecSt) (v : String) :
    decodeStep st ("Row Bold", v) =
      match st.currentRowFmt with
      | some f => { st with currentRowFmt := some { f with
          bold := jsLower (jsTrim v) = "true" } }
      | none => st := rfl

theorem dstep_rowItalic (st : DecSt) (v : String) :
    decodeStep st ("Row Italic", v) =
      match st.currentRowFmt with
      | some f => { st with currentRowFmt := some { f with
          italic := jsLower (jsTrim v) = "true" } }
      | none => st := rfl

theorem dstep_rowBg (st : DecSt) (v : String) :
    decodeStep st ("Row BG Color", v) =
      match st.currentRowFmt with
      | some f => { st with currentRowFmt := some { f with bgColor := jsTrim v } }
      | none => st := rfl

theorem dstep_rowFontSize (st : DecSt) (v : String) :
    decodeStep st ("Row Font Size", v) =
      match st.currentRowFmt with
      | some f =>
        match jsNumberNat (jsTrim v) with
        | some n =>
          if n > 0 then { st with currentRowFmt := some { f with fontSize := n } } else st
        | none => st
      | none => st := rfl

theorem dstep_rowFontName (st : DecSt) (v : String) :
    decodeStep st ("Row Font Name", v) =
      match st.currentRowFmt with
      | some f =>
        if jsTrim v ≠ "" then
          { st with currentRowFmt := some { f with fontName := jsTrim v } }
        else st
      | none => st := rfl

theorem dstep_ovCol (st : DecSt) (v : String) :
    decodeStep st ("Override Column", v) =
      { st with
        cellConditions := st.cellConditions ++
          (match st.currentCond with | some c => [c] | none => [])
        currentCond := some { makeCellConditionRule with column := jsTrim v } } := rfl

theorem dstep_ovVal (st : DecSt) (v : String) :
    decodeStep st ("Override Value", v) =
      match st.currentCond with
      | some c => { st with currentCond := some { c with contains := jsTrim v } }
      | none => st := rfl

theorem dstep_ovBold (st : DecSt) (v : String) :
    decodeStep st ("Override Bold", v) =
      match st.currentCond with
      | some c => { st with currentCond := some { c with
          bold := jsLower (jsTrim v) = "true" } }
      | none => st := rfl

theorem dstep_ovItalic (st : DecSt) (v : String) :
    decodeStep st ("Override Italic", v) =
      match st.currentCond with
      | some c => { st with currentCond := some { c with
          italic := jsLower (jsTrim v) = "true" } }
      | none => st := rfl

theorem dstep_ovBg (st : DecSt) (v : String) :
    decodeStep st ("Override BG Color", v) =
      match st.currentCond with
      | some c => { st with currentCond := some { c with bgColor := jsTrim v } }
      | none => st := rfl

theorem dstep_ovFontSize (st : DecSt) (v : String) :
    decodeStep st ("Override Font Size", v) =
      match st.currentCond with
      | some c =>
        match jsNumberNat (jsTrim v) with
        | some n =>
          if n > 0 then { st with currentCond := some { c with fontSize := n } } else st
        | none => st
      | none => st := rfl

theorem dstep_ovFontName (st : DecSt) (v : String) :
    decodeStep st ("Override Font Name", v) =
      match st.currentCond with
      | some c =>
        if jsTrim v ≠ "" then
          { st with currentCond := some { c with fontName := jsTrim v } }
        else st
      | none => st := rfl
/-- Folding the decoder over the written single-tab snapshot yields this
final decoder state (under the cleanliness hypotheses). -/
theorem c1_decode_fold
    (tc tmc : String) (g : ℕ) (tb : TitleBlock)
    (t : TabDefinition) (f : RowFormatRule) (cond : CellConditionRule)
    (htc : jsTrim tc = tc) (htmc : jsTrim tmc = tmc)
    (hsn : jsTrim tb.showName = tb.showName)
    (hcn : jsTrim tb.companyName = tb.companyName)
    (hld : jsTrim tb.lightingDesigner = tb.lightingDesigner)
    (hver : jsTrim tb.version = tb.version)
    (hn1 : jsTrim tb.note1 = tb.note1)
    (hn2 : jsTrim tb.note2 = tb.note2)
    (htn : jsTrim t.name = t.name)
    (hrts : ∀ s ∈ t.rowTypes, cleanEntry s)
    (hcols : ∀ s ∈ t.columns, cleanEntry s)
    (hfr : jsTrim f.rowType = f.rowType)
    (hfbg : jsTrim f.bgColor = f.bgColor)
    (hfsz : 0 < f.fontSize)
    (hfn : jsTrim f.fontName = f.fontName) (hfne : f.fontName ≠ "")
    (hcc : jsTrim cond.column = cond.column)
    (hcv : jsTrim cond.contains = cond.contains)
    (hcbg : jsTrim cond.bgColor = cond.bgColor)
    (hcsz : 0 < cond.fontSize)
    (hcfn : jsTrim cond.fontName = cond.fontName) (hcfne : cond.fontName ≠ "") :
    List.foldl decodeStep {}
      [("Column Mapping", ""), ("Type Column", tc),
       ("", ""), ("Gap Threshold", ""),
       ("Gap Threshold (MM:SS)", if 0 < g then formatMMSS g else ""),
       ("Time Column", tmc),
       ("", ""), ("Title Block", ""),
       ("Title Block Enabled", if tb.enabled then "yes" else "no"),
       ("Company Name", tb.companyName), ("Show Name", tb.showName),
       ("Lighting Designer", tb.lightingDesigner), ("Version", tb.version),
       ("Note 1", tb.note1), ("Note 2", tb.note2),
       ("", ""), ("Output Tabs", ""),
       ("Tab Name", t.name), ("Tab Row Types", joinCS t.rowTypes),
       ("Tab Columns", joinCS t.columns),
       ("", ""), ("Row Formats", ""),
       ("Row Name", f.rowType),
       ("Row Bold", if f.bold then "true" else "false"),
       ("Row Italic", if f.italic then "true" else "false"),
       ("Row BG Color", f.bgColor),
       ("Row Font Size", ntoa f.fontSize), ("Row Font Name", f.fontName),
       ("", ""), ("Override Rules", ""),
       ("Override Column", cond.column), ("Override Value", cond.contains),
       ("Override Bold", if cond.bold then "true" else "false"),
       ("Override Italic", if cond.italic then "true" else "false"),
       ("Override BG Color", cond.bgColor),
       ("Override Font Size", ntoa cond.fontSize),
       ("Override Font Name", cond.fontName)] =
      { typeColumn := some tc
        timeColumn := some tmc
        gapThresholdSeconds := some g
        includeMasterSheet := none
        tbEnabled := some tb.enabled
        tbShowName := some tb.showName
        tbCompanyName := some tb.companyName
        tbLightingDesigner := some tb.lightingDesigner
        tbVersion := some tb.version
        tbNote1 := some tb.note1
        tbNote2 := some tb.note2
        tbImage := none
        tabs := []
        rowFormats := []
        cellConditions := []
        currentTab := some ⟨t.name, t.rowTypes, t.columns⟩
        currentRowFmt :=
          some ⟨f.rowType, f.bgColor, f.bold, f.italic, false, f.fontSize, f.fontName, ""⟩
        currentCond :=
          some ⟨cond.column, cond.contains, cond.bgColor, cond.bold, cond.italic,
                false, cond.fontSize, cond.fontName, ""⟩ } := by
  have hsplit1 := splitResolve t.rowTypes hrts
  have hsplit2 := splitResolve t.columns hcols
  simp only [List.foldl_cons, List.foldl_nil,
    dstep_secColMap, dstep_typeCol, dstep_blank, dstep_secGap, dstep_gap,
    dstep_timeCol, dstep_secTitle, dstep_tbEnabled, dstep_companyName,
    dstep_showName, dstep_ld, dstep_version, dstep_note1, dstep_note2,
    dstep_secTabs, dstep_tabName, dstep_tabRowTypes, dstep_tabColumns,
    dstep_secFmts, dstep_rowName, dstep_rowBold, dstep_rowItalic, dstep_rowBg,
    dstep_rowFontSize, dstep_rowFontName, dstep_secOv, dstep_ovCol,
    dstep_ovVal, dstep_ovBold, dstep_ovItalic, dstep_ovBg, dstep_ovFontSize,
    dstep_ovFontName,
    htc, htmc, hsn, hcn, hld, hver, hn1, hn2, htn, hfr, hfbg, hfn, hcc, hcv,
    hcbg, hcfn, gap_value_roundtrip, bool_yn_roundtrip, bool_tf_roundtrip,
    jsTrim_ntoa, jsNumberNat_ntoa, hsplit1, hsplit2, hfne, hcfne,
    gt_iff_lt, hfsz, hcsz, if_true, not_false_eq_true, ne_eq,
    List.append_nil, List.nil_append,
    makeRowFormatRule, makeCellConditionRule]
/-- The tail of `parseConfigSheet` after the fold: flush the in-progress
records, merge the title block over its defaults, reject an all-empty
result (same text as the source, factored on the fold state). -/
def finishDecode (st : DecSt) : Option DecodedConfig :=
  let tabs := st.tabs ++ (match st.currentTab with | some t => [t] | none => [])
  let rowFormats := st.rowFormats ++ (match st.currentRowFmt with | some f => [f] | none => [])
  let cellConditions := st.cellConditions ++ (match st.currentCond with | some c => [c] | none => [])
  let d := defaultConfig.titleBlock
  let result : DecodedConfig :=
    { typeColumn := st.typeColumn
      timeColumn := st.timeColumn
      gapThresholdSeconds := st.gapThresholdSeconds
      includeMasterSheet := st.includeMasterSheet
      titleBlock :=
        if st.tbTouched then
          some
            { enabled := st.tbEnabled.getD d.enabled
              showName := st.tbShowName.getD d.showName
              companyName := st.tbCompanyName.getD d.companyName
              lightingDesigner := st.tbLightingDesigner.getD d.lightingDesigner
              version := st.tbVersion.getD d.version
              note1 := st.tbNote1.getD d.note1
              note2 := st.tbNote2.getD d.note2
              imageDataUrl := st.tbImage.getD d.imageDataUrl }
        else none
      tabs := if tabs ≠ [] then some tabs else none
      rowFormats := if rowFormats ≠ [] then some rowFormats else none
      cellConditions := if cellConditions ≠ [] then some cellConditions else none }
  if result.typeColumn.isSome || result.timeColumn.isSome ||
      result.gapThresholdSeconds.isSome || result.includeMasterSheet.isSome ||
      result.titleBlock.isSome || result.tabs.isSome ||
      result.rowFormats.isSome || result.cellConditions.isSome then
    some result
  else none

theorem parseConfigSheet_eq (rows : List (String × String)) :
    parseConfigSheet rows =
      if rows = [] then none else finishDecode (rows.foldl decodeStep {}) := rfl

/-- A configuration exercising the fields the codec silently drops:
`includeMasterSheet := false`, a non-empty title-block image, and
`underline := true` on both styling rules. -/
def c1cexConfig : AppConfig :=
  { typeColumn := "Type", timeColumn := "Time", gapThresholdSeconds := 90,
    titleBlock := { enabled := true, showName := "Show", companyName := "Co",
                    lightingDesigner := "LD", version := "2", note1 := "n1", note2 := "n2",
                    imageDataUrl := "data:image/png;base64,AAAA" },
    tabs := [⟨"Songs", ["song"], ["Cue"]⟩],
    includeMasterSheet := false,
    rowFormats := [⟨"song", "#FF0000", true, false, true, 12, "Arial", ""⟩],
    cellConditions := [⟨"Cue", "x", "#00FF00", false, true, true, 10, "Arial", ""⟩] }

/-- **C1** (counterexample).  Encoding `c1cexConfig` (one tab, one
row-format rule, one override rule) and decoding the written rows does NOT
reproduce every recognized field: the decoded `includeMasterSheet` is
`none` although the configuration set `false`, the decoded title-block
`imageDataUrl` is `""` although the configuration carried an image, and
both decoded `underline` flags are `false` although the configuration set
them `true` — `writeConfigSheet` simply never writes those three fields. -/
theorem C1_codec_roundtrip_cex :
    parseConfigSheet (writeSnapshot c1cexConfig []) =
      some { typeColumn := some "Type", timeColumn := some "Time",
             gapThresholdSeconds := some 90, includeMasterSheet := none,
             titleBlock := some ⟨true, "Show", "Co", "LD", "2", "n1", "n2", ""⟩,
             tabs := some [⟨"Songs", ["song"], ["Cue"]⟩],
             rowFormats := some [⟨"song", "#FF0000", true, false, false, 12, "Arial", ""⟩],
             cellConditions :=
               some [⟨"Cue", "x", "#00FF00", false, true, false, 10, "Arial", ""⟩] } ∧
    c1cexConfig.includeMasterSheet = false ∧
    c1cexConfig.titleBlock.imageDataUrl ≠ "" ∧
    c1cexConfig.rowFormats.map RowFormatRule.underline = [true] ∧
    c1cexConfig.cellConditions.map CellConditionRule.underline = [true] := by
  decide

/-- **C1** (amended).  Round-trip of the configuration codec for a
configuration with one tab, one row-format rule and one override rule,
written into an empty workbook: `parseConfigSheet ∘ writeSnapshot`
recovers `typeColumn`, `timeColumn`, `gapThresholdSeconds`, every
title-block field except `imageDataUrl`, the full `TabDefinition`, and
every `RowFormatRule` / `CellConditionRule` field except `underline` (and
the UI-only `fontColor`) — provided the string fields are trimmed, the
`rowTypes` / `columns` entries are clean (trimmed, non-empty,
comma-free), and the font sizes are positive with trimmed non-empty font
names.  `includeMasterSheet` decodes to `none`, `imageDataUrl` to `""`
and the `underline` flags to `false`, because the encoder never writes
them. -/
theorem C1_codec_roundtrip_amended
    (tc tmc : String) (g : ℕ) (tb : TitleBlock) (ims : Bool)
    (t : TabDefinition) (f : RowFormatRule) (cond : CellConditionRule)
    (htc : jsTrim tc = tc) (htmc : jsTrim tmc = tmc)
    (hsn : jsTrim tb.showName = tb.showName)
    (hcn : jsTrim tb.companyName = tb.companyName)
    (hld : jsTrim tb.lightingDesigner = tb.lightingDesigner)
    (hver : jsTrim tb.version = tb.version)
    (hn1 : jsTrim tb.note1 = tb.note1)
    (hn2 : jsTrim tb.note2 = tb.note2)
    (htn : jsTrim t.name = t.name)
    (hrts : ∀ s ∈ t.rowTypes, cleanEntry s)
    (hcols : ∀ s ∈ t.columns, cleanEntry s)
    (hfr : jsTrim f.rowType = f.rowType)
    (hfbg : jsTrim f.bgColor = f.bgColor)
    (hfsz : 0 < f.fontSize)
    (hfn : jsTrim f.fontName = f.fontName) (hfne : f.fontName ≠ "")
    (hcc : jsTrim cond.column = cond.column)
    (hcv : jsTrim cond.contains = cond.contains)
    (hcbg : jsTrim cond.bgColor = cond.bgColor)
    (hcsz : 0 < cond.fontSize)
    (hcfn : jsTrim cond.fontName = cond.fontName) (hcfne : cond.fontName ≠ "") :
    parseConfigSheet (writeSnapshot
      { typeColumn := tc, timeColumn := tmc, gapThresholdSeconds := g,
        titleBlock := tb, tabs := [t], includeMasterSheet := ims,
        rowFormats := [f], cellConditions := [cond] } []) =
      some
        { typeColumn := some tc
          timeColumn := some tmc
          gapThresholdSeconds := some g
          includeMasterSheet := none
          titleBlock := some { tb with imageDataUrl := "" }
          tabs := some [t]
          rowFormats := some [{ f with underline := false, fontColor := "" }]
          cellConditions := some [{ cond with underline := false, fontColor := "" }] } := by
  have hfold := c1_decode_fold tc tmc g tb t f cond htc htmc hsn hcn hld hver hn1 hn2
    htn hrts hcols hfr hfbg hfsz hfn hfne hcc hcv hcbg hcsz hcfn hcfne
  rw [writeSnapshot_single, parseConfigSheet_eq,
    if_neg (List.cons_ne_nil _ _), hfold]
  simp only [finishDecode, DecSt.tbTouched, Option.isSome_some,
    Option.isSome_none, Bool.true_or, Bool.or_true, Option.getD_some,
    Option.getD_none, defaultConfig, List.nil_append, List.append_nil,
    ne_eq, not_false_eq_true, if_true, reduceCtorEq]

/-- **C1** (witness).  The amended round-trip theorem applied at a concrete
configuration. -/
theorem C1_codec_roundtrip_amended_witness :
    parseConfigSheet (writeSnapshot
      { typeColumn := "Type", timeColumn := "Time", gapThresholdSeconds := 90,
        titleBlock := { enabled := true, showName := "Show", companyName := "Co",
                        lightingDesigner := "LD", version := "2", note1 := "n1",
                        note2 := "n2", imageDataUrl := "ignored" },
        tabs := [⟨"Songs", ["song", "sfx"], ["Cue", "Time"]⟩],
        includeMasterSheet := true,
        rowFormats := [⟨"song", "#FF0000", true, false, false, 12, "Arial", ""⟩],
        cellConditions := [⟨"Cue", "GO", "#00FF00", false, true, false, 10, "Courier", ""⟩] } []) =
      some { typeColumn := some "Type", timeColumn := some "Time",
             gapThresholdSeconds := some 90, includeMasterSheet := none,
             titleBlock := some ⟨true, "Show", "Co", "LD", "2", "n1", "n2", ""⟩,
             tabs := some [⟨"Songs", ["song", "sfx"], ["Cue", "Time"]⟩],
             rowFormats := some [⟨"song", "#FF0000", true, false, false, 12, "Arial", ""⟩],
             cellConditions :=
               some [⟨"Cue", "GO", "#00FF00", false, true, false, 10, "Courier", ""⟩] } :=
  C1_codec_roundtrip_amended "Type" "Time" 90
    ⟨true, "Show", "Co", "LD", "2", "n1", "n2", "ignored"⟩ true
    ⟨"Songs", ["song", "sfx"], ["Cue", "Time"]⟩
    ⟨"song", "#FF0000", true, false, false, 12, "Arial", ""⟩
    ⟨"Cue", "GO", "#00FF00", false, true, false, 10, "Courier", ""⟩
    (by decide) (by decide) (by decide) (by decide) (by decide) (by decide)
    (by decide) (by decide) (by decide) (by decide) (by decide) (by decide)
    (by decide) (by decide) (by decide) (by decide) (by decide) (by decide)
    (by decide) (by decide) (by decide) (by decide)
/-!  Claim C3 — stability of the re-export.  The re-read snapshot (blank
separator rows dropped) indexes every singleton and every group, so the
second `writeSnapshot` patches every row in place with its current value
and appends nothing. -/

theorem mget_single_self (k : String) (i : ℕ) : mget [(k, i)] k = some i := by
  simp [mget, List.find?]

set_option maxHeartbeats 1600000 in
theorem c3_stable_single (tc tmc : String) (g : ℕ) (tb : TitleBlock) (ims : Bool)
    (t : TabDefinition) (f : RowFormatRule) (cond : CellConditionRule) :
    writeSnapshot
      { typeColumn := tc, timeColumn := tmc, gapThresholdSeconds := g,
        titleBlock := tb, tabs := [t], includeMasterSheet := ims,
        rowFormats := [f], cellConditions := [cond] }
      [("Column Mapping", ""),
       ("Type Column", tc),
       ("Gap Threshold", ""),
       ("Gap Threshold (MM:SS)", if 0 < g then formatMMSS g else ""),
       ("Time Column", tmc),
       ("Title Block", ""),
       ("Title Block Enabled", if tb.enabled then "yes" else "no"),
       ("Company Name", tb.companyName),
       ("Show Name", tb.showName),
       ("Lighting Designer", tb.lightingDesigner),
       ("Version", tb.version),
       ("Note 1", tb.note1),
       ("Note 2", tb.note2),
       ("Output Tabs", ""),
       ("Tab Name", t.name),
       ("Tab Row Types", joinCS t.rowTypes),
       ("Tab Columns", joinCS t.columns),
       ("Row Formats", ""),
       ("Row Name", f.rowType),
       ("Row Bold", if f.bold then "true" else "false"),
       ("Row Italic", if f.italic then "true" else "false"),
       ("Row BG Color", f.bgColor),
       ("Row Font Size", ntoa f.fontSize),
       ("Row Font Name", f.fontName),
       ("Override Rules", ""),
       ("Override Column", cond.column),
       ("Override Value", cond.contains),
       ("Override Bold", if cond.bold then "true" else "false"),
       ("Override Italic", if cond.italic then "true" else "false"),
       ("Override BG Color", cond.bgColor),
       ("Override Font Size", ntoa cond.fontSize),
       ("Override Font Name", cond.fontName)] =
      [("Column Mapping", ""),
       ("Type Column", tc),
       ("Gap Threshold", ""),
       ("Gap Threshold (MM:SS)", if 0 < g then formatMMSS g else ""),
       ("Time Column", tmc),
       ("Title Block", ""),
       ("Title Block Enabled", if tb.enabled then "yes" else "no"),
       ("Company Name", tb.companyName),
       ("Show Name", tb.showName),
       ("Lighting Designer", tb.lightingDesigner),
       ("Version", tb.version),
       ("Note 1", tb.note1),
       ("Note 2", tb.note2),
       ("Output Tabs", ""),
       ("Tab Name", t.name),
       ("Tab Row Types", joinCS t.rowTypes),
       ("Tab Columns", joinCS t.columns),
       ("Row Formats", ""),
       ("Row Name", f.rowType),
       ("Row Bold", if f.bold then "true" else "false"),
       ("Row Italic", if f.italic then "true" else "false"),
       ("Row BG Color", f.bgColor),
       ("Row Font Size", ntoa f.fontSize),
       ("Row Font Name", f.fontName),
       ("Override Rules", ""),
       ("Override Column", cond.column),
       ("Override Value", cond.contains),
       ("Override Bold", if cond.bold then "true" else "false"),
       ("Override Italic", if cond.italic then "true" else "false"),
       ("Override BG Color", cond.bgColor),
       ("Override Font Size", ntoa cond.fontSize),
       ("Override Font Name", cond.fontName)] := by
  have hidx :
      buildIdx
        [("Column Mapping", ""),
         ("Type Column", tc),
         ("Gap Threshold", ""),
         ("Gap Threshold (MM:SS)", if 0 < g then formatMMSS g else ""),
         ("Time Column", tmc),
         ("Title Block", ""),
         ("Title Block Enabled", if tb.enabled then "yes" else "no"),
         ("Company Name", tb.companyName),
         ("Show Name", tb.showName),
         ("Lighting Designer", tb.lightingDesigner),
         ("Version", tb.version),
         ("Note 1", tb.note1),
         ("Note 2", tb.note2),
         ("Output Tabs", ""),
         ("Tab Name", t.name),
         ("Tab Row Types", joinCS t.rowTypes),
         ("Tab Columns", joinCS t.columns),
         ("Row Formats", ""),
         ("Row Name", f.rowType),
         ("Row Bold", if f.bold then "true" else "false"),
         ("Row Italic", if f.italic then "true" else "false"),
         ("Row BG Color", f.bgColor),
         ("Row Font Size", ntoa f.fontSize),
         ("Row Font Name", f.fontName),
         ("Override Rules", ""),
         ("Override Column", cond.column),
         ("Override Value", cond.contains),
         ("Override Bold", if cond.bold then "true" else "false"),
         ("Override Italic", if cond.italic then "true" else "false"),
         ("Override BG Color", cond.bgColor),
         ("Override Font Size", ntoa cond.fontSize),
         ("Override Font Name", cond.fontName)]
        0 {} =
      { singletonIdx := [("type column", 1), ("gap threshold (mm:ss)", 3),
            ("time column", 4), ("title block enabled", 6), ("company name", 7),
            ("show name", 8), ("lighting designer", 9), ("version", 10),
            ("note 1", 11), ("note 2", 12)]
        tabIdx := [(t.name, 14)]
        fmtIdx := [(f.rowType, 18)]
        condIdx := [(cond.column ++ "|||" ++ cond.contains, 25)]
        sections := ["column mapping", "gap threshold", "title block",
                     "output tabs", "row formats", "override rules"] } := rfl
  have hs1 :
      upsertSingleton
        { snap :=
          [("Column Mapping", ""),
           ("Type Column", tc),
           ("Gap Threshold", ""),
           ("Gap Threshold (MM:SS)", if 0 < g then formatMMSS g else ""),
           ("Time Column", tmc),
           ("Title Block", ""),
           ("Title Block Enabled", if tb.enabled then "yes" else "no"),
           ("Company Name", tb.companyName),
           ("Show Name", tb.showName),
           ("Lighting Designer", tb.lightingDesigner),
           ("Version", tb.version),
           ("Note 1", tb.note1),
           ("Note 2", tb.note2),
           ("Output Tabs", ""),
           ("Tab Name", t.name),
           ("Tab Row Types", joinCS t.rowTypes),
           ("Tab Columns", joinCS t.columns),
           ("Row Formats", ""),
           ("Row Name", f.rowType),
           ("Row Bold", if f.bold then "true" else "false"),
           ("Row Italic", if f.italic then "true" else "false"),
           ("Row BG Color", f.bgColor),
           ("Row Font Size", ntoa f.fontSize),
           ("Row Font Name", f.fontName),
           ("Override Rules", ""),
           ("Override Column", cond.column),
           ("Override Value", cond.contains),
           ("Override Bold", if cond.bold then "true" else "false"),
           ("Override Italic", if cond.italic then "true" else "false"),
           ("Override BG Color", cond.bgColor),
           ("Override Font Size", ntoa cond.fontSize),
           ("Override Font Name", cond.fontName)]
          idx :=
            { singletonIdx := [("type column", 1), ("gap threshold (mm:ss)", 3),
                  ("time column", 4), ("title block enabled", 6), ("company name", 7),
                  ("show name", 8), ("lighting designer", 9), ("version", 10),
                  ("note 1", 11), ("note 2", 12)]
              tabIdx := [(t.name, 14)]
              fmtIdx := [(f.rowType, 18)]
              condIdx := [(cond.column ++ "|||" ++ cond.contains, 25)]
              sections := ["column mapping", "gap threshold", "title block",
                           "output tabs", "row formats", "override rules"] } }
        "Column Mapping" "Type Column" tc =
      { snap :=
        [("Column Mapping", ""),
         ("Type Column", tc),
         ("Gap Threshold", ""),
         ("Gap Threshold (MM:SS)", if 0 < g then formatMMSS g else ""),
         ("Time Column", tmc),
         ("Title Block", ""),
         ("Title Block Enabled", if tb.enabled then "yes" else "no"),
         ("Company Name", tb.companyName),
         ("Show Name", tb.showName),
         ("Lighting Designer", tb.lightingDesigner),
         ("Version", tb.version),
         ("Note 1", tb.note1),
         ("Note 2", tb.note2),
         ("Output Tabs", ""),
         ("Tab Name", t.name),
         ("Tab Row Types", joinCS t.rowTypes),
         ("Tab Columns", joinCS t.columns),
         ("Row Formats", ""),
         ("Row Name", f.rowType),
         ("Row Bold", if f.bold then "true" else "false"),
         ("Row Italic", if f.italic then "true" else "false"),
         ("Row BG Color", f.bgColor),
         ("Row Font Size", ntoa f.fontSize),
         ("Row Font Name", f.fontName),
         ("Override Rules", ""),
         ("Override Column", cond.column),
         ("Override Value", cond.contains),
         ("Override Bold", if cond.bold then "true" else "false"),
         ("Override Italic", if cond.italic then "true" else "false"),
         ("Override BG Color", cond.bgColor),
         ("Override Font Size", ntoa cond.fontSize),
         ("Override Font Name", cond.fontName)]
        idx :=
          { singletonIdx := [("type column", 1), ("gap threshold (mm:ss)", 3),
                ("time column", 4), ("title block enabled", 6), ("company name", 7),
                ("show name", 8), ("lighting designer", 9), ("version", 10),
                ("note 1", 11), ("note 2", 12)]
            tabIdx := [(t.name, 14)]
            fmtIdx := [(f.rowType, 18)]
            condIdx := [(cond.column ++ "|||" ++ cond.contains, 25)]
            sections := ["column mapping", "gap threshold", "title block",
                         "output tabs", "row formats", "override rules"] } } := rfl
  have hs2 :
      upsertSingleton
        { snap :=
          [("Column Mapping", ""),
           ("Type Column", tc),
           ("Gap Threshold", ""),
           ("Gap Threshold (MM:SS)", if 0 < g then formatMMSS g else ""),
           ("Time Column", tmc),
           ("Title Block", ""),
           ("Title Block Enabled", if tb.enabled then "yes" else "no"),
           ("Company Name", tb.companyName),
           ("Show Name", tb.showName),
           ("Lighting Designer", tb.lightingDesigner),
           ("Version", tb.version),
           ("Note 1", tb.note1),
           ("Note 2", tb.note2),
           ("Output Tabs", ""),
           ("Tab Name", t.name),
           ("Tab Row Types", joinCS t.rowTypes),
           ("Tab Columns", joinCS t.columns),
           ("Row Formats", ""),
           ("Row Name", f.rowType),
           ("Row Bold", if f.bold then "true" else "false"),
           ("Row Italic", if f.italic then "true" else "false"),
           ("Row BG Color", f.bgColor),
           ("Row Font Size", ntoa f.fontSize),
           ("Row Font Name", f.fontName),
           ("Override Rules", ""),
           ("Override Column", cond.column),
           ("Override Value", cond.contains),
           ("Override Bold", if cond.bold then "true" else "false"),
           ("Override Italic", if cond.italic then "true" else "false"),
           ("Override BG Color", cond.bgColor),
           ("Override Font Size", ntoa cond.fontSize),
           ("Override Font Name", cond.fontName)]
          idx :=
            { singletonIdx := [("type column", 1), ("gap threshold (mm:ss)", 3),
                  ("time column", 4), ("title block enabled", 6), ("company name", 7),
                  ("show name", 8), ("lighting designer", 9), ("version", 10),
                  ("note 1", 11), ("note 2", 12)]
              tabIdx := [(t.name, 14)]
              fmtIdx := [(f.rowType, 18)]
              condIdx := [(cond.column ++ "|||" ++ cond.contains, 25)]
              sections := ["column mapping", "gap threshold", "title block",
                           "output tabs", "row formats", "override rules"] } }
        "Gap Threshold" "Gap Threshold (MM:SS)" (if g > 0 then formatMMSS g else "") =
      { snap :=
        [("Column Mapping", ""),
         ("Type Column", tc),
         ("Gap Threshold", ""),
         ("Gap Threshold (MM:SS)", if 0 < g then formatMMSS g else ""),
         ("Time Column", tmc),
         ("Title Block", ""),
         ("Title Block Enabled", if tb.enabled then "yes" else "no"),
         ("Company Name", tb.companyName),
         ("Show Name", tb.showName),
         ("Lighting Designer", tb.lightingDesigner),
         ("Version", tb.version),
         ("Note 1", tb.note1),
         ("Note 2", tb.note2),
         ("Output Tabs", ""),
         ("Tab Name", t.name),
         ("Tab Row Types", joinCS t.rowTypes),
         ("Tab Columns", joinCS t.columns),
         ("Row Formats", ""),
         ("Row Name", f.rowType),
         ("Row Bold", if f.bold then "true" else "false"),
         ("Row Italic", if f.italic then "true" else "false"),
         ("Row BG Color", f.bgColor),
         ("Row Font Size", ntoa f.fontSize),
         ("Row Font Name", f.fontName),
         ("Override Rules", ""),
         ("Override Column", cond.column),
         ("Override Value", cond.contains),
         ("Override Bold", if cond.bold then "true" else "false"),
         ("Override Italic", if cond.italic then "true" else "false"),
         ("Override BG Color", cond.bgColor),
         ("Override Font Size", ntoa cond.fontSize),
         ("Override Font Name", cond.fontName)]
        idx :=
          { singletonIdx := [("type column", 1), ("gap threshold (mm:ss)", 3),
                ("time column", 4), ("title block enabled", 6), ("company name", 7),
                ("show name", 8), ("lighting designer", 9), ("version", 10),
                ("note 1", 11), ("note 2", 12)]
            tabIdx := [(t.name, 14)]
            fmtIdx := [(f.rowType, 18)]
            condIdx := [(cond.column ++ "|||" ++ cond.contains, 25)]
            sections := ["column mapping", "gap threshold", "title block",
                         "output tabs", "row formats", "override rules"] } } := rfl
  have hs3 :
      upsertSingleton
        { snap :=
          [("Column Mapping", ""),
           ("Type Column", tc),
           ("Gap Threshold", ""),
           ("Gap Threshold (MM:SS)", if 0 < g then formatMMSS g else ""),
           ("Time Column", tmc),
           ("Title Block", ""),
           ("Title Block Enabled", if tb.enabled then "yes" else "no"),
           ("Company Name", tb.companyName),
           ("Show Name", tb.showName),
           ("Lighting Designer", tb.lightingDesigner),
           ("Version", tb.version),
           ("Note 1", tb.note1),
           ("Note 2", tb.note2),
           ("Output Tabs", ""),
           ("Tab Name", t.name),
           ("Tab Row Types", joinCS t.rowTypes),
           ("Tab Columns", joinCS t.columns),
           ("Row Formats", ""),
           ("Row Name", f.rowType),
           ("Row Bold", if f.bold then "true" else "false"),
           ("Row Italic", if f.italic then "true" else "false"),
           ("Row BG Color", f.bgColor),
           ("Row Font Size", ntoa f.fontSize),
           ("Row Font Name", f.fontName),
           ("Override Rules", ""),
           ("Override Column", cond.column),
           ("Override Value", cond.contains),
           ("Override Bold", if cond.bold then "true" else "false"),
           ("Override Italic", if cond.italic then "true" else "false"),
           ("Override BG Color", cond.bgColor),
           ("Override Font Size", ntoa cond.fontSize),
           ("Override Font Name", cond.fontName)]
          idx :=
            { singletonIdx := [("type column", 1), ("gap threshold (mm:ss)", 3),
                  ("time column", 4), ("title block enabled", 6), ("company name", 7),
                  ("show name", 8), ("lighting designer", 9), ("version", 10),
                  ("note 1", 11), ("note 2", 12)]
              tabIdx := [(t.name, 14)]
              fmtIdx := [(f.rowType, 18)]
              condIdx := [(cond.column ++ "|||" ++ cond.contains, 25)]
              sections := ["column mapping", "gap threshold", "title block",
                           "output tabs", "row formats", "override rules"] } }
        "Gap Threshold" "Time Column" tmc =
      { snap :=
        [("Column Mapping", ""),
         ("Type Column", tc),
         ("Gap Threshold", ""),
         ("Gap Threshold (MM:SS)", if 0 < g then formatMMSS g else ""),
         ("Time Column", tmc),
         ("Title Block", ""),
         ("Title Block Enabled", if tb.enabled then "yes" else "no"),
         ("Company Name", tb.companyName),
         ("Show Name", tb.showName),
         ("Lighting Designer", tb.lightingDesigner),
         ("Version", tb.version),
         ("Note 1", tb.note1),
         ("Note 2", tb.note2),
         ("Output Tabs", ""),
         ("Tab Name", t.name),
         ("Tab Row Types", joinCS t.rowTypes),
         ("Tab Columns", joinCS t.columns),
         ("Row Formats", ""),
         ("Row Name", f.rowType),
         ("Row Bold", if f.bold then "true" else "false"),
         ("Row Italic", if f.italic then "true" else "false"),
         ("Row BG Color", f.bgColor),
         ("Row Font Size", ntoa f.fontSize),
         ("Row Font Name", f.fontName),
         ("Override Rules", ""),
         ("Override Column", cond.column),
         ("Override Value", cond.contains),
         ("Override Bold", if cond.bold then "true" else "false"),
         ("Override Italic", if cond.italic then "true" else "false"),
         ("Override BG Color", cond.bgColor),
         ("Override Font Size", ntoa cond.fontSize),
         ("Override Font Name", cond.fontName)]
        idx :=
          { singletonIdx := [("type column", 1), ("gap threshold (mm:ss)", 3),
                ("time column", 4), ("title block enabled", 6), ("company name", 7),
                ("show name", 8), ("lighting designer", 9), ("version", 10),
                ("note 1", 11), ("note 2", 12)]
            tabIdx := [(t.name, 14)]
            fmtIdx := [(f.rowType, 18)]
            condIdx := [(cond.column ++ "|||" ++ cond.contains, 25)]
            sections := ["column mapping", "gap threshold", "title block",
                         "output tabs", "row formats", "override rules"] } } := rfl
  have hs4 :
      upsertSingleton
        { snap :=
          [("Column Mapping", ""),
           ("Type Column", tc),
           ("Gap Threshold", ""),
           ("Gap Threshold (MM:SS)", if 0 < g then formatMMSS g else ""),
           ("Time Column", tmc),
           ("Title Block", ""),
           ("Title Block Enabled", if tb.enabled then "yes" else "no"),
           ("Company Name", tb.companyName),
           ("Show Name", tb.showName),
           ("Lighting Designer", tb.lightingDesigner),
           ("Version", tb.version),
           ("Note 1", tb.note1),
           ("Note 2", tb.note2),
           ("Output Tabs", ""),
           ("Tab Name", t.name),
           ("Tab Row Types", joinCS t.rowTypes),
           ("Tab Columns", joinCS t.columns),
           ("Row Formats", ""),
           ("Row Name", f.rowType),
           ("Row Bold", if f.bold then "true" else "false"),
           ("Row Italic", if f.italic then "true" else "false"),
           ("Row BG Color", f.bgColor),
           ("Row Font Size", ntoa f.fontSize),
           ("Row Font Name", f.fontName),
           ("Override Rules", ""),
           ("Override Column", cond.column),
           ("Override Value", cond.contains),
           ("Override Bold", if cond.bold then "true" else "false"),
           ("Override Italic", if cond.italic then "true" else "false"),
           ("Override BG Color", cond.bgColor),
           ("Override Font Size", ntoa cond.fontSize),
           ("Override Font Name", cond.fontName)]
          idx :=
            { singletonIdx := [("type column", 1), ("gap threshold (mm:ss)", 3),
                  ("time column", 4), ("title block enabled", 6), ("company name", 7),
                  ("show name", 8), ("lighting designer", 9), ("version", 10),
                  ("note 1", 11), ("note 2", 12)]
              tabIdx := [(t.name, 14)]
              fmtIdx := [(f.rowType, 18)]
              condIdx := [(cond.column ++ "|||" ++ cond.contains, 25)]
              sections := ["column mapping", "gap threshold", "title block",
                           "output tabs", "row formats", "override rules"] } }
        "Title Block" "Title Block Enabled" (if tb.enabled then "yes" else "no") =
      { snap :=
        [("Column Mapping", ""),
         ("Type Column", tc),
         ("Gap Threshold", ""),
         ("Gap Threshold (MM:SS)", if 0 < g then formatMMSS g else ""),
         ("Time Column", tmc),
         ("Title Block", ""),
         ("Title Block Enabled", if tb.enabled then "yes" else "no"),
         ("Company Name", tb.companyName),
         ("Show Name", tb.showName),
         ("Lighting Designer", tb.lightingDesigner),
         ("Version", tb.version),
         ("Note 1", tb.note1),
         ("Note 2", tb.note2),
         ("Output Tabs", ""),
         ("Tab Name", t.name),
         ("Tab Row Types", joinCS t.rowTypes),
         ("Tab Columns", joinCS t.columns),
         ("Row Formats", ""),
         ("Row Name", f.rowType),
         ("Row Bold", if f.bold then "true" else "false"),
         ("Row Italic", if f.italic then "true" else "false"),
         ("Row BG Color", f.bgColor),
         ("Row Font Size", ntoa f.fontSize),
         ("Row Font Name", f.fontName),
         ("Override Rules", ""),
         ("Override Column", cond.column),
         ("Override Value", cond.contains),
         ("Override Bold", if cond.bold then "true" else "false"),
         ("Override Italic", if cond.italic then "true" else "false"),
         ("Override BG Color", cond.bgColor),
         ("Override Font Size", ntoa cond.fontSize),
         ("Override Font Name", cond.fontName)]
        idx :=
          { singletonIdx := [("type column", 1), ("gap threshold (mm:ss)", 3),
                ("time column", 4), ("title block enabled", 6), ("company name", 7),
                ("show name", 8), ("lighting designer", 9), ("version", 10),
                ("note 1", 11), ("note 2", 12)]
            tabIdx := [(t.name, 14)]
            fmtIdx := [(f.rowType, 18)]
            condIdx := [(cond.column ++ "|||" ++ cond.contains, 25)]
            sections := ["column mapping", "gap threshold", "title block",
                         "output tabs", "row formats", "override rules"] } } := rfl
  have hs5 :
      upsertSingleton
        { snap :=
          [("Column Mapping", ""),
           ("Type Column", tc),
           ("Gap Threshold", ""),
           ("Gap Threshold (MM:SS)", if 0 < g then formatMMSS g else ""),
           ("Time Column", tmc),
           ("Title Block", ""),
           ("Title Block Enabled", if tb.enabled then "yes" else "no"),
           ("Company Name", tb.companyName),
           ("Show Name", tb.showName),
           ("Lighting Designer", tb.lightingDesigner),
           ("Version", tb.version),
           ("Note 1", tb.note1),
           ("Note 2", tb.note2),
           ("Output Tabs", ""),
           ("Tab Name", t.name),
           ("Tab Row Types", joinCS t.rowTypes),
           ("Tab Columns", joinCS t.columns),
           ("Row Formats", ""),
           ("Row Name", f.rowType),
           ("Row Bold", if f.bold then "true" else "false"),
           ("Row Italic", if f.italic then "true" else "false"),
           ("Row BG Color", f.bgColor),
           ("Row Font Size", ntoa f.fontSize),
           ("Row Font Name", f.fontName),
           ("Override Rules", ""),
           ("Override Column", cond.column),
           ("Override Value", cond.contains),
           ("Override Bold", if cond.bold then "true" else "false"),
           ("Override Italic", if cond.italic then "true" else "false"),
           ("Override BG Color", cond.bgColor),
           ("Override Font Size", ntoa cond.fontSize),
           ("Override Font Name", cond.fontName)]
          idx :=
            { singletonIdx := [("type column", 1), ("gap threshold (mm:ss)", 3),
                  ("time column", 4), ("title block enabled", 6), ("company name", 7),
                  ("show name", 8), ("lighting designer", 9), ("version", 10),
                  ("note 1", 11), ("note 2", 12)]
              tabIdx := [(t.name, 14)]
              fmtIdx := [(f.rowType, 18)]
              condIdx := [(cond.column ++ "|||" ++ cond.contains, 25)]
              sections := ["column mapping", "gap threshold", "title block",
                           "output tabs", "row formats", "override rules"] } }
        "Title Block" "Company Name" tb.companyName =
      { snap :=
        [("Column Mapping", ""),
         ("Type Column", tc),
         ("Gap Threshold", ""),
         ("Gap Threshold (MM:SS)", if 0 < g then formatMMSS g else ""),
         ("Time Column", tmc),
         ("Title Block", ""),
         ("Title Block Enabled", if tb.enabled then "yes" else "no"),
         ("Company Name", tb.companyName),
         ("Show Name", tb.showName),
         ("Lighting Designer", tb.lightingDesigner),
         ("Version", tb.version),
         ("Note 1", tb.note1),
         ("Note 2", tb.note2),
         ("Output Tabs", ""),
         ("Tab Name", t.name),
         ("Tab Row Types", joinCS t.rowTypes),
         ("Tab Columns", joinCS t.columns),
         ("Row Formats", ""),
         ("Row Name", f.rowType),
         ("Row Bold", if f.bold then "true" else "false"),
         ("Row Italic", if f.italic then "true" else "false"),
         ("Row BG Color", f.bgColor),
         ("Row Font Size", ntoa f.fontSize),
         ("Row Font Name", f.fontName),
         ("Override Rules", ""),
         ("Override Column", cond.column),
         ("Override Value", cond.contains),
         ("Override Bold", if cond.bold then "true" else "false"),
         ("Override Italic", if cond.italic then "true" else "false"),
         ("Override BG Color", cond.bgColor),
         ("Override Font Size", ntoa cond.fontSize),
         ("Override Font Name", cond.fontName)]
        idx :=
          { singletonIdx := [("type column", 1), ("gap threshold (mm:ss)", 3),
                ("time column", 4), ("title block enabled", 6), ("company name", 7),
                ("show name", 8), ("lighting designer", 9), ("version", 10),
                ("note 1", 11), ("note 2", 12)]
            tabIdx := [(t.name, 14)]
            fmtIdx := [(f.rowType, 18)]
            condIdx := [(cond.column ++ "|||" ++ cond.contains, 25)]
            sections := ["column mapping", "gap threshold", "title block",
                         "output tabs", "row formats", "override rules"] } } := rfl
  have hs6 :
      upsertSingleton
        { snap :=
          [("Column Mapping", ""),
           ("Type Column", tc),
           ("Gap Threshold", ""),
           ("Gap Threshold (MM:SS)", if 0 < g then formatMMSS g else ""),
           ("Time Column", tmc),
           ("Title Block", ""),
           ("Title Block Enabled", if tb.enabled then "yes" else "no"),
           ("Company Name", tb.companyName),
           ("Show Name", tb.showName),
           ("Lighting Designer", tb.lightingDesigner),
           ("Version", tb.version),
           ("Note 1", tb.note1),
           ("Note 2", tb.note2),
           ("Output Tabs", ""),
           ("Tab Name", t.name),
           ("Tab Row Types", joinCS t.rowTypes),
           ("Tab Columns", joinCS t.columns),
           ("Row Formats", ""),
           ("Row Name", f.rowType),
           ("Row Bold", if f.bold then "true" else "false"),
           ("Row Italic", if f.italic then "true" else "false"),
           ("Row BG Color", f.bgColor),
           ("Row Font Size", ntoa f.fontSize),
           ("Row Font Name", f.fontName),
           ("Override Rules", ""),
           ("Override Column", cond.column),
           ("Override Value", cond.contains),
           ("Override Bold", if cond.bold then "true" else "false"),
           ("Override Italic", if cond.italic then "true" else "false"),
           ("Override BG Color", cond.bgColor),
           ("Override Font Size", ntoa cond.fontSize),
           ("Override Font Name", cond.fontName)]
          idx :=
            { singletonIdx := [("type column", 1), ("gap threshold (mm:ss)", 3),
                  ("time column", 4), ("title block enabled", 6), ("company name", 7),
                  ("show name", 8), ("lighting designer", 9), ("version", 10),
                  ("note 1", 11), ("note 2", 12)]
              tabIdx := [(t.name, 14)]
              fmtIdx := [(f.rowType, 18)]
              condIdx := [(cond.column ++ "|||" ++ cond.contains, 25)]
              sections := ["column mapping", "gap threshold", "title block",
                           "output tabs", "row formats", "override rules"] } }
        "Title Block" "Show Name" tb.showName =
      { snap :=
        [("Column Mapping", ""),
         ("Type Column", tc),
         ("Gap Threshold", ""),
         ("Gap Threshold (MM:SS)", if 0 < g then formatMMSS g else ""),
         ("Time Column", tmc),
         ("Title Block", ""),
         ("Title Block Enabled", if tb.enabled then "yes" else "no"),
         ("Company Name", tb.companyName),
         ("Show Name", tb.showName),
         ("Lighting Designer", tb.lightingDesigner),
         ("Version", tb.version),
         ("Note 1", tb.note1),
         ("Note 2", tb.note2),
         ("Output Tabs", ""),
         ("Tab Name", t.name),
         ("Tab Row Types", joinCS t.rowTypes),
         ("Tab Columns", joinCS t.columns),
         ("Row Formats", ""),
         ("Row Name", f.rowType),
         ("Row Bold", if f.bold then "true" else "false"),
         ("Row Italic", if f.italic then "true" else "false"),
         ("Row BG Color", f.bgColor),
         ("Row Font Size", ntoa f.fontSize),
         ("Row Font Name", f.fontName),
         ("Override Rules", ""),
         ("Override Column", cond.column),
         ("Override Value", cond.contains),
         ("Override Bold", if cond.bold then "true" else "false"),
         ("Override Italic", if cond.italic then "true" else "false"),
         ("Override BG Color", cond.bgColor),
         ("Override Font Size", ntoa cond.fontSize),
         ("Override Font Name", cond.fontName)]
        idx :=
          { singletonIdx := [("type column", 1), ("gap threshold (mm:ss)", 3),
                ("time column", 4), ("title block enabled", 6), ("company name", 7),
                ("show name", 8), ("lighting designer", 9), ("version", 10),
                ("note 1", 11), ("note 2", 12)]
            tabIdx := [(t.name, 14)]
            fmtIdx := [(f.rowType, 18)]
            condIdx := [(cond.column ++ "|||" ++ cond.contains, 25)]
            sections := ["column mapping", "gap threshold", "title block",
                         "output tabs", "row formats", "override rules"] } } := rfl
  have hs7 :
      upsertSingleton
        { snap :=
          [("Column Mapping", ""),
           ("Type Column", tc),
           ("Gap Threshold", ""),
           ("Gap Threshold (MM:SS)", if 0 < g then formatMMSS g else ""),
           ("Time Column", tmc),
           ("Title Block", ""),
           ("Title Block Enabled", if tb.enabled then "yes" else "no"),
           ("Company Name", tb.companyName),
           ("Show Name", tb.showName),
           ("Lighting Designer", tb.lightingDesigner),
           ("Version", tb.version),
           ("Note 1", tb.note1),
           ("Note 2", tb.note2),
           ("Output Tabs", ""),
           ("Tab Name", t.name),
           ("Tab Row Types", joinCS t.rowTypes),
           ("Tab Columns", joinCS t.columns),
           ("Row Formats", ""),
           ("Row Name", f.rowType),
           ("Row Bold", if f.bold then "true" else "false"),
           ("Row Italic", if f.italic then "true" else "false"),
           ("Row BG Color", f.bgColor),
           ("Row Font Size", ntoa f.fontSize),
           ("Row Font Name", f.fontName),
           ("Override Rules", ""),
           ("Override Column", cond.column),
           ("Override Value", cond.contains),
           ("Override Bold", if cond.bold then "true" else "false"),
           ("Override Italic", if cond.italic then "true" else "false"),
           ("Override BG Color", cond.bgColor),
           ("Override Font Size", ntoa cond.fontSize),
           ("Override Font Name", cond.fontName)]
          idx :=
            { singletonIdx := [("type column", 1), ("gap threshold (mm:ss)", 3),
                  ("time column", 4), ("title block enabled", 6), ("company name", 7),
                  ("show name", 8), ("lighting designer", 9), ("version", 10),
                  ("note 1", 11), ("note 2", 12)]
              tabIdx := [(t.name, 14)]
              fmtIdx := [(f.rowType, 18)]
              condIdx := [(cond.column ++ "|||" ++ cond.contains, 25)]
              sections := ["column mapping", "gap threshold", "title block",
                           "output tabs", "row formats", "override rules"] } }
        "Title Block" "Lighting Designer" tb.lightingDesigner =
      { snap :=
        [("Column Mapping", ""),
         ("Type Column", tc),
         ("Gap Threshold", ""),
         ("Gap Threshold (MM:SS)", if 0 < g then formatMMSS g else ""),
         ("Time Column", tmc),
         ("Title Block", ""),
         ("Title Block Enabled", if tb.enabled then "yes" else "no"),
         ("Company Name", tb.companyName),
         ("Show Name", tb.showName),
         ("Lighting Designer", tb.lightingDesigner),
         ("Version", tb.version),
         ("Note 1", tb.note1),
         ("Note 2", tb.note2),
         ("Output Tabs", ""),
         ("Tab Name", t.name),
         ("Tab Row Types", joinCS t.rowTypes),
         ("Tab Columns", joinCS t.columns),
         ("Row Formats", ""),
         ("Row Name", f.rowType),
         ("Row Bold", if f.bold then "true" else "false"),
         ("Row Italic", if f.italic then "true" else "false"),
         ("Row BG Color", f.bgColor),
         ("Row Font Size", ntoa f.fontSize),
         ("Row Font Name", f.fontName),
         ("Override Rules", ""),
         ("Override Column", cond.column),
         ("Override Value", cond.contains),
         ("Override Bold", if cond.bold then "true" else "false"),
         ("Override Italic", if cond.italic then "true" else "false"),
         ("Override BG Color", cond.bgColor),
         ("Override Font Size", ntoa cond.fontSize),
         ("Override Font Name", cond.fontName)]
        idx :=
          { singletonIdx := [("type column", 1), ("gap threshold (mm:ss)", 3),
                ("time column", 4), ("title block enabled", 6), ("company name", 7),
                ("show name", 8), ("lighting designer", 9), ("version", 10),
                ("note 1", 11), ("note 2", 12)]
            tabIdx := [(t.name, 14)]
            fmtIdx := [(f.rowType, 18)]
            condIdx := [(cond.column ++ "|||" ++ cond.contains, 25)]
            sections := ["column mapping", "gap threshold", "title block",
                         "output tabs", "row formats", "override rules"] } } := rfl
  have hs8 :
      upsertSingleton
        { snap :=
          [("Column Mapping", ""),
           ("Type Column", tc),
           ("Gap Threshold", ""),
           ("Gap Threshold (MM:SS)", if 0 < g then formatMMSS g else ""),
           ("Time Column", tmc),
           ("Title Block", ""),
           ("Title Block Enabled", if tb.enabled then "yes" else "no"),
           ("Company Name", tb.companyName),
           ("Show Name", tb.showName),
           ("Lighting Designer", tb.lightingDesigner),
           ("Version", tb.version),
           ("Note 1", tb.note1),
           ("Note 2", tb.note2),
           ("Output Tabs", ""),
           ("Tab Name", t.name),
           ("Tab Row Types", joinCS t.rowTypes),
           ("Tab Columns", joinCS t.columns),
           ("Row Formats", ""),
           ("Row Name", f.rowType),
           ("Row Bold", if f.bold then "true" else "false"),
           ("Row Italic", if f.italic then "true" else "false"),
           ("Row BG Color", f.bgColor),
           ("Row Font Size", ntoa f.fontSize),
           ("Row Font Name", f.fontName),
           ("Override Rules", ""),
           ("Override Column", cond.column),
           ("Override Value", cond.contains),
           ("Override Bold", if cond.bold then "true" else "false"),
           ("Override Italic", if cond.italic then "true" else "false"),
           ("Override BG Color", cond.bgColor),
           ("Override Font Size", ntoa cond.fontSize),
           ("Override Font Name", cond.fontName)]
          idx :=
            { singletonIdx := [("type column", 1), ("gap threshold (mm:ss)", 3),
                  ("time column", 4), ("title block enabled", 6), ("company name", 7),
                  ("show name", 8), ("lighting designer", 9), ("version", 10),
                  ("note 1", 11), ("note 2", 12)]
              tabIdx := [(t.name, 14)]
              fmtIdx := [(f.rowType, 18)]
              condIdx := [(cond.column ++ "|||" ++ cond.contains, 25)]
              sections := ["column mapping", "gap threshold", "title block",
                           "output tabs", "row formats", "override rules"] } }
        "Title Block" "Version" tb.version =
      { snap :=
        [("Column Mapping", ""),
         ("Type Column", tc),
         ("Gap Threshold", ""),
         ("Gap Threshold (MM:SS)", if 0 < g then formatMMSS g else ""),
         ("Time Column", tmc),
         ("Title Block", ""),
         ("Title Block Enabled", if tb.enabled then "yes" else "no"),
         ("Company Name", tb.companyName),
         ("Show Name", tb.showName),
         ("Lighting Designer", tb.lightingDesigner),
         ("Version", tb.version),
         ("Note 1", tb.note1),
         ("Note 2", tb.note2),
         ("Output Tabs", ""),
         ("Tab Name", t.name),
         ("Tab Row Types", joinCS t.rowTypes),
         ("Tab Columns", joinCS t.columns),
         ("Row Formats", ""),
         ("Row Name", f.rowType),
         ("Row Bold", if f.bold then "true" else "false"),
         ("Row Italic", if f.italic then "true" else "false"),
         ("Row BG Color", f.bgColor),
         ("Row Font Size", ntoa f.fontSize),
         ("Row Font Name", f.fontName),
         ("Override Rules", ""),
         ("Override Column", cond.column),
         ("Override Value", cond.contains),
         ("Override Bold", if cond.bold then "true" else "false"),
         ("Override Italic", if cond.italic then "true" else "false"),
         ("Override BG Color", cond.bgColor),
         ("Override Font Size", ntoa cond.fontSize),
         ("Override Font Name", cond.fontName)]
        idx :=
          { singletonIdx := [("type column", 1), ("gap threshold (mm:ss)", 3),
                ("time column", 4), ("title block enabled", 6), ("company name", 7),
                ("show name", 8), ("lighting designer", 9), ("version", 10),
                ("note 1", 11), ("note 2", 12)]
            tabIdx := [(t.name, 14)]
            fmtIdx := [(f.rowType, 18)]
            condIdx := [(cond.column ++ "|||" ++ cond.contains, 25)]
            sections := ["column mapping", "gap threshold", "title block",
                         "output tabs", "row formats", "override rules"] } } := rfl
  have hs9 :
      upsertSingleton
        { snap :=
          [("Column Mapping", ""),
           ("Type Column", tc),
           ("Gap Threshold", ""),
           ("Gap Threshold (MM:SS)", if 0 < g then formatMMSS g else ""),
           ("Time Column", tmc),
           ("Title Block", ""),
           ("Title Block Enabled", if tb.enabled then "yes" else "no"),
           ("Company Name", tb.companyName),
           ("Show Name", tb.showName),
           ("Lighting Designer", tb.lightingDesigner),
           ("Version", tb.version),
           ("Note 1", tb.note1),
           ("Note 2", tb.note2),
           ("Output Tabs", ""),
           ("Tab Name", t.name),
           ("Tab Row Types", joinCS t.rowTypes),
           ("Tab Columns", joinCS t.columns),
           ("Row Formats", ""),
           ("Row Name", f.rowType),
           ("Row Bold", if f.bold then "true" else "false"),
           ("Row Italic", if f.italic then "true" else "false"),
           ("Row BG Color", f.bgColor),
           ("Row Font Size", ntoa f.fontSize),
           ("Row Font Name", f.fontName),
           ("Override Rules", ""),
           ("Override Column", cond.column),
           ("Override Value", cond.contains),
           ("Override Bold", if cond.bold then "true" else "false"),
           ("Override Italic", if cond.italic then "true" else "false"),
           ("Override BG Color", cond.bgColor),
           ("Override Font Size", ntoa cond.fontSize),
           ("Override Font Name", cond.fontName)]
          idx :=
            { singletonIdx := [("type column", 1), ("gap threshold (mm:ss)", 3),
                  ("time column", 4), ("title block enabled", 6), ("company name", 7),
                  ("show name", 8), ("lighting designer", 9), ("version", 10),
                  ("note 1", 11), ("note 2", 12)]
              tabIdx := [(t.name, 14)]
              fmtIdx := [(f.rowType, 18)]
              condIdx := [(cond.column ++ "|||" ++ cond.contains, 25)]
              sections := ["column mapping", "gap threshold", "title block",
                           "output tabs", "row formats", "override rules"] } }
        "Title Block" "Note 1" tb.note1 =
      { snap :=
        [("Column Mapping", ""),
         ("Type Column", tc),
         ("Gap Threshold", ""),
         ("Gap Threshold (MM:SS)", if 0 < g then formatMMSS g else ""),
         ("Time Column", tmc),
         ("Title Block", ""),
         ("Title Block Enabled", if tb.enabled then "yes" else "no"),
         ("Company Name", tb.companyName),
         ("Show Name", tb.showName),
         ("Lighting Designer", tb.lightingDesigner),
         ("Version", tb.version),
         ("Note 1", tb.note1),
         ("Note 2", tb.note2),
         ("Output Tabs", ""),
         ("Tab Name", t.name),
         ("Tab Row Types", joinCS t.rowTypes),
         ("Tab Columns", joinCS t.columns),
         ("Row Formats", ""),
         ("Row Name", f.rowType),
         ("Row Bold", if f.bold then "true" else "false"),
         ("Row Italic", if f.italic then "true" else "false"),
         ("Row BG Color", f.bgColor),
         ("Row Font Size", ntoa f.fontSize),
         ("Row Font Name", f.fontName),
         ("Override Rules", ""),
         ("Override Column", cond.column),
         ("Override Value", cond.contains),
         ("Override Bold", if cond.bold then "true" else "false"),
         ("Override Italic", if cond.italic then "true" else "false"),
         ("Override BG Color", cond.bgColor),
         ("Override Font Size", ntoa cond.fontSize),
         ("Override Font Name", cond.fontName)]
        idx :=
          { singletonIdx := [("type column", 1), ("gap threshold (mm:ss)", 3),
                ("time column", 4), ("title block enabled", 6), ("company name", 7),
                ("show name", 8), ("lighting designer", 9), ("version", 10),
                ("note 1", 11), ("note 2", 12)]
            tabIdx := [(t.name, 14)]
            fmtIdx := [(f.rowType, 18)]
            condIdx := [(cond.column ++ "|||" ++ cond.contains, 25)]
            sections := ["column mapping", "gap threshold", "title block",
                         "output tabs", "row formats", "override rules"] } } := rfl
  have hs10 :
      upsertSingleton
        { snap :=
          [("Column Mapping", ""),
           ("Type Column", tc),
           ("Gap Threshold", ""),
           ("Gap Threshold (MM:SS)", if 0 < g then formatMMSS g else ""),
           ("Time Column", tmc),
           ("Title Block", ""),
           ("Title Block Enabled", if tb.enabled then "yes" else "no"),
           ("Company Name", tb.companyName),
           ("Show Name", tb.showName),
           ("Lighting Designer", tb.lightingDesigner),
           ("Version", tb.version),
           ("Note 1", tb.note1),
           ("Note 2", tb.note2),
           ("Output Tabs", ""),
           ("Tab Name", t.name),
           ("Tab Row Types", joinCS t.rowTypes),
           ("Tab Columns", joinCS t.columns),
           ("Row Formats", ""),
           ("Row Name", f.rowType),
           ("Row Bold", if f.bold then "true" else "false"),
           ("Row Italic", if f.italic then "true" else "false"),
           ("Row BG Color", f.bgColor),
           ("Row Font Size", ntoa f.fontSize),
           ("Row Font Name", f.fontName),
           ("Override Rules", ""),
           ("Override Column", cond.column),
           ("Override Value", cond.contains),
           ("Override Bold", if cond.bold then "true" else "false"),
           ("Override Italic", if cond.italic then "true" else "false"),
           ("Override BG Color", cond.bgColor),
           ("Override Font Size", ntoa cond.fontSize),
           ("Override Font Name", cond.fontName)]
          idx :=
            { singletonIdx := [("type column", 1), ("gap threshold (mm:ss)", 3),
                  ("time column", 4), ("title block enabled", 6), ("company name", 7),
                  ("show name", 8), ("lighting designer", 9), ("version", 10),
                  ("note 1", 11), ("note 2", 12)]
              tabIdx := [(t.name, 14)]
              fmtIdx := [(f.rowType, 18)]
              condIdx := [(cond.column ++ "|||" ++ cond.contains, 25)]
              sections := ["column mapping", "gap threshold", "title block",
                           "output tabs", "row formats", "override rules"] } }
        "Title Block" "Note 2" tb.note2 =
      { snap :=
        [("Column Mapping", ""),
         ("Type Column", tc),
         ("Gap Threshold", ""),
         ("Gap Threshold (MM:SS)", if 0 < g then formatMMSS g else ""),
         ("Time Column", tmc),
         ("Title Block", ""),
         ("Title Block Enabled", if tb.enabled then "yes" else "no"),
         ("Company Name", tb.companyName),
         ("Show Name", tb.showName),
         ("Lighting Designer", tb.lightingDesigner),
         ("Version", tb.version),
         ("Note 1", tb.note1),
         ("Note 2", tb.note2),
         ("Output Tabs", ""),
         ("Tab Name", t.name),
         ("Tab Row Types", joinCS t.rowTypes),
         ("Tab Columns", joinCS t.columns),
         ("Row Formats", ""),
         ("Row Name", f.rowType),
         ("Row Bold", if f.bold then "true" else "false"),
         ("Row Italic", if f.italic then "true" else "false"),
         ("Row BG Color", f.bgColor),
         ("Row Font Size", ntoa f.fontSize),
         ("Row Font Name", f.fontName),
         ("Override Rules", ""),
         ("Override Column", cond.column),
         ("Override Value", cond.contains),
         ("Override Bold", if cond.bold then "true" else "false"),
         ("Override Italic", if cond.italic then "true" else "false"),
         ("Override BG Color", cond.bgColor),
         ("Override Font Size", ntoa cond.fontSize),
         ("Override Font Name", cond.fontName)]
        idx :=
          { singletonIdx := [("type column", 1), ("gap threshold (mm:ss)", 3),
                ("time column", 4), ("title block enabled", 6), ("company name", 7),
                ("show name", 8), ("lighting designer", 9), ("version", 10),
                ("note 1", 11), ("note 2", 12)]
            tabIdx := [(t.name, 14)]
            fmtIdx := [(f.rowType, 18)]
            condIdx := [(cond.column ++ "|||" ++ cond.contains, 25)]
            sections := ["column mapping", "gap threshold", "title block",
                         "output tabs", "row formats", "override rules"] } } := rfl
  have htab :
      upsertTab
        { snap :=
          [("Column Mapping", ""),
           ("Type Column", tc),
           ("Gap Threshold", ""),
           ("Gap Threshold (MM:SS)", if 0 < g then formatMMSS g else ""),
           ("Time Column", tmc),
           ("Title Block", ""),
           ("Title Block Enabled", if tb.enabled then "yes" else "no"),
           ("Company Name", tb.companyName),
           ("Show Name", tb.showName),
           ("Lighting Designer", tb.lightingDesigner),
           ("Version", tb.version),
           ("Note 1", tb.note1),
           ("Note 2", tb.note2),
           ("Output Tabs", ""),
           ("Tab Name", t.name),
           ("Tab Row Types", joinCS t.rowTypes),
           ("Tab Columns", joinCS t.columns),
           ("Row Formats", ""),
           ("Row Name", f.rowType),
           ("Row Bold", if f.bold then "true" else "false"),
           ("Row Italic", if f.italic then "true" else "false"),
           ("Row BG Color", f.bgColor),
           ("Row Font Size", ntoa f.fontSize),
           ("Row Font Name", f.fontName),
           ("Override Rules", ""),
           ("Override Column", cond.column),
           ("Override Value", cond.contains),
           ("Override Bold", if cond.bold then "true" else "false"),
           ("Override Italic", if cond.italic then "true" else "false"),
           ("Override BG Color", cond.bgColor),
           ("Override Font Size", ntoa cond.fontSize),
           ("Override Font Name", cond.fontName)]
          idx :=
            { singletonIdx := [("type column", 1), ("gap threshold (mm:ss)", 3),
                  ("time column", 4), ("title block enabled", 6), ("company name", 7),
                  ("show name", 8), ("lighting designer", 9), ("version", 10),
                  ("note 1", 11), ("note 2", 12)]
              tabIdx := [(t.name, 14)]
              fmtIdx := [(f.rowType, 18)]
              condIdx := [(cond.column ++ "|||" ++ cond.contains, 25)]
              sections := ["column mapping", "gap threshold", "title block",
                           "output tabs", "row formats", "override rules"] } }
        t =
      { snap :=
        [("Column Mapping", ""),
         ("Type Column", tc),
         ("Gap Threshold", ""),
         ("Gap Threshold (MM:SS)", if 0 < g then formatMMSS g else ""),
         ("Time Column", tmc),
         ("Title Block", ""),
         ("Title Block Enabled", if tb.enabled then "yes" else "no"),
         ("Company Name", tb.companyName),
         ("Show Name", tb.showName),
         ("Lighting Designer", tb.lightingDesigner),
         ("Version", tb.version),
         ("Note 1", tb.note1),
         ("Note 2", tb.note2),
         ("Output Tabs", ""),
         ("Tab Name", t.name),
         ("Tab Row Types", joinCS t.rowTypes),
         ("Tab Columns", joinCS t.columns),
         ("Row Formats", ""),
         ("Row Name", f.rowType),
         ("Row Bold", if f.bold then "true" else "false"),
         ("Row Italic", if f.italic then "true" else "false"),
         ("Row BG Color", f.bgColor),
         ("Row Font Size", ntoa f.fontSize),
         ("Row Font Name", f.fontName),
         ("Override Rules", ""),
         ("Override Column", cond.column),
         ("Override Value", cond.contains),
         ("Override Bold", if cond.bold then "true" else "false"),
         ("Override Italic", if cond.italic then "true" else "false"),
         ("Override BG Color", cond.bgColor),
         ("Override Font Size", ntoa cond.fontSize),
         ("Override Font Name", cond.fontName)]
        idx :=
          { singletonIdx := [("type column", 1), ("gap threshold (mm:ss)", 3),
                ("time column", 4), ("title block enabled", 6), ("company name", 7),
                ("show name", 8), ("lighting designer", 9), ("version", 10),
                ("note 1", 11), ("note 2", 12)]
            tabIdx := [(t.name, 14)]
            fmtIdx := [(f.rowType, 18)]
            condIdx := [(cond.column ++ "|||" ++ cond.contains, 25)]
            sections := ["column mapping", "gap threshold", "title block",
                         "output tabs", "row formats", "override rules"] } } := by
    simp only [upsertTab, mget_single_self]
    rfl

  have hfmt :
      upsertFmt
        { snap :=
          [("Column Mapping", ""),
           ("Type Column", tc),
           ("Gap Threshold", ""),
           ("Gap Threshold (MM:SS)", if 0 < g then formatMMSS g else ""),
           ("Time Column", tmc),
           ("Title Block", ""),
           ("Title Block Enabled", if tb.enabled then "yes" else "no"),
           ("Company Name", tb.companyName),
           ("Show Name", tb.showName),
           ("Lighting Designer", tb.lightingDesigner),
           ("Version", tb.version),
           ("Note 1", tb.note1),
           ("Note 2", tb.note2),
           ("Output Tabs", ""),
           ("Tab Name", t.name),
           ("Tab Row Types", joinCS t.rowTypes),
           ("Tab Columns", joinCS t.columns),
           ("Row Formats", ""),
           ("Row Name", f.rowType),
           ("Row Bold", if f.bold then "true" else "false"),
           ("Row Italic", if f.italic then "true" else "false"),
           ("Row BG Color", f.bgColor),
           ("Row Font Size", ntoa f.fontSize),
           ("Row Font Name", f.fontName),
           ("Override Rules", ""),
           ("Override Column", cond.column),
           ("Override Value", cond.contains),
           ("Override Bold", if cond.bold then "true" else "false"),
           ("Override Italic", if cond.italic then "true" else "false"),
           ("Override BG Color", cond.bgColor),
           ("Override Font Size", ntoa cond.fontSize),
           ("Override Font Name", cond.fontName)]
          idx :=
            { singletonIdx := [("type column", 1), ("gap threshold (mm:ss)", 3),
                  ("time column", 4), ("title block enabled", 6), ("company name", 7),
                  ("show name", 8), ("lighting designer", 9), ("version", 10),
                  ("note 1", 11), ("note 2", 12)]
              tabIdx := [(t.name, 14)]
              fmtIdx := [(f.rowType, 18)]
              condIdx := [(cond.column ++ "|||" ++ cond.contains, 25)]
              sections := ["column mapping", "gap threshold", "title block",
                           "output tabs", "row formats", "override rules"] } }
        f =
      { snap :=
        [("Column Mapping", ""),
         ("Type Column", tc),
         ("Gap Threshold", ""),
         ("Gap Threshold (MM:SS)", if 0 < g then formatMMSS g else ""),
         ("Time Column", tmc),
         ("Title Block", ""),
         ("Title Block Enabled", if tb.enabled then "yes" else "no"),
         ("Company Name", tb.companyName),
         ("Show Name", tb.showName),
         ("Lighting Designer", tb.lightingDesigner),
         ("Version", tb.version),
         ("Note 1", tb.note1),
         ("Note 2", tb.note2),
         ("Output Tabs", ""),
         ("Tab Name", t.name),
         ("Tab Row Types", joinCS t.rowTypes),
         ("Tab Columns", joinCS t.columns),
         ("Row Formats", ""),
         ("Row Name", f.rowType),
         ("Row Bold", if f.bold then "true" else "false"),
         ("Row Italic", if f.italic then "true" else "false"),
         ("Row BG Color", f.bgColor),
         ("Row Font Size", ntoa f.fontSize),
         ("Row Font Name", f.fontName),
         ("Override Rules", ""),
         ("Override Column", cond.column),
         ("Override Value", cond.contains),
         ("Override Bold", if cond.bold then "true" else "false"),
         ("Override Italic", if cond.italic then "true" else "false"),
         ("Override BG Color", cond.bgColor),
         ("Override Font Size", ntoa cond.fontSize),
         ("Override Font Name", cond.fontName)]
        idx :=
          { singletonIdx := [("type column", 1), ("gap threshold (mm:ss)", 3),
                ("time column", 4), ("title block enabled", 6), ("company name", 7),
                ("show name", 8), ("lighting designer", 9), ("version", 10),
                ("note 1", 11), ("note 2", 12)]
            tabIdx := [(t.name, 14)]
            fmtIdx := [(f.rowType, 18)]
            condIdx := [(cond.column ++ "|||" ++ cond.contains, 25)]
            sections := ["column mapping", "gap threshold", "title block",
                         "output tabs", "row formats", "override rules"] } } := by
    simp only [upsertFmt, mget_single_self]
    rfl

  have hcond :
      upsertCond
        { snap :=
          [("Column Mapping", ""),
           ("Type Column", tc),
           ("Gap Threshold", ""),
           ("Gap Threshold (MM:SS)", if 0 < g then formatMMSS g else ""),
           ("Time Column", tmc),
           ("Title Block", ""),
           ("Title Block Enabled", if tb.enabled then "yes" else "no"),
           ("Company Name", tb.companyName),
           ("Show Name", tb.showName),
           ("Lighting Designer", tb.lightingDesigner),
           ("Version", tb.version),
           ("Note 1", tb.note1),
           ("Note 2", tb.note2),
           ("Output Tabs", ""),
           ("Tab Name", t.name),
           ("Tab Row Types", joinCS t.rowTypes),
           ("Tab Columns", joinCS t.columns),
           ("Row Formats", ""),
           ("Row Name", f.rowType),
           ("Row Bold", if f.bold then "true" else "false"),
           ("Row Italic", if f.italic then "true" else "false"),
           ("Row BG Color", f.bgColor),
           ("Row Font Size", ntoa f.fontSize),
           ("Row Font Name", f.fontName),
           ("Override Rules", ""),
           ("Override Column", cond.column),
           ("Override Value", cond.contains),
           ("Override Bold", if cond.bold then "true" else "false"),
           ("Override Italic", if cond.italic then "true" else "false"),
           ("Override BG Color", cond.bgColor),
           ("Override Font Size", ntoa cond.fontSize),
           ("Override Font Name", cond.fontName)]
          idx :=
            { singletonIdx := [("type column", 1), ("gap threshold (mm:ss)", 3),
                  ("time column", 4), ("title block enabled", 6), ("company name", 7),
                  ("show name", 8), ("lighting designer", 9), ("version", 10),
                  ("note 1", 11), ("note 2", 12)]
              tabIdx := [(t.name, 14)]
              fmtIdx := [(f.rowType, 18)]
              condIdx := [(cond.column ++ "|||" ++ cond.contains, 25)]
              sections := ["column mapping", "gap threshold", "title block",
                           "output tabs", "row formats", "override rules"] } }
        cond =
      { snap :=
        [("Column Mapping", ""),
         ("Type Column", tc),
         ("Gap Threshold", ""),
         ("Gap Threshold (MM:SS)", if 0 < g then formatMMSS g else ""),
         ("Time Column", tmc),
         ("Title Block", ""),
         ("Title Block Enabled", if tb.enabled then "yes" else "no"),
         ("Company Name", tb.companyName),
         ("Show Name", tb.showName),
         ("Lighting Designer", tb.lightingDesigner),
         ("Version", tb.version),
         ("Note 1", tb.note1),
         ("Note 2", tb.note2),
         ("Output Tabs", ""),
         ("Tab Name", t.name),
         ("Tab Row Types", joinCS t.rowTypes),
         ("Tab Columns", joinCS t.columns),
         ("Row Formats", ""),
         ("Row Name", f.rowType),
         ("Row Bold", if f.bold then "true" else "false"),
         ("Row Italic", if f.italic then "true" else "false"),
         ("Row BG Color", f.bgColor),
         ("Row Font Size", ntoa f.fontSize),
         ("Row Font Name", f.fontName),
         ("Override Rules", ""),
         ("Override Column", cond.column),
         ("Override Value", cond.contains),
         ("Override Bold", if cond.bold then "true" else "false"),
         ("Override Italic", if cond.italic then "true" else "false"),
         ("Override BG Color", cond.bgColor),
         ("Override Font Size", ntoa cond.fontSize),
         ("Override Font Name", cond.fontName)]
        idx :=
          { singletonIdx := [("type column", 1), ("gap threshold (mm:ss)", 3),
                ("time column", 4), ("title block enabled", 6), ("company name", 7),
                ("show name", 8), ("lighting designer", 9), ("version", 10),
                ("note 1", 11), ("note 2", 12)]
            tabIdx := [(t.name, 14)]
            fmtIdx := [(f.rowType, 18)]
            condIdx := [(cond.column ++ "|||" ++ cond.contains, 25)]
            sections := ["column mapping", "gap threshold", "title block",
                         "output tabs", "row formats", "override rules"] } } := by
    simp only [upsertCond, condIdentity, mget_single_self]
    rfl

  simp only [writeSnapshot, List.foldl_cons, List.foldl_nil]
  rw [hidx, hs1, hs2, hs3, hs4, hs5, hs6, hs7, hs8, hs9, hs10, htab, hfmt, hcond]
theorem c3_drop (tc tmc : String) (g : ℕ) (tb : TitleBlock)
    (t : TabDefinition) (f : RowFormatRule) (cond : CellConditionRule) :
    dropBlankRows
      [("Column Mapping", ""),
       ("Type Column", tc),
       ("", ""),
       ("Gap Threshold", ""),
       ("Gap Threshold (MM:SS)", if 0 < g then formatMMSS g else ""),
       ("Time Column", tmc),
       ("", ""),
       ("Title Block", ""),
       ("Title Block Enabled", if tb.enabled then "yes" else "no"),
       ("Company Name", tb.companyName),
       ("Show Name", tb.showName),
       ("Lighting Designer", tb.lightingDesigner),
       ("Version", tb.version),
       ("Note 1", tb.note1),
       ("Note 2", tb.note2),
       ("", ""),
       ("Output Tabs", ""),
       ("Tab Name", t.name),
       ("Tab Row Types", joinCS t.rowTypes),
       ("Tab Columns", joinCS t.columns),
       ("", ""),
       ("Row Formats", ""),
       ("Row Name", f.rowType),
       ("Row Bold", if f.bold then "true" else "false"),
       ("Row Italic", if f.italic then "true" else "false"),
       ("Row BG Color", f.bgColor),
       ("Row Font Size", ntoa f.fontSize),
       ("Row Font Name", f.fontName),
       ("", ""),
       ("Override Rules", ""),
       ("Override Column", cond.column),
       ("Override Value", cond.contains),
       ("Override Bold", if cond.bold then "true" else "false"),
       ("Override Italic", if cond.italic then "true" else "false"),
       ("Override BG Color", cond.bgColor),
       ("Override Font Size", ntoa cond.fontSize),
       ("Override Font Name", cond.fontName)] =
      [("Column Mapping", ""),
       ("Type Column", tc),
       ("Gap Threshold", ""),
       ("Gap Threshold (MM:SS)", if 0 < g then formatMMSS g else ""),
       ("Time Column", tmc),
       ("Title Block", ""),
       ("Title Block Enabled", if tb.enabled then "yes" else "no"),
       ("Company Name", tb.companyName),
       ("Show Name", tb.showName),
       ("Lighting Designer", tb.lightingDesigner),
       ("Version", tb.version),
       ("Note 1", tb.note1),
       ("Note 2", tb.note2),
       ("Output Tabs", ""),
       ("Tab Name", t.name),
       ("Tab Row Types", joinCS t.rowTypes),
       ("Tab Columns", joinCS t.columns),
       ("Row Formats", ""),
       ("Row Name", f.rowType),
       ("Row Bold", if f.bold then "true" else "false"),
       ("Row Italic", if f.italic then "true" else "false"),
       ("Row BG Color", f.bgColor),
       ("Row Font Size", ntoa f.fontSize),
       ("Row Font Name", f.fontName),
       ("Override Rules", ""),
       ("Override Column", cond.column),
       ("Override Value", cond.contains),
       ("Override Bold", if cond.bold then "true" else "false"),
       ("Override Italic", if cond.italic then "true" else "false"),
       ("Override BG Color", cond.bgColor),
       ("Override Font Size", ntoa cond.fontSize),
       ("Override Font Name", cond.fontName)] := rfl

theorem c3_drop2 (tc tmc : String) (g : ℕ) (tb : TitleBlock)
    (t : TabDefinition) (f : RowFormatRule) (cond : CellConditionRule) :
    dropBlankRows
      [("Column Mapping", ""),
       ("Type Column", tc),
       ("Gap Threshold", ""),
       ("Gap Threshold (MM:SS)", if 0 < g then formatMMSS g else ""),
       ("Time Column", tmc),
       ("Title Block", ""),
       ("Title Block Enabled", if tb.enabled then "yes" else "no"),
       ("Company Name", tb.companyName),
       ("Show Name", tb.showName),
       ("Lighting Designer", tb.lightingDesigner),
       ("Version", tb.version),
       ("Note 1", tb.note1),
       ("Note 2", tb.note2),
       ("Output Tabs", ""),
       ("Tab Name", t.name),
       ("Tab Row Types", joinCS t.rowTypes),
       ("Tab Columns", joinCS t.columns),
       ("Row Formats", ""),
       ("Row Name", f.rowType),
       ("Row Bold", if f.bold then "true" else "false"),
       ("Row Italic", if f.italic then "true" else "false"),
       ("Row BG Color", f.bgColor),
       ("Row Font Size", ntoa f.fontSize),
       ("Row Font Name", f.fontName),
       ("Override Rules", ""),
       ("Override Column", cond.column),
       ("Override Value", cond.contains),
       ("Override Bold", if cond.bold then "true" else "false"),
       ("Override Italic", if cond.italic then "true" else "false"),
       ("Override BG Color", cond.bgColor),
       ("Override Font Size", ntoa cond.fontSize),
       ("Override Font Name", cond.fontName)] =
      [("Column Mapping", ""),
       ("Type Column", tc),
       ("Gap Threshold", ""),
       ("Gap Threshold (MM:SS)", if 0 < g then formatMMSS g else ""),
       ("Time Column", tmc),
       ("Title Block", ""),
       ("Title Block Enabled", if tb.enabled then "yes" else "no"),
       ("Company Name", tb.companyName),
       ("Show Name", tb.showName),
       ("Lighting Designer", tb.lightingDesigner),
       ("Version", tb.version),
       ("Note 1", tb.note1),
       ("Note 2", tb.note2),
       ("Output Tabs", ""),
       ("Tab Name", t.name),
       ("Tab Row Types", joinCS t.rowTypes),
       ("Tab Columns", joinCS t.columns),
       ("Row Formats", ""),
       ("Row Name", f.rowType),
       ("Row Bold", if f.bold then "true" else "false"),
       ("Row Italic", if f.italic then "true" else "false"),
       ("Row BG Color", f.bgColor),
       ("Row Font Size", ntoa f.fontSize),
       ("Row Font Name", f.fontName),
       ("Override Rules", ""),
       ("Override Column", cond.column),
       ("Override Value", cond.contains),
       ("Override Bold", if cond.bold then "true" else "false"),
       ("Override Italic", if cond.italic then "true" else "false"),
       ("Override BG Color", cond.bgColor),
       ("Override Font Size", ntoa cond.fontSize),
       ("Override Font Name", cond.fontName)] := rfl

/-- A configuration for exercising the re-export pipeline. -/
def c3Config : AppConfig :=
  { typeColumn := "Cue Type", timeColumn := "Timecode", gapThresholdSeconds := 30,
    titleBlock := { enabled := true, showName := "My Show", companyName := "ACME",
                    lightingDesigner := "JD", version := "1.0", note1 := "",
                    note2 := "", imageDataUrl := "" },
    tabs := [⟨"All", ["cue"], ["Label"]⟩],
    includeMasterSheet := true,
    rowFormats := [⟨"cue", "#CCCCCC", false, true, false, 11, "Times New Roman", ""⟩],
    cellConditions := [⟨"Label", "GO", "", true, false, false, 11, "Times New Roman", ""⟩] }

/-- **C3** (counterexample).  Re-exporting the configuration sheet a second
time with the same configuration does NOT leave the rows exactly equal to
the first run: the first run writes blank separator rows before each new
section header, the re-read (`eachRow` without `includeEmpty`) skips those
empty rows, and the second run never re-inserts them — so the second run's
rows are the first run's rows with the five blank separators deleted. -/
theorem C3_idempotent_cex :
    writeConfigSheetRows (some (writeConfigSheetRows none c3Config)) c3Config ≠
      writeConfigSheetRows none c3Config := by
  decide

/-!  Claim C3 — the general idempotence development.  The groups of each
kind form an insertion-ordered map (`agen` folds); the first export writes
the singleton block and one area per non-empty kind; the re-read drops the
blank separators; the second export finds every row and group and rewrites
it to the value it already holds. -/

/-!  Claim C3 (general form).  The encoder's group phases maintain
insertion-ordered maps ("find the group by identity and patch it in
place, else append"), so the written sheet is described by an
association-list fold; re-exporting folds the same updates over the same
map, which absorbs. -/

section AssocFold

variable {α β : Type}
variable (keyf : α → String) (initf : α → β) (mergef : β → α → β)

/-- Insertion-ordered-map update: replace the value at `keyf x` in place,
else append a fresh binding (JS `Map.set` discipline). -/
def agen (a : List (String × β)) (x : α) : List (String × β) :=
  if a.any (fun p => p.1 = keyf x) then
    a.map (fun p => if p.1 = keyf x then (p.1, mergef p.2 x) else p)
  else a ++ [(keyf x, initf x)]

/-- First-binding lookup. -/
def aget (a : List (String × β)) (k : String) : Option β :=
  (a.find? (fun p => p.1 = k)).map (fun p => p.2)

theorem aget_cons (p : String × β) (t : List (String × β)) (k : String) :
    aget (p :: t) k = if p.1 = k then some p.2 else aget t k := by
  simp only [aget, List.find?]
  by_cases h : p.1 = k
  · rw [show (decide (p.1 = k) : Bool) = true by simp [h], if_pos h]
    rfl
  · rw [show (decide (p.1 = k) : Bool) = false by simp [h], if_neg h]

theorem any_key_eq_contains (a : List (String × β)) (k : String) :
    a.any (fun p => p.1 = k) = (a.map Prod.fst).contains k := by
  induction a with
  | nil => rfl
  | cons p rest ih =>
    simp only [List.any_cons, List.map_cons, List.contains_cons, ih]
    by_cases hp : p.1 = k
    · rw [show (decide (p.1 = k) : Bool) = true by simp [hp],
        show (k == p.1) = true by rw [hp]; exact beq_self_eq_true k]
    · rw [show (decide (p.1 = k) : Bool) = false by simp [hp],
        show (k == p.1) = false by
          simp only [beq_eq_false_iff_ne, ne_eq]
          exact fun hc => hp hc.symm]

theorem aget_replace (a : List (String × β)) (kw : String) (g : β → β) (k : String) :
    aget (a.map (fun p => if p.1 = kw then (p.1, g p.2) else p)) k =
      if k = kw then (aget a k).map g else aget a k := by
  induction a with
  | nil => simp [aget]
  | cons p rest ih =>
    simp only [List.map_cons]
    by_cases hp : p.1 = kw
    · rw [if_pos hp]
      by_cases hq : p.1 = k
      · have hk : k = kw := by rw [← hq, hp]
        rw [aget_cons, aget_cons, if_pos hq, if_pos hq, if_pos hk]
        rfl
      · rw [aget_cons, aget_cons, if_neg hq, if_neg hq, ih]
    · rw [if_neg hp]
      by_cases hq : p.1 = k
      · have hk : ¬(k = kw) := fun hc => hp (by rw [hq, hc])
        rw [aget_cons, aget_cons, if_pos hq, if_pos hq, if_neg hk]
      · rw [aget_cons, aget_cons, if_neg hq, if_neg hq, ih]

theorem aget_nil (k : String) : aget ([] : List (String × β)) k = none := rfl

theorem aget_append_single (a : List (String × β)) (kn : String) (v : β) (k : String) :
    aget (a ++ [(kn, v)]) k =
      (aget a k).orElse (fun _ => if k = kn then some v else none) := by
  induction a with
  | nil =>
    simp only [List.nil_append, aget_cons, aget_nil]
    by_cases hk : kn = k
    · rw [if_pos hk]
      simp [hk.symm, Option.orElse]
    · rw [if_neg hk]
      have : ¬(k = kn) := fun hc => hk hc.symm
      simp [this, Option.orElse]
  | cons p rest ih =>
    simp only [List.cons_append, aget_cons]
    by_cases hq : p.1 = k
    · rw [if_pos hq, if_pos hq]
      rfl
    · rw [if_neg hq, if_neg hq, ih]

theorem aget_none_of_not_mem (a : List (String × β)) (k : String)
    (h : k ∉ a.map Prod.fst) : aget a k = none := by
  induction a with
  | nil => rfl
  | cons p rest ih =>
    simp only [List.map_cons, List.mem_cons] at h
    push_neg at h
    rw [aget_cons, if_neg (fun hc => h.1 hc.symm)]
    exact ih h.2

/-- Two association lists with the same duplicate-free key sequence and
the same lookups are equal. -/
theorem aext (a : List (String × β)) : ∀ (b : List (String × β)),
    a.map Prod.fst = b.map Prod.fst → (a.map Prod.fst).Nodup →
    (∀ k, aget a k = aget b k) → a = b := by
  induction a with
  | nil =>
    intro b hk _ _
    cases b with
    | nil => rfl
    | cons q r => simp at hk
  | cons p rest ih =>
    intro b hk hnd hget
    cases b with
    | nil => simp at hk
    | cons q r =>
      simp only [List.map_cons, List.cons.injEq] at hk
      obtain ⟨hk1, hk2⟩ := hk
      simp only [List.map_cons, List.nodup_cons] at hnd
      have hv : p.2 = q.2 := by
        have h1 := hget p.1
        rw [aget_cons, if_pos rfl, aget_cons, if_pos hk1.symm] at h1
        exact Option.some.inj h1
      have hrest : rest = r := by
        apply ih r hk2 hnd.2
        intro k
        by_cases hkp : k = p.1
        · subst hkp
          rw [aget_none_of_not_mem rest _ hnd.1,
            aget_none_of_not_mem r _ (by rw [← hk2]; exact hnd.1)]
        · have h1 := hget k
          rw [aget_cons, if_neg (fun hc => hkp hc.symm), aget_cons,
            if_neg (by rw [← hk1]; exact fun hc => hkp hc.symm)] at h1
          exact h1
      obtain ⟨p1, p2⟩ := p
      obtain ⟨q1, q2⟩ := q
      simp only at hk1 hv
      rw [hk1, hv, hrest]

end AssocFold

section AssocFold2

variable {α β : Type}
variable (keyf : α → String) (initf : α → β) (mergef : β → α → β)

theorem agen_keys (a : List (String × β)) (x : α) :
    (agen keyf initf mergef a x).map Prod.fst =
      if a.any (fun p => p.1 = keyf x) then a.map Prod.fst
      else a.map Prod.fst ++ [keyf x] := by
  rw [agen]
  by_cases h : a.any (fun p => p.1 = keyf x) = true
  · rw [if_pos h, if_pos h, List.map_map]
    congr 1
    funext p
    by_cases hp : p.1 = keyf x
    · simp [hp]
    · simp [hp]
  · rw [if_neg h, if_neg h]
    simp

theorem agen_nodup (a : List (String × β)) (x : α)
    (h : (a.map Prod.fst).Nodup) :
    ((agen keyf initf mergef a x).map Prod.fst).Nodup := by
  rw [agen_keys]
  by_cases hb : a.any (fun p => p.1 = keyf x) = true
  · rw [if_pos hb]
    exact h
  · rw [if_neg hb]
    rw [List.nodup_append]
    refine ⟨h, by simp, ?_⟩
    intro k hk hk2
    rw [List.mem_singleton] at hk2
    subst hk2
    rw [any_key_eq_contains] at hb
    exact hb (by simpa using hk)

theorem agen_any_mono (a : List (String × β)) (x : α) (k : String)
    (h : a.any (fun p => p.1 = k) = true) :
    (agen keyf initf mergef a x).any (fun p => p.1 = k) = true := by
  rw [any_key_eq_contains] at h ⊢
  rw [agen_keys]
  by_cases hb : a.any (fun p => p.1 = keyf x) = true
  · rw [if_pos hb]
    exact h
  · rw [if_neg hb]
    simp at h ⊢
    exact Or.inl h

theorem agen_any_self (a : List (String × β)) (x : α) :
    (agen keyf initf mergef a x).any (fun p => p.1 = keyf x) = true := by
  rw [any_key_eq_contains, agen_keys]
  by_cases hb : a.any (fun p => p.1 = keyf x) = true
  · rw [if_pos hb]
    rw [any_key_eq_contains] at hb
    exact hb
  · rw [if_neg hb]
    simp

theorem afold_any_mono (l : List α) : ∀ (a : List (String × β)) (k : String),
    a.any (fun p => p.1 = k) = true →
    (l.foldl (agen keyf initf mergef) a).any (fun p => p.1 = k) = true := by
  induction l with
  | nil => intro a k h; exact h
  | cons x t ih =>
    intro a k h
    rw [List.foldl_cons]
    exact ih _ k (agen_any_mono keyf initf mergef a x k h)

theorem afold_binds (l : List α) : ∀ (a : List (String × β)) (x : α), x ∈ l →
    (l.foldl (agen keyf initf mergef) a).any (fun p => p.1 = keyf x) = true := by
  induction l with
  | nil => intro a x h; exact absurd h (List.not_mem_nil x)
  | cons y t ih =>
    intro a x h
    rw [List.foldl_cons]
    rcases List.mem_cons.mp h with rfl | h
    · exact afold_any_mono keyf initf mergef t _ _ (agen_any_self keyf initf mergef a x)
    · exact ih _ x h

theorem afold_nodup (l : List α) : ∀ (a : List (String × β)),
    (a.map Prod.fst).Nodup →
    ((l.foldl (agen keyf initf mergef) a).map Prod.fst).Nodup := by
  induction l with
  | nil => intro a h; exact h
  | cons x t ih =>
    intro a h
    rw [List.foldl_cons]
    exact ih _ (agen_nodup keyf initf mergef a x h)

theorem aget_agen_ne (a : List (String × β)) (x : α) (k : String)
    (h : k ≠ keyf x) : aget (agen keyf initf mergef a x) k = aget a k := by
  rw [agen]
  by_cases hb : a.any (fun p => p.1 = keyf x) = true
  · rw [if_pos hb, aget_replace a (keyf x) (fun v => mergef v x) k, if_neg h]
  · rw [if_neg hb, aget_append_single, if_neg h]
    cases aget a k <;> rfl

theorem afold_aget_no_writer (t : List α) : ∀ (a : List (String × β)) (kx : String),
    (∀ w ∈ t, keyf w ≠ kx) →
    aget (t.foldl (agen keyf initf mergef) a) kx = aget a kx := by
  induction t with
  | nil => intro a kx _; rfl
  | cons w t' ih =>
    intro a kx h
    rw [List.foldl_cons, ih _ kx (fun w' hw' => h w' (by simp [hw']))]
    exact aget_agen_ne keyf initf mergef a w kx
      (fun hc => h w (by simp) hc.symm)

end AssocFold2

section AssocFold3

variable {α β : Type}
variable (keyf : α → String) (initf : α → β) (mergef : β → α → β)

theorem aget_isSome_of_mem (a : List (String × β)) (k : String)
    (h : k ∈ a.map Prod.fst) : ∃ v, aget a k = some v := by
  induction a with
  | nil => simp at h
  | cons p rest ih =>
    rw [aget_cons]
    by_cases hp : p.1 = k
    · rw [if_pos hp]
      exact ⟨p.2, rfl⟩
    · rw [if_neg hp]
      simp only [List.map_cons, List.mem_cons] at h
      rcases h with h | h
      · exact absurd h.symm hp
      · exact ih h

/-- The lookup after one insertion-ordered-map update. -/
theorem aget_agen (a : List (String × β)) (x : α) (k : String) :
    aget (agen keyf initf mergef a x) k =
      if k = keyf x then
        (match aget a (keyf x) with
         | some v => some (mergef v x)
         | none => some (initf x))
      else aget a k := by
  rw [agen]
  by_cases hb : a.any (fun p => p.1 = keyf x) = true
  · rw [if_pos hb, aget_replace a (keyf x) (fun v => mergef v x) k]
    by_cases hk : k = keyf x
    · rw [if_pos hk, if_pos hk, hk]
      have hmem : keyf x ∈ a.map Prod.fst := by
        rw [any_key_eq_contains] at hb
        simpa using hb
      obtain ⟨v, hv⟩ := aget_isSome_of_mem a (keyf x) hmem
      rw [hv]
      rfl
    · rw [if_neg hk, if_neg hk]
  · rw [if_neg hb, aget_append_single]
    by_cases hk : k = keyf x
    · rw [if_pos hk, if_pos hk, hk]
      have hnm : keyf x ∉ a.map Prod.fst := by
        rw [any_key_eq_contains] at hb
        simpa using hb
      rw [aget_none_of_not_mem a (keyf x) hnm]
      rfl
    · rw [if_neg hk, if_neg hk]
      cases aget a k <;> rfl

variable (rel : β → β → Prop)

/-- Folding the same updates over two maps that agree everywhere except
(at most) at `kx` — where either a later update writes `kx` and the two
stored values are merge-compatible (`rel`), or the two values already
agree — yields the same map. -/
theorem afold_congr_offkey
    (lawM : ∀ v v' x, rel v v' → mergef v x = mergef v' x) :
    ∀ (t : List α) (B B' : List (String × β)) (kx : String),
      B.map Prod.fst = B'.map Prod.fst →
      (B.map Prod.fst).Nodup →
      (∀ k, k ≠ kx → aget B k = aget B' k) →
      ((aget B kx = aget B' kx) ∨
        ((∃ w ∈ t, keyf w = kx) ∧
          (∀ vb vb', aget B kx = some vb → aget B' kx = some vb' → rel vb vb'))) →
      t.foldl (agen keyf initf mergef) B = t.foldl (agen keyf initf mergef) B' := by
  intro t
  induction t with
  | nil =>
    intro B B' kx hkeys hnd hoff hkx
    rcases hkx with hkx | ⟨⟨w, hw, _⟩, _⟩
    · refine aext B B' hkeys hnd ?_
      intro k
      by_cases hk : k = kx
      · subst hk
        exact hkx
      · exact hoff k hk
    · exact absurd hw (List.not_mem_nil w)
  | cons w t' ih =>
    intro B B' kx hkeys hnd hoff hkx
    simp only [List.foldl_cons]
    have hany : B.any (fun p => p.1 = keyf w) = B'.any (fun p => p.1 = keyf w) := by
      rw [any_key_eq_contains, any_key_eq_contains, hkeys]
    have hkeys' : (agen keyf initf mergef B w).map Prod.fst =
        (agen keyf initf mergef B' w).map Prod.fst := by
      rw [agen_keys, agen_keys, hany, hkeys]
    have hnd' : ((agen keyf initf mergef B w).map Prod.fst).Nodup :=
      agen_nodup keyf initf mergef B w hnd
    have hmemiff : ∀ k, (k ∈ B.map Prod.fst) ↔ (k ∈ B'.map Prod.fst) := by
      intro k
      rw [hkeys]
    by_cases hkxw : keyf w = kx
    · -- the update writes kx: afterwards the two maps agree at kx too
      have hkxval : aget (agen keyf initf mergef B w) kx =
          aget (agen keyf initf mergef B' w) kx := by
        rw [aget_agen, aget_agen, if_pos hkxw.symm, if_pos hkxw.symm, hkxw]
        cases hB : aget B kx with
        | none =>
          have hB' : aget B' kx = none := by
            cases hB2 : aget B' kx with
            | none => rfl
            | some v =>
              exfalso
              have hmem : kx ∈ B'.map Prod.fst := by
                by_contra hc
                rw [aget_none_of_not_mem B' kx hc] at hB2
                exact Option.noConfusion hB2
              obtain ⟨v0, hv0⟩ := aget_isSome_of_mem B kx ((hmemiff kx).mpr hmem)
              rw [hB] at hv0
              exact Option.noConfusion hv0
          rw [hB']
        | some vb =>
          have hmem : kx ∈ B.map Prod.fst := by
            by_contra hc
            rw [aget_none_of_not_mem B kx hc] at hB
            exact Option.noConfusion hB
          obtain ⟨vb', hvb'⟩ := aget_isSome_of_mem B' kx ((hmemiff kx).mp hmem)
          rw [hvb']
          show some (mergef vb w) = some (mergef vb' w)
          rcases hkx with hkx | ⟨_, hrel⟩
          · rw [hB, hvb'] at hkx
            rw [Option.some.inj hkx]
          · rw [lawM vb vb' w (hrel vb vb' hB hvb')]
      refine ih (agen keyf initf mergef B w) (agen keyf initf mergef B' w) kx
        hkeys' hnd' ?_ (Or.inl hkxval)
      intro k hk
      rw [aget_agen, aget_agen]
      by_cases hkw : k = keyf w
      · exact absurd (hkw.trans hkxw) hk
      · rw [if_neg hkw, if_neg hkw]
        exact hoff k hk
    · -- the update writes some other key
      refine ih (agen keyf initf mergef B w) (agen keyf initf mergef B' w) kx
        hkeys' hnd' ?_ ?_
      · intro k hk
        rw [aget_agen, aget_agen]
        by_cases hkw : k = keyf w
        · rw [if_pos hkw, if_pos hkw, hoff (keyf w) hkxw]
        · rw [if_neg hkw, if_neg hkw]
          exact hoff k hk
      · have hgB : aget (agen keyf initf mergef B w) kx = aget B kx := by
          rw [aget_agen, if_neg (fun hc => hkxw hc.symm)]
        have hgB' : aget (agen keyf initf mergef B' w) kx = aget B' kx := by
          rw [aget_agen, if_neg (fun hc => hkxw hc.symm)]
        rcases hkx with hkx | ⟨⟨w', hw', hkw'⟩, hrel⟩
        · exact Or.inl (by rw [hgB, hgB', hkx])
        · right
          refine ⟨⟨w', ?_, hkw'⟩, ?_⟩
          · rcases List.mem_cons.mp hw' with rfl | hw'
            · exact absurd hkw' hkxw
            · exact hw'
          · intro vb vb' h1 h2
            rw [hgB] at h1
            rw [hgB'] at h2
            exact hrel vb vb' h1 h2

/-- Re-folding the same update list over its own result changes nothing:
the map already holds each key's final merged value. -/
theorem afold_absorb
    (lawM : ∀ v v' x, rel v v' → mergef v x = mergef v' x)
    (lawR : ∀ v x, rel (mergef v x) v)
    (lawI : ∀ x, mergef (initf x) x = initf x) :
    ∀ (l : List α) (a : List (String × β)), (a.map Prod.fst).Nodup →
      l.foldl (agen keyf initf mergef) (l.foldl (agen keyf initf mergef) a) =
        l.foldl (agen keyf initf mergef) a := by
  intro l
  induction l with
  | nil => intro a _; rfl
  | cons x t ih =>
    intro a hnd
    simp only [List.foldl_cons]
    have hnd1 : ((agen keyf initf mergef a x).map Prod.fst).Nodup :=
      agen_nodup keyf initf mergef a x hnd
    have ihx := ih (agen keyf initf mergef a x) hnd1
    set B := t.foldl (agen keyf initf mergef) (agen keyf initf mergef a x) with hB
    have hndB : (B.map Prod.fst).Nodup := by
      rw [hB]
      exact afold_nodup keyf initf mergef t _ hnd1
    have hanyB : B.any (fun p => p.1 = keyf x) = true := by
      rw [hB]
      exact afold_any_mono keyf initf mergef t _ _
        (agen_any_self keyf initf mergef a x)
    have hkeys : (agen keyf initf mergef B x).map Prod.fst = B.map Prod.fst := by
      rw [agen_keys, if_pos hanyB]
    have key : t.foldl (agen keyf initf mergef) (agen keyf initf mergef B x) =
        t.foldl (agen keyf initf mergef) B := by
      apply afold_congr_offkey keyf initf mergef rel lawM t
        (agen keyf initf mergef B x) B (keyf x)
      · exact hkeys
      · rw [hkeys]
        exact hndB
      · intro k hk
        rw [aget_agen, if_neg hk]
      · by_cases hw : ∃ w ∈ t, keyf w = keyf x
        · right
          refine ⟨hw, ?_⟩
          intro vb vb' h1 h2
          rw [aget_agen, if_pos rfl, h2] at h1
          rw [← Option.some.inj h1]
          exact lawR vb' x
        · left
          push_neg at hw
          have hnowrite : aget B (keyf x) =
              aget (agen keyf initf mergef a x) (keyf x) := by
            rw [hB]
            exact afold_aget_no_writer keyf initf mergef t _ _ hw
          have hval : aget (agen keyf initf mergef a x) (keyf x) =
              (match aget a (keyf x) with
               | some v => some (mergef v x)
               | none => some (initf x)) := by
            rw [aget_agen, if_pos rfl]
          rw [aget_agen, if_pos rfl, hnowrite, hval]
          cases hA : aget a (keyf x) with
          | none =>
            simp only
            rw [lawI]
          | some v =>
            simp only
            rw [lawM (mergef v x) v x (lawR v x)]
    rw [key, ihx]

end AssocFold3

section GArea

variable {β : Type}

/-- Anchor positions of equally-sized groups laid out consecutively from a
base position: the shape of the encoder's `tabIdx` / `fmtIdx` / `condIdx`
over a freshly written area. -/
def posMap (gl : ℕ) : ℕ → List (String × β) → List (String × ℕ)
  | _, [] => []
  | n0, p :: t => (p.1, n0) :: posMap gl (n0 + gl) t

/-- The rows of a group area, in group order. -/
def flatG (rowsOf : String × β → List KV) (gs : List (String × β)) : List KV :=
  (gs.map rowsOf).flatten

/-- Where the in-place update loops (`patch*`) and the skip loops
(`spanLen`) stop: end of sheet, the next anchor of the same kind, or a
section header. -/
def StopsAt (aK : String) : List KV → Prop
  | [] => True
  | (k, _) :: _ => keyLower k = aK ∨ isSectionKey (keyLower k) = true

theorem mget_cons (a : String) (b : ℕ) (m : List (String × ℕ)) (k : String) :
    mget ((a, b) :: m) k = if a = k then some b else mget m k := by
  by_cases h : a = k
  · rw [if_pos h]
    unfold mget
    rw [List.find?_cons_of_pos _ (by simpa using h)]
    rfl
  · rw [if_neg h]
    unfold mget
    rw [List.find?_cons_of_neg _ (by simpa using h)]

theorem mget_posMap_none (gl n0 : ℕ) (gs : List (String × β)) (k : String)
    (h : k ∉ gs.map Prod.fst) : mget (posMap gl n0 gs) k = none := by
  induction gs generalizing n0 with
  | nil => rfl
  | cons p t ih =>
    simp only [List.map_cons, List.mem_cons] at h
    push_neg at h
    rw [posMap, mget_cons, if_neg (fun hc => h.1 hc.symm)]
    exact ih (n0 + gl) h.2

theorem mget_posMap_mem (gl n0 : ℕ) (gs : List (String × β)) (k : String)
    (h : k ∈ gs.map Prod.fst) : ∃ b, mget (posMap gl n0 gs) k = some b := by
  induction gs generalizing n0 with
  | nil => simp at h
  | cons p t ih =>
    rw [posMap, mget_cons]
    by_cases hp : p.1 = k
    · exact ⟨n0, by rw [if_pos hp]⟩
    · rw [if_neg hp]
      simp only [List.map_cons, List.mem_cons] at h
      rcases h with h | h
      · exact absurd h.symm hp
      · exact ih (n0 + gl) h

/-- Replacing values in place (the found branch of `agen`) keeps keys. -/
theorem keys_replace (gs : List (String × β)) (kx : String) (mrg : β → β) :
    (gs.map (fun p => if p.1 = kx then (p.1, mrg p.2) else p)).map Prod.fst =
      gs.map Prod.fst := by
  induction gs with
  | nil => rfl
  | cons p t ih =>
    simp only [List.map_cons, ih]
    by_cases hp : p.1 = kx
    · rw [if_pos hp]
    · rw [if_neg hp]

theorem posMap_replace (gl n0 : ℕ) (gs : List (String × β)) (kx : String)
    (mrg : β → β) :
    posMap gl n0 (gs.map (fun p => if p.1 = kx then (p.1, mrg p.2) else p)) =
      posMap gl n0 gs := by
  induction gs generalizing n0 with
  | nil => rfl
  | cons p t ih =>
    simp only [List.map_cons, posMap]
    by_cases hp : p.1 = kx
    · rw [if_pos hp, ih]
    · rw [if_neg hp, ih]

theorem map_id_offkey (gs : List (String × β)) (kx : String) (mrg : β → β)
    (h : ∀ q ∈ gs, q.1 ≠ kx) :
    gs.map (fun p => if p.1 = kx then (p.1, mrg p.2) else p) = gs := by
  induction gs with
  | nil => rfl
  | cons p t ih =>
    simp only [List.map_cons]
    rw [if_neg (h p (List.mem_cons_self p t)),
      ih (fun q hq => h q (List.mem_cons_of_mem p hq))]

theorem flatG_cons (rowsOf : String × β → List KV) (p : String × β)
    (gs : List (String × β)) :
    flatG rowsOf (p :: gs) = rowsOf p ++ flatG rowsOf gs := rfl

theorem flatG_append (rowsOf : String × β → List KV) (a b : List (String × β)) :
    flatG rowsOf (a ++ b) = flatG rowsOf a ++ flatG rowsOf b := by
  unfold flatG
  rw [List.map_append, List.flatten_append]

theorem stops_flat (rowsOf : String × β → List KV) (aLit aK : String)
    (aval : String × β → String) (rtail : String × β → List KV)
    (hsp : ∀ p, rowsOf p = (aLit, aval p) :: rtail p)
    (hstopLit : keyLower aLit = aK)
    (gs : List (String × β)) (R : List KV) (hR : StopsAt aK R) :
    StopsAt aK (flatG rowsOf gs ++ R) := by
  cases gs with
  | nil => exact hR
  | cons p t =>
    rw [flatG_cons, hsp p]
    exact Or.inl hstopLit

/-- The found branch of an upsert, generically: splitting the snapshot at
the anchor position delivered by the position map, patching the rows after
the anchor, and re-assembling replaces exactly the addressed group. -/
theorem core_found
    (gl : ℕ) (rowsOf : String × β → List KV) (aLit aK : String)
    (aval : String × β → String) (rtail : String × β → List KV)
    (patchK : List KV → List KV) (mrg : β → β) (kx : String)
    (hsp : ∀ p, rowsOf p = (aLit, aval p) :: rtail p)
    (hlen : ∀ p, (rowsOf p).length = gl)
    (hstopLit : keyLower aLit = aK)
    (hpatch : ∀ p r, StopsAt aK r →
      patchK (rtail p ++ r) = rtail (p.1, mrg p.2) ++ r)
    (hanch : ∀ p, aval (p.1, mrg p.2) = aval p) :
    ∀ (gs : List (String × β)) (P R : List KV) (b : ℕ),
      (gs.map Prod.fst).Nodup →
      StopsAt aK R →
      mget (posMap gl P.length gs) kx = some b →
      (P ++ flatG rowsOf gs ++ R).take (b + 1) ++
          patchK ((P ++ flatG rowsOf gs ++ R).drop (b + 1)) =
        P ++ flatG rowsOf
            (gs.map (fun p => if p.1 = kx then (p.1, mrg p.2) else p)) ++ R := by
  intro gs
  induction gs with
  | nil =>
    intro P R b _ _ hm
    exact Option.noConfusion hm
  | cons p t ih =>
    intro P R b hnd hR hm
    rw [posMap, mget_cons] at hm
    rw [List.map_cons]
    by_cases hp : p.1 = kx
    · rw [if_pos hp] at hm ⊢
      have hb : b = P.length := (Option.some.inj hm).symm
      subst hb
      have hL : P ++ flatG rowsOf (p :: t) ++ R =
          P ++ ((aLit, aval p) :: (rtail p ++ (flatG rowsOf t ++ R))) := by
        rw [flatG_cons, hsp p]
        simp [List.append_assoc]
      rw [hL]
      have htake : (P ++ ((aLit, aval p) :: (rtail p ++ (flatG rowsOf t ++ R)))).take
          (P.length + 1) = P ++ [(aLit, aval p)] := by
        rw [List.take_append 1]
        rfl
      have hdrop : (P ++ ((aLit, aval p) :: (rtail p ++ (flatG rowsOf t ++ R)))).drop
          (P.length + 1) = rtail p ++ (flatG rowsOf t ++ R) := by
        rw [List.drop_append 1]
        rfl
      rw [htake, hdrop]
      have hkt : ∀ q ∈ t, q.1 ≠ kx := by
        simp only [List.map_cons, List.nodup_cons] at hnd
        intro q hq hc
        have hmm : q.1 ∈ t.map Prod.fst := List.mem_map_of_mem Prod.fst hq
        rw [hc, ← hp] at hmm
        exact hnd.1 hmm
      rw [map_id_offkey t kx mrg hkt]
      have hstops : StopsAt aK (flatG rowsOf t ++ R) :=
        stops_flat rowsOf aLit aK aval rtail hsp hstopLit t R hR
      rw [hpatch p (flatG rowsOf t ++ R) hstops]
      rw [flatG_cons, hsp (p.1, mrg p.2), hanch p]
      simp [List.append_assoc]
    · rw [if_neg hp] at hm ⊢
      have hnd' : (t.map Prod.fst).Nodup := by
        simp only [List.map_cons, List.nodup_cons] at hnd
        exact hnd.2
      have hm' : mget (posMap gl (P ++ rowsOf p).length t) kx = some b := by
        rw [List.length_append, hlen p]
        exact hm
      have hre := ih (P ++ rowsOf p) R b hnd' hR hm'
      rw [flatG_cons rowsOf p t,
        flatG_cons rowsOf p (t.map (fun p => if p.1 = kx then (p.1, mrg p.2) else p))]
      have h1 : P ++ (rowsOf p ++ flatG rowsOf t) ++ R =
          (P ++ rowsOf p) ++ flatG rowsOf t ++ R := by
        simp [List.append_assoc]
      have h2 : P ++ (rowsOf p ++
          flatG rowsOf (t.map (fun p => if p.1 = kx then (p.1, mrg p.2) else p))) ++ R =
          (P ++ rowsOf p) ++
            flatG rowsOf (t.map (fun p => if p.1 = kx then (p.1, mrg p.2) else p)) ++ R := by
        simp [List.append_assoc]
      rw [h1, h2]
      exact hre

end GArea

/-! Group values for the three group kinds: key and the emitted row
values, in row order. -/

/-- A tab group's values: joined row types, joined columns. -/
abbrev TabV : Type := String × String

def tabKey (t : TabDefinition) : String := t.name

def tabVal (t : TabDefinition) : TabV := (joinCS t.rowTypes, joinCS t.columns)

/-- Insertion-ordered dedup of the tab list (last writer wins). -/
def tabStep : List (String × TabV) → TabDefinition → List (String × TabV) :=
  agen tabKey tabVal (fun _ t => tabVal t)

def tabRows (p : String × TabV) : List KV :=
  [("Tab Name", p.1), ("Tab Row Types", p.2.1), ("Tab Columns", p.2.2)]

def tabTail (p : String × TabV) : List KV :=
  [("Tab Row Types", p.2.1), ("Tab Columns", p.2.2)]

/-- A row-format group's values: bold, italic, bg color, font size, font
name, as written. -/
abbrev FmtV : Type := String × String × String × String × String

def fmtKey (f : RowFormatRule) : String := f.rowType

def fmtVal (f : RowFormatRule) : FmtV :=
  (if f.bold then "true" else "false", if f.italic then "true" else "false",
    f.bgColor, ntoa f.fontSize, f.fontName)

def fmtStep : List (String × FmtV) → RowFormatRule → List (String × FmtV) :=
  agen fmtKey fmtVal (fun _ f => fmtVal f)

def fmtRows (p : String × FmtV) : List KV :=
  [("Row Name", p.1), ("Row Bold", p.2.1), ("Row Italic", p.2.2.1),
   ("Row BG Color", p.2.2.2.1), ("Row Font Size", p.2.2.2.2.1),
   ("Row Font Name", p.2.2.2.2.2)]

def fmtTail (p : String × FmtV) : List KV :=
  [("Row Bold", p.2.1), ("Row Italic", p.2.2.1),
   ("Row BG Color", p.2.2.2.1), ("Row Font Size", p.2.2.2.2.1),
   ("Row Font Name", p.2.2.2.2.2)]

/-- An override group's values: column, contains, then the five style
fields as written. -/
abbrev CondV : Type :=
  String × String × String × String × String × String × String

instance : DecidableEq CondV := instDecidableEqProd

def condKey (c : CellConditionRule) : String := condIdentity c

def condVal (c : CellConditionRule) : CondV :=
  (c.column, c.contains, if c.bold then "true" else "false",
    if c.italic then "true" else "false", c.bgColor, ntoa c.fontSize,
    c.fontName)

/-- A later override with the same identity keeps the first writer's
column/contains rows (`patchCond` never rewrites them) but takes the later
style fields. -/
def condMerge (v : CondV) (c : CellConditionRule) : CondV :=
  (v.1, v.2.1, if c.bold then "true" else "false",
    if c.italic then "true" else "false", c.bgColor, ntoa c.fontSize,
    c.fontName)

def condStep : List (String × CondV) → CellConditionRule → List (String × CondV) :=
  agen condKey condVal condMerge

def condRows (p : String × CondV) : List KV :=
  [("Override Column", p.2.1), ("Override Value", p.2.2.1),
   ("Override Bold", p.2.2.2.1), ("Override Italic", p.2.2.2.2.1),
   ("Override BG Color", p.2.2.2.2.2.1),
   ("Override Font Size", p.2.2.2.2.2.2.1),
   ("Override Font Name", p.2.2.2.2.2.2.2)]

def condTail (p : String × CondV) : List KV :=
  [("Override Value", p.2.2.1),
   ("Override Bold", p.2.2.2.1), ("Override Italic", p.2.2.2.2.1),
   ("Override BG Color", p.2.2.2.2.2.1),
   ("Override Font Size", p.2.2.2.2.2.2.1),
   ("Override Font Name", p.2.2.2.2.2.2.2)]

/-! agen branch equations. -/

section AgenEq

variable {α β : Type}
variable (keyf : α → String) (initf : α → β) (mergef : β → α → β)

theorem agen_found_eq (a : List (String × β)) (x : α)
    (h : keyf x ∈ a.map Prod.fst) :
    agen keyf initf mergef a x =
      a.map (fun p => if p.1 = keyf x then (p.1, mergef p.2 x) else p) := by
  unfold agen
  rw [if_pos (by rw [any_key_eq_contains]; simpa using h)]

theorem agen_missing_eq (a : List (String × β)) (x : α)
    (h : keyf x ∉ a.map Prod.fst) :
    agen keyf initf mergef a x = a ++ [(keyf x, initf x)] := by
  unfold agen
  rw [if_neg (by rw [any_key_eq_contains]; simpa using h)]

theorem agen_ne_nil (a : List (String × β)) (x : α) :
    agen keyf initf mergef a x ≠ [] := by
  unfold agen
  by_cases hb : a.any (fun p => p.1 = keyf x) = true
  · rw [if_pos hb]
    intro hc
    rw [List.map_eq_nil_iff] at hc
    subst hc
    simp at hb
  · rw [if_neg hb]
    simp

theorem afold_ne_nil (l : List α) (a : List (String × β)) (h : a ≠ []) :
    l.foldl (agen keyf initf mergef) a ≠ [] := by
  induction l generalizing a with
  | nil => exact h
  | cons x t ih =>
    rw [List.foldl_cons]
    exact ih _ (agen_ne_nil keyf initf mergef a x)

end AgenEq

/-! Small map/list facts used by the phase lemmas. -/

theorem mset_missing (m : List (String × ℕ)) (k : String) (v : ℕ)
    (h : k ∉ m.map Prod.fst) : mset m k v = m ++ [(k, v)] := by
  unfold mset
  rw [if_neg (by rw [any_key_eq_contains]; simpa using h)]

theorem posMap_append {β : Type} (gl n0 : ℕ) (gs : List (String × β))
    (q : String × β) :
    posMap gl n0 (gs ++ [q]) = posMap gl n0 gs ++ [(q.1, n0 + gl * gs.length)] := by
  induction gs generalizing n0 with
  | nil => simp [posMap]
  | cons p t ih =>
    rw [List.cons_append, posMap, posMap, ih (n0 + gl), List.cons_append]
    have : n0 + gl + gl * t.length = n0 + gl * (t.length + 1) := by ring
    rw [this]
    rfl

theorem flatG_length {β : Type} (gl : ℕ) (rowsOf : String × β → List KV)
    (hlen : ∀ p, (rowsOf p).length = gl) (gs : List (String × β)) :
    (flatG rowsOf gs).length = gl * gs.length := by
  induction gs with
  | nil => simp [flatG]
  | cons p t ih =>
    rw [flatG_cons, List.length_append, hlen p, ih, List.length_cons]
    ring

/-! Patch computations on freshly written groups: literal sub-keys, stop
at the next anchor or section header. -/

theorem patchTab_stops (x : TabDefinition) (r : List KV)
    (h : StopsAt "tab name" r) : patchTab x r = r := by
  cases r with
  | nil => rfl
  | cons kv rest =>
    obtain ⟨k, v⟩ := kv
    have h' : keyLower k = "tab name" ∨ isSectionKey (keyLower k) = true := h
    simp only [patchTab]
    rw [if_pos h']

theorem patchFmt_stops (x : RowFormatRule) (r : List KV)
    (h : StopsAt "row name" r) : patchFmt x r = r := by
  cases r with
  | nil => rfl
  | cons kv rest =>
    obtain ⟨k, v⟩ := kv
    have h' : keyLower k = "row name" ∨ isSectionKey (keyLower k) = true := h
    simp only [patchFmt]
    rw [if_pos h']

theorem patchCond_stops (x : CellConditionRule) (r : List KV)
    (h : StopsAt "override column" r) : patchCond x r = r := by
  cases r with
  | nil => rfl
  | cons kv rest =>
    obtain ⟨k, v⟩ := kv
    have h' : keyLower k = "override column" ∨ isSectionKey (keyLower k) = true := h
    simp only [patchCond]
    rw [if_pos h']

theorem patchTab_tail_step (x : TabDefinition) (p : String × TabV)
    (r : List KV) (s : String) :
    patchTab x (tabTail p ++ r) = tabTail (s, tabVal x) ++ patchTab x r := rfl

theorem patchFmt_tail_step (x : RowFormatRule) (p : String × FmtV)
    (r : List KV) (s : String) :
    patchFmt x (fmtTail p ++ r) = fmtTail (s, fmtVal x) ++ patchFmt x r := rfl

theorem patchCond_tail_step (x : CellConditionRule) (p : String × CondV)
    (r : List KV) (s : String) :
    patchCond x (condTail p ++ r) =
      condTail (s, condMerge p.2 x) ++ patchCond x r := rfl

theorem patchTab_tail (x : TabDefinition) (p : String × TabV)
    (r : List KV) (hr : StopsAt "tab name" r) (s : String) :
    patchTab x (tabTail p ++ r) = tabTail (s, tabVal x) ++ r := by
  rw [patchTab_tail_step x p r s, patchTab_stops x r hr]

theorem patchFmt_tail (x : RowFormatRule) (p : String × FmtV)
    (r : List KV) (hr : StopsAt "row name" r) (s : String) :
    patchFmt x (fmtTail p ++ r) = fmtTail (s, fmtVal x) ++ r := by
  rw [patchFmt_tail_step x p r s, patchFmt_stops x r hr]

theorem patchCond_tail (x : CellConditionRule) (p : String × CondV)
    (r : List KV) (hr : StopsAt "override column" r) (s : String) :
    patchCond x (condTail p ++ r) = condTail (s, condMerge p.2 x) ++ r := by
  rw [patchCond_tail_step x p r s, patchCond_stops x r hr]

/-! Re-export phase lemmas: on a snapshot whose group area was already
written, every group upsert takes the found branch and rewrites the
addressed group in place; the fold acts as `agen` on the group list and
leaves the indexes untouched. -/

theorem run2_tabs (ts : List TabDefinition) :
    ∀ (gs : List (String × TabV)) (P R : List KV)
      (si fi ci : List (String × ℕ)) (secs : List String),
    (gs.map Prod.fst).Nodup →
    (∀ x ∈ ts, tabKey x ∈ gs.map Prod.fst) →
    StopsAt "tab name" R →
    ts.foldl upsertTab
      { snap := P ++ flatG tabRows gs ++ R,
        idx := { singletonIdx := si, tabIdx := posMap 3 P.length gs,
                 fmtIdx := fi, condIdx := ci, sections := secs } } =
      { snap := P ++ flatG tabRows (ts.foldl tabStep gs) ++ R,
        idx := { singletonIdx := si, tabIdx := posMap 3 P.length gs,
                 fmtIdx := fi, condIdx := ci, sections := secs } } := by
  induction ts with
  | nil =>
    intro gs P R si fi ci secs _ _ _
    rfl
  | cons x ts' ih =>
    intro gs P R si fi ci secs hnd hmem hR
    rw [List.foldl_cons, List.foldl_cons]
    have hx : tabKey x ∈ gs.map Prod.fst := hmem x (List.mem_cons_self x ts')
    obtain ⟨b, hb⟩ := mget_posMap_mem 3 P.length gs (tabKey x) hx
    have hb' : mget (posMap 3 P.length gs) x.name = some b := hb
    have hstep : tabStep gs x =
        gs.map (fun p => if p.1 = tabKey x then (p.1, tabVal x) else p) :=
      agen_found_eq tabKey tabVal (fun _ t => tabVal t) gs x hx
    have hcore := core_found 3 tabRows "Tab Name" "tab name"
      (fun p => p.1) tabTail (patchTab x) (fun _ => tabVal x) (tabKey x)
      (fun p => rfl) (fun p => rfl) (by decide)
      (fun p r hr => patchTab_tail x p r hr p.1) (fun p => rfl)
      gs P R b hnd hR hb
    have hsnap : (P ++ flatG tabRows gs ++ R).take (b + 1) ++
        patchTab x ((P ++ flatG tabRows gs ++ R).drop (b + 1)) =
        P ++ flatG tabRows (tabStep gs x) ++ R := by
      rw [hstep]
      exact hcore
    have hup : upsertTab
        { snap := P ++ flatG tabRows gs ++ R,
          idx := { singletonIdx := si, tabIdx := posMap 3 P.length gs,
                   fmtIdx := fi, condIdx := ci, sections := secs } } x =
        { snap := P ++ flatG tabRows (tabStep gs x) ++ R,
          idx := { singletonIdx := si, tabIdx := posMap 3 P.length gs,
                   fmtIdx := fi, condIdx := ci, sections := secs } } := by
      simp only [upsertTab, hb']
      rw [hsnap]
    rw [hup]
    have hpm : posMap 3 P.length (tabStep gs x) = posMap 3 P.length gs := by
      rw [hstep]
      exact posMap_replace 3 P.length gs (tabKey x) (fun _ => tabVal x)
    have hnd' : ((tabStep gs x).map Prod.fst).Nodup := by
      rw [hstep, keys_replace gs (tabKey x) (fun _ => tabVal x)]
      exact hnd
    have hmem' : ∀ y ∈ ts', tabKey y ∈ (tabStep gs x).map Prod.fst := by
      intro y hy
      rw [hstep, keys_replace gs (tabKey x) (fun _ => tabVal x)]
      exact hmem y (List.mem_cons_of_mem x hy)
    rw [← hpm]
    exact ih (tabStep gs x) P R si fi ci secs hnd' hmem' hR

theorem run2_fmts (ts : List RowFormatRule) :
    ∀ (gs : List (String × FmtV)) (P R : List KV)
      (si ti ci : List (String × ℕ)) (secs : List String),
    (gs.map Prod.fst).Nodup →
    (∀ x ∈ ts, fmtKey x ∈ gs.map Prod.fst) →
    StopsAt "row name" R →
    ts.foldl upsertFmt
      { snap := P ++ flatG fmtRows gs ++ R,
        idx := { singletonIdx := si, tabIdx := ti,
                 fmtIdx := posMap 6 P.length gs, condIdx := ci, sections := secs } } =
      { snap := P ++ flatG fmtRows (ts.foldl fmtStep gs) ++ R,
        idx := { singletonIdx := si, tabIdx := ti,
                 fmtIdx := posMap 6 P.length gs, condIdx := ci, sections := secs } } := by
  induction ts with
  | nil =>
    intro gs P R si ti ci secs _ _ _
    rfl
  | cons x ts' ih =>
    intro gs P R si ti ci secs hnd hmem hR
    rw [List.foldl_cons, List.foldl_cons]
    have hx : fmtKey x ∈ gs.map Prod.fst := hmem x (List.mem_cons_self x ts')
    obtain ⟨b, hb⟩ := mget_posMap_mem 6 P.length gs (fmtKey x) hx
    have hb' : mget (posMap 6 P.length gs) x.rowType = some b := hb
    have hstep : fmtStep gs x =
        gs.map (fun p => if p.1 = fmtKey x then (p.1, fmtVal x) else p) :=
      agen_found_eq fmtKey fmtVal (fun _ t => fmtVal t) gs x hx
    have hcore := core_found 6 fmtRows "Row Name" "row name"
      (fun p => p.1) fmtTail (patchFmt x) (fun _ => fmtVal x) (fmtKey x)
      (fun p => rfl) (fun p => rfl) (by decide)
      (fun p r hr => patchFmt_tail x p r hr p.1) (fun p => rfl)
      gs P R b hnd hR hb
    have hsnap : (P ++ flatG fmtRows gs ++ R).take (b + 1) ++
        patchFmt x ((P ++ flatG fmtRows gs ++ R).drop (b + 1)) =
        P ++ flatG fmtRows (fmtStep gs x) ++ R := by
      rw [hstep]
      exact hcore
    have hup : upsertFmt
        { snap := P ++ flatG fmtRows gs ++ R,
          idx := { singletonIdx := si, tabIdx := ti,
                   fmtIdx := posMap 6 P.length gs, condIdx := ci, sections := secs } } x =
        { snap := P ++ flatG fmtRows (fmtStep gs x) ++ R,
          idx := { singletonIdx := si, tabIdx := ti,
                   fmtIdx := posMap 6 P.length gs, condIdx := ci, sections := secs } } := by
      simp only [upsertFmt, hb']
      rw [hsnap]
    rw [hup]
    have hpm : posMap 6 P.length (fmtStep gs x) = posMap 6 P.length gs := by
      rw [hstep]
      exact posMap_replace 6 P.length gs (fmtKey x) (fun _ => fmtVal x)
    have hnd' : ((fmtStep gs x).map Prod.fst).Nodup := by
      rw [hstep, keys_replace gs (fmtKey x) (fun _ => fmtVal x)]
      exact hnd
    have hmem' : ∀ y ∈ ts', fmtKey y ∈ (fmtStep gs x).map Prod.fst := by
      intro y hy
      rw [hstep, keys_replace gs (fmtKey x) (fun _ => fmtVal x)]
      exact hmem y (List.mem_cons_of_mem x hy)
    rw [← hpm]
    exact ih (fmtStep gs x) P R si ti ci secs hnd' hmem' hR

theorem run2_conds (ts : List CellConditionRule) :
    ∀ (gs : List (String × CondV)) (P R : List KV)
      (si ti fi : List (String × ℕ)) (secs : List String),
    (gs.map Prod.fst).Nodup →
    (∀ x ∈ ts, condKey x ∈ gs.map Prod.fst) →
    StopsAt "override column" R →
    ts.foldl upsertCond
      { snap := P ++ flatG condRows gs ++ R,
        idx := { singletonIdx := si, tabIdx := ti,
                 fmtIdx := fi, condIdx := posMap 7 P.length gs, sections := secs } } =
      { snap := P ++ flatG condRows (ts.foldl condStep gs) ++ R,
        idx := { singletonIdx := si, tabIdx := ti,
                 fmtIdx := fi, condIdx := posMap 7 P.length gs, sections := secs } } := by
  induction ts with
  | nil =>
    intro gs P R si ti fi secs _ _ _
    rfl
  | cons x ts' ih =>
    intro gs P R si ti fi secs hnd hmem hR
    rw [List.foldl_cons, List.foldl_cons]
    have hx : condKey x ∈ gs.map Prod.fst := hmem x (List.mem_cons_self x ts')
    obtain ⟨b, hb⟩ := mget_posMap_mem 7 P.length gs (condKey x) hx
    have hb' : mget (posMap 7 P.length gs) (condIdentity x) = some b := hb
    have hstep : condStep gs x =
        gs.map (fun p => if p.1 = condKey x then (p.1, condMerge p.2 x) else p) :=
      agen_found_eq condKey condVal condMerge gs x hx
    have hcore := core_found 7 condRows "Override Column" "override column"
      (fun p => p.2.1) condTail (patchCond x) (fun v => condMerge v x) (condKey x)
      (fun p => rfl) (fun p => rfl) (by decide)
      (fun p r hr => patchCond_tail x p r hr p.1) (fun p => rfl)
      gs P R b hnd hR hb
    have hsnap : (P ++ flatG condRows gs ++ R).take (b + 1) ++
        patchCond x ((P ++ flatG condRows gs ++ R).drop (b + 1)) =
        P ++ flatG condRows (condStep gs x) ++ R := by
      rw [hstep]
      exact hcore
    have hup : upsertCond
        { snap := P ++ flatG condRows gs ++ R,
          idx := { singletonIdx := si, tabIdx := ti,
                   fmtIdx := fi, condIdx := posMap 7 P.length gs, sections := secs } } x =
        { snap := P ++ flatG condRows (condStep gs x) ++ R,
          idx := { singletonIdx := si, tabIdx := ti,
                   fmtIdx := fi, condIdx := posMap 7 P.length gs, sections := secs } } := by
      simp only [upsertCond, hb']
      rw [hsnap]
    rw [hup]
    have hpm : posMap 7 P.length (condStep gs x) = posMap 7 P.length gs := by
      rw [hstep]
      exact posMap_replace 7 P.length gs (condKey x) (fun v => condMerge v x)
    have hnd' : ((condStep gs x).map Prod.fst).Nodup := by
      rw [hstep, keys_replace gs (condKey x) (fun v => condMerge v x)]
      exact hnd
    have hmem' : ∀ y ∈ ts', condKey y ∈ (condStep gs x).map Prod.fst := by
      intro y hy
      rw [hstep, keys_replace gs (condKey x) (fun v => condMerge v x)]
      exact hmem y (List.mem_cons_of_mem x hy)
    rw [← hpm]
    exact ih (condStep gs x) P R si ti fi secs hnd' hmem' hR

/-! First-export phase lemmas: the group areas as they are laid out at the
end of a snapshot that did not contain them (blank separator, section
header, then the groups). -/

def areaT (gs : List (String × TabV)) : List KV :=
  if gs = [] then []
  else ("", "") :: ("Output Tabs", "") :: flatG tabRows gs

def areaF (gs : List (String × FmtV)) : List KV :=
  if gs = [] then []
  else ("", "") :: ("Row Formats", "") :: flatG fmtRows gs

def areaC (gs : List (String × CondV)) : List KV :=
  if gs = [] then []
  else ("", "") :: ("Override Rules", "") :: flatG condRows gs

theorem posMap_keys {β : Type} (gl n0 : ℕ) (gs : List (String × β)) :
    (posMap gl n0 gs).map Prod.fst = gs.map Prod.fst := by
  induction gs generalizing n0 with
  | nil => rfl
  | cons p t ih =>
    rw [posMap, List.map_cons, List.map_cons, ih (n0 + gl)]

theorem run1_tabs (ts : List TabDefinition) :
    ∀ (gs : List (String × TabV)) (P : List KV) (I : EncIdx) (S : List String),
    (gs.map Prod.fst).Nodup →
    P ≠ [] →
    S.contains "output tabs" = false →
    ts.foldl upsertTab
      { snap := P ++ areaT gs,
        idx := { I with
                 tabIdx := posMap 3 (P.length + 2) gs,
                 sections := S ++ (if gs = [] then [] else ["output tabs"]) } } =
      { snap := P ++ areaT (ts.foldl tabStep gs),
        idx := { I with
                 tabIdx := posMap 3 (P.length + 2) (ts.foldl tabStep gs),
                 sections := S ++ (if ts.foldl tabStep gs = [] then []
                   else ["output tabs"]) } } := by
  induction ts with
  | nil =>
    intro gs P I S _ _ _
    rfl
  | cons x ts' ih =>
    intro gs P I S hnd hP hS
    rw [List.foldl_cons, List.foldl_cons]
    by_cases hgs : gs = []
    · subst hgs
      have hA : areaT ([] : List (String × TabV)) = [] := rfl
      have hif : (if ([] : List (String × TabV)) = [] then ([] : List String)
          else ["output tabs"]) = [] := rfl
      have hpm0 : posMap 3 (P.length + 2) ([] : List (String × TabV)) = [] := rfl
      rw [hA, hif, hpm0, List.append_nil P, List.append_nil S]
      have hens : ensureSection
          { snap := P, idx := { I with tabIdx := [], sections := S } }
            "Output Tabs" =
          { snap := P ++ [(("" : String), ("" : String)), ("Output Tabs", "")],
            idx := { I with
                     tabIdx := [],
                     sections := S ++ ["output tabs"] } } := by
        simp only [ensureSection]
        rw [show jsLower "Output Tabs" = "output tabs" from by decide]
        rw [if_neg (by rw [hS]; exact Bool.false_ne_true)]
        rw [if_pos hP]
        simp only [sadd]
        rw [if_neg (by rw [hS]; exact Bool.false_ne_true)]
        simp [List.append_assoc]
      have hup : upsertTab
          { snap := P, idx := { I with tabIdx := [], sections := S } } x =
          { snap := P ++ areaT [(tabKey x, tabVal x)],
            idx := { I with
                     tabIdx := posMap 3 (P.length + 2) [(tabKey x, tabVal x)],
                     sections := S ++ ["output tabs"] } } := by
        have hmg0 : mget ([] : List (String × ℕ)) x.name = none := rfl
        simp only [upsertTab, hmg0]
        rw [hens]
        have hlen2 : (P ++ [(("" : String), ("" : String)),
            ("Output Tabs", "")]).length = P.length + 2 := by
          simp
        rw [hlen2]
        have hsnap : P ++ [(("" : String), ("" : String)), ("Output Tabs", "")] ++
            [("Tab Name", x.name), ("Tab Row Types", joinCS x.rowTypes),
             ("Tab Columns", joinCS x.columns)] =
            P ++ areaT [(tabKey x, tabVal x)] := by
          simp [areaT, flatG, tabRows, tabKey, tabVal]
        rw [hsnap]
        rfl
      rw [hup]
      have hstep0 : tabStep [] x = [(tabKey x, tabVal x)] := rfl
      rw [hstep0]
      exact ih [(tabKey x, tabVal x)] P I S (by simp) hP hS
    · rw [show areaT gs = ("", "") :: ("Output Tabs", "") :: flatG tabRows gs
          from by unfold areaT; rw [if_neg hgs]]
      rw [if_neg hgs]
      by_cases hx : tabKey x ∈ gs.map Prod.fst
      · -- found: patch the group in place
        obtain ⟨b, hb⟩ := mget_posMap_mem 3 (P.length + 2) gs (tabKey x) hx
        have hb' : mget (posMap 3 (P.length + 2) gs) x.name = some b := hb
        have hstep : tabStep gs x =
            gs.map (fun p => if p.1 = tabKey x then (p.1, tabVal x) else p) :=
          agen_found_eq tabKey tabVal (fun _ t => tabVal t) gs x hx
        have hne' : tabStep gs x ≠ [] :=
          agen_ne_nil tabKey tabVal (fun _ t => tabVal t) gs x
        have hb2 : mget (posMap 3
            (P ++ [(("" : String), ("" : String)), ("Output Tabs", "")]).length gs)
            (tabKey x) = some b := by
          rw [show (P ++ [(("" : String), ("" : String)),
            ("Output Tabs", "")]).length = P.length + 2 from by simp]
          exact hb
        have hcore := core_found 3 tabRows "Tab Name" "tab name"
          (fun p => p.1) tabTail (patchTab x) (fun _ => tabVal x) (tabKey x)
          (fun p => rfl) (fun p => rfl) (by decide)
          (fun p r hr => patchTab_tail x p r hr p.1) (fun p => rfl)
          gs (P ++ [(("" : String), ("" : String)), ("Output Tabs", "")]) [] b
          hnd trivial hb2
        have hshape : P ++ (("", "") :: ("Output Tabs", "") :: flatG tabRows gs) =
            P ++ [(("" : String), ("" : String)), ("Output Tabs", "")] ++
              flatG tabRows gs ++ [] := by
          simp
        have hsnap : (P ++ (("", "") :: ("Output Tabs", "") ::
              flatG tabRows gs)).take (b + 1) ++
            patchTab x ((P ++ (("", "") :: ("Output Tabs", "") ::
              flatG tabRows gs)).drop (b + 1)) =
            P ++ (("", "") :: ("Output Tabs", "") ::
              flatG tabRows (tabStep gs x)) := by
          rw [hshape, hstep]
          rw [hcore]
          simp
        have hup : upsertTab
            { snap := P ++ (("", "") :: ("Output Tabs", "") :: flatG tabRows gs),
              idx := { I with
                       tabIdx := posMap 3 (P.length + 2) gs,
                       sections := S ++ ["output tabs"] } } x =
            { snap := P ++ (("", "") :: ("Output Tabs", "") ::
                flatG tabRows (tabStep gs x)),
              idx := { I with
                       tabIdx := posMap 3 (P.length + 2) gs,
                       sections := S ++ ["output tabs"] } } := by
          simp only [upsertTab, hb']
          rw [hsnap]
        rw [hup]
        have hpm : posMap 3 (P.length + 2) (tabStep gs x) =
            posMap 3 (P.length + 2) gs := by
          rw [hstep]
          exact posMap_replace 3 (P.length + 2) gs (tabKey x) (fun _ => tabVal x)
        have hnd' : ((tabStep gs x).map Prod.fst).Nodup := by
          rw [hstep, keys_replace gs (tabKey x) (fun _ => tabVal x)]
          exact hnd
        have hres := ih (tabStep gs x) P I S hnd' hP hS
        rw [show areaT (tabStep gs x) = ("", "") :: ("Output Tabs", "") ::
            flatG tabRows (tabStep gs x) from by unfold areaT; rw [if_neg hne'],
          if_neg hne', hpm] at hres
        exact hres
      · -- missing: append a fresh group at the end of the area
        have hmg : mget (posMap 3 (P.length + 2) gs) x.name = none :=
          mget_posMap_none 3 (P.length + 2) gs (tabKey x) hx
        have hstep : tabStep gs x = gs ++ [(tabKey x, tabVal x)] :=
          agen_missing_eq tabKey tabVal (fun _ t => tabVal t) gs x hx
        have hne' : tabStep gs x ≠ [] :=
          agen_ne_nil tabKey tabVal (fun _ t => tabVal t) gs x
        have hens : ensureSection
            { snap := P ++ (("", "") :: ("Output Tabs", "") :: flatG tabRows gs),
              idx := { I with
                       tabIdx := posMap 3 (P.length + 2) gs,
                       sections := S ++ ["output tabs"] } } "Output Tabs" =
            { snap := P ++ (("", "") :: ("Output Tabs", "") :: flatG tabRows gs),
              idx := { I with
                       tabIdx := posMap 3 (P.length + 2) gs,
                       sections := S ++ ["output tabs"] } } := by
          simp only [ensureSection]
          rw [show jsLower "Output Tabs" = "output tabs" from by decide]
          rw [if_pos (by simp)]
        have hbase : (P ++ (("", "") :: ("Output Tabs", "") ::
            flatG tabRows gs)).length = P.length + 2 + 3 * gs.length := by
          simp [flatG_length 3 tabRows (fun p => rfl) gs]
          ring
        have hup : upsertTab
            { snap := P ++ (("", "") :: ("Output Tabs", "") :: flatG tabRows gs),
              idx := { I with
                       tabIdx := posMap 3 (P.length + 2) gs,
                       sections := S ++ ["output tabs"] } } x =
            { snap := P ++ (("", "") :: ("Output Tabs", "") ::
                flatG tabRows (tabStep gs x)),
              idx := { I with
                       tabIdx := posMap 3 (P.length + 2) (tabStep gs x),
                       sections := S ++ ["output tabs"] } } := by
          simp only [upsertTab, hmg]
          rw [hens, hbase]
          have hsnap : P ++ (("", "") :: ("Output Tabs", "") :: flatG tabRows gs) ++
              [("Tab Name", x.name), ("Tab Row Types", joinCS x.rowTypes),
               ("Tab Columns", joinCS x.columns)] =
              P ++ (("", "") :: ("Output Tabs", "") ::
                flatG tabRows (tabStep gs x)) := by
            rw [hstep, flatG_append]
            simp [flatG, tabRows, tabKey, tabVal]
          rw [hsnap]
          have hmset : mset (posMap 3 (P.length + 2) gs) x.name
              (P.length + 2 + 3 * gs.length) =
              posMap 3 (P.length + 2) (tabStep gs x) := by
            rw [mset_missing _ _ _ (by rw [posMap_keys]; exact hx), hstep,
              posMap_append]
            rfl
          rw [hmset]
        rw [hup]
        have hnd' : ((tabStep gs x).map Prod.fst).Nodup := by
          rw [hstep, List.map_append]
          simp only [List.map_cons, List.map_nil]
          rw [List.nodup_append]
          refine ⟨hnd, by simp, ?_⟩
          intro a ha hb
          simp only [List.mem_singleton] at hb
          exact hx (hb ▸ ha)
        have hres := ih (tabStep gs x) P I S hnd' hP hS
        rw [show areaT (tabStep gs x) = ("", "") :: ("Output Tabs", "") ::
            flatG tabRows (tabStep gs x) from by unfold areaT; rw [if_neg hne'],
          if_neg hne'] at hres
        exact hres

theorem run1_fmts (ts : List RowFormatRule) :
    ∀ (gs : List (String × FmtV)) (P : List KV) (I : EncIdx) (S : List String),
    (gs.map Prod.fst).Nodup →
    P ≠ [] →
    S.contains "row formats" = false →
    ts.foldl upsertFmt
      { snap := P ++ areaF gs,
        idx := { I with
                 fmtIdx := posMap 6 (P.length + 2) gs,
                 sections := S ++ (if gs = [] then [] else ["row formats"]) } } =
      { snap := P ++ areaF (ts.foldl fmtStep gs),
        idx := { I with
                 fmtIdx := posMap 6 (P.length + 2) (ts.foldl fmtStep gs),
                 sections := S ++ (if ts.foldl fmtStep gs = [] then []
                   else ["row formats"]) } } := by
  induction ts with
  | nil =>
    intro gs P I S _ _ _
    rfl
  | cons x ts' ih =>
    intro gs P I S hnd hP hS
    rw [List.foldl_cons, List.foldl_cons]
    by_cases hgs : gs = []
    · subst hgs
      have hA : areaF ([] : List (String × FmtV)) = [] := rfl
      have hif : (if ([] : List (String × FmtV)) = [] then ([] : List String)
          else ["row formats"]) = [] := rfl
      have hpm0 : posMap 6 (P.length + 2) ([] : List (String × FmtV)) = [] := rfl
      rw [hA, hif, hpm0, List.append_nil P, List.append_nil S]
      have hens : ensureSection
          { snap := P, idx := { I with fmtIdx := [], sections := S } }
            "Row Formats" =
          { snap := P ++ [(("" : String), ("" : String)), ("Row Formats", "")],
            idx := { I with
                     fmtIdx := [],
                     sections := S ++ ["row formats"] } } := by
        simp only [ensureSection]
        rw [show jsLower "Row Formats" = "row formats" from by decide]
        rw [if_neg (by rw [hS]; exact Bool.false_ne_true)]
        rw [if_pos hP]
        simp only [sadd]
        rw [if_neg (by rw [hS]; exact Bool.false_ne_true)]
        simp [List.append_assoc]
      have hup : upsertFmt
          { snap := P, idx := { I with fmtIdx := [], sections := S } } x =
          { snap := P ++ areaF [(fmtKey x, fmtVal x)],
            idx := { I with
                     fmtIdx := posMap 6 (P.length + 2) [(fmtKey x, fmtVal x)],
                     sections := S ++ ["row formats"] } } := by
        have hmg0 : mget ([] : List (String × ℕ)) x.rowType = none := rfl
        simp only [upsertFmt, hmg0]
        rw [hens]
        have hlen2 : (P ++ [(("" : String), ("" : String)),
            ("Row Formats", "")]).length = P.length + 2 := by
          simp
        rw [hlen2]
        have hsnap : P ++ [(("" : String), ("" : String)), ("Row Formats", "")] ++
            [("Row Name", x.rowType),
             ("Row Bold", if x.bold then "true" else "false"),
             ("Row Italic", if x.italic then "true" else "false"),
             ("Row BG Color", x.bgColor),
             ("Row Font Size", ntoa x.fontSize),
             ("Row Font Name", x.fontName)] =
            P ++ areaF [(fmtKey x, fmtVal x)] := by
          simp [areaF, flatG, fmtRows, fmtKey, fmtVal]
        rw [hsnap]
        rfl
      rw [hup]
      have hstep0 : fmtStep [] x = [(fmtKey x, fmtVal x)] := rfl
      rw [hstep0]
      exact ih [(fmtKey x, fmtVal x)] P I S (by simp) hP hS
    · rw [show areaF gs = ("", "") :: ("Row Formats", "") :: flatG fmtRows gs
          from by unfold areaF; rw [if_neg hgs]]
      rw [if_neg hgs]
      by_cases hx : fmtKey x ∈ gs.map Prod.fst
      · -- found: patch the group in place
        obtain ⟨b, hb⟩ := mget_posMap_mem 6 (P.length + 2) gs (fmtKey x) hx
        have hb' : mget (posMap 6 (P.length + 2) gs) x.rowType = some b := hb
        have hstep : fmtStep gs x =
            gs.map (fun p => if p.1 = fmtKey x then (p.1, fmtVal x) else p) :=
          agen_found_eq fmtKey fmtVal (fun _ t => fmtVal t) gs x hx
        have hne' : fmtStep gs x ≠ [] :=
          agen_ne_nil fmtKey fmtVal (fun _ t => fmtVal t) gs x
        have hb2 : mget (posMap 6
            (P ++ [(("" : String), ("" : String)), ("Row Formats", "")]).length gs)
            (fmtKey x) = some b := by
          rw [show (P ++ [(("" : String), ("" : String)),
            ("Row Formats", "")]).length = P.length + 2 from by simp]
          exact hb
        have hcore := core_found 6 fmtRows "Row Name" "row name"
          (fun p => p.1) fmtTail (patchFmt x) (fun _ => fmtVal x) (fmtKey x)
          (fun p => rfl) (fun p => rfl) (by decide)
          (fun p r hr => patchFmt_tail x p r hr p.1) (fun p => rfl)
          gs (P ++ [(("" : String), ("" : String)), ("Row Formats", "")]) [] b
          hnd trivial hb2
        have hshape : P ++ (("", "") :: ("Row Formats", "") :: flatG fmtRows gs) =
            P ++ [(("" : String), ("" : String)), ("Row Formats", "")] ++
              flatG fmtRows gs ++ [] := by
          simp
        have hsnap : (P ++ (("", "") :: ("Row Formats", "") ::
              flatG fmtRows gs)).take (b + 1) ++
            patchFmt x ((P ++ (("", "") :: ("Row Formats", "") ::
              flatG fmtRows gs)).drop (b + 1)) =
            P ++ (("", "") :: ("Row Formats", "") ::
              flatG fmtRows (fmtStep gs x)) := by
          rw [hshape, hstep]
          rw [hcore]
          simp
        have hup : upsertFmt
            { snap := P ++ (("", "") :: ("Row Formats", "") :: flatG fmtRows gs),
              idx := { I with
                       fmtIdx := posMap 6 (P.length + 2) gs,
                       sections := S ++ ["row formats"] } } x =
            { snap := P ++ (("", "") :: ("Row Formats", "") ::
                flatG fmtRows (fmtStep gs x)),
              idx := { I with
                       fmtIdx := posMap 6 (P.length + 2) gs,
                       sections := S ++ ["row formats"] } } := by
          simp only [upsertFmt, hb']
          rw [hsnap]
        rw [hup]
        have hpm : posMap 6 (P.length + 2) (fmtStep gs x) =
            posMap 6 (P.length + 2) gs := by
          rw [hstep]
          exact posMap_replace 6 (P.length + 2) gs (fmtKey x) (fun _ => fmtVal x)
        have hnd' : ((fmtStep gs x).map Prod.fst).Nodup := by
          rw [hstep, keys_replace gs (fmtKey x) (fun _ => fmtVal x)]
          exact hnd
        have hres := ih (fmtStep gs x) P I S hnd' hP hS
        rw [show areaF (fmtStep gs x) = ("", "") :: ("Row Formats", "") ::
            flatG fmtRows (fmtStep gs x) from by unfold areaF; rw [if_neg hne'],
          if_neg hne', hpm] at hres
        exact hres
      · -- missing: append a fresh group at the end of the area
        have hmg : mget (posMap 6 (P.length + 2) gs) x.rowType = none :=
          mget_posMap_none 6 (P.length + 2) gs (fmtKey x) hx
        have hstep : fmtStep gs x = gs ++ [(fmtKey x, fmtVal x)] :=
          agen_missing_eq fmtKey fmtVal (fun _ t => fmtVal t) gs x hx
        have hne' : fmtStep gs x ≠ [] :=
          agen_ne_nil fmtKey fmtVal (fun _ t => fmtVal t) gs x
        have hens : ensureSection
            { snap := P ++ (("", "") :: ("Row Formats", "") :: flatG fmtRows gs),
              idx := { I with
                       fmtIdx := posMap 6 (P.length + 2) gs,
                       sections := S ++ ["row formats"] } } "Row Formats" =
            { snap := P ++ (("", "") :: ("Row Formats", "") :: flatG fmtRows gs),
              idx := { I with
                       fmtIdx := posMap 6 (P.length + 2) gs,
                       sections := S ++ ["row formats"] } } := by
          simp only [ensureSection]
          rw [show jsLower "Row Formats" = "row formats" from by decide]
          rw [if_pos (by simp)]
        have hbase : (P ++ (("", "") :: ("Row Formats", "") ::
            flatG fmtRows gs)).length = P.length + 2 + 6 * gs.length := by
          simp [flatG_length 6 fmtRows (fun p => rfl) gs]
          ring
        have hup : upsertFmt
            { snap := P ++ (("", "") :: ("Row Formats", "") :: flatG fmtRows gs),
              idx := { I with
                       fmtIdx := posMap 6 (P.length + 2) gs,
                       sections := S ++ ["row formats"] } } x =
            { snap := P ++ (("", "") :: ("Row Formats", "") ::
                flatG fmtRows (fmtStep gs x)),
              idx := { I with
                       fmtIdx := posMap 6 (P.length + 2) (fmtStep gs x),
                       sections := S ++ ["row formats"] } } := by
          simp only [upsertFmt, hmg]
          rw [hens, hbase]
          have hsnap : P ++ (("", "") :: ("Row Formats", "") :: flatG fmtRows gs) ++
              [("Row Name", x.rowType),
               ("Row Bold", if x.bold then "true" else "false"),
               ("Row Italic", if x.italic then "true" else "false"),
               ("Row BG Color", x.bgColor),
               ("Row Font Size", ntoa x.fontSize),
               ("Row Font Name", x.fontName)] =
              P ++ (("", "") :: ("Row Formats", "") ::
                flatG fmtRows (fmtStep gs x)) := by
            rw [hstep, flatG_append]
            simp [flatG, fmtRows, fmtKey, fmtVal]
          rw [hsnap]
          have hmset : mset (posMap 6 (P.length + 2) gs) x.rowType
              (P.length + 2 + 6 * gs.length) =
              posMap 6 (P.length + 2) (fmtStep gs x) := by
            rw [mset_missing _ _ _ (by rw [posMap_keys]; exact hx), hstep,
              posMap_append]
            rfl
          rw [hmset]
        rw [hup]
        have hnd' : ((fmtStep gs x).map Prod.fst).Nodup := by
          rw [hstep, List.map_append]
          simp only [List.map_cons, List.map_nil]
          rw [List.nodup_append]
          refine ⟨hnd, by simp, ?_⟩
          intro a ha hb
          simp only [List.mem_singleton] at hb
          exact hx (hb ▸ ha)
        have hres := ih (fmtStep gs x) P I S hnd' hP hS
        rw [show areaF (fmtStep gs x) = ("", "") :: ("Row Formats", "") ::
            flatG fmtRows (fmtStep gs x) from by unfold areaF; rw [if_neg hne'],
          if_neg hne'] at hres
        exact hres

theorem run1_conds (ts : List CellConditionRule) :
    ∀ (gs : List (String × CondV)) (P : List KV) (I : EncIdx) (S : List String),
    (gs.map Prod.fst).Nodup →
    P ≠ [] →
    S.contains "override rules" = false →
    ts.foldl upsertCond
      { snap := P ++ areaC gs,
        idx := { I with
                 condIdx := posMap 7 (P.length + 2) gs,
                 sections := S ++ (if gs = [] then [] else ["override rules"]) } } =
      { snap := P ++ areaC (ts.foldl condStep gs),
        idx := { I with
                 condIdx := posMap 7 (P.length + 2) (ts.foldl condStep gs),
                 sections := S ++ (if ts.foldl condStep gs = [] then []
                   else ["override rules"]) } } := by
  induction ts with
  | nil =>
    intro gs P I S _ _ _
    rfl
  | cons x ts' ih =>
    intro gs P I S hnd hP hS
    rw [List.foldl_cons, List.foldl_cons]
    by_cases hgs : gs = []
    · subst hgs
      have hA : areaC ([] : List (String × CondV)) = [] := rfl
      have hif : (if ([] : List (String × CondV)) = [] then ([] : List String)
          else ["override rules"]) = [] := rfl
      have hpm0 : posMap 7 (P.length + 2) ([] : List (String × CondV)) = [] := rfl
      rw [hA, hif, hpm0, List.append_nil P, List.append_nil S]
      have hens : ensureSection
          { snap := P, idx := { I with condIdx := [], sections := S } }
            "Override Rules" =
          { snap := P ++ [(("" : String), ("" : String)), ("Override Rules", "")],
            idx := { I with
                     condIdx := [],
                     sections := S ++ ["override rules"] } } := by
        simp only [ensureSection]
        rw [show jsLower "Override Rules" = "override rules" from by decide]
        rw [if_neg (by rw [hS]; exact Bool.false_ne_true)]
        rw [if_pos hP]
        simp only [sadd]
        rw [if_neg (by rw [hS]; exact Bool.false_ne_true)]
        simp [List.append_assoc]
      have hup : upsertCond
          { snap := P, idx := { I with condIdx := [], sections := S } } x =
          { snap := P ++ areaC [(condKey x, condVal x)],
            idx := { I with
                     condIdx := posMap 7 (P.length + 2) [(condKey x, condVal x)],
                     sections := S ++ ["override rules"] } } := by
        have hmg0 : mget ([] : List (String × ℕ)) (condIdentity x) = none := rfl
        simp only [upsertCond, hmg0]
        rw [hens]
        have hlen2 : (P ++ [(("" : String), ("" : String)),
            ("Override Rules", "")]).length = P.length + 2 := by
          simp
        rw [hlen2]
        have hsnap : P ++ [(("" : String), ("" : String)), ("Override Rules", "")] ++
            [("Override Column", x.column),
             ("Override Value", x.contains),
             ("Override Bold", if x.bold then "true" else "false"),
             ("Override Italic", if x.italic then "true" else "false"),
             ("Override BG Color", x.bgColor),
             ("Override Font Size", ntoa x.fontSize),
             ("Override Font Name", x.fontName)] =
            P ++ areaC [(condKey x, condVal x)] := by
          simp [areaC, flatG, condRows, condKey, condVal]
        rw [hsnap]
        rfl
      rw [hup]
      have hstep0 : condStep [] x = [(condKey x, condVal x)] := rfl
      rw [hstep0]
      exact ih [(condKey x, condVal x)] P I S (by simp) hP hS
    · rw [show areaC gs = ("", "") :: ("Override Rules", "") :: flatG condRows gs
          from by unfold areaC; rw [if_neg hgs]]
      rw [if_neg hgs]
      by_cases hx : condKey x ∈ gs.map Prod.fst
      · -- found: patch the group in place
        obtain ⟨b, hb⟩ := mget_posMap_mem 7 (P.length + 2) gs (condKey x) hx
        have hb' : mget (posMap 7 (P.length + 2) gs) (condIdentity x) = some b := hb
        have hstep : condStep gs x =
            gs.map (fun p => if p.1 = condKey x then (p.1, condMerge p.2 x) else p) :=
          agen_found_eq condKey condVal condMerge gs x hx
        have hne' : condStep gs x ≠ [] :=
          agen_ne_nil condKey condVal condMerge gs x
        have hb2 : mget (posMap 7
            (P ++ [(("" : String), ("" : String)), ("Override Rules", "")]).length gs)
            (condKey x) = some b := by
          rw [show (P ++ [(("" : String), ("" : String)),
            ("Override Rules", "")]).length = P.length + 2 from by simp]
          exact hb
        have hcore := core_found 7 condRows "Override Column" "override column"
          (fun p => p.2.1) condTail (patchCond x) (fun v => condMerge v x) (condKey x)
          (fun p => rfl) (fun p => rfl) (by decide)
          (fun p r hr => patchCond_tail x p r hr p.1) (fun p => rfl)
          gs (P ++ [(("" : String), ("" : String)), ("Override Rules", "")]) [] b
          hnd trivial hb2
        have hshape : P ++ (("", "") :: ("Override Rules", "") :: flatG condRows gs) =
            P ++ [(("" : String), ("" : String)), ("Override Rules", "")] ++
              flatG condRows gs ++ [] := by
          simp
        have hsnap : (P ++ (("", "") :: ("Override Rules", "") ::
              flatG condRows gs)).take (b + 1) ++
            patchCond x ((P ++ (("", "") :: ("Override Rules", "") ::
              flatG condRows gs)).drop (b + 1)) =
            P ++ (("", "") :: ("Override Rules", "") ::
              flatG condRows (condStep gs x)) := by
          rw [hshape, hstep]
          rw [hcore]
          simp
        have hup : upsertCond
            { snap := P ++ (("", "") :: ("Override Rules", "") :: flatG condRows gs),
              idx := { I with
                       condIdx := posMap 7 (P.length + 2) gs,
                       sections := S ++ ["override rules"] } } x =
            { snap := P ++ (("", "") :: ("Override Rules", "") ::
                flatG condRows (condStep gs x)),
              idx := { I with
                       condIdx := posMap 7 (P.length + 2) gs,
                       sections := S ++ ["override rules"] } } := by
          simp only [upsertCond, hb']
          rw [hsnap]
        rw [hup]
        have hpm : posMap 7 (P.length + 2) (condStep gs x) =
            posMap 7 (P.length + 2) gs := by
          rw [hstep]
          exact posMap_replace 7 (P.length + 2) gs (condKey x) (fun v => condMerge v x)
        have hnd' : ((condStep gs x).map Prod.fst).Nodup := by
          rw [hstep, keys_replace gs (condKey x) (fun v => condMerge v x)]
          exact hnd
        have hres := ih (condStep gs x) P I S hnd' hP hS
        rw [show areaC (condStep gs x) = ("", "") :: ("Override Rules", "") ::
            flatG condRows (condStep gs x) from by unfold areaC; rw [if_neg hne'],
          if_neg hne', hpm] at hres
        exact hres
      · -- missing: append a fresh group at the end of the area
        have hmg : mget (posMap 7 (P.length + 2) gs) (condIdentity x) = none :=
          mget_posMap_none 7 (P.length + 2) gs (condKey x) hx
        have hstep : condStep gs x = gs ++ [(condKey x, condVal x)] :=
          agen_missing_eq condKey condVal condMerge gs x hx
        have hne' : condStep gs x ≠ [] :=
          agen_ne_nil condKey condVal condMerge gs x
        have hens : ensureSection
            { snap := P ++ (("", "") :: ("Override Rules", "") :: flatG condRows gs),
              idx := { I with
                       condIdx := posMap 7 (P.length + 2) gs,
                       sections := S ++ ["override rules"] } } "Override Rules" =
            { snap := P ++ (("", "") :: ("Override Rules", "") :: flatG condRows gs),
              idx := { I with
                       condIdx := posMap 7 (P.length + 2) gs,
                       sections := S ++ ["override rules"] } } := by
          simp only [ensureSection]
          rw [show jsLower "Override Rules" = "override rules" from by decide]
          rw [if_pos (by simp)]
        have hbase : (P ++ (("", "") :: ("Override Rules", "") ::
            flatG condRows gs)).length = P.length + 2 + 7 * gs.length := by
          simp [flatG_length 7 condRows (fun p => rfl) gs]
          ring
        have hup : upsertCond
            { snap := P ++ (("", "") :: ("Override Rules", "") :: flatG condRows gs),
              idx := { I with
                       condIdx := posMap 7 (P.length + 2) gs,
                       sections := S ++ ["override rules"] } } x =
            { snap := P ++ (("", "") :: ("Override Rules", "") ::
                flatG condRows (condStep gs x)),
              idx := { I with
                       condIdx := posMap 7 (P.length + 2) (condStep gs x),
                       sections := S ++ ["override rules"] } } := by
          simp only [upsertCond, hmg]
          rw [hens, hbase]
          have hsnap : P ++ (("", "") :: ("Override Rules", "") :: flatG condRows gs) ++
              [("Override Column", x.column),
               ("Override Value", x.contains),
               ("Override Bold", if x.bold then "true" else "false"),
               ("Override Italic", if x.italic then "true" else "false"),
               ("Override BG Color", x.bgColor),
               ("Override Font Size", ntoa x.fontSize),
               ("Override Font Name", x.fontName)] =
              P ++ (("", "") :: ("Override Rules", "") ::
                flatG condRows (condStep gs x)) := by
            rw [hstep, flatG_append]
            simp [flatG, condRows, condKey, condVal]
          rw [hsnap]
          have hmset : mset (posMap 7 (P.length + 2) gs) (condIdentity x)
              (P.length + 2 + 7 * gs.length) =
              posMap 7 (P.length + 2) (condStep gs x) := by
            rw [mset_missing _ _ _ (by rw [posMap_keys]; exact hx), hstep,
              posMap_append]
            rfl
          rw [hmset]
        rw [hup]
        have hnd' : ((condStep gs x).map Prod.fst).Nodup := by
          rw [hstep, List.map_append]
          simp only [List.map_cons, List.map_nil]
          rw [List.nodup_append]
          refine ⟨hnd, by simp, ?_⟩
          intro a ha hb
          simp only [List.mem_singleton] at hb
          exact hx (hb ▸ ha)
        have hres := ih (condStep gs x) P I S hnd' hP hS
        rw [show areaC (condStep gs x) = ("", "") :: ("Override Rules", "") ::
            flatG condRows (condStep gs x) from by unfold areaC; rw [if_neg hne'],
          if_neg hne'] at hres
        exact hres

/-! The first export: closed form of the singleton phase. -/

/-- The singleton phase of `writeSnapshot`, source order. -/
def singlesPhase (config : AppConfig) (st0 : WSt) : WSt :=
  let st := upsertSingleton st0 "Column Mapping" "Type Column" config.typeColumn
  let st := upsertSingleton st "Gap Threshold" "Gap Threshold (MM:SS)"
    (if config.gapThresholdSeconds > 0 then formatMMSS config.gapThresholdSeconds else "")
  let st := upsertSingleton st "Gap Threshold" "Time Column" config.timeColumn
  let st := upsertSingleton st "Title Block" "Title Block Enabled"
    (if config.titleBlock.enabled then "yes" else "no")
  let st := upsertSingleton st "Title Block" "Company Name" config.titleBlock.companyName
  let st := upsertSingleton st "Title Block" "Show Name" config.titleBlock.showName
  let st := upsertSingleton st "Title Block" "Lighting Designer" config.titleBlock.lightingDesigner
  let st := upsertSingleton st "Title Block" "Version" config.titleBlock.version
  let st := upsertSingleton st "Title Block" "Note 1" config.titleBlock.note1
  let st := upsertSingleton st "Title Block" "Note 2" config.titleBlock.note2
  st

theorem writeSnapshot_phases (config : AppConfig) (old : List KV) :
    writeSnapshot config old =
      (config.cellConditions.foldl upsertCond
        (config.rowFormats.foldl upsertFmt
          (config.tabs.foldl upsertTab
            (singlesPhase config { snap := old, idx := buildIdx old 0 {} })))).snap := rfl

/-- The 15 singleton rows the first export writes on an empty sheet
(blank separators included). -/
def B0rows (c : AppConfig) : List KV :=
  [("Column Mapping", ""), ("Type Column", c.typeColumn), ("", ""), ("Gap Threshold", ""), ("Gap Threshold (MM:SS)", if c.gapThresholdSeconds > 0 then formatMMSS c.gapThresholdSeconds else ""), ("Time Column", c.timeColumn), ("", ""), ("Title Block", ""), ("Title Block Enabled", if c.titleBlock.enabled then "yes" else "no"), ("Company Name", c.titleBlock.companyName), ("Show Name", c.titleBlock.showName), ("Lighting Designer", c.titleBlock.lightingDesigner), ("Version", c.titleBlock.version), ("Note 1", c.titleBlock.note1), ("Note 2", c.titleBlock.note2)]

/-- The index state after the singleton phase of the first export. -/
def idxB : EncIdx :=
  { singletonIdx := [("type column", 1), ("gap threshold (mm:ss)", 4), ("time column", 5), ("title block enabled", 8), ("company name", 9), ("show name", 10), ("lighting designer", 11), ("version", 12), ("note 1", 13), ("note 2", 14)], tabIdx := [], fmtIdx := [], condIdx := [], sections := ["column mapping", "gap threshold", "title block"] }

theorem singles_run1 (c : AppConfig) :
    singlesPhase c { snap := [], idx := buildIdx [] 0 {} } =
      { snap := B0rows c, idx := idxB } := by
  have e1 :
      upsertSingleton { snap := ([] : List KV), idx := buildIdx [] 0 {} } "Column Mapping" "Type Column" c.typeColumn =
      { snap := [("Column Mapping", ""), ("Type Column", c.typeColumn)], idx := { singletonIdx := [("type column", 1)], tabIdx := [], fmtIdx := [], condIdx := [], sections := ["column mapping"] } } := rfl
  have e2 :
      upsertSingleton { snap := [("Column Mapping", ""), ("Type Column", c.typeColumn)], idx := { singletonIdx := [("type column", 1)], tabIdx := [], fmtIdx := [], condIdx := [], sections := ["column mapping"] } } "Gap Threshold" "Gap Threshold (MM:SS)" (if c.gapThresholdSeconds > 0 then formatMMSS c.gapThresholdSeconds else "") =
      { snap := [("Column Mapping", ""), ("Type Column", c.typeColumn), ("", ""), ("Gap Threshold", ""), ("Gap Threshold (MM:SS)", if c.gapThresholdSeconds > 0 then formatMMSS c.gapThresholdSeconds else "")], idx := { singletonIdx := [("type column", 1), ("gap threshold (mm:ss)", 4)], tabIdx := [], fmtIdx := [], condIdx := [], sections := ["column mapping", "gap threshold"] } } := rfl
  have e3 :
      upsertSingleton { snap := [("Column Mapping", ""), ("Type Column", c.typeColumn), ("", ""), ("Gap Threshold", ""), ("Gap Threshold (MM:SS)", if c.gapThresholdSeconds > 0 then formatMMSS c.gapThresholdSeconds else "")], idx := { singletonIdx := [("type column", 1), ("gap threshold (mm:ss)", 4)], tabIdx := [], fmtIdx := [], condIdx := [], sections := ["column mapping", "gap threshold"] } } "Gap Threshold" "Time Column" c.timeColumn =
      { snap := [("Column Mapping", ""), ("Type Column", c.typeColumn), ("", ""), ("Gap Threshold", ""), ("Gap Threshold (MM:SS)", if c.gapThresholdSeconds > 0 then formatMMSS c.gapThresholdSeconds else ""), ("Time Column", c.timeColumn)], idx := { singletonIdx := [("type column", 1), ("gap threshold (mm:ss)", 4), ("time column", 5)], tabIdx := [], fmtIdx := [], condIdx := [], sections := ["column mapping", "gap threshold"] } } := rfl
  have e4 :
      upsertSingleton { snap := [("Column Mapping", ""), ("Type Column", c.typeColumn), ("", ""), ("Gap Threshold", ""), ("Gap Threshold (MM:SS)", if c.gapThresholdSeconds > 0 then formatMMSS c.gapThresholdSeconds else ""), ("Time Column", c.timeColumn)], idx := { singletonIdx := [("type column", 1), ("gap threshold (mm:ss)", 4), ("time column", 5)], tabIdx := [], fmtIdx := [], condIdx := [], sections := ["column mapping", "gap threshold"] } } "Title Block" "Title Block Enabled" (if c.titleBlock.enabled then "yes" else "no") =
      { snap := [("Column Mapping", ""), ("Type Column", c.typeColumn), ("", ""), ("Gap Threshold", ""), ("Gap Threshold (MM:SS)", if c.gapThresholdSeconds > 0 then formatMMSS c.gapThresholdSeconds else ""), ("Time Column", c.timeColumn), ("", ""), ("Title Block", ""), ("Title Block Enabled", if c.titleBlock.enabled then "yes" else "no")], idx := { singletonIdx := [("type column", 1), ("gap threshold (mm:ss)", 4), ("time column", 5), ("title block enabled", 8)], tabIdx := [], fmtIdx := [], condIdx := [], sections := ["column mapping", "gap threshold", "title block"] } } := rfl
  have e5 :
      upsertSingleton { snap := [("Column Mapping", ""), ("Type Column", c.typeColumn), ("", ""), ("Gap Threshold", ""), ("Gap Threshold (MM:SS)", if c.gapThresholdSeconds > 0 then formatMMSS c.gapThresholdSeconds else ""), ("Time Column", c.timeColumn), ("", ""), ("Title Block", ""), ("Title Block Enabled", if c.titleBlock.enabled then "yes" else "no")], idx := { singletonIdx := [("type column", 1), ("gap threshold (mm:ss)", 4), ("time column", 5), ("title block enabled", 8)], tabIdx := [], fmtIdx := [], condIdx := [], sections := ["column mapping", "gap threshold", "title block"] } } "Title Block" "Company Name" c.titleBlock.companyName =
      { snap := [("Column Mapping", ""), ("Type Column", c.typeColumn), ("", ""), ("Gap Threshold", ""), ("Gap Threshold (MM:SS)", if c.gapThresholdSeconds > 0 then formatMMSS c.gapThresholdSeconds else ""), ("Time Column", c.timeColumn), ("", ""), ("Title Block", ""), ("Title Block Enabled", if c.titleBlock.enabled then "yes" else "no"), ("Company Name", c.titleBlock.companyName)], idx := { singletonIdx := [("type column", 1), ("gap threshold (mm:ss)", 4), ("time column", 5), ("title block enabled", 8), ("company name", 9)], tabIdx := [], fmtIdx := [], condIdx := [], sections := ["column mapping", "gap threshold", "title block"] } } := rfl
  have e6 :
      upsertSingleton { snap := [("Column Mapping", ""), ("Type Column", c.typeColumn), ("", ""), ("Gap Threshold", ""), ("Gap Threshold (MM:SS)", if c.gapThresholdSeconds > 0 then formatMMSS c.gapThresholdSeconds else ""), ("Time Column", c.timeColumn), ("", ""), ("Title Block", ""), ("Title Block Enabled", if c.titleBlock.enabled then "yes" else "no"), ("Company Name", c.titleBlock.companyName)], idx := { singletonIdx := [("type column", 1), ("gap threshold (mm:ss)", 4), ("time column", 5), ("title block enabled", 8), ("company name", 9)], tabIdx := [], fmtIdx := [], condIdx := [], sections := ["column mapping", "gap threshold", "title block"] } } "Title Block" "Show Name" c.titleBlock.showName =
      { snap := [("Column Mapping", ""), ("Type Column", c.typeColumn), ("", ""), ("Gap Threshold", ""), ("Gap Threshold (MM:SS)", if c.gapThresholdSeconds > 0 then formatMMSS c.gapThresholdSeconds else ""), ("Time Column", c.timeColumn), ("", ""), ("Title Block", ""), ("Title Block Enabled", if c.titleBlock.enabled then "yes" else "no"), ("Company Name", c.titleBlock.companyName), ("Show Name", c.titleBlock.showName)], idx := { singletonIdx := [("type column", 1), ("gap threshold (mm:ss)", 4), ("time column", 5), ("title block enabled", 8), ("company name", 9), ("show name", 10)], tabIdx := [], fmtIdx := [], condIdx := [], sections := ["column mapping", "gap threshold", "title block"] } } := rfl
  have e7 :
      upsertSingleton { snap := [("Column Mapping", ""), ("Type Column", c.typeColumn), ("", ""), ("Gap Threshold", ""), ("Gap Threshold (MM:SS)", if c.gapThresholdSeconds > 0 then formatMMSS c.gapThresholdSeconds else ""), ("Time Column", c.timeColumn), ("", ""), ("Title Block", ""), ("Title Block Enabled", if c.titleBlock.enabled then "yes" else "no"), ("Company Name", c.titleBlock.companyName), ("Show Name", c.titleBlock.showName)], idx := { singletonIdx := [("type column", 1), ("gap threshold (mm:ss)", 4), ("time column", 5), ("title block enabled", 8), ("company name", 9), ("show name", 10)], tabIdx := [], fmtIdx := [], condIdx := [], sections := ["column mapping", "gap threshold", "title block"] } } "Title Block" "Lighting Designer" c.titleBlock.lightingDesigner =
      { snap := [("Column Mapping", ""), ("Type Column", c.typeColumn), ("", ""), ("Gap Threshold", ""), ("Gap Threshold (MM:SS)", if c.gapThresholdSeconds > 0 then formatMMSS c.gapThresholdSeconds else ""), ("Time Column", c.timeColumn), ("", ""), ("Title Block", ""), ("Title Block Enabled", if c.titleBlock.enabled then "yes" else "no"), ("Company Name", c.titleBlock.companyName), ("Show Name", c.titleBlock.showName), ("Lighting Designer", c.titleBlock.lightingDesigner)], idx := { singletonIdx := [("type column", 1), ("gap threshold (mm:ss)", 4), ("time column", 5), ("title block enabled", 8), ("company name", 9), ("show name", 10), ("lighting designer", 11)], tabIdx := [], fmtIdx := [], condIdx := [], sections := ["column mapping", "gap threshold", "title block"] } } := rfl
  have e8 :
      upsertSingleton { snap := [("Column Mapping", ""), ("Type Column", c.typeColumn), ("", ""), ("Gap Threshold", ""), ("Gap Threshold (MM:SS)", if c.gapThresholdSeconds > 0 then formatMMSS c.gapThresholdSeconds else ""), ("Time Column", c.timeColumn), ("", ""), ("Title Block", ""), ("Title Block Enabled", if c.titleBlock.enabled then "yes" else "no"), ("Company Name", c.titleBlock.companyName), ("Show Name", c.titleBlock.showName), ("Lighting Designer", c.titleBlock.lightingDesigner)], idx := { singletonIdx := [("type column", 1), ("gap threshold (mm:ss)", 4), ("time column", 5), ("title block enabled", 8), ("company name", 9), ("show name", 10), ("lighting designer", 11)], tabIdx := [], fmtIdx := [], condIdx := [], sections := ["column mapping", "gap threshold", "title block"] } } "Title Block" "Version" c.titleBlock.version =
      { snap := [("Column Mapping", ""), ("Type Column", c.typeColumn), ("", ""), ("Gap Threshold", ""), ("Gap Threshold (MM:SS)", if c.gapThresholdSeconds > 0 then formatMMSS c.gapThresholdSeconds else ""), ("Time Column", c.timeColumn), ("", ""), ("Title Block", ""), ("Title Block Enabled", if c.titleBlock.enabled then "yes" else "no"), ("Company Name", c.titleBlock.companyName), ("Show Name", c.titleBlock.showName), ("Lighting Designer", c.titleBlock.lightingDesigner), ("Version", c.titleBlock.version)], idx := { singletonIdx := [("type column", 1), ("gap threshold (mm:ss)", 4), ("time column", 5), ("title block enabled", 8), ("company name", 9), ("show name", 10), ("lighting designer", 11), ("version", 12)], tabIdx := [], fmtIdx := [], condIdx := [], sections := ["column mapping", "gap threshold", "title block"] } } := rfl
  have e9 :
      upsertSingleton { snap := [("Column Mapping", ""), ("Type Column", c.typeColumn), ("", ""), ("Gap Threshold", ""), ("Gap Threshold (MM:SS)", if c.gapThresholdSeconds > 0 then formatMMSS c.gapThresholdSeconds else ""), ("Time Column", c.timeColumn), ("", ""), ("Title Block", ""), ("Title Block Enabled", if c.titleBlock.enabled then "yes" else "no"), ("Company Name", c.titleBlock.companyName), ("Show Name", c.titleBlock.showName), ("Lighting Designer", c.titleBlock.lightingDesigner), ("Version", c.titleBlock.version)], idx := { singletonIdx := [("type column", 1), ("gap threshold (mm:ss)", 4), ("time column", 5), ("title block enabled", 8), ("company name", 9), ("show name", 10), ("lighting designer", 11), ("version", 12)], tabIdx := [], fmtIdx := [], condIdx := [], sections := ["column mapping", "gap threshold", "title block"] } } "Title Block" "Note 1" c.titleBlock.note1 =
      { snap := [("Column Mapping", ""), ("Type Column", c.typeColumn), ("", ""), ("Gap Threshold", ""), ("Gap Threshold (MM:SS)", if c.gapThresholdSeconds > 0 then formatMMSS c.gapThresholdSeconds else ""), ("Time Column", c.timeColumn), ("", ""), ("Title Block", ""), ("Title Block Enabled", if c.titleBlock.enabled then "yes" else "no"), ("Company Name", c.titleBlock.companyName), ("Show Name", c.titleBlock.showName), ("Lighting Designer", c.titleBlock.lightingDesigner), ("Version", c.titleBlock.version), ("Note 1", c.titleBlock.note1)], idx := { singletonIdx := [("type column", 1), ("gap threshold (mm:ss)", 4), ("time column", 5), ("title block enabled", 8), ("company name", 9), ("show name", 10), ("lighting designer", 11), ("version", 12), ("note 1", 13)], tabIdx := [], fmtIdx := [], condIdx := [], sections := ["column mapping", "gap threshold", "title block"] } } := rfl
  have e10 :
      upsertSingleton { snap := [("Column Mapping", ""), ("Type Column", c.typeColumn), ("", ""), ("Gap Threshold", ""), ("Gap Threshold (MM:SS)", if c.gapThresholdSeconds > 0 then formatMMSS c.gapThresholdSeconds else ""), ("Time Column", c.timeColumn), ("", ""), ("Title Block", ""), ("Title Block Enabled", if c.titleBlock.enabled then "yes" else "no"), ("Company Name", c.titleBlock.companyName), ("Show Name", c.titleBlock.showName), ("Lighting Designer", c.titleBlock.lightingDesigner), ("Version", c.titleBlock.version), ("Note 1", c.titleBlock.note1)], idx := { singletonIdx := [("type column", 1), ("gap threshold (mm:ss)", 4), ("time column", 5), ("title block enabled", 8), ("company name", 9), ("show name", 10), ("lighting designer", 11), ("version", 12), ("note 1", 13)], tabIdx := [], fmtIdx := [], condIdx := [], sections := ["column mapping", "gap threshold", "title block"] } } "Title Block" "Note 2" c.titleBlock.note2 =
      { snap := [("Column Mapping", ""), ("Type Column", c.typeColumn), ("", ""), ("Gap Threshold", ""), ("Gap Threshold (MM:SS)", if c.gapThresholdSeconds > 0 then formatMMSS c.gapThresholdSeconds else ""), ("Time Column", c.timeColumn), ("", ""), ("Title Block", ""), ("Title Block Enabled", if c.titleBlock.enabled then "yes" else "no"), ("Company Name", c.titleBlock.companyName), ("Show Name", c.titleBlock.showName), ("Lighting Designer", c.titleBlock.lightingDesigner), ("Version", c.titleBlock.version), ("Note 1", c.titleBlock.note1), ("Note 2", c.titleBlock.note2)], idx := { singletonIdx := [("type column", 1), ("gap threshold (mm:ss)", 4), ("time column", 5), ("title block enabled", 8), ("company name", 9), ("show name", 10), ("lighting designer", 11), ("version", 12), ("note 1", 13), ("note 2", 14)], tabIdx := [], fmtIdx := [], condIdx := [], sections := ["column mapping", "gap threshold", "title block"] } } := rfl
  simp only [singlesPhase]
  rw [e1, e2, e3, e4, e5, e6, e7, e8, e9, e10]
  rfl

/-- Insertion-ordered dedup of the configured tabs (last values win). -/
def gsT (c : AppConfig) : List (String × TabV) := c.tabs.foldl tabStep []

def gsF (c : AppConfig) : List (String × FmtV) := c.rowFormats.foldl fmtStep []

def gsC (c : AppConfig) : List (String × CondV) := c.cellConditions.foldl condStep []

/-- The first export in closed form: singleton block, then one area per
non-empty group kind. -/
theorem run1_closed (c : AppConfig) :
    writeSnapshot c [] =
      B0rows c ++ areaT (List.foldl tabStep [] c.tabs) ++
        areaF (List.foldl fmtStep [] c.rowFormats) ++
        areaC (List.foldl condStep [] c.cellConditions) := by
  rw [writeSnapshot_phases, singles_run1]
  have h1 := run1_tabs c.tabs [] (B0rows c) idxB
    ["column mapping", "gap threshold", "title block"]
    (by simp) (by simp [B0rows]) (by decide)
  have hpad1 : ({ snap := B0rows c, idx := idxB } : WSt) =
      { snap := B0rows c ++ areaT ([] : List (String × TabV)), idx := { idxB with tabIdx := posMap 3 ((B0rows c).length + 2) ([] : List (String × TabV)), sections := ["column mapping", "gap threshold", "title block"] ++ (if ([] : List (String × TabV)) = [] then [] else ["output tabs"]) } } := rfl
  rw [hpad1, h1]
  have hS2 : (["column mapping", "gap threshold", "title block"] ++ (if List.foldl tabStep [] c.tabs = [] then [] else ["output tabs"])).contains "row formats" = false := by
    by_cases h : List.foldl tabStep [] c.tabs = []
    · rw [if_pos h]
      decide
    · rw [if_neg h]
      decide
  have h2 := run1_fmts c.rowFormats []
    (B0rows c ++ areaT (List.foldl tabStep [] c.tabs))
    { idxB with tabIdx := posMap 3 ((B0rows c).length + 2) (List.foldl tabStep [] c.tabs), sections := ["column mapping", "gap threshold", "title block"] ++ (if List.foldl tabStep [] c.tabs = [] then [] else ["output tabs"]) }
    (["column mapping", "gap threshold", "title block"] ++ (if List.foldl tabStep [] c.tabs = [] then [] else ["output tabs"]))
    (by simp) (by simp [B0rows]) hS2
  have hpad2 : ({ snap := B0rows c ++ areaT (List.foldl tabStep [] c.tabs), idx := { idxB with tabIdx := posMap 3 ((B0rows c).length + 2) (List.foldl tabStep [] c.tabs), sections := ["column mapping", "gap threshold", "title block"] ++ (if List.foldl tabStep [] c.tabs = [] then [] else ["output tabs"]) } } : WSt) =
      { snap := (B0rows c ++ areaT (List.foldl tabStep [] c.tabs)) ++ areaF ([] : List (String × FmtV)), idx := { { idxB with tabIdx := posMap 3 ((B0rows c).length + 2) (List.foldl tabStep [] c.tabs), sections := ["column mapping", "gap threshold", "title block"] ++ (if List.foldl tabStep [] c.tabs = [] then [] else ["output tabs"]) } with fmtIdx := posMap 6 ((B0rows c ++ areaT (List.foldl tabStep [] c.tabs)).length + 2) ([] : List (String × FmtV)), sections := (["column mapping", "gap threshold", "title block"] ++ (if List.foldl tabStep [] c.tabs = [] then [] else ["output tabs"])) ++ (if ([] : List (String × FmtV)) = [] then [] else ["row formats"]) } } := by
    have ha : (B0rows c ++ areaT (List.foldl tabStep [] c.tabs)) ++ areaF ([] : List (String × FmtV)) = (B0rows c ++ areaT (List.foldl tabStep [] c.tabs)) := List.append_nil _
    have hb : (["column mapping", "gap threshold", "title block"] ++ (if List.foldl tabStep [] c.tabs = [] then [] else ["output tabs"])) ++ (if ([] : List (String × FmtV)) = [] then [] else ["row formats"]) = (["column mapping", "gap threshold", "title block"] ++ (if List.foldl tabStep [] c.tabs = [] then [] else ["output tabs"])) :=
      List.append_nil _
    rw [ha, hb]
    rfl
  rw [hpad2, h2]
  have hS3 : ((["column mapping", "gap threshold", "title block"] ++ (if List.foldl tabStep [] c.tabs = [] then [] else ["output tabs"])) ++ (if List.foldl fmtStep [] c.rowFormats = [] then [] else ["row formats"])).contains "override rules" = false := by
    by_cases h : List.foldl tabStep [] c.tabs = []
    · rw [if_pos h]
      by_cases hq : List.foldl fmtStep [] c.rowFormats = []
      · rw [if_pos hq]
        decide
      · rw [if_neg hq]
        decide
    · rw [if_neg h]
      by_cases hq : List.foldl fmtStep [] c.rowFormats = []
      · rw [if_pos hq]
        decide
      · rw [if_neg hq]
        decide
  have h3 := run1_conds c.cellConditions []
    ((B0rows c ++ areaT (List.foldl tabStep [] c.tabs)) ++ areaF (List.foldl fmtStep [] c.rowFormats))
    { { idxB with tabIdx := posMap 3 ((B0rows c).length + 2) (List.foldl tabStep [] c.tabs), sections := ["column mapping", "gap threshold", "title block"] ++ (if List.foldl tabStep [] c.tabs = [] then [] else ["output tabs"]) } with fmtIdx := posMap 6 ((B0rows c ++ areaT (List.foldl tabStep [] c.tabs)).length + 2) (List.foldl fmtStep [] c.rowFormats), sections := (["column mapping", "gap threshold", "title block"] ++ (if List.foldl tabStep [] c.tabs = [] then [] else ["output tabs"])) ++ (if List.foldl fmtStep [] c.rowFormats = [] then [] else ["row formats"]) }
    ((["column mapping", "gap threshold", "title block"] ++ (if List.foldl tabStep [] c.tabs = [] then [] else ["output tabs"])) ++ (if List.foldl fmtStep [] c.rowFormats = [] then [] else ["row formats"]))
    (by simp) (by simp [B0rows]) hS3
  have hpad3 : ({ snap := (B0rows c ++ areaT (List.foldl tabStep [] c.tabs)) ++ areaF (List.foldl fmtStep [] c.rowFormats), idx := { { idxB with tabIdx := posMap 3 ((B0rows c).length + 2) (List.foldl tabStep [] c.tabs), sections := ["column mapping", "gap threshold", "title block"] ++ (if List.foldl tabStep [] c.tabs = [] then [] else ["output tabs"]) } with fmtIdx := posMap 6 ((B0rows c ++ areaT (List.foldl tabStep [] c.tabs)).length + 2) (List.foldl fmtStep [] c.rowFormats), sections := (["column mapping", "gap threshold", "title block"] ++ (if List.foldl tabStep [] c.tabs = [] then [] else ["output tabs"])) ++ (if List.foldl fmtStep [] c.rowFormats = [] then [] else ["row formats"]) } } : WSt) =
      { snap := ((B0rows c ++ areaT (List.foldl tabStep [] c.tabs)) ++ areaF (List.foldl fmtStep [] c.rowFormats)) ++ areaC ([] : List (String × CondV)), idx := { { { idxB with tabIdx := posMap 3 ((B0rows c).length + 2) (List.foldl tabStep [] c.tabs), sections := ["column mapping", "gap threshold", "title block"] ++ (if List.foldl tabStep [] c.tabs = [] then [] else ["output tabs"]) } with fmtIdx := posMap 6 ((B0rows c ++ areaT (List.foldl tabStep [] c.tabs)).length + 2) (List.foldl fmtStep [] c.rowFormats), sections := (["column mapping", "gap threshold", "title block"] ++ (if List.foldl tabStep [] c.tabs = [] then [] else ["output tabs"])) ++ (if List.foldl fmtStep [] c.rowFormats = [] then [] else ["row formats"]) } with condIdx := posMap 7 (((B0rows c ++ areaT (List.foldl tabStep [] c.tabs)) ++ areaF (List.foldl fmtStep [] c.rowFormats)).length + 2) ([] : List (String × CondV)), sections := ((["column mapping", "gap threshold", "title block"] ++ (if List.foldl tabStep [] c.tabs = [] then [] else ["output tabs"])) ++ (if List.foldl fmtStep [] c.rowFormats = [] then [] else ["row formats"])) ++ (if ([] : List (String × CondV)) = [] then [] else ["override rules"]) } } := by
    have ha : ((B0rows c ++ areaT (List.foldl tabStep [] c.tabs)) ++ areaF (List.foldl fmtStep [] c.rowFormats)) ++ areaC ([] : List (String × CondV)) = ((B0rows c ++ areaT (List.foldl tabStep [] c.tabs)) ++ areaF (List.foldl fmtStep [] c.rowFormats)) := List.append_nil _
    have hb : ((["column mapping", "gap threshold", "title block"] ++ (if List.foldl tabStep [] c.tabs = [] then [] else ["output tabs"])) ++ (if List.foldl fmtStep [] c.rowFormats = [] then [] else ["row formats"])) ++ (if ([] : List (String × CondV)) = [] then [] else ["override rules"]) = ((["column mapping", "gap threshold", "title block"] ++ (if List.foldl tabStep [] c.tabs = [] then [] else ["output tabs"])) ++ (if List.foldl fmtStep [] c.rowFormats = [] then [] else ["row formats"])) :=
      List.append_nil _
    rw [ha, hb]
    rfl
  rw [hpad3, h3]

/-! Reading the written sheet back: `eachRow` skips the blank separator
rows, everything else survives. -/

/-- The 13 singleton rows as read back (blank separators skipped). -/
def B0p (c : AppConfig) : List KV :=
  [("Column Mapping", ""), ("Type Column", c.typeColumn),
   ("Gap Threshold", ""),
   ("Gap Threshold (MM:SS)", if c.gapThresholdSeconds > 0 then formatMMSS c.gapThresholdSeconds else ""),
   ("Time Column", c.timeColumn),
   ("Title Block", ""),
   ("Title Block Enabled", if c.titleBlock.enabled then "yes" else "no"),
   ("Company Name", c.titleBlock.companyName),
   ("Show Name", c.titleBlock.showName),
   ("Lighting Designer", c.titleBlock.lightingDesigner),
   ("Version", c.titleBlock.version),
   ("Note 1", c.titleBlock.note1),
   ("Note 2", c.titleBlock.note2)]

/-- The tab area as read back: header plus groups, no separator. -/
def areaTp (gs : List (String × TabV)) : List KV :=
  if gs = [] then [] else ("Output Tabs", "") :: flatG tabRows gs

def areaFp (gs : List (String × FmtV)) : List KV :=
  if gs = [] then [] else ("Row Formats", "") :: flatG fmtRows gs

def areaCp (gs : List (String × CondV)) : List KV :=
  if gs = [] then [] else ("Override Rules", "") :: flatG condRows gs

/-- The snapshot the second export starts from. -/
def Drows (c : AppConfig) : List KV :=
  B0p c ++ areaTp (gsT c) ++ areaFp (gsF c) ++ areaCp (gsC c)

theorem dropBlank_append (a b : List KV) :
    dropBlankRows (a ++ b) = dropBlankRows a ++ dropBlankRows b :=
  List.filter_append a b

theorem dropBlank_B0 (c : AppConfig) :
    dropBlankRows (B0rows c) = B0p c := rfl

theorem dropBlank_tabRows (p : String × TabV) (r : List KV) :
    dropBlankRows (tabRows p ++ r) = tabRows p ++ dropBlankRows r := rfl

theorem dropBlank_fmtRows (p : String × FmtV) (r : List KV) :
    dropBlankRows (fmtRows p ++ r) = fmtRows p ++ dropBlankRows r := rfl

theorem dropBlank_condRows (p : String × CondV) (r : List KV) :
    dropBlankRows (condRows p ++ r) = condRows p ++ dropBlankRows r := rfl

theorem dropBlank_flatT (gs : List (String × TabV)) :
    dropBlankRows (flatG tabRows gs) = flatG tabRows gs := by
  induction gs with
  | nil => rfl
  | cons p t ih =>
    rw [flatG_cons, dropBlank_tabRows, ih]

theorem dropBlank_flatF (gs : List (String × FmtV)) :
    dropBlankRows (flatG fmtRows gs) = flatG fmtRows gs := by
  induction gs with
  | nil => rfl
  | cons p t ih =>
    rw [flatG_cons, dropBlank_fmtRows, ih]

theorem dropBlank_flatC (gs : List (String × CondV)) :
    dropBlankRows (flatG condRows gs) = flatG condRows gs := by
  induction gs with
  | nil => rfl
  | cons p t ih =>
    rw [flatG_cons, dropBlank_condRows, ih]

theorem dropBlank_areaT (gs : List (String × TabV)) :
    dropBlankRows (areaT gs) = areaTp gs := by
  by_cases h : gs = []
  · rw [areaT, areaTp, if_pos h, if_pos h]
    rfl
  · rw [areaT, areaTp, if_neg h, if_neg h]
    have : dropBlankRows (("", "") :: ("Output Tabs", "") :: flatG tabRows gs) =
        ("Output Tabs", "") :: dropBlankRows (flatG tabRows gs) := rfl
    rw [this, dropBlank_flatT]

theorem dropBlank_areaF (gs : List (String × FmtV)) :
    dropBlankRows (areaF gs) = areaFp gs := by
  by_cases h : gs = []
  · rw [areaF, areaFp, if_pos h, if_pos h]
    rfl
  · rw [areaF, areaFp, if_neg h, if_neg h]
    have : dropBlankRows (("", "") :: ("Row Formats", "") :: flatG fmtRows gs) =
        ("Row Formats", "") :: dropBlankRows (flatG fmtRows gs) := rfl
    rw [this, dropBlank_flatF]

theorem dropBlank_areaC (gs : List (String × CondV)) :
    dropBlankRows (areaC gs) = areaCp gs := by
  by_cases h : gs = []
  · rw [areaC, areaCp, if_pos h, if_pos h]
    rfl
  · rw [areaC, areaCp, if_neg h, if_neg h]
    have : dropBlankRows (("", "") :: ("Override Rules", "") :: flatG condRows gs) =
        ("Override Rules", "") :: dropBlankRows (flatG condRows gs) := rfl
    rw [this, dropBlank_flatC]

/-- Re-reading the first export yields `Drows`. -/
theorem dropBlank_run1 (c : AppConfig) :
    dropBlankRows (writeSnapshot c []) = Drows c := by
  rw [run1_closed, dropBlank_append, dropBlank_append, dropBlank_append,
    dropBlank_B0, dropBlank_areaT, dropBlank_areaF, dropBlank_areaC]
  rfl

/-- `Drows` has no blank rows left to skip. -/
theorem dropBlank_D (c : AppConfig) :
    dropBlankRows (Drows c) = Drows c := by
  rw [Drows, dropBlank_append, dropBlank_append, dropBlank_append]
  rw [show dropBlankRows (B0p c) = B0p c from rfl]
  have ht : dropBlankRows (areaTp (gsT c)) = areaTp (gsT c) := by
    by_cases h : gsT c = []
    · rw [areaTp, if_pos h]
      rfl
    · rw [areaTp, if_neg h]
      have : dropBlankRows (("Output Tabs", "") :: flatG tabRows (gsT c)) =
          ("Output Tabs", "") :: dropBlankRows (flatG tabRows (gsT c)) := rfl
      rw [this, dropBlank_flatT]
  have hf : dropBlankRows (areaFp (gsF c)) = areaFp (gsF c) := by
    by_cases h : gsF c = []
    · rw [areaFp, if_pos h]
      rfl
    · rw [areaFp, if_neg h]
      have : dropBlankRows (("Row Formats", "") :: flatG fmtRows (gsF c)) =
          ("Row Formats", "") :: dropBlankRows (flatG fmtRows (gsF c)) := rfl
      rw [this, dropBlank_flatF]
  have hc : dropBlankRows (areaCp (gsC c)) = areaCp (gsC c) := by
    by_cases h : gsC c = []
    · rw [areaCp, if_pos h]
      rfl
    · rw [areaCp, if_neg h]
      have : dropBlankRows (("Override Rules", "") :: flatG condRows (gsC c)) =
          ("Override Rules", "") :: dropBlankRows (flatG condRows (gsC c)) := rfl
      rw [this, dropBlank_flatC]
  rw [ht, hf, hc]

/-! The index pass over the re-read sheet. -/

theorem buildIdxF_nil (f pos : ℕ) (st : EncIdx) :
    buildIdxF f [] pos st = st := by
  cases f <;> rfl

theorem buildIdxF_congr : ∀ (f1 : ℕ) (rows : List KV) (f2 pos : ℕ) (st : EncIdx),
    rows.length ≤ f1 → rows.length ≤ f2 →
    buildIdxF f1 rows pos st = buildIdxF f2 rows pos st := by
  intro f1
  induction f1 with
  | zero =>
    intro rows f2 pos st h1 _
    have hr : rows = [] := List.eq_nil_of_length_eq_zero (Nat.le_zero.mp h1)
    subst hr
    rw [buildIdxF_nil, buildIdxF_nil]
  | succ n ih =>
    intro rows f2 pos st h1 h2
    cases rows with
    | nil => rw [buildIdxF_nil, buildIdxF_nil]
    | cons kv rest =>
      obtain ⟨k, v⟩ := kv
      cases f2 with
      | zero => simp at h2
      | succ m =>
        have hr1 : rest.length ≤ n := by
          simp only [List.length_cons] at h1
          omega
        have hr2 : rest.length ≤ m := by
          simp only [List.length_cons] at h2
          omega
        simp only [buildIdxF]
        by_cases hA : isSectionKey (keyLower k) = true
        · rw [if_pos hA, if_pos hA]
          exact ih rest m (pos + 1) _ hr1 hr2
        · rw [if_neg hA, if_neg hA]
          by_cases hB : SINGLETON_KEYS.contains (keyLower k) = true
          · rw [if_pos hB, if_pos hB]
            exact ih rest m (pos + 1) _ hr1 hr2
          · rw [if_neg hB, if_neg hB]
            by_cases hC : keyLower k = "tab name"
            · rw [if_pos hC, if_pos hC]
              refine ih _ m _ _ ?_ ?_ <;>
                · rw [List.length_drop]
                  omega
            · rw [if_neg hC, if_neg hC]
              by_cases hD : keyLower k = "row name"
              · rw [if_pos hD, if_pos hD]
                refine ih _ m _ _ ?_ ?_ <;>
                  · rw [List.length_drop]
                    omega
              · rw [if_neg hD, if_neg hD]
                by_cases hE : keyLower k = "override column"
                · rw [if_pos hE, if_pos hE]
                  refine ih _ m _ _ ?_ ?_ <;>
                    · rw [List.length_drop]
                      omega
                · rw [if_neg hE, if_neg hE]
                  exact ih rest m (pos + 1) _ hr1 hr2


/-- The `Override Value` peek of the index pass. -/
def peekVal (rest : List KV) : String :=
  match rest.head? with
  | some (k2, v2) => if keyLower k2 = "override value" then v2 else ""
  | none => ""

/-- One step of the index pass, with the branch structure spelled out. -/
theorem buildIdxF_cons (f : ℕ) (k v : String) (rest : List KV) (pos : ℕ)
    (st : EncIdx) :
    buildIdxF (f + 1) ((k, v) :: rest) pos st =
      (if isSectionKey (keyLower k) = true then
        buildIdxF f rest (pos + 1)
          { st with sections := sadd st.sections (keyLower k) }
      else if SINGLETON_KEYS.contains (keyLower k) = true then
        buildIdxF f rest (pos + 1)
          { st with singletonIdx := mset st.singletonIdx (keyLower k) pos }
      else if keyLower k = "tab name" then
        buildIdxF f (rest.drop (spanLen "tab name" rest))
          (pos + 1 + spanLen "tab name" rest)
          { st with tabIdx := mset st.tabIdx v pos }
      else if keyLower k = "row name" then
        buildIdxF f (rest.drop (spanLen "row name" rest))
          (pos + 1 + spanLen "row name" rest)
          { st with fmtIdx := mset st.fmtIdx v pos }
      else if keyLower k = "override column" then
        buildIdxF f (rest.drop (spanLen "override column" rest))
          (pos + 1 + spanLen "override column" rest)
          { st with condIdx := mset st.condIdx (v ++ "|||" ++ peekVal rest) pos }
      else buildIdxF f rest (pos + 1) st) := rfl

/-- The index pass with just enough fuel; `buildIdx` in disguise. -/
def scanR (rows : List KV) (pos : ℕ) (st : EncIdx) : EncIdx :=
  buildIdxF (rows.length + 1) rows pos st

theorem scanR_nil (pos : ℕ) (st : EncIdx) : scanR [] pos st = st := rfl

theorem scanR_section (k v : String) (rest : List KV) (pos : ℕ) (st : EncIdx)
    (h : isSectionKey (keyLower k) = true) :
    scanR ((k, v) :: rest) pos st =
      scanR rest (pos + 1) { st with sections := sadd st.sections (keyLower k) } := by
  unfold scanR
  simp only [List.length_cons, buildIdxF]
  rw [if_pos h]

theorem scanR_singleton (k v : String) (rest : List KV) (pos : ℕ) (st : EncIdx)
    (h1 : isSectionKey (keyLower k) = false)
    (h2 : SINGLETON_KEYS.contains (keyLower k) = true) :
    scanR ((k, v) :: rest) pos st =
      scanR rest (pos + 1)
        { st with singletonIdx := mset st.singletonIdx (keyLower k) pos } := by
  unfold scanR
  simp only [List.length_cons, buildIdxF]
  rw [if_neg (by rw [h1]; exact Bool.false_ne_true), if_pos h2]

theorem scanR_tab (k v : String) (rest : List KV) (pos : ℕ) (st : EncIdx)
    (h : keyLower k = "tab name") :
    scanR ((k, v) :: rest) pos st =
      scanR (rest.drop (spanLen "tab name" rest))
        (pos + 1 + spanLen "tab name" rest)
        { st with tabIdx := mset st.tabIdx v pos } := by
  unfold scanR
  show buildIdxF ((rest.length + 1) + 1) ((k, v) :: rest) pos st = _
  rw [buildIdxF_cons, h]
  rw [if_neg (by decide), if_neg (by decide), if_pos rfl]
  refine buildIdxF_congr _ _ _ _ _ ?_ ?_ <;>
    · rw [List.length_drop]
      omega

theorem scanR_fmt (k v : String) (rest : List KV) (pos : ℕ) (st : EncIdx)
    (h : keyLower k = "row name") :
    scanR ((k, v) :: rest) pos st =
      scanR (rest.drop (spanLen "row name" rest))
        (pos + 1 + spanLen "row name" rest)
        { st with fmtIdx := mset st.fmtIdx v pos } := by
  unfold scanR
  show buildIdxF ((rest.length + 1) + 1) ((k, v) :: rest) pos st = _
  rw [buildIdxF_cons, h]
  rw [if_neg (by decide), if_neg (by decide), if_neg (by decide), if_pos rfl]
  refine buildIdxF_congr _ _ _ _ _ ?_ ?_ <;>
    · rw [List.length_drop]
      omega

theorem scanR_cond (k v : String) (rest : List KV) (pos : ℕ) (st : EncIdx)
    (h : keyLower k = "override column") :
    scanR ((k, v) :: rest) pos st =
      scanR (rest.drop (spanLen "override column" rest))
        (pos + 1 + spanLen "override column" rest)
        { st with condIdx := mset st.condIdx (v ++ "|||" ++ peekVal rest) pos } := by
  unfold scanR
  show buildIdxF ((rest.length + 1) + 1) ((k, v) :: rest) pos st = _
  rw [buildIdxF_cons, h]
  rw [if_neg (by decide), if_neg (by decide), if_neg (by decide),
    if_neg (by decide), if_pos rfl]
  refine buildIdxF_congr _ _ _ _ _ ?_ ?_ <;>
    · rw [List.length_drop]
      omega

theorem spanLen_stops (aK : String) (r : List KV) (h : StopsAt aK r) :
    spanLen aK r = 0 := by
  cases r with
  | nil => rfl
  | cons kv rest =>
    obtain ⟨k, v⟩ := kv
    have h' : keyLower k = aK ∨ isSectionKey (keyLower k) = true := h
    simp only [spanLen]
    rw [if_pos h']

theorem spanLen_tabTail (p : String × TabV) (r : List KV)
    (h : StopsAt "tab name" r) :
    spanLen "tab name" (tabTail p ++ r) = 2 := by
  rw [show spanLen "tab name" (tabTail p ++ r) =
    1 + (1 + spanLen "tab name" r) from rfl, spanLen_stops "tab name" r h]

theorem spanLen_fmtTail (p : String × FmtV) (r : List KV)
    (h : StopsAt "row name" r) :
    spanLen "row name" (fmtTail p ++ r) = 5 := by
  rw [show spanLen "row name" (fmtTail p ++ r) =
    1 + (1 + (1 + (1 + (1 + spanLen "row name" r)))) from rfl,
    spanLen_stops "row name" r h]

theorem spanLen_condTail (p : String × CondV) (r : List KV)
    (h : StopsAt "override column" r) :
    spanLen "override column" (condTail p ++ r) = 6 := by
  rw [show spanLen "override column" (condTail p ++ r) =
    1 + (1 + (1 + (1 + (1 + (1 + spanLen "override column" r))))) from rfl,
    spanLen_stops "override column" r h]

/-- `Map.set` folded over the groups of an area, in scan order. -/
def pfold {β : Type} (gl : ℕ) : List (String × ℕ) → ℕ → List (String × β) →
    List (String × ℕ)
  | m, _, [] => m
  | m, pos, p :: t => pfold gl (mset m p.1 pos) (pos + gl) t

theorem pfold_fresh {β : Type} (gl : ℕ) :
    ∀ (gs : List (String × β)) (m : List (String × ℕ)) (pos : ℕ),
    (∀ k ∈ gs.map Prod.fst, k ∉ m.map Prod.fst) →
    (gs.map Prod.fst).Nodup →
    pfold gl m pos gs = m ++ posMap gl pos gs := by
  intro gs
  induction gs with
  | nil =>
    intro m pos _ _
    rw [pfold, posMap, List.append_nil]
  | cons p t ih =>
    intro m pos hf hnd
    rw [pfold, posMap]
    have hp : p.1 ∉ m.map Prod.fst :=
      hf p.1 (by simp)
    rw [mset_missing m p.1 pos hp]
    have hf' : ∀ k ∈ t.map Prod.fst, k ∉ (m ++ [(p.1, pos)]).map Prod.fst := by
      intro q hq
      rw [List.map_append, List.mem_append]
      push_neg
      refine ⟨hf q (by simp [hq]), ?_⟩
      simp only [List.map_cons, List.map_nil, List.mem_singleton]
      intro hc
      simp only [List.map_cons, List.nodup_cons] at hnd
      exact hnd.1 (hc ▸ hq)
    have hnd' : (t.map Prod.fst).Nodup := by
      simp only [List.map_cons, List.nodup_cons] at hnd
      exact hnd.2
    rw [ih (m ++ [(p.1, pos)]) (pos + gl) hf' hnd']
    simp [List.append_assoc]

/-- Scanning a tab area: one index entry per group, sub-rows skipped. -/
theorem scanA_tab : ∀ (gs : List (String × TabV)) (R : List KV) (pos : ℕ)
    (st : EncIdx), StopsAt "tab name" R →
    scanR (flatG tabRows gs ++ R) pos st =
      scanR R (pos + 3 * gs.length) { st with tabIdx := pfold 3 st.tabIdx pos gs } := by
  intro gs
  induction gs with
  | nil =>
    intro R pos st _
    rw [show flatG tabRows [] ++ R = R from rfl, pfold]
    rw [show pos + 3 * List.length ([] : List (String × TabV)) = pos from rfl]
  | cons p t ih =>
    intro R pos st hR
    have hshape : flatG tabRows (p :: t) ++ R =
        ("Tab Name", p.1) :: (tabTail p ++ (flatG tabRows t ++ R)) := by
      rw [flatG_cons]
      simp [tabRows, tabTail, List.append_assoc]
    rw [hshape]
    rw [scanR_tab "Tab Name" p.1 _ pos st (by decide)]
    have hstops : StopsAt "tab name" (flatG tabRows t ++ R) :=
      stops_flat tabRows "Tab Name" "tab name" (fun q => q.1) tabTail
        (fun q => rfl) (by decide) t R hR
    rw [spanLen_tabTail p _ hstops]
    rw [show (tabTail p ++ (flatG tabRows t ++ R)).drop 2 =
      flatG tabRows t ++ R from rfl]
    rw [ih (R) (pos + 1 + 2) _ hR]
    have harith : pos + 1 + 2 + 3 * t.length = pos + 3 * (p :: t).length := by
      simp [List.length_cons]
      ring
    rw [harith]
    rfl

theorem scanA_fmt : ∀ (gs : List (String × FmtV)) (R : List KV) (pos : ℕ)
    (st : EncIdx), StopsAt "row name" R →
    scanR (flatG fmtRows gs ++ R) pos st =
      scanR R (pos + 6 * gs.length) { st with fmtIdx := pfold 6 st.fmtIdx pos gs } := by
  intro gs
  induction gs with
  | nil =>
    intro R pos st _
    rw [show flatG fmtRows [] ++ R = R from rfl, pfold]
    rw [show pos + 6 * List.length ([] : List (String × FmtV)) = pos from rfl]
  | cons p t ih =>
    intro R pos st hR
    have hshape : flatG fmtRows (p :: t) ++ R =
        ("Row Name", p.1) :: (fmtTail p ++ (flatG fmtRows t ++ R)) := by
      rw [flatG_cons]
      simp [fmtRows, fmtTail, List.append_assoc]
    rw [hshape]
    rw [scanR_fmt "Row Name" p.1 _ pos st (by decide)]
    have hstops : StopsAt "row name" (flatG fmtRows t ++ R) :=
      stops_flat fmtRows "Row Name" "row name" (fun q => q.1) fmtTail
        (fun q => rfl) (by decide) t R hR
    rw [spanLen_fmtTail p _ hstops]
    rw [show (fmtTail p ++ (flatG fmtRows t ++ R)).drop 5 =
      flatG fmtRows t ++ R from rfl]
    rw [ih (R) (pos + 1 + 5) _ hR]
    have harith : pos + 1 + 5 + 6 * t.length = pos + 6 * (p :: t).length := by
      simp [List.length_cons]
      ring
    rw [harith]
    rfl

/-- Scanning an override area; each group's identity key is reassembled
from its column/contains rows, which by construction is the group key. -/
theorem scanA_cond : ∀ (gs : List (String × CondV)) (R : List KV) (pos : ℕ)
    (st : EncIdx), StopsAt "override column" R →
    (∀ p ∈ gs, p.1 = p.2.1 ++ "|||" ++ p.2.2.1) →
    scanR (flatG condRows gs ++ R) pos st =
      scanR R (pos + 7 * gs.length) { st with condIdx := pfold 7 st.condIdx pos gs } := by
  intro gs
  induction gs with
  | nil =>
    intro R pos st _ _
    rw [show flatG condRows [] ++ R = R from rfl, pfold]
    rw [show pos + 7 * List.length ([] : List (String × CondV)) = pos from rfl]
  | cons p t ih =>
    intro R pos st hR hinv
    have hshape : flatG condRows (p :: t) ++ R =
        ("Override Column", p.2.1) :: (condTail p ++ (flatG condRows t ++ R)) := by
      rw [flatG_cons]
      simp [condRows, condTail, List.append_assoc]
    rw [hshape]
    rw [scanR_cond "Override Column" p.2.1 _ pos st (by decide)]
    have hstops : StopsAt "override column" (flatG condRows t ++ R) :=
      stops_flat condRows "Override Column" "override column" (fun q => q.2.1)
        condTail (fun q => rfl) (by decide) t R hR
    rw [spanLen_condTail p _ hstops]
    rw [show (condTail p ++ (flatG condRows t ++ R)).drop 6 =
      flatG condRows t ++ R from rfl]
    have hkey : p.2.1 ++ "|||" ++
        peekVal (condTail p ++ (flatG condRows t ++ R)) = p.1 := by
      rw [show peekVal (condTail p ++ (flatG condRows t ++ R)) = p.2.2.1 from rfl]
      exact (hinv p (by simp)).symm
    rw [hkey]
    rw [ih (R) (pos + 1 + 6) _ hR (fun q hq => hinv q (List.mem_cons_of_mem p hq))]
    have harith : pos + 1 + 6 + 7 * t.length = pos + 7 * (p :: t).length := by
      simp [List.length_cons]
      ring
    rw [harith]
    rfl

/-- Every override group stores its own identity: the key is the stored
column and contains joined by the `|||` separator. -/
theorem gsC_inv : ∀ (l : List CellConditionRule) (a : List (String × CondV)),
    (∀ p ∈ a, p.1 = p.2.1 ++ "|||" ++ p.2.2.1) →
    ∀ p ∈ l.foldl condStep a, p.1 = p.2.1 ++ "|||" ++ p.2.2.1 := by
  intro l
  induction l with
  | nil =>
    intro a ha
    exact ha
  | cons x t ih =>
    intro a ha
    rw [List.foldl_cons]
    refine ih (condStep a x) ?_
    intro p hp
    unfold condStep agen at hp
    by_cases hb : a.any (fun q => q.1 = condKey x) = true
    · rw [if_pos hb] at hp
      obtain ⟨q, hq, hqe⟩ := List.mem_map.mp hp
      by_cases hqx : q.1 = condKey x
      · rw [if_pos hqx] at hqe
        rw [← hqe]
        have := ha q hq
        simp only [condMerge]
        rw [this] at hqx ⊢
      · rw [if_neg hqx] at hqe
        rw [← hqe]
        exact ha q hq
    · rw [if_neg hb] at hp
      rcases List.mem_append.mp hp with hp | hp
      · exact ha p hp
      · simp only [List.mem_singleton] at hp
        rw [hp]
        rfl

theorem sadd_missing (l : List String) (k : String)
    (h : l.contains k = false) : sadd l k = l ++ [k] := by
  unfold sadd
  rw [if_neg (by rw [h]; exact Bool.false_ne_true)]

theorem stops_areaFp (aK : String) (gs : List (String × FmtV)) (R : List KV)
    (hR : StopsAt aK R) : StopsAt aK (areaFp gs ++ R) := by
  by_cases h : gs = []
  · rw [areaFp, if_pos h, List.nil_append]
    exact hR
  · rw [areaFp, if_neg h, List.cons_append]
    exact Or.inr (by decide)

theorem stops_areaCp (aK : String) (gs : List (String × CondV)) (R : List KV)
    (hR : StopsAt aK R) : StopsAt aK (areaCp gs ++ R) := by
  by_cases h : gs = []
  · rw [areaCp, if_pos h, List.nil_append]
    exact hR
  · rw [areaCp, if_neg h, List.cons_append]
    exact Or.inr (by decide)

/-- Scanning the (possibly absent) tab area. -/
theorem scanAW_tab (gs : List (String × TabV)) (R : List KV) (pos : ℕ)
    (st : EncIdx) (hR : StopsAt "tab name" R) (hti : st.tabIdx = [])
    (hnd : (gs.map Prod.fst).Nodup)
    (hsec : st.sections.contains "output tabs" = false) :
    scanR (areaTp gs ++ R) pos st =
      scanR R (pos + (if gs = [] then 0 else 1 + 3 * gs.length))
        { st with tabIdx := posMap 3 (pos + 1) gs,
                  sections := st.sections ++
                    (if gs = [] then [] else ["output tabs"]) } := by
  by_cases h : gs = []
  · rw [areaTp, if_pos h, if_pos h, if_pos h, List.nil_append, Nat.add_zero]
    subst h
    rw [show posMap 3 (pos + 1) ([] : List (String × TabV)) = [] from rfl, ← hti,
      List.append_nil]
  · rw [areaTp, if_neg h, if_neg h, if_neg h, List.cons_append]
    rw [scanR_section "Output Tabs" "" _ pos st (by decide)]
    rw [show keyLower "Output Tabs" = "output tabs" from by decide]
    rw [sadd_missing st.sections "output tabs" hsec]
    rw [scanA_tab gs R (pos + 1)
      { st with sections := st.sections ++ ["output tabs"] } hR]
    rw [show ({ st with sections := st.sections ++ ["output tabs"] } :
      EncIdx).tabIdx = st.tabIdx from rfl, hti]
    rw [pfold_fresh 3 gs [] (pos + 1) (by simp) hnd, List.nil_append]
    rw [show pos + 1 + 3 * gs.length = pos + (1 + 3 * gs.length) from by omega]

/-- Scanning the (possibly absent) row-format area. -/
theorem scanAW_fmt (gs : List (String × FmtV)) (R : List KV) (pos : ℕ)
    (st : EncIdx) (hR : StopsAt "row name" R) (hti : st.fmtIdx = [])
    (hnd : (gs.map Prod.fst).Nodup)
    (hsec : st.sections.contains "row formats" = false) :
    scanR (areaFp gs ++ R) pos st =
      scanR R (pos + (if gs = [] then 0 else 1 + 6 * gs.length))
        { st with fmtIdx := posMap 6 (pos + 1) gs,
                  sections := st.sections ++
                    (if gs = [] then [] else ["row formats"]) } := by
  by_cases h : gs = []
  · rw [areaFp, if_pos h, if_pos h, if_pos h, List.nil_append, Nat.add_zero]
    subst h
    rw [show posMap 6 (pos + 1) ([] : List (String × FmtV)) = [] from rfl, ← hti,
      List.append_nil]
  · rw [areaFp, if_neg h, if_neg h, if_neg h, List.cons_append]
    rw [scanR_section "Row Formats" "" _ pos st (by decide)]
    rw [show keyLower "Row Formats" = "row formats" from by decide]
    rw [sadd_missing st.sections "row formats" hsec]
    rw [scanA_fmt gs R (pos + 1)
      { st with sections := st.sections ++ ["row formats"] } hR]
    rw [show ({ st with sections := st.sections ++ ["row formats"] } :
      EncIdx).fmtIdx = st.fmtIdx from rfl, hti]
    rw [pfold_fresh 6 gs [] (pos + 1) (by simp) hnd, List.nil_append]
    rw [show pos + 1 + 6 * gs.length = pos + (1 + 6 * gs.length) from by omega]

/-- Scanning the (possibly absent) override area. -/
theorem scanAW_cond (gs : List (String × CondV)) (R : List KV) (pos : ℕ)
    (st : EncIdx) (hR : StopsAt "override column" R) (hti : st.condIdx = [])
    (hnd : (gs.map Prod.fst).Nodup)
    (hinv : ∀ p ∈ gs, p.1 = p.2.1 ++ "|||" ++ p.2.2.1)
    (hsec : st.sections.contains "override rules" = false) :
    scanR (areaCp gs ++ R) pos st =
      scanR R (pos + (if gs = [] then 0 else 1 + 7 * gs.length))
        { st with condIdx := posMap 7 (pos + 1) gs,
                  sections := st.sections ++
                    (if gs = [] then [] else ["override rules"]) } := by
  by_cases h : gs = []
  · rw [areaCp, if_pos h, if_pos h, if_pos h, List.nil_append, Nat.add_zero]
    subst h
    rw [show posMap 7 (pos + 1) ([] : List (String × CondV)) = [] from rfl, ← hti,
      List.append_nil]
  · rw [areaCp, if_neg h, if_neg h, if_neg h, List.cons_append]
    rw [scanR_section "Override Rules" "" _ pos st (by decide)]
    rw [show keyLower "Override Rules" = "override rules" from by decide]
    rw [sadd_missing st.sections "override rules" hsec]
    rw [scanA_cond gs R (pos + 1)
      { st with sections := st.sections ++ ["override rules"] } hR hinv]
    rw [show ({ st with sections := st.sections ++ ["override rules"] } :
      EncIdx).condIdx = st.condIdx from rfl, hti]
    rw [pfold_fresh 7 gs [] (pos + 1) (by simp) hnd, List.nil_append]
    rw [show pos + 1 + 7 * gs.length = pos + (1 + 7 * gs.length) from by omega]

/-- The index state after scanning the 13 singleton rows. -/
def idxD0 : EncIdx :=
  { singletonIdx := [("type column", 1), ("gap threshold (mm:ss)", 3), ("time column", 4), ("title block enabled", 6), ("company name", 7), ("show name", 8), ("lighting designer", 9), ("version", 10), ("note 1", 11), ("note 2", 12)], tabIdx := [], fmtIdx := [], condIdx := [], sections := ["column mapping", "gap threshold", "title block"] }

theorem scan_B0p (c : AppConfig) (X : List KV) :
    scanR (B0p c ++ X) 0 {} = scanR X 13 idxD0 := by
  show scanR ((("Column Mapping", "")) :: (("Type Column", c.typeColumn)) :: (("Gap Threshold", "")) :: (("Gap Threshold (MM:SS)", if c.gapThresholdSeconds > 0 then formatMMSS c.gapThresholdSeconds else "")) :: (("Time Column", c.timeColumn)) :: (("Title Block", "")) :: (("Title Block Enabled", if c.titleBlock.enabled then "yes" else "no")) :: (("Company Name", c.titleBlock.companyName)) :: (("Show Name", c.titleBlock.showName)) :: (("Lighting Designer", c.titleBlock.lightingDesigner)) :: (("Version", c.titleBlock.version)) :: (("Note 1", c.titleBlock.note1)) :: (("Note 2", c.titleBlock.note2)) :: X) 0 ({} : EncIdx) = scanR X 13 idxD0
  rw [scanR_section _ _ _ _ _ (by decide)]
  rw [scanR_singleton _ _ _ _ _ (by decide) (by decide)]
  rw [scanR_section _ _ _ _ _ (by decide)]
  rw [scanR_singleton _ _ _ _ _ (by decide) (by decide)]
  rw [scanR_singleton _ _ _ _ _ (by decide) (by decide)]
  rw [scanR_section _ _ _ _ _ (by decide)]
  rw [scanR_singleton _ _ _ _ _ (by decide) (by decide)]
  rw [scanR_singleton _ _ _ _ _ (by decide) (by decide)]
  rw [scanR_singleton _ _ _ _ _ (by decide) (by decide)]
  rw [scanR_singleton _ _ _ _ _ (by decide) (by decide)]
  rw [scanR_singleton _ _ _ _ _ (by decide) (by decide)]
  rw [scanR_singleton _ _ _ _ _ (by decide) (by decide)]
  rw [scanR_singleton _ _ _ _ _ (by decide) (by decide)]
  rfl

/-- The indexes the second export builds over the re-read sheet. -/
def idxD (c : AppConfig) : EncIdx :=
  { singletonIdx := [("type column", 1), ("gap threshold (mm:ss)", 3), ("time column", 4), ("title block enabled", 6), ("company name", 7), ("show name", 8), ("lighting designer", 9), ("version", 10), ("note 1", 11), ("note 2", 12)],
    tabIdx := posMap 3 (13 + 1) (gsT c),
    fmtIdx := posMap 6 (13 + (if gsT c = [] then 0 else 1 + 3 * (gsT c).length) + 1) (gsF c),
    condIdx := posMap 7 (13 + (if gsT c = [] then 0 else 1 + 3 * (gsT c).length) + (if gsF c = [] then 0 else 1 + 6 * (gsF c).length) + 1) (gsC c),
    sections := ["column mapping", "gap threshold", "title block"] ++ (if gsT c = [] then [] else ["output tabs"]) ++ (if gsF c = [] then [] else ["row formats"]) ++ (if gsC c = [] then [] else ["override rules"]) }

/-- Scanning the re-read sheet delivers `idxD`. -/
theorem scan_D (c : AppConfig) : buildIdx (Drows c) 0 {} = idxD c := by
  have hndT : ((gsT c).map Prod.fst).Nodup :=
    afold_nodup tabKey tabVal (fun _ t => tabVal t) c.tabs [] (by simp)
  have hndF : ((gsF c).map Prod.fst).Nodup :=
    afold_nodup fmtKey fmtVal (fun _ f => fmtVal f) c.rowFormats [] (by simp)
  have hndC : ((gsC c).map Prod.fst).Nodup :=
    afold_nodup condKey condVal condMerge c.cellConditions [] (by simp)
  have hinvC : ∀ p ∈ gsC c, p.1 = p.2.1 ++ "|||" ++ p.2.2.1 :=
    gsC_inv c.cellConditions [] (by simp)
  have hstC : StopsAt "override column" ([] : List KV) := trivial
  have hstF : StopsAt "row name" (areaCp (gsC c) ++ []) :=
    stops_areaCp "row name" (gsC c) [] trivial
  have hstT : StopsAt "tab name" (areaFp (gsF c) ++ (areaCp (gsC c) ++ [])) :=
    stops_areaFp "tab name" (gsF c) _
      (stops_areaCp "tab name" (gsC c) [] trivial)
  have hsecF : (["column mapping", "gap threshold", "title block"] ++ (if gsT c = [] then [] else ["output tabs"])).contains "row formats" = false := by
    by_cases h : gsT c = []
    · rw [if_pos h]
      decide
    · rw [if_neg h]
      decide
  have hsecC : ((["column mapping", "gap threshold", "title block"] ++ (if gsT c = [] then [] else ["output tabs"])) ++ (if gsF c = [] then [] else ["row formats"])).contains "override rules" = false := by
    by_cases h : gsT c = []
    · rw [if_pos h]
      by_cases hq : gsF c = []
      · rw [if_pos hq]
        decide
      · rw [if_neg hq]
        decide
    · rw [if_neg h]
      by_cases hq : gsF c = []
      · rw [if_pos hq]
        decide
      · rw [if_neg hq]
        decide
  rw [show buildIdx (Drows c) 0 {} = scanR (Drows c) 0 {} from rfl]
  rw [Drows, List.append_assoc, List.append_assoc]
  rw [show areaCp (gsC c) = areaCp (gsC c) ++ [] from (List.append_nil _).symm]
  rw [scan_B0p c]
  exact (scanAW_tab (gsT c) (areaFp (gsF c) ++ (areaCp (gsC c) ++ [])) 13 idxD0 hstT rfl hndT (by decide)).trans
    ((scanAW_fmt (gsF c) (areaCp (gsC c) ++ []) (13 + (if gsT c = [] then 0 else 1 + 3 * (gsT c).length))
      { singletonIdx := [("type column", 1), ("gap threshold (mm:ss)", 3), ("time column", 4), ("title block enabled", 6), ("company name", 7), ("show name", 8), ("lighting designer", 9), ("version", 10), ("note 1", 11), ("note 2", 12)], tabIdx := posMap 3 (13 + 1) (gsT c), fmtIdx := [], condIdx := [], sections := ["column mapping", "gap threshold", "title block"] ++ (if gsT c = [] then [] else ["output tabs"]) }
      hstF rfl hndF hsecF).trans
    ((scanAW_cond (gsC c) [] ((13 + (if gsT c = [] then 0 else 1 + 3 * (gsT c).length)) + (if gsF c = [] then 0 else 1 + 6 * (gsF c).length))
      { singletonIdx := [("type column", 1), ("gap threshold (mm:ss)", 3), ("time column", 4), ("title block enabled", 6), ("company name", 7), ("show name", 8), ("lighting designer", 9), ("version", 10), ("note 1", 11), ("note 2", 12)], tabIdx := posMap 3 (13 + 1) (gsT c), fmtIdx := posMap 6 ((13 + (if gsT c = [] then 0 else 1 + 3 * (gsT c).length)) + 1) (gsF c), condIdx := [], sections := (["column mapping", "gap threshold", "title block"] ++ (if gsT c = [] then [] else ["output tabs"])) ++ (if gsF c = [] then [] else ["row formats"]) }
      hstC rfl hndC hinvC hsecC).trans (by rfl)))

/-! The second export: every upsert finds its row or group and rewrites
it to the value it already holds. -/

theorem setVal_append_left : ∀ (l r : List KV) (i : ℕ) (v : String),
    i < l.length → setVal (l ++ r) i v = setVal l i v ++ r := by
  intro l
  induction l with
  | nil =>
    intro r i v h
    simp at h
  | cons kv rest ih =>
    intro r i v h
    cases i with
    | zero => rfl
    | succ n =>
      rw [List.cons_append, setVal, setVal, ih r n v (by simpa using h),
        List.cons_append]

theorem upsertSingleton_noop (st : WSt) (sh k v : String) (i : ℕ)
    (hm : mget st.idx.singletonIdx (jsLower k) = some i)
    (hs : setVal st.snap i v = st.snap) :
    upsertSingleton st sh k v = st := by
  simp only [upsertSingleton, hm]
  rw [hs]

theorem stops_areaCp0 (aK : String) (gs : List (String × CondV)) :
    StopsAt aK (areaCp gs) := by
  by_cases h : gs = []
  · rw [areaCp, if_pos h]
    trivial
  · rw [areaCp, if_neg h]
    exact Or.inr (by decide)

theorem singles_run2 (c : AppConfig) :
    singlesPhase c { snap := Drows c, idx := idxD c } =
      { snap := Drows c, idx := idxD c } := by
  have e1 : upsertSingleton { snap := Drows c, idx := idxD c } "Column Mapping" "Type Column" c.typeColumn = { snap := Drows c, idx := idxD c } :=
    upsertSingleton_noop _ _ _ _ 1 rfl rfl
  have e2 : upsertSingleton { snap := Drows c, idx := idxD c } "Gap Threshold" "Gap Threshold (MM:SS)" (if c.gapThresholdSeconds > 0 then formatMMSS c.gapThresholdSeconds else "") = { snap := Drows c, idx := idxD c } :=
    upsertSingleton_noop _ _ _ _ 3 rfl rfl
  have e3 : upsertSingleton { snap := Drows c, idx := idxD c } "Gap Threshold" "Time Column" c.timeColumn = { snap := Drows c, idx := idxD c } :=
    upsertSingleton_noop _ _ _ _ 4 rfl rfl
  have e4 : upsertSingleton { snap := Drows c, idx := idxD c } "Title Block" "Title Block Enabled" (if c.titleBlock.enabled then "yes" else "no") = { snap := Drows c, idx := idxD c } :=
    upsertSingleton_noop _ _ _ _ 6 rfl rfl
  have e5 : upsertSingleton { snap := Drows c, idx := idxD c } "Title Block" "Company Name" c.titleBlock.companyName = { snap := Drows c, idx := idxD c } :=
    upsertSingleton_noop _ _ _ _ 7 rfl rfl
  have e6 : upsertSingleton { snap := Drows c, idx := idxD c } "Title Block" "Show Name" c.titleBlock.showName = { snap := Drows c, idx := idxD c } :=
    upsertSingleton_noop _ _ _ _ 8 rfl rfl
  have e7 : upsertSingleton { snap := Drows c, idx := idxD c } "Title Block" "Lighting Designer" c.titleBlock.lightingDesigner = { snap := Drows c, idx := idxD c } :=
    upsertSingleton_noop _ _ _ _ 9 rfl rfl
  have e8 : upsertSingleton { snap := Drows c, idx := idxD c } "Title Block" "Version" c.titleBlock.version = { snap := Drows c, idx := idxD c } :=
    upsertSingleton_noop _ _ _ _ 10 rfl rfl
  have e9 : upsertSingleton { snap := Drows c, idx := idxD c } "Title Block" "Note 1" c.titleBlock.note1 = { snap := Drows c, idx := idxD c } :=
    upsertSingleton_noop _ _ _ _ 11 rfl rfl
  have e10 : upsertSingleton { snap := Drows c, idx := idxD c } "Title Block" "Note 2" c.titleBlock.note2 = { snap := Drows c, idx := idxD c } :=
    upsertSingleton_noop _ _ _ _ 12 rfl rfl
  simp only [singlesPhase]
  rw [e1, e2, e3, e4, e5, e6, e7, e8, e9, e10]

/-- Writing over the re-read sheet changes nothing. -/
theorem run2_noop (c : AppConfig) : writeSnapshot c (Drows c) = Drows c := by
  rw [writeSnapshot_phases]
  rw [show buildIdx (Drows c) 0 {} = idxD c from scan_D c]
  rw [singles_run2]
  have htab : c.tabs.foldl upsertTab { snap := Drows c, idx := idxD c } =
      { snap := Drows c, idx := idxD c } := by
    by_cases hts : c.tabs = []
    · rw [hts]
      rfl
    · have hTne : gsT c ≠ [] := by
        cases hx : c.tabs with
        | nil => exact absurd hx hts
        | cons y t =>
          rw [gsT, hx, List.foldl_cons]
          exact afold_ne_nil tabKey tabVal (fun _ t => tabVal t) t _
            (agen_ne_nil tabKey tabVal (fun _ t => tabVal t) [] y)
      have hndT : ((gsT c).map Prod.fst).Nodup :=
        afold_nodup tabKey tabVal (fun _ t => tabVal t) c.tabs [] (by simp)
      have hmemT : ∀ x ∈ c.tabs, tabKey x ∈ (gsT c).map Prod.fst := by
        intro x hx
        have h := afold_binds tabKey tabVal (fun _ t => tabVal t) c.tabs [] x hx
        rw [any_key_eq_contains] at h
        simpa using h
      have habsT : c.tabs.foldl tabStep (gsT c) = gsT c :=
        afold_absorb tabKey tabVal (fun _ t => tabVal t) (fun _ _ => True)
          (fun _ _ _ _ => rfl) (fun _ _ => trivial) (fun _ => rfl)
          c.tabs [] (by simp)
      have hsnapT : Drows c =
          (B0p c ++ [("Output Tabs", "")]) ++ flatG tabRows (gsT c) ++ (areaFp (gsF c) ++ areaCp (gsC c)) := by
        rw [Drows, areaTp, if_neg hTne]
        simp [List.append_assoc]
      have hSTeq : ({ snap := Drows c, idx := idxD c } : WSt) =
          { snap := (B0p c ++ [("Output Tabs", "")]) ++ flatG tabRows (gsT c) ++ (areaFp (gsF c) ++ areaCp (gsC c)),
            idx := { singletonIdx := [("type column", 1), ("gap threshold (mm:ss)", 3), ("time column", 4), ("title block enabled", 6), ("company name", 7), ("show name", 8), ("lighting designer", 9), ("version", 10), ("note 1", 11), ("note 2", 12)], tabIdx := posMap 3 ((B0p c ++ [("Output Tabs", "")])).length (gsT c), fmtIdx := posMap 6 (13 + (if gsT c = [] then 0 else 1 + 3 * (gsT c).length) + 1) (gsF c), condIdx := posMap 7 (13 + (if gsT c = [] then 0 else 1 + 3 * (gsT c).length) + (if gsF c = [] then 0 else 1 + 6 * (gsF c).length) + 1) (gsC c), sections := ["column mapping", "gap threshold", "title block"] ++ (if gsT c = [] then [] else ["output tabs"]) ++ (if gsF c = [] then [] else ["row formats"]) ++ (if gsC c = [] then [] else ["override rules"]) } } := by
        rw [hsnapT]
        rfl
      have h2 := run2_tabs c.tabs (gsT c) (B0p c ++ [("Output Tabs", "")]) (areaFp (gsF c) ++ areaCp (gsC c))
        [("type column", 1), ("gap threshold (mm:ss)", 3), ("time column", 4), ("title block enabled", 6), ("company name", 7), ("show name", 8), ("lighting designer", 9), ("version", 10), ("note 1", 11), ("note 2", 12)] (posMap 6 (13 + (if gsT c = [] then 0 else 1 + 3 * (gsT c).length) + 1) (gsF c)) (posMap 7 (13 + (if gsT c = [] then 0 else 1 + 3 * (gsT c).length) + (if gsF c = [] then 0 else 1 + 6 * (gsF c).length) + 1) (gsC c)) (["column mapping", "gap threshold", "title block"] ++ (if gsT c = [] then [] else ["output tabs"]) ++ (if gsF c = [] then [] else ["row formats"]) ++ (if gsC c = [] then [] else ["override rules"]))
        hndT hmemT (stops_areaFp "tab name" (gsF c) _ (stops_areaCp0 "tab name" (gsC c)))
      rw [hSTeq, h2, habsT, ← hSTeq]
  rw [htab]
  have hPFlen : ((B0p c ++ areaTp (gsT c) ++ [("Row Formats", "")])).length = 13 + (if gsT c = [] then 0 else 1 + 3 * (gsT c).length) + 1 := by
    by_cases h : gsT c = []
    · rw [areaTp, if_pos h, if_pos h]
      simp [B0p]
    · rw [areaTp, if_neg h, if_neg h]
      simp [B0p, flatG_length 3 tabRows (fun p => rfl)]
      omega
  have hfmt : c.rowFormats.foldl upsertFmt { snap := Drows c, idx := idxD c } =
      { snap := Drows c, idx := idxD c } := by
    by_cases hts : c.rowFormats = []
    · rw [hts]
      rfl
    · have hFne : gsF c ≠ [] := by
        cases hx : c.rowFormats with
        | nil => exact absurd hx hts
        | cons y t =>
          rw [gsF, hx, List.foldl_cons]
          exact afold_ne_nil fmtKey fmtVal (fun _ f => fmtVal f) t _
            (agen_ne_nil fmtKey fmtVal (fun _ f => fmtVal f) [] y)
      have hndF : ((gsF c).map Prod.fst).Nodup :=
        afold_nodup fmtKey fmtVal (fun _ f => fmtVal f) c.rowFormats [] (by simp)
      have hmemF : ∀ x ∈ c.rowFormats, fmtKey x ∈ (gsF c).map Prod.fst := by
        intro x hx
        have h := afold_binds fmtKey fmtVal (fun _ f => fmtVal f) c.rowFormats [] x hx
        rw [any_key_eq_contains] at h
        simpa using h
      have habsF : c.rowFormats.foldl fmtStep (gsF c) = gsF c :=
        afold_absorb fmtKey fmtVal (fun _ f => fmtVal f) (fun _ _ => True)
          (fun _ _ _ _ => rfl) (fun _ _ => trivial) (fun _ => rfl)
          c.rowFormats [] (by simp)
      have hsnapF : Drows c =
          (B0p c ++ areaTp (gsT c) ++ [("Row Formats", "")]) ++ flatG fmtRows (gsF c) ++ (areaCp (gsC c)) := by
        rw [Drows, areaFp, if_neg hFne]
        simp [List.append_assoc]
      have hfi : posMap 6 (13 + (if gsT c = [] then 0 else 1 + 3 * (gsT c).length) + 1) (gsF c) =
          posMap 6 (((B0p c ++ areaTp (gsT c) ++ [("Row Formats", "")])).length) (gsF c) := by
        rw [hPFlen]
      have hSTeq : ({ snap := Drows c, idx := idxD c } : WSt) =
          { snap := (B0p c ++ areaTp (gsT c) ++ [("Row Formats", "")]) ++ flatG fmtRows (gsF c) ++ (areaCp (gsC c)),
            idx := { singletonIdx := [("type column", 1), ("gap threshold (mm:ss)", 3), ("time column", 4), ("title block enabled", 6), ("company name", 7), ("show name", 8), ("lighting designer", 9), ("version", 10), ("note 1", 11), ("note 2", 12)], tabIdx := posMap 3 (13 + 1) (gsT c), fmtIdx := posMap 6 ((B0p c ++ areaTp (gsT c) ++ [("Row Formats", "")])).length (gsF c), condIdx := posMap 7 (13 + (if gsT c = [] then 0 else 1 + 3 * (gsT c).length) + (if gsF c = [] then 0 else 1 + 6 * (gsF c).length) + 1) (gsC c), sections := ["column mapping", "gap threshold", "title block"] ++ (if gsT c = [] then [] else ["output tabs"]) ++ (if gsF c = [] then [] else ["row formats"]) ++ (if gsC c = [] then [] else ["override rules"]) } } := by
        rw [hsnapF, show idxD c = { singletonIdx := [("type column", 1), ("gap threshold (mm:ss)", 3), ("time column", 4), ("title block enabled", 6), ("company name", 7), ("show name", 8), ("lighting designer", 9), ("version", 10), ("note 1", 11), ("note 2", 12)], tabIdx := posMap 3 (13 + 1) (gsT c), fmtIdx := posMap 6 (13 + (if gsT c = [] then 0 else 1 + 3 * (gsT c).length) + 1) (gsF c), condIdx := posMap 7 (13 + (if gsT c = [] then 0 else 1 + 3 * (gsT c).length) + (if gsF c = [] then 0 else 1 + 6 * (gsF c).length) + 1) (gsC c), sections := ["column mapping", "gap threshold", "title block"] ++ (if gsT c = [] then [] else ["output tabs"]) ++ (if gsF c = [] then [] else ["row formats"]) ++ (if gsC c = [] then [] else ["override rules"]) } from rfl, hfi]
      have h2 := run2_fmts c.rowFormats (gsF c) (B0p c ++ areaTp (gsT c) ++ [("Row Formats", "")]) (areaCp (gsC c))
        [("type column", 1), ("gap threshold (mm:ss)", 3), ("time column", 4), ("title block enabled", 6), ("company name", 7), ("show name", 8), ("lighting designer", 9), ("version", 10), ("note 1", 11), ("note 2", 12)] (posMap 3 (13 + 1) (gsT c)) (posMap 7 (13 + (if gsT c = [] then 0 else 1 + 3 * (gsT c).length) + (if gsF c = [] then 0 else 1 + 6 * (gsF c).length) + 1) (gsC c)) (["column mapping", "gap threshold", "title block"] ++ (if gsT c = [] then [] else ["output tabs"]) ++ (if gsF c = [] then [] else ["row formats"]) ++ (if gsC c = [] then [] else ["override rules"]))
        hndF hmemF (stops_areaCp0 "row name" (gsC c))
      rw [hSTeq, h2, habsF, ← hSTeq]
  rw [hfmt]
  have hPClen : ((B0p c ++ areaTp (gsT c) ++ areaFp (gsF c) ++ [("Override Rules", "")])).length = 13 + (if gsT c = [] then 0 else 1 + 3 * (gsT c).length) + (if gsF c = [] then 0 else 1 + 6 * (gsF c).length) + 1 := by
    by_cases h : gsT c = [] <;> by_cases hq : gsF c = [] <;>
      · rw [areaTp, areaFp]
        first
        | (rw [if_pos h, if_pos h, if_pos hq, if_pos hq]
           simp [B0p])
        | (rw [if_pos h, if_pos h, if_neg hq, if_neg hq]
           simp [B0p, flatG_length 6 fmtRows (fun p => rfl)]
           omega)
        | (rw [if_neg h, if_neg h, if_pos hq, if_pos hq]
           simp [B0p, flatG_length 3 tabRows (fun p => rfl)]
           omega)
        | (rw [if_neg h, if_neg h, if_neg hq, if_neg hq]
           simp [B0p, flatG_length 3 tabRows (fun p => rfl),
             flatG_length 6 fmtRows (fun p => rfl)]
           omega)
  have hcond : c.cellConditions.foldl upsertCond { snap := Drows c, idx := idxD c } =
      { snap := Drows c, idx := idxD c } := by
    by_cases hts : c.cellConditions = []
    · rw [hts]
      rfl
    · have hCne : gsC c ≠ [] := by
        cases hx : c.cellConditions with
        | nil => exact absurd hx hts
        | cons y t =>
          rw [gsC, hx, List.foldl_cons]
          exact afold_ne_nil condKey condVal condMerge t _
            (agen_ne_nil condKey condVal condMerge [] y)
      have hndC : ((gsC c).map Prod.fst).Nodup :=
        afold_nodup condKey condVal condMerge c.cellConditions [] (by simp)
      have hmemC : ∀ x ∈ c.cellConditions, condKey x ∈ (gsC c).map Prod.fst := by
        intro x hx
        have h := afold_binds condKey condVal condMerge c.cellConditions [] x hx
        rw [any_key_eq_contains] at h
        simpa using h
      have habsC : c.cellConditions.foldl condStep (gsC c) = gsC c :=
        afold_absorb condKey condVal condMerge
          (fun v v' => v.1 = v'.1 ∧ v.2.1 = v'.2.1)
          (fun v v' x h => by unfold condMerge; rw [h.1, h.2])
          (fun v x => ⟨rfl, rfl⟩) (fun x => rfl)
          c.cellConditions [] (by simp)
      have hsnapC : Drows c =
          (B0p c ++ areaTp (gsT c) ++ areaFp (gsF c) ++ [("Override Rules", "")]) ++ flatG condRows (gsC c) ++ [] := by
        rw [Drows, areaCp, if_neg hCne]
        simp [List.append_assoc]
      have hci : posMap 7 (13 + (if gsT c = [] then 0 else 1 + 3 * (gsT c).length) + (if gsF c = [] then 0 else 1 + 6 * (gsF c).length) + 1) (gsC c) =
          posMap 7 (((B0p c ++ areaTp (gsT c) ++ areaFp (gsF c) ++ [("Override Rules", "")])).length) (gsC c) := by
        rw [hPClen]
      have hSTeq : ({ snap := Drows c, idx := idxD c } : WSt) =
          { snap := (B0p c ++ areaTp (gsT c) ++ areaFp (gsF c) ++ [("Override Rules", "")]) ++ flatG condRows (gsC c) ++ [],
            idx := { singletonIdx := [("type column", 1), ("gap threshold (mm:ss)", 3), ("time column", 4), ("title block enabled", 6), ("company name", 7), ("show name", 8), ("lighting designer", 9), ("version", 10), ("note 1", 11), ("note 2", 12)], tabIdx := posMap 3 (13 + 1) (gsT c), fmtIdx := posMap 6 (13 + (if gsT c = [] then 0 else 1 + 3 * (gsT c).length) + 1) (gsF c), condIdx := posMap 7 ((B0p c ++ areaTp (gsT c) ++ areaFp (gsF c) ++ [("Override Rules", "")])).length (gsC c), sections := ["column mapping", "gap threshold", "title block"] ++ (if gsT c = [] then [] else ["output tabs"]) ++ (if gsF c = [] then [] else ["row formats"]) ++ (if gsC c = [] then [] else ["override rules"]) } } := by
        rw [hsnapC, show idxD c = { singletonIdx := [("type column", 1), ("gap threshold (mm:ss)", 3), ("time column", 4), ("title block enabled", 6), ("company name", 7), ("show name", 8), ("lighting designer", 9), ("version", 10), ("note 1", 11), ("note 2", 12)], tabIdx := posMap 3 (13 + 1) (gsT c), fmtIdx := posMap 6 (13 + (if gsT c = [] then 0 else 1 + 3 * (gsT c).length) + 1) (gsF c), condIdx := posMap 7 (13 + (if gsT c = [] then 0 else 1 + 3 * (gsT c).length) + (if gsF c = [] then 0 else 1 + 6 * (gsF c).length) + 1) (gsC c), sections := ["column mapping", "gap threshold", "title block"] ++ (if gsT c = [] then [] else ["output tabs"]) ++ (if gsF c = [] then [] else ["row formats"]) ++ (if gsC c = [] then [] else ["override rules"]) } from rfl, hci]
      have h2 := run2_conds c.cellConditions (gsC c) (B0p c ++ areaTp (gsT c) ++ areaFp (gsF c) ++ [("Override Rules", "")]) []
        [("type column", 1), ("gap threshold (mm:ss)", 3), ("time column", 4), ("title block enabled", 6), ("company name", 7), ("show name", 8), ("lighting designer", 9), ("version", 10), ("note 1", 11), ("note 2", 12)] (posMap 3 (13 + 1) (gsT c)) (posMap 6 (13 + (if gsT c = [] then 0 else 1 + 3 * (gsT c).length) + 1) (gsF c)) (["column mapping", "gap threshold", "title block"] ++ (if gsT c = [] then [] else ["output tabs"]) ++ (if gsF c = [] then [] else ["row formats"]) ++ (if gsC c = [] then [] else ["override rules"]))
        hndC hmemC trivial
      rw [hSTeq, h2, habsC, ← hSTeq]
  rw [hcond]

/-- C3 (amended): for every configuration, the second export equals
`dropBlankRows` of the first (the blank separator rows written before each
new section header are skipped by the read-back), and from the second
export onward the sheet is a fixed point: a third export changes nothing. -/
theorem C3_idempotent_amended (c : AppConfig) :
    writeConfigSheetRows (some (writeConfigSheetRows none c)) c =
      dropBlankRows (writeConfigSheetRows none c) ∧
    writeConfigSheetRows
        (some (writeConfigSheetRows (some (writeConfigSheetRows none c)) c)) c =
      writeConfigSheetRows (some (writeConfigSheetRows none c)) c := by
  have h1 : writeConfigSheetRows (some (writeConfigSheetRows none c)) c =
      Drows c := by
    show writeSnapshot c (dropBlankRows (writeSnapshot c [])) = Drows c
    rw [dropBlank_run1, run2_noop]
  constructor
  · rw [h1]
    show Drows c = dropBlankRows (writeSnapshot c [])
    rw [dropBlank_run1]
  · rw [h1]
    show writeSnapshot c (dropBlankRows (Drows c)) = Drows c
    rw [dropBlank_D, run2_noop]

/-!  Claim C2 — frame lemmas: `setVal`, `mset`/`mget` and the in-place
patch loops modify only what they name. -/

theorem setVal_length (l : List KV) (i : ℕ) (v : String) :
    (setVal l i v).length = l.length := by
  induction l generalizing i with
  | nil => rfl
  | cons kv rest ih =>
    cases i with
    | zero => rfl
    | succ m => simp [setVal, ih]

theorem setVal_get_ne (l : List KV) (i j : ℕ) (v : String) (h : j ≠ i) :
    (setVal l i v)[j]? = l[j]? := by
  induction l generalizing i j with
  | nil => rfl
  | cons kv rest ih =>
    cases i with
    | zero =>
      cases j with
      | zero => exact absurd rfl h
      | succ m => simp [setVal]
    | succ m =>
      cases j with
      | zero => simp [setVal]
      | succ p => simpa [setVal] using ih m p (fun hc => h (by rw [hc]))

theorem setVal_fst (l : List KV) (i j : ℕ) (v : String) :
    ((setVal l i v)[j]?).map Prod.fst = (l[j]?).map Prod.fst := by
  induction l generalizing i j with
  | nil => rfl
  | cons kv rest ih =>
    cases i with
    | zero =>
      cases j with
      | zero => simp [setVal]
      | succ m => simp [setVal]
    | succ m =>
      cases j with
      | zero => simp [setVal]
      | succ p => simpa [setVal] using ih m p

theorem mget_map_ne (m : List (String × ℕ)) (k k' : String) (v : ℕ) (h : k' ≠ k) :
    mget (m.map (fun p => if p.1 = k then (k, v) else p)) k' = mget m k' := by
  induction m with
  | nil => rfl
  | cons p rest ih =>
    by_cases hp : p.1 = k
    · simp only [List.map_cons, if_pos hp, mget, List.find?]
      have h1 : (decide ((k, v).1 = k') : Bool) = false := by
        simp only [decide_eq_false_iff_not]
        exact fun hc => h hc.symm
      have h2 : (decide (p.1 = k') : Bool) = false := by
        simp only [decide_eq_false_iff_not]
        rw [hp]
        exact fun hc => h hc.symm
      rw [h1, h2]
      exact ih
    · simp only [List.map_cons, if_neg hp, mget, List.find?]
      cases hq : (decide (p.1 = k') : Bool) with
      | true => rfl
      | false => exact ih

theorem mget_append_ne (m : List (String × ℕ)) (k k' : String) (v : ℕ) (h : k' ≠ k) :
    mget (m ++ [(k, v)]) k' = mget m k' := by
  induction m with
  | nil =>
    simp only [List.nil_append, mget, List.find?]
    have h1 : (decide ((k, v).1 = k') : Bool) = false := by
      simp only [decide_eq_false_iff_not]
      exact fun hc => h hc.symm
    rw [h1]
  | cons p rest ih =>
    simp only [List.cons_append, mget, List.find?]
    cases hq : (decide (p.1 = k') : Bool) with
    | true => rfl
    | false => exact ih

theorem mget_mset_ne (m : List (String × ℕ)) (k k' : String) (v : ℕ) (h : k' ≠ k) :
    mget (mset m k v) k' = mget m k' := by
  rw [mset]
  by_cases hany : m.any (fun p => p.1 = k) = true
  · rw [if_pos hany]
    exact mget_map_ne m k k' v h
  · rw [if_neg hany]
    exact mget_append_ne m k k' v h

theorem mget_map_self (m : List (String × ℕ)) (k : String) (v i : ℕ)
    (h : mget (m.map (fun p => if p.1 = k then (k, v) else p)) k = some i) : i = v := by
  induction m with
  | nil => exact absurd h (by simp [mget, List.find?])
  | cons p rest ih =>
    by_cases hp : p.1 = k
    · simp only [List.map_cons, if_pos hp, mget, List.find?] at h
      exact (Option.some.inj h).symm
    · simp only [List.map_cons, if_neg hp, mget, List.find?] at h
      rw [show (decide (p.1 = k) : Bool) = false by simp [hp]] at h
      exact ih h

theorem mget_append_self_cases (m : List (String × ℕ)) (k : String) (v i : ℕ)
    (h : mget (m ++ [(k, v)]) k = some i) : mget m k = some i ∨ i = v := by
  induction m with
  | nil =>
    right
    simp only [List.nil_append, mget, List.find?] at h
    exact (Option.some.inj h).symm
  | cons p rest ih =>
    simp only [List.cons_append, mget, List.find?] at h
    cases hq : (decide (p.1 = k) : Bool) with
    | true =>
      rw [hq] at h
      left
      simp only [mget, List.find?]
      rw [hq]
      exact h
    | false =>
      rw [hq] at h
      rcases ih h with h1 | h1
      · left
        simp only [mget, List.find?]
        rw [hq]
        exact h1
      · right
        exact h1

theorem mget_mset_cases (m : List (String × ℕ)) (k k' : String) (v i : ℕ)
    (h : mget (mset m k v) k' = some i) : mget m k' = some i ∨ i = v := by
  by_cases hk : k' = k
  · subst hk
    rw [mset] at h
    by_cases hany : m.any (fun p => p.1 = k') = true
    · rw [if_pos hany] at h
      exact Or.inr (mget_map_self m k' v i h)
    · rw [if_neg hany] at h
      exact mget_append_self_cases m k' v i h
  · left
    rw [mget_mset_ne m k k' v hk] at h
    exact h
theorem spanLen_le_length (anchor : String) : ∀ l : List KV, spanLen anchor l ≤ l.length := by
  intro l
  induction l with
  | nil => simp [spanLen]
  | cons kv rest ih =>
    obtain ⟨k, v⟩ := kv
    simp only [spanLen]
    by_cases hstop : keyLower k = anchor ∨ isSectionKey (keyLower k)
    · rw [if_pos hstop]
      simp
    · rw [if_neg hstop]
      simp only [List.length_cons]
      omega

theorem spanLen_ge_min (anchor : String) :
    ∀ (l l' : List KV) (m : ℕ),
      (∀ j, j < m → (l[j]?).map Prod.fst = (l'[j]?).map Prod.fst) →
      min (spanLen anchor l) m ≤ spanLen anchor l' := by
  intro l
  induction l with
  | nil =>
    intro l' m hkeys
    simp [spanLen]
  | cons kv rest ih =>
    intro l' m hkeys
    obtain ⟨k, v⟩ := kv
    cases m with
    | zero => simp
    | succ m' =>
      have h0 := hkeys 0 (by omega)
      cases l' with
      | nil => simp at h0
      | cons kv' rest' =>
        obtain ⟨k', v'⟩ := kv'
        have hk : k = k' := by simpa using h0
        subst hk
        by_cases hstop : keyLower k = anchor ∨ isSectionKey (keyLower k)
        · simp only [spanLen, if_pos hstop]
          simp
        · simp only [spanLen, if_neg hstop]
          have hrec := ih rest' m' (fun j hj => by
            have := hkeys (j + 1) (by omega)
            simpa using this)
          omega

theorem patchTab_length (t : TabDefinition) : ∀ l : List KV, (patchTab t l).length = l.length := by
  intro l
  induction l with
  | nil => rfl
  | cons kv rest ih =>
    obtain ⟨k, v⟩ := kv
    simp only [patchTab]
    by_cases hstop : keyLower k = "tab name" ∨ isSectionKey (keyLower k)
    · rw [if_pos hstop]
    · rw [if_neg hstop]
      simpa using ih

theorem patchTab_fst (t : TabDefinition) :
    ∀ (l : List KV) (j : ℕ), ((patchTab t l)[j]?).map Prod.fst = (l[j]?).map Prod.fst := by
  intro l
  induction l with
  | nil => intro j; rfl
  | cons kv rest ih =>
    intro j
    obtain ⟨k, v⟩ := kv
    simp only [patchTab]
    by_cases hstop : keyLower k = "tab name" ∨ isSectionKey (keyLower k)
    · rw [if_pos hstop]
    · rw [if_neg hstop]
      cases j with
      | zero => simp
      | succ p => simpa using ih p

theorem patchTab_high (t : TabDefinition) :
    ∀ (l : List KV) (j : ℕ), spanLen "tab name" l ≤ j → (patchTab t l)[j]? = l[j]? := by
  intro l
  induction l with
  | nil => intro j _; rfl
  | cons kv rest ih =>
    intro j hj
    obtain ⟨k, v⟩ := kv
    simp only [patchTab]
    by_cases hstop : keyLower k = "tab name" ∨ isSectionKey (keyLower k)
    · rw [if_pos hstop]
    · rw [if_neg hstop]
      simp only [spanLen, if_neg hstop] at hj
      cases j with
      | zero => omega
      | succ p =>
        have := ih p (by omega)
        simpa using this

theorem patchFmt_length (f : RowFormatRule) : ∀ l : List KV, (patchFmt f l).length = l.length := by
  intro l
  induction l with
  | nil => rfl
  | cons kv rest ih =>
    obtain ⟨k, v⟩ := kv
    simp only [patchFmt]
    by_cases hstop : keyLower k = "row name" ∨ isSectionKey (keyLower k)
    · rw [if_pos hstop]
    · rw [if_neg hstop]
      simpa using ih

theorem patchFmt_fst (f : RowFormatRule) :
    ∀ (l : List KV) (j : ℕ), ((patchFmt f l)[j]?).map Prod.fst = (l[j]?).map Prod.fst := by
  intro l
  induction l with
  | nil => intro j; rfl
  | cons kv rest ih =>
    intro j
    obtain ⟨k, v⟩ := kv
    simp only [patchFmt]
    by_cases hstop : keyLower k = "row name" ∨ isSectionKey (keyLower k)
    · rw [if_pos hstop]
    · rw [if_neg hstop]
      cases j with
      | zero => simp
      | succ p => simpa using ih p

theorem patchFmt_high (f : RowFormatRule) :
    ∀ (l : List KV) (j : ℕ), spanLen "row name" l ≤ j → (patchFmt f l)[j]? = l[j]? := by
  intro l
  induction l with
  | nil => intro j _; rfl
  | cons kv rest ih =>
    intro j hj
    obtain ⟨k, v⟩ := kv
    simp only [patchFmt]
    by_cases hstop : keyLower k = "row name" ∨ isSectionKey (keyLower k)
    · rw [if_pos hstop]
    · rw [if_neg hstop]
      simp only [spanLen, if_neg hstop] at hj
      cases j with
      | zero => omega
      | succ p =>
        have := ih p (by omega)
        simpa using this

theorem patchCond_length (cr : CellConditionRule) :
    ∀ l : List KV, (patchCond cr l).length = l.length := by
  intro l
  induction l with
  | nil => rfl
  | cons kv rest ih =>
    obtain ⟨k, v⟩ := kv
    simp only [patchCond]
    by_cases hstop : keyLower k = "override column" ∨ isSectionKey (keyLower k)
    · rw [if_pos hstop]
    · rw [if_neg hstop]
      simpa using ih

theorem patchCond_fst (cr : CellConditionRule) :
    ∀ (l : List KV) (j : ℕ), ((patchCond cr l)[j]?).map Prod.fst = (l[j]?).map Prod.fst := by
  intro l
  induction l with
  | nil => intro j; rfl
  | cons kv rest ih =>
    intro j
    obtain ⟨k, v⟩ := kv
    simp only [patchCond]
    by_cases hstop : keyLower k = "override column" ∨ isSectionKey (keyLower k)
    · rw [if_pos hstop]
    · rw [if_neg hstop]
      cases j with
      | zero => simp
      | succ p => simpa using ih p

theorem patchCond_high (cr : CellConditionRule) :
    ∀ (l : List KV) (j : ℕ), spanLen "override column" l ≤ j → (patchCond cr l)[j]? = l[j]? := by
  intro l
  induction l with
  | nil => intro j _; rfl
  | cons kv rest ih =>
    intro j hj
    obtain ⟨k, v⟩ := kv
    simp only [patchCond]
    by_cases hstop : keyLower k = "override column" ∨ isSectionKey (keyLower k)
    · rw [if_pos hstop]
    · rw [if_neg hstop]
      simp only [spanLen, if_neg hstop] at hj
      cases j with
      | zero => omega
      | succ p =>
        have := ih p (by omega)
        simpa using this
theorem buildIdxF_bound :
    ∀ (fuel : ℕ) (rows : List KV) (pos : ℕ) (st : EncIdx),
      (∀ k i, mget (buildIdxF fuel rows pos st).singletonIdx k = some i →
        mget st.singletonIdx k = some i ∨ i < pos + rows.length) ∧
      (∀ k i, mget (buildIdxF fuel rows pos st).tabIdx k = some i →
        mget st.tabIdx k = some i ∨ i < pos + rows.length) ∧
      (∀ k i, mget (buildIdxF fuel rows pos st).fmtIdx k = some i →
        mget st.fmtIdx k = some i ∨ i < pos + rows.length) ∧
      (∀ k i, mget (buildIdxF fuel rows pos st).condIdx k = some i →
        mget st.condIdx k = some i ∨ i < pos + rows.length) := by
  intro fuel
  induction fuel with
  | zero =>
    intro rows pos st
    exact ⟨fun k i h => Or.inl h, fun k i h => Or.inl h,
           fun k i h => Or.inl h, fun k i h => Or.inl h⟩
  | succ f ih =>
    intro rows pos st
    cases rows with
    | nil =>
      exact ⟨fun k i h => Or.inl h, fun k i h => Or.inl h,
             fun k i h => Or.inl h, fun k i h => Or.inl h⟩
    | cons kv rest =>
      obtain ⟨k, v⟩ := kv
      simp only [buildIdxF, List.length_cons]
      by_cases h1 : isSectionKey (keyLower k) = true
      · rw [if_pos h1]
        obtain ⟨i1, i2, i3, i4⟩ := ih rest (pos + 1) { st with sections := sadd st.sections (keyLower k) }
        exact ⟨fun k' i h => (i1 k' i h).imp id (by omega),
               fun k' i h => (i2 k' i h).imp id (by omega),
               fun k' i h => (i3 k' i h).imp id (by omega),
               fun k' i h => (i4 k' i h).imp id (by omega)⟩
      · rw [if_neg h1]
        by_cases h2 : SINGLETON_KEYS.contains (keyLower k) = true
        · rw [if_pos h2]
          obtain ⟨i1, i2, i3, i4⟩ := ih rest (pos + 1)
            { st with singletonIdx := mset st.singletonIdx (keyLower k) pos }
          refine ⟨fun k' i h => ?_, fun k' i h => (i2 k' i h).imp id (by omega),
                  fun k' i h => (i3 k' i h).imp id (by omega),
                  fun k' i h => (i4 k' i h).imp id (by omega)⟩
          rcases i1 k' i h with h' | h'
          · rcases mget_mset_cases _ _ _ _ _ h' with h'' | h''
            · exact Or.inl h''
            · omega
          · omega
        · rw [if_neg h2]
          by_cases h3 : keyLower k = "tab name"
          · rw [if_pos h3]
            have hsp := spanLen_le_length "tab name" rest
            obtain ⟨i1, i2, i3, i4⟩ := ih (rest.drop (spanLen "tab name" rest))
              (pos + 1 + spanLen "tab name" rest)
              { st with tabIdx := mset st.tabIdx v pos }
            rw [List.length_drop] at i1 i2 i3 i4
            refine ⟨fun k' i h => (i1 k' i h).imp id (by omega), fun k' i h => ?_,
                    fun k' i h => (i3 k' i h).imp id (by omega),
                    fun k' i h => (i4 k' i h).imp id (by omega)⟩
            rcases i2 k' i h with h' | h'
            · rcases mget_mset_cases _ _ _ _ _ h' with h'' | h''
              · exact Or.inl h''
              · omega
            · omega
          · rw [if_neg h3]
            by_cases h4 : keyLower k = "row name"
            · rw [if_pos h4]
              have hsp := spanLen_le_length "row name" rest
              obtain ⟨i1, i2, i3, i4⟩ := ih (rest.drop (spanLen "row name" rest))
                (pos + 1 + spanLen "row name" rest)
                { st with fmtIdx := mset st.fmtIdx v pos }
              rw [List.length_drop] at i1 i2 i3 i4
              refine ⟨fun k' i h => (i1 k' i h).imp id (by omega),
                      fun k' i h => (i2 k' i h).imp id (by omega), fun k' i h => ?_,
                      fun k' i h => (i4 k' i h).imp id (by omega)⟩
              rcases i3 k' i h with h' | h'
              · rcases mget_mset_cases _ _ _ _ _ h' with h'' | h''
                · exact Or.inl h''
                · omega
              · omega
            · rw [if_neg h4]
              by_cases h5 : keyLower k = "override column"
              · rw [if_pos h5]
                have hsp := spanLen_le_length "override column" rest
                obtain ⟨i1, i2, i3, i4⟩ := ih (rest.drop (spanLen "override column" rest)) (pos + 1 + spanLen "override column" rest) { st with condIdx := mset st.condIdx (v ++ "|||" ++ (match rest.head? with | some (k2, v2) => if keyLower k2 = "override value" then v2 else "" | none => "")) pos }
                rw [List.length_drop] at i1 i2 i3 i4
                refine ⟨fun k' i h => (i1 k' i h).imp id (by omega),
                        fun k' i h => (i2 k' i h).imp id (by omega),
                        fun k' i h => (i3 k' i h).imp id (by omega), fun k' i h => ?_⟩
                rcases i4 k' i h with h' | h'
                · rcases mget_mset_cases _ _ _ _ _ h' with h'' | h''
                  · exact Or.inl h''
                  · omega
                · omega
              · rw [if_neg h5]
                obtain ⟨i1, i2, i3, i4⟩ := ih rest (pos + 1) st
                exact ⟨fun k' i h => (i1 k' i h).imp id (by omega),
                       fun k' i h => (i2 k' i h).imp id (by omega),
                       fun k' i h => (i3 k' i h).imp id (by omega),
                       fun k' i h => (i4 k' i h).imp id (by omega)⟩
/-- Is `j` inside the patch window of a group anchored at row `b`
(sub-rows `b+1 .. b+spanLen`)? -/
def winHit (S : List KV) (anchor : String) (b j : ℕ) : Bool :=
  decide (b + 1 ≤ j) && decide (j < b + 1 + spanLen anchor (S.drop (b + 1)))

/-- The snapshot positions the encoder may rewrite: the indexed singleton
rows (every singleton is written on every export) and the sub-rows of the
groups whose identity the configuration references. -/
def touchedC2 (S : List KV) (c : AppConfig) (j : ℕ) : Bool :=
  (SINGLETON_KEYS.any (fun k => mget (buildIdx S 0 {}).singletonIdx k = some j)) ||
  (c.tabs.any (fun t => match mget (buildIdx S 0 {}).tabIdx t.name with
     | some b => winHit S "tab name" b j
     | none => false)) ||
  (c.rowFormats.any (fun fr => match mget (buildIdx S 0 {}).fmtIdx fr.rowType with
     | some b => winHit S "row name" b j
     | none => false)) ||
  (c.cellConditions.any (fun cr => match mget (buildIdx S 0 {}).condIdx (condIdentity cr) with
     | some b => winHit S "override column" b j
     | none => false))

/-- Invariant carried through the encoder state: the snapshot only grows,
keys at original positions never change, untouched original rows are
intact, and every index binding is an original binding or points past the
original snapshot. -/
def C2Inv (S : List KV) (c : AppConfig) (st : WSt) : Prop :=
  S.length ≤ st.snap.length ∧
  (∀ j, j < S.length → (st.snap[j]?).map Prod.fst = (S[j]?).map Prod.fst) ∧
  (∀ j, j < S.length → touchedC2 S c j = false → st.snap[j]? = S[j]?) ∧
  (∀ k i, mget st.idx.singletonIdx k = some i →
     mget (buildIdx S 0 {}).singletonIdx k = some i ∨ S.length ≤ i) ∧
  (∀ k i, mget st.idx.tabIdx k = some i →
     mget (buildIdx S 0 {}).tabIdx k = some i ∨ S.length ≤ i) ∧
  (∀ k i, mget st.idx.fmtIdx k = some i →
     mget (buildIdx S 0 {}).fmtIdx k = some i ∨ S.length ≤ i) ∧
  (∀ k i, mget st.idx.condIdx k = some i →
     mget (buildIdx S 0 {}).condIdx k = some i ∨ S.length ≤ i)

theorem ensureSection_inv (S : List KV) (c : AppConfig) (st : WSt) (header : String)
    (h : C2Inv S c st) :
    C2Inv S c (ensureSection st header) ∧
      st.snap.length ≤ (ensureSection st header).snap.length := by
  obtain ⟨hlen, hkeys, hframe, hs, ht, hf, hc⟩ := h
  rw [ensureSection]
  by_cases hsec : st.idx.sections.contains (jsLower header) = true
  · rw [if_pos hsec]
    exact ⟨⟨hlen, hkeys, hframe, hs, ht, hf, hc⟩, le_refl _⟩
  · rw [if_neg hsec]
    dsimp only
    by_cases hne : st.snap ≠ []
    · rw [if_pos hne]
      refine ⟨⟨?_, ?_, ?_, hs, ht, hf, hc⟩, ?_⟩
      · simp only [List.length_append, List.length_cons, List.length_nil]
        omega
      · intro j hj
        rw [List.append_assoc, List.getElem?_append_left (by omega)]
        exact hkeys j hj
      · intro j hj hu
        rw [List.append_assoc, List.getElem?_append_left (by omega)]
        exact hframe j hj hu
      · simp only [List.length_append, List.length_cons, List.length_nil]
        omega
    · rw [if_neg hne]
      refine ⟨⟨?_, ?_, ?_, hs, ht, hf, hc⟩, ?_⟩
      · simp only [List.length_append, List.length_cons, List.length_nil]
        omega
      · intro j hj
        rw [List.getElem?_append_left (by omega)]
        exact hkeys j hj
      · intro j hj hu
        rw [List.getElem?_append_left (by omega)]
        exact hframe j hj hu
      · simp only [List.length_append, List.length_cons, List.length_nil]
        omega

theorem upsertSingleton_inv (S : List KV) (c : AppConfig) (st : WSt)
    (sec key val : String) (hkey : jsLower key ∈ SINGLETON_KEYS)
    (h : C2Inv S c st) : C2Inv S c (upsertSingleton st sec key val) := by
  rw [upsertSingleton]
  dsimp only
  cases hm : mget st.idx.singletonIdx (jsLower key) with
  | some i =>
    obtain ⟨hlen, hkeys, hframe, hs, ht, hf, hc⟩ := h
    have hji : ∀ j, j < S.length → touchedC2 S c j = false → j ≠ i := by
      intro j hj hu hji
      subst hji
      rcases hs _ _ hm with horig | hge
      · have : touchedC2 S c j = true := by
          rw [touchedC2]
          have h1 : SINGLETON_KEYS.any
              (fun k => mget (buildIdx S 0 {}).singletonIdx k = some j) = true := by
            rw [List.any_eq_true]
            exact ⟨jsLower key, hkey, by rw [horig]; simp⟩
          rw [h1]
          rfl
        rw [hu] at this
        exact Bool.false_ne_true this
      · omega
    refine ⟨?_, ?_, ?_, hs, ht, hf, hc⟩
    · rw [setVal_length]
      exact hlen
    · intro j hj
      rw [setVal_fst]
      exact hkeys j hj
    · intro j hj hu
      rw [setVal_get_ne _ _ _ _ (hji j hj hu)]
      exact hframe j hj hu
  | none =>
    obtain ⟨⟨hlen, hkeys, hframe, hs, ht, hf, hc⟩, hgrow⟩ :=
      ensureSection_inv S c st sec h
    have hbig : S.length ≤ (ensureSection st sec).snap.length := hlen
    refine ⟨?_, ?_, ?_, ?_, ht, hf, hc⟩
    · simp only [List.length_append, List.length_cons, List.length_nil]
      omega
    · intro j hj
      rw [List.getElem?_append_left (by omega)]
      exact hkeys j hj
    · intro j hj hu
      rw [List.getElem?_append_left (by omega)]
      exact hframe j hj hu
    · intro k i hki
      rcases mget_mset_cases _ _ _ _ _ hki with h' | h'
      · exact hs k i h'
      · subst h'
        right
        exact hbig
theorem any_false_mem {α : Type} (l : List α) (p : α → Bool) (h : l.any p = false)
    (x : α) (hx : x ∈ l) : p x = false := by
  by_contra hc
  rw [Bool.not_eq_false] at hc
  have h2 : l.any p = true := List.any_eq_true.mpr ⟨x, hx, hc⟩
  rw [h] at h2
  exact Bool.false_ne_true h2

theorem buildIdx_bound (S : List KV) :
    (∀ k i, mget (buildIdx S 0 {}).singletonIdx k = some i → i < S.length) ∧
    (∀ k i, mget (buildIdx S 0 {}).tabIdx k = some i → i < S.length) ∧
    (∀ k i, mget (buildIdx S 0 {}).fmtIdx k = some i → i < S.length) ∧
    (∀ k i, mget (buildIdx S 0 {}).condIdx k = some i → i < S.length) := by
  obtain ⟨i1, i2, i3, i4⟩ := buildIdxF_bound (S.length + 1) S 0 {}
  refine ⟨fun k i h => ?_, fun k i h => ?_, fun k i h => ?_, fun k i h => ?_⟩
  · rcases i1 k i h with h' | h'
    · exact Option.noConfusion h'
    · omega
  · rcases i2 k i h with h' | h'
    · exact Option.noConfusion h'
    · omega
  · rcases i3 k i h with h' | h'
    · exact Option.noConfusion h'
    · omega
  · rcases i4 k i h with h' | h'
    · exact Option.noConfusion h'
    · omega

theorem upsertTab_inv (S : List KV) (c : AppConfig) (st : WSt) (t : TabDefinition)
    (hmem : t ∈ c.tabs) (h : C2Inv S c st) : C2Inv S c (upsertTab st t) := by
  rw [upsertTab]
  cases hm : mget st.idx.tabIdx t.name with
  | none =>
    obtain ⟨⟨hlen, hkeys, hframe, hs, ht, hf, hc⟩, hgrow⟩ :=
      ensureSection_inv S c st "Output Tabs" h
    dsimp only
    refine ⟨?_, ?_, ?_, hs, ?_, hf, hc⟩
    · simp only [List.length_append, List.length_cons, List.length_nil]
      omega
    · intro j hj
      rw [List.getElem?_append_left (by omega)]
      exact hkeys j hj
    · intro j hj hu
      rw [List.getElem?_append_left (by omega)]
      exact hframe j hj hu
    · intro k i hki
      rcases mget_mset_cases _ _ _ _ _ hki with h' | h'
      · exact ht k i h'
      · subst h'
        right
        exact hlen
  | some b =>
    obtain ⟨hlen, hkeys, hframe, hs, ht, hf, hc⟩ := h
    dsimp only
    refine ⟨?_, ?_, ?_, hs, ht, hf, hc⟩
    · simp only [List.length_append, List.length_take, patchTab_length, List.length_drop]
      omega
    · intro j hj
      by_cases hjb : j < b + 1
      · rw [List.getElem?_append_left (by rw [List.length_take]; omega),
          List.getElem?_take, if_pos hjb]
        exact hkeys j hj
      · rw [List.getElem?_append_right (by rw [List.length_take]; omega),
          List.length_take, show min (b + 1) st.snap.length = b + 1 by omega,
          patchTab_fst, List.getElem?_drop,
          show b + 1 + (j - (b + 1)) = j by omega]
        exact hkeys j hj
    · intro j hj hu
      by_cases hjb : j < b + 1
      · rw [List.getElem?_append_left (by rw [List.length_take]; omega),
          List.getElem?_take, if_pos hjb]
        exact hframe j hj hu
      · rcases ht _ _ hm with horig | hge
        · have hbn : b < S.length := (buildIdx_bound S).2.1 _ _ horig
          have hu' := hu
          rw [touchedC2] at hu'
          simp only [Bool.or_eq_false_iff] at hu'
          have hpt := any_false_mem _ _ hu'.1.1.2 t hmem
          rw [horig] at hpt
          dsimp only at hpt
          rw [winHit] at hpt
          simp only [Bool.and_eq_false_iff, decide_eq_false_iff_not] at hpt
          have hagree : ∀ x, x < S.length - (b + 1) →
              ((st.snap.drop (b + 1))[x]?).map Prod.fst =
                ((S.drop (b + 1))[x]?).map Prod.fst := by
            intro x hx
            rw [List.getElem?_drop, List.getElem?_drop]
            exact hkeys (b + 1 + x) (by omega)
          have hmin := spanLen_ge_min "tab name" (st.snap.drop (b + 1)) (S.drop (b + 1))
            (S.length - (b + 1)) hagree
          have hsp : spanLen "tab name" (st.snap.drop (b + 1)) ≤ j - (b + 1) := by
            rcases hpt with h' | h'
            · omega
            · omega
          rw [List.getElem?_append_right (by rw [List.length_take]; omega),
            List.length_take, show min (b + 1) st.snap.length = b + 1 by omega,
            patchTab_high t _ _ hsp, List.getElem?_drop,
            show b + 1 + (j - (b + 1)) = j by omega]
          exact hframe j hj hu
        · omega
theorem upsertFmt_inv (S : List KV) (c : AppConfig) (st : WSt) (fr : RowFormatRule)
    (hmem : fr ∈ c.rowFormats) (h : C2Inv S c st) : C2Inv S c (upsertFmt st fr) := by
  rw [upsertFmt]
  cases hm : mget st.idx.fmtIdx fr.rowType with
  | none =>
    obtain ⟨⟨hlen, hkeys, hframe, hs, ht, hf, hc⟩, hgrow⟩ :=
      ensureSection_inv S c st "Row Formats" h
    dsimp only
    refine ⟨?_, ?_, ?_, hs, ht, ?_, hc⟩
    · simp only [List.length_append, List.length_cons, List.length_nil]
      omega
    · intro j hj
      rw [List.getElem?_append_left (by omega)]
      exact hkeys j hj
    · intro j hj hu
      rw [List.getElem?_append_left (by omega)]
      exact hframe j hj hu
    · intro k i hki
      rcases mget_mset_cases _ _ _ _ _ hki with h' | h'
      · exact hf k i h'
      · subst h'
        right
        exact hlen
  | some b =>
    obtain ⟨hlen, hkeys, hframe, hs, ht, hf, hc⟩ := h
    dsimp only
    refine ⟨?_, ?_, ?_, hs, ht, hf, hc⟩
    · simp only [List.length_append, List.length_take, patchFmt_length, List.length_drop]
      omega
    · intro j hj
      by_cases hjb : j < b + 1
      · rw [List.getElem?_append_left (by rw [List.length_take]; omega),
          List.getElem?_take, if_pos hjb]
        exact hkeys j hj
      · rw [List.getElem?_append_right (by rw [List.length_take]; omega),
          List.length_take, show min (b + 1) st.snap.length = b + 1 by omega,
          patchFmt_fst, List.getElem?_drop,
          show b + 1 + (j - (b + 1)) = j by omega]
        exact hkeys j hj
    · intro j hj hu
      by_cases hjb : j < b + 1
      · rw [List.getElem?_append_left (by rw [List.length_take]; omega),
          List.getElem?_take, if_pos hjb]
        exact hframe j hj hu
      · rcases hf _ _ hm with horig | hge
        · have hbn : b < S.length := (buildIdx_bound S).2.2.1 _ _ horig
          have hu' := hu
          rw [touchedC2] at hu'
          simp only [Bool.or_eq_false_iff] at hu'
          have hpt := any_false_mem _ _ hu'.1.2 fr hmem
          rw [horig] at hpt
          dsimp only at hpt
          rw [winHit] at hpt
          simp only [Bool.and_eq_false_iff, decide_eq_false_iff_not] at hpt
          have hagree : ∀ x, x < S.length - (b + 1) →
              ((st.snap.drop (b + 1))[x]?).map Prod.fst =
                ((S.drop (b + 1))[x]?).map Prod.fst := by
            intro x hx
            rw [List.getElem?_drop, List.getElem?_drop]
            exact hkeys (b + 1 + x) (by omega)
          have hmin := spanLen_ge_min "row name" (st.snap.drop (b + 1)) (S.drop (b + 1))
            (S.length - (b + 1)) hagree
          have hsp : spanLen "row name" (st.snap.drop (b + 1)) ≤ j - (b + 1) := by
            rcases hpt with h' | h'
            · omega
            · omega
          rw [List.getElem?_append_right (by rw [List.length_take]; omega),
            List.length_take, show min (b + 1) st.snap.length = b + 1 by omega,
            patchFmt_high fr _ _ hsp, List.getElem?_drop,
            show b + 1 + (j - (b + 1)) = j by omega]
          exact hframe j hj hu
        · omega

theorem upsertCond_inv (S : List KV) (c : AppConfig) (st : WSt) (cr : CellConditionRule)
    (hmem : cr ∈ c.cellConditions) (h : C2Inv S c st) : C2Inv S c (upsertCond st cr) := by
  rw [upsertCond]
  cases hm : mget st.idx.condIdx (condIdentity cr) with
  | none =>
    obtain ⟨⟨hlen, hkeys, hframe, hs, ht, hf, hc⟩, hgrow⟩ :=
      ensureSection_inv S c st "Override Rules" h
    dsimp only
    refine ⟨?_, ?_, ?_, hs, ht, hf, ?_⟩
    · simp only [List.length_append, List.length_cons, List.length_nil]
      omega
    · intro j hj
      rw [List.getElem?_append_left (by omega)]
      exact hkeys j hj
    · intro j hj hu
      rw [List.getElem?_append_left (by omega)]
      exact hframe j hj hu
    · intro k i hki
      rcases mget_mset_cases _ _ _ _ _ hki with h' | h'
      · exact hc k i h'
      · subst h'
        right
        exact hlen
  | some b =>
    obtain ⟨hlen, hkeys, hframe, hs, ht, hf, hc⟩ := h
    dsimp only
    refine ⟨?_, ?_, ?_, hs, ht, hf, hc⟩
    · simp only [List.length_append, List.length_take, patchCond_length, List.length_drop]
      omega
    · intro j hj
      by_cases hjb : j < b + 1
      · rw [List.getElem?_append_left (by rw [List.length_take]; omega),
          List.getElem?_take, if_pos hjb]
        exact hkeys j hj
      · rw [List.getElem?_append_right (by rw [List.length_take]; omega),
          List.length_take, show min (b + 1) st.snap.length = b + 1 by omega,
          patchCond_fst, List.getElem?_drop,
          show b + 1 + (j - (b + 1)) = j by omega]
        exact hkeys j hj
    · intro j hj hu
      by_cases hjb : j < b + 1
      · rw [List.getElem?_append_left (by rw [List.length_take]; omega),
          List.getElem?_take, if_pos hjb]
        exact hframe j hj hu
      · rcases hc _ _ hm with horig | hge
        · have hbn : b < S.length := (buildIdx_bound S).2.2.2 _ _ horig
          have hu' := hu
          rw [touchedC2] at hu'
          simp only [Bool.or_eq_false_iff] at hu'
          have hpt := any_false_mem _ _ hu'.2 cr hmem
          rw [horig] at hpt
          dsimp only at hpt
          rw [winHit] at hpt
          simp only [Bool.and_eq_false_iff, decide_eq_false_iff_not] at hpt
          have hagree : ∀ x, x < S.length - (b + 1) →
              ((st.snap.drop (b + 1))[x]?).map Prod.fst =
                ((S.drop (b + 1))[x]?).map Prod.fst := by
            intro x hx
            rw [List.getElem?_drop, List.getElem?_drop]
            exact hkeys (b + 1 + x) (by omega)
          have hmin := spanLen_ge_min "override column" (st.snap.drop (b + 1)) (S.drop (b + 1))
            (S.length - (b + 1)) hagree
          have hsp : spanLen "override column" (st.snap.drop (b + 1)) ≤ j - (b + 1) := by
            rcases hpt with h' | h'
            · omega
            · omega
          rw [List.getElem?_append_right (by rw [List.length_take]; omega),
            List.length_take, show min (b + 1) st.snap.length = b + 1 by omega,
            patchCond_high cr _ _ hsp, List.getElem?_drop,
            show b + 1 + (j - (b + 1)) = j by omega]
          exact hframe j hj hu
        · omega
theorem foldl_tab_inv (S : List KV) (c : AppConfig) :
    ∀ (l : List TabDefinition) (st : WSt), (∀ x ∈ l, x ∈ c.tabs) → C2Inv S c st →
      C2Inv S c (l.foldl upsertTab st) := by
  intro l
  induction l with
  | nil => intro st _ h; exact h
  | cons x rest ih =>
    intro st hmem h
    rw [List.foldl_cons]
    exact ih _ (fun y hy => hmem y (by simp [hy]))
      (upsertTab_inv S c st x (hmem x (by simp)) h)

theorem foldl_fmt_inv (S : List KV) (c : AppConfig) :
    ∀ (l : List RowFormatRule) (st : WSt), (∀ x ∈ l, x ∈ c.rowFormats) → C2Inv S c st →
      C2Inv S c (l.foldl upsertFmt st) := by
  intro l
  induction l with
  | nil => intro st _ h; exact h
  | cons x rest ih =>
    intro st hmem h
    rw [List.foldl_cons]
    exact ih _ (fun y hy => hmem y (by simp [hy]))
      (upsertFmt_inv S c st x (hmem x (by simp)) h)

theorem foldl_cond_inv (S : List KV) (c : AppConfig) :
    ∀ (l : List CellConditionRule) (st : WSt), (∀ x ∈ l, x ∈ c.cellConditions) → C2Inv S c st →
      C2Inv S c (l.foldl upsertCond st) := by
  intro l
  induction l with
  | nil => intro st _ h; exact h
  | cons x rest ih =>
    intro st hmem h
    rw [List.foldl_cons]
    exact ih _ (fun y hy => hmem y (by simp [hy]))
      (upsertCond_inv S c st x (hmem x (by simp)) h)

theorem C2Inv_init (S : List KV) (c : AppConfig) :
    C2Inv S c { snap := S, idx := buildIdx S 0 {} } :=
  ⟨le_refl _, fun _ _ => rfl, fun _ _ _ => rfl,
   fun _ _ h => Or.inl h, fun _ _ h => Or.inl h,
   fun _ _ h => Or.inl h, fun _ _ h => Or.inl h⟩

/-- **C2**.  Additive merge: `writeSnapshot` applied to any pre-existing
snapshot `S` and any configuration `c` keeps the key of every original row
at its original position (it never deletes or reorders existing rows), and
every row outside the touched set — the indexed singleton rows, which every
export rewrites, and the sub-row windows of the groups whose identity `c`
references — is left exactly as it was, value included.  An unrelated
group G (a tab, row-format or override group whose identity `c` does not
carry) is therefore byte-for-byte intact after the rewrite. -/
theorem C2_additive_merge (S : List KV) (c : AppConfig) (j : ℕ)
    (hj : j < S.length) :
    ((writeSnapshot c S)[j]?).map Prod.fst = (S[j]?).map Prod.fst ∧
    (touchedC2 S c j = false → (writeSnapshot c S)[j]? = S[j]?) := by
  constructor
  · simp only [writeSnapshot]
    exact (foldl_cond_inv S c c.cellConditions _ (fun x hx => hx)
    (foldl_fmt_inv S c c.rowFormats _ (fun x hx => hx)
      (foldl_tab_inv S c c.tabs _ (fun x hx => hx)
        (upsertSingleton_inv S c _ "Title Block" "Note 2" c.titleBlock.note2 (by decide)
          (upsertSingleton_inv S c _ "Title Block" "Note 1" c.titleBlock.note1 (by decide)
            (upsertSingleton_inv S c _ "Title Block" "Version" c.titleBlock.version (by decide)
              (upsertSingleton_inv S c _ "Title Block" "Lighting Designer"
                  c.titleBlock.lightingDesigner (by decide)
                (upsertSingleton_inv S c _ "Title Block" "Show Name" c.titleBlock.showName (by decide)
                  (upsertSingleton_inv S c _ "Title Block" "Company Name"
                      c.titleBlock.companyName (by decide)
                    (upsertSingleton_inv S c _ "Title Block" "Title Block Enabled"
                        (if c.titleBlock.enabled then "yes" else "no") (by decide)
                      (upsertSingleton_inv S c _ "Gap Threshold" "Time Column"
                          c.timeColumn (by decide)
                        (upsertSingleton_inv S c _ "Gap Threshold" "Gap Threshold (MM:SS)"
                            (if c.gapThresholdSeconds > 0 then formatMMSS c.gapThresholdSeconds
                             else "") (by decide)
                          (upsertSingleton_inv S c _ "Column Mapping" "Type Column"
                              c.typeColumn (by decide)
                            (C2Inv_init S c)))))))))))))).2.1 j hj
  · intro hu
    simp only [writeSnapshot]
    exact (foldl_cond_inv S c c.cellConditions _ (fun x hx => hx)
    (foldl_fmt_inv S c c.rowFormats _ (fun x hx => hx)
      (foldl_tab_inv S c c.tabs _ (fun x hx => hx)
        (upsertSingleton_inv S c _ "Title Block" "Note 2" c.titleBlock.note2 (by decide)
          (upsertSingleton_inv S c _ "Title Block" "Note 1" c.titleBlock.note1 (by decide)
            (upsertSingleton_inv S c _ "Title Block" "Version" c.titleBlock.version (by decide)
              (upsertSingleton_inv S c _ "Title Block" "Lighting Designer"
                  c.titleBlock.lightingDesigner (by decide)
                (upsertSingleton_inv S c _ "Title Block" "Show Name" c.titleBlock.showName (by decide)
                  (upsertSingleton_inv S c _ "Title Block" "Company Name"
                      c.titleBlock.companyName (by decide)
                    (upsertSingleton_inv S c _ "Title Block" "Title Block Enabled"
                        (if c.titleBlock.enabled then "yes" else "no") (by decide)
                      (upsertSingleton_inv S c _ "Gap Threshold" "Time Column"
                          c.timeColumn (by decide)
                        (upsertSingleton_inv S c _ "Gap Threshold" "Gap Threshold (MM:SS)"
                            (if c.gapThresholdSeconds > 0 then formatMMSS c.gapThresholdSeconds
                             else "") (by decide)
                          (upsertSingleton_inv S c _ "Column Mapping" "Type Column"
                              c.typeColumn (by decide)
                            (C2Inv_init S c)))))))))))))).2.2.1 j hj hu

/-- A snapshot holding one tab group that the exported configuration does
not reference. -/
def c2Snap : List KV :=
  [("Output Tabs", ""), ("Tab Name", "Old"),
   ("Tab Row Types", "song"), ("Tab Columns", "Cue")]

/-- **C2** (witness).  The frame theorem applied to a concrete snapshot
whose tab group "Old" is not referenced by `defaultConfig`: row 2 of the
group survives the rewrite untouched. -/
theorem C2_additive_merge_witness :
    (((writeSnapshot defaultConfig c2Snap)[2]?).map Prod.fst =
        (c2Snap[2]?).map Prod.fst ∧
      (touchedC2 c2Snap defaultConfig 2 = false →
        (writeSnapshot defaultConfig c2Snap)[2]? = c2Snap[2]?)) ∧
    touchedC2 c2Snap defaultConfig 2 = false ∧ 2 < c2Snap.length :=
  ⟨C2_additive_merge c2Snap defaultConfig 2 (by decide), by decide, by decide⟩
